import Mathlib

/-!
# RFBI bus driver (drivers/gpu/drm/omapdrm/dss/rfbi.c): timing solver, bus formatter, transfers, bus controller

A shallow embedding of the driver's timing solver (`round_to_extif_ticks`,
`calc_reg_timing`, `calc_extif_timings`, `ps_to_rfbi_ticks`, `rfbi_convert_timings`,
`_rfbi_set_rfbi_timings`), of the bus formatter (`rfbi_configure_bus`), of the frame
transfer and its completion (`rfbi_transfer_area`, `rfbi_framedone_callback`), of the
raw transfers (`rfbi_write_command`, `rfbi_read_data`, `rfbi_write_data`) and of the
bus controller (`rfbi_display_enable`, `rfbi_display_disable`), followed by the
properties proved about them.

Machine model: the driver is built for 32-bit ARM (mach-omap2), so `int`,
`u32` and `unsigned long` are all 32 bits wide.  An `int` is an `Int` in
`[-2^31, 2^31)`, an unsigned value is a `Nat` below `2^32`; every operation
that can leave the range is wrapped explicitly (`u32`, `wrap_int`,
`int_to_u32`).  A division by zero and a `BUG()` do not return: the first is
the result `none`, the second is reported as an outcome of its own.  A loop is
given enough fuel to reach its end when it has one; a loop without an end is the
result `none` as well.  Memory is little-endian.

The functions the driver calls outside rfbi.c (runtime power management, the display
manager) are not among the sources: the values they return are parameters, and what
they do to the power reference count and to the registered frame-done handler follows
the spec.  The model follows one caller: `mutex_lock` returns when the mutex is free
and does not return while it is held (nobody else is there to release it), and the
completion callback of a transfer is recorded, not run.

Three further parts stand next to it.  The bus lock (`rfbi_bus_lock`,
`rfbi_bus_unlock`) is the one place where several callers are modelled: a step relation
over a semaphore whose `down` and `up` follow the spec.  The older driver
(drivers/video/fbdev/omap2/omapfb/dss/rfbi.c) is embedded a second time, in the
namespace `Fbdev`, and compared with the newer one.  The controller of the panel
(`framebuffer_init` of drivers/video/fbdev/omap2/omapfb/displays/panel-n8x0.c) is
embedded over an oracle for the bytes the chip returns.
-/

namespace Rfbi

/-! ## Machine integers -/

/-- Reduction of an unsigned result to 32 bits. -/
def u32 (n : Nat) : Nat := n % 4294967296

/-- Conversion of a value to `int`: reduction into `[-2^31, 2^31)`. -/
def wrap_int (x : Int) : Int := (x + 2147483648) % 4294967296 - 2147483648

/-- Conversion of an `int` to `u32` / `unsigned long`. -/
def int_to_u32 (x : Int) : Nat := (x % 4294967296).toNat

/-- The C expression `x << k` on an `int`, as the `u32` it is or-ed into. -/
def shl_u32 (x : Int) (k : Nat) : Nat := u32 (int_to_u32 x <<< k)

/-- The kernel's `max(a, b)` on two `int`s. -/
def max_int (a b : Int) : Int := if a > b then a else b

/-- The statement `if (x <= lo) x = lo + 1;` of `rfbi_convert_timings`: the new `x`. -/
def raise_above (x lo : Int) : Int := if x ≤ lo then wrap_int (lo + 1) else x

/-- The statement `if (x < lo) x = lo;` of `rfbi_convert_timings`: the new `x`. -/
def raise_to (x lo : Int) : Int := if x < lo then lo else x

/-! ## Register fields (dss.h) -/

/-- Modelled from the spec: `FLD_MASK(start, end)` is a macro of dss.h, which is not
among the sources; the register layout of the spec (bit ranges `start:end`) fixes it
as the mask of the bits `end..start`. -/
def FLD_MASK (start stop : Nat) : Nat := u32 ((2 ^ (start - stop + 1) - 1) <<< stop)

/-- Modelled from the spec: `FLD_VAL(val, start, end)` of dss.h, the value `val`
placed in the bits `end..start`. -/
def FLD_VAL (val start stop : Nat) : Nat := u32 (val <<< stop) &&& FLD_MASK start stop

/-- Modelled from the spec: `FLD_MOD(orig, val, start, end)` of dss.h, `orig` with
the bits `end..start` replaced by `val`. -/
def FLD_MOD (orig val start stop : Nat) : Nat :=
  (orig &&& (4294967295 ^^^ FLD_MASK start stop)) ||| FLD_VAL val start stop

/-! ## Register offsets -/

/-- An offset computed in `int` and passed as the `const u16 idx` of `rfbi_write_reg`
and `rfbi_read_reg`. -/
def reg_idx (x : Int) : Nat := int_to_u32 (wrap_int x) % 65536

def RFBI_CONTROL : Nat := reg_idx 0x0040
def RFBI_PIXEL_CNT : Nat := reg_idx 0x0044
def RFBI_CMD : Nat := reg_idx 0x004c
def RFBI_PARAM : Nat := reg_idx 0x0050
def RFBI_READ : Nat := reg_idx 0x0058
def RFBI_CONFIG (n : Int) : Nat := reg_idx (0x0060 + n * 0x18)
def RFBI_ONOFF_TIME (n : Int) : Nat := reg_idx (0x0064 + n * 0x18)
def RFBI_CYCLE_TIME (n : Int) : Nat := reg_idx (0x0068 + n * 0x18)
def RFBI_DATA_CYCLE1 (n : Int) : Nat := reg_idx (0x006c + n * 0x18)
def RFBI_DATA_CYCLE2 (n : Int) : Nat := reg_idx (0x0070 + n * 0x18)
def RFBI_DATA_CYCLE3 (n : Int) : Nat := reg_idx (0x0074 + n * 0x18)

/-! ## Data model -/

inductive omap_rfbi_cycleformat where
  | CYCLEFORMAT_1_1
  | CYCLEFORMAT_2_1
  | CYCLEFORMAT_3_1
  | CYCLEFORMAT_3_2
  deriving DecidableEq, Repr

/-- The enumerator value of a cycle format. -/
def omap_rfbi_cycleformat.val : omap_rfbi_cycleformat → Nat
  | .CYCLEFORMAT_1_1 => 0
  | .CYCLEFORMAT_2_1 => 1
  | .CYCLEFORMAT_3_1 => 2
  | .CYCLEFORMAT_3_2 => 3

inductive omap_rfbi_datatype where
  | DATATYPE_12
  | DATATYPE_16
  | DATATYPE_18
  | DATATYPE_24
  deriving DecidableEq, Repr

/-- The enumerator value of a data type. -/
def omap_rfbi_datatype.val : omap_rfbi_datatype → Nat
  | .DATATYPE_12 => 0
  | .DATATYPE_16 => 1
  | .DATATYPE_18 => 2
  | .DATATYPE_24 => 3

inductive omap_rfbi_parallelmode where
  | PARALLELMODE_8
  | PARALLELMODE_9
  | PARALLELMODE_12
  | PARALLELMODE_16
  deriving DecidableEq, Repr

/-- The enumerator value of a parallel mode. -/
def omap_rfbi_parallelmode.val : omap_rfbi_parallelmode → Nat
  | .PARALLELMODE_8 => 0
  | .PARALLELMODE_9 => 1
  | .PARALLELMODE_12 => 2
  | .PARALLELMODE_16 => 3

/-- Modelled from the spec: `struct rfbi_timings` is declared in omapdss.h, which is
not among the sources; the fields are the ten picosecond requirements, the divider,
the packed words `tim[0..2]` and the `converted` flag that rfbi.c and the panel's
`n8x0_panel_rfbi_timings` use. -/
structure rfbi_timings where
  cs_on_time : Int
  cs_off_time : Int
  we_on_time : Int
  we_off_time : Int
  re_on_time : Int
  re_off_time : Int
  we_cycle_time : Int
  re_cycle_time : Int
  cs_pulse_width : Int
  access_time : Int
  clk_div : Int
  tim0 : Nat
  tim1 : Nat
  tim2 : Nat
  converted : Int
  deriving DecidableEq, Repr

/-- A frame-done handler as the display manager keeps it: a handler function together
with the context pointer it is called with.  The driver passes one pair only,
`(rfbi_framedone_callback, rfbi)`, which is `own`; `foreign` is a pair of another user
of the manager. -/
inductive framedone_handler where
  | own
  | foreign (handler data : Nat)
  deriving DecidableEq, Repr

/-- One access of the driver to the outside: a register write, a register read, a call
of the completion callback of a transfer, a call into runtime power management (with
the value it returned) or a call into the display manager (with the value it
returned). -/
inductive bus_event where
  | write (idx val : Nat)
  | read (idx val : Nat)
  | mgr_start_update
  | callback (fn data : Nat)
  | pm_runtime_get_sync (r : Int)
  | pm_runtime_put_noidle
  | pm_runtime_put_sync
  | mgr_register_framedone_handler (h : framedone_handler) (r : Int)
  | mgr_unregister_framedone_handler (h : framedone_handler)
  | mgr_set_timings
  | mgr_enable (r : Int)
  | mgr_disable
  deriving DecidableEq, Repr

/-- The places where the modelled functions stop in `BUG()` or `BUG_ON()`. -/
inductive bug_site where
  /-- `switch (bpp)`, `default:` ("invalid bpp"). -/
  | invalid_bpp
  /-- `switch (lines)`, `default:` ("invalid lines"). -/
  | invalid_lines
  /-- `switch (bpp / lines)`, `default:` ("invalid ratio"). -/
  | ratio_invalid
  /-- `(2 * bpp / lines) == 3` false. -/
  | ratio_not_3_2
  /-- Neither `bpp % lines` nor `2 * bpp % lines` is 0. -/
  | ratio_none
  /-- `BUG_ON(rfbi->framedone_callback != NULL)` of `rfbi_transfer_area`. -/
  | callback_pending
  /-- `case OMAP_DSS_RFBI_PARALLELMODE_9: case OMAP_DSS_RFBI_PARALLELMODE_12: default:
  BUG();` of the three raw transfers. -/
  | parallelmode
  /-- `BUG_ON(len & 1)` of `rfbi_write_command` and `rfbi_write_data`. -/
  | len_odd
  /-- `BUG_ON(len & ~1)` of `rfbi_read_data`. -/
  | len_not_below_2
  /-- `BUG_ON(!t->converted)` of `_rfbi_set_rfbi_timings`. -/
  | not_converted
  deriving DecidableEq, Repr

/-- How a call ends: it returns a value, or it stops in a `BUG()`. -/
inductive outcome where
  | ret (r : Int)
  | bug (site : bug_site)
  deriving DecidableEq, Repr

/-- The fields of `struct rfbi_data` the modelled functions use, together with the
register file behind `base` (`regs`, offset to 32-bit value) and the sequence of
accesses made so far (`log`, oldest first).  A function pointer is a `Nat`, the
null pointer is `none`.  `lock` is the mutex `rfbi->lock` (`true`: held), `of_port` is
`output.of_port` as the `int` it is passed as.  Two pieces of the state of the
collaborators are kept next to them: `usage_count`, the usage counter runtime power
management keeps for `rfbi->dev`, and `mgr_framedone_handler`, the frame-done handler
the display manager holds for the output. -/
structure rfbi_data where
  regs : Nat → Nat
  log : List bus_event
  lock : Bool
  usage_count : Int
  mgr_framedone_handler : Option framedone_handler
  of_port : Int
  l4_khz : Nat
  datatype : omap_rfbi_datatype
  parallelmode : omap_rfbi_parallelmode
  te_enabled : Int
  framedone_callback : Option Nat
  framedone_callback_data : Nat
  hactive : Nat
  vactive : Nat
  pixel_size : Int
  data_lines : Int
  intf_timings : rfbi_timings

/-- The locals of `rfbi_convert_timings` at the point where it returns 0. -/
structure rfbi_ticks where
  cson : Int
  csoff : Int
  weon : Int
  weoff : Int
  reon : Int
  reoff : Int
  wecyc : Int
  recyc : Int
  cs_pulse : Int
  actim : Int
  deriving DecidableEq, Repr

/-! ## Register access -/

/-- `rfbi_write_reg`: store the `u32` `val` at offset `idx` and record the write. -/
def rfbi_write_reg (rfbi : rfbi_data) (idx val : Nat) : rfbi_data :=
  { rfbi with regs := Function.update rfbi.regs idx (u32 val),
              log := rfbi.log ++ [bus_event.write idx (u32 val)] }

/-- `rfbi_read_reg`: the `u32` at offset `idx`; the read is recorded. -/
def rfbi_read_reg (rfbi : rfbi_data) (idx : Nat) : Nat × rfbi_data :=
  (u32 (rfbi.regs idx),
    { rfbi with log := rfbi.log ++ [bus_event.read idx (u32 (rfbi.regs idx))] })

/-- `REG_FLD_MOD(rfbi, idx, val, start, end)`: read the register, replace the field,
write the register. -/
def REG_FLD_MOD (rfbi : rfbi_data) (idx val start stop : Nat) : rfbi_data :=
  let r := rfbi_read_reg rfbi idx
  rfbi_write_reg r.2 idx (FLD_MOD r.1 val start stop)

/-! ## Timing solver -/

/-- `ps_to_rfbi_ticks`: `tick_ps = 1000000000 / l4_khz * div` and
`(time + tick_ps - 1) / tick_ps`, computed in `unsigned long` and returned as `int`. -/
def ps_to_rfbi_ticks (rfbi : rfbi_data) (time div : Int) : Option Int :=
  if rfbi.l4_khz = 0 then none
  else
    let tick_ps := u32 (1000000000 / rfbi.l4_khz * int_to_u32 div)
    if tick_ps = 0 then none
    else
      let ret : Nat := u32 (u32 (int_to_u32 time + tick_ps) + 4294967295) / tick_ps
      some (wrap_int ret)

/-- `rfbi_get_clk_info`: the clock period and the maximal divider. -/
def rfbi_get_clk_info (rfbi : rfbi_data) : Option (Nat × Nat) :=
  if rfbi.l4_khz = 0 then none else some (1000000000 / rfbi.l4_khz, 2)

/-- `round_to_extif_ticks`: `bus_tick = extif_clk_period * div` (an `int`) and
`(ps + bus_tick - 1) / bus_tick * bus_tick` in `unsigned long`. -/
def round_to_extif_ticks (extif_clk_period : Nat) (ps : Nat) (div : Int) : Option Nat :=
  let bus_tick : Int := wrap_int (u32 (extif_clk_period * int_to_u32 div))
  let bt := int_to_u32 bus_tick
  if bt = 0 then none
  else some (u32 (u32 (u32 (ps + bt) + 4294967295) / bt * bt))

/-- One assignment `t->f = round_to_extif_ticks(t->f, div)` of `calc_reg_timing`: the
`int` field is passed as `unsigned long` and the result stored back as `int`. -/
def round_field (extif_clk_period : Nat) (f div : Int) : Option Int :=
  (round_to_extif_ticks extif_clk_period (int_to_u32 f) div).map fun r => wrap_int r

/-- `rfbi_convert_timings`, returning next to its result and the updated structure
the tick counts it packed (on the path that returns 0). -/
def rfbi_convert_ticks (rfbi : rfbi_data) (t : rfbi_timings) :
    Option (Int × rfbi_timings × Option rfbi_ticks) :=
  let div := t.clk_div
  if div ≤ 0 ∨ div > 2 then some (-1, t, none) else
  match ps_to_rfbi_ticks rfbi t.we_on_time div with
  | none => none
  | some weon =>
  match ps_to_rfbi_ticks rfbi t.we_off_time div with
  | none => none
  | some weoff0 =>
  let weoff := raise_above weoff0 weon
  if weon > 0x0f then some (-1, t, none) else
  if weoff > 0x3f then some (-1, t, none) else
  match ps_to_rfbi_ticks rfbi t.re_on_time div with
  | none => none
  | some reon =>
  match ps_to_rfbi_ticks rfbi t.re_off_time div with
  | none => none
  | some reoff0 =>
  let reoff := raise_above reoff0 reon
  if reon > 0x0f then some (-1, t, none) else
  if reoff > 0x3f then some (-1, t, none) else
  match ps_to_rfbi_ticks rfbi t.cs_on_time div with
  | none => none
  | some cson =>
  match ps_to_rfbi_ticks rfbi t.cs_off_time div with
  | none => none
  | some csoff0 =>
  let csoff1 := raise_above csoff0 cson
  let csoff := raise_to csoff1 (max_int weoff reoff)
  if cson > 0x0f then some (-1, t, none) else
  if csoff > 0x3f then some (-1, t, none) else
  let l := int_to_u32 cson
  let l := l ||| shl_u32 csoff 4
  let l := l ||| shl_u32 weon 10
  let l := l ||| shl_u32 weoff 14
  let l := l ||| shl_u32 reon 20
  let l := l ||| shl_u32 reoff 24
  let t := { t with tim0 := l }
  match ps_to_rfbi_ticks rfbi t.access_time div with
  | none => none
  | some actim0 =>
  let actim := raise_above actim0 reon
  if actim > 0x3f then some (-1, t, none) else
  match ps_to_rfbi_ticks rfbi t.we_cycle_time div with
  | none => none
  | some wecyc0 =>
  let wecyc := raise_to wecyc0 weoff
  if wecyc > 0x3f then some (-1, t, none) else
  match ps_to_rfbi_ticks rfbi t.re_cycle_time div with
  | none => none
  | some recyc0 =>
  let recyc := raise_to recyc0 reoff
  if recyc > 0x3f then some (-1, t, none) else
  match ps_to_rfbi_ticks rfbi t.cs_pulse_width div with
  | none => none
  | some cs_pulse =>
  if cs_pulse > 0x3f then some (-1, t, none) else
  let l := int_to_u32 wecyc
  let l := l ||| shl_u32 recyc 6
  let l := l ||| shl_u32 cs_pulse 12
  let l := l ||| shl_u32 actim 22
  let t := { t with tim1 := l, tim2 := int_to_u32 (wrap_int (div - 1)), converted := 1 }
  some (0, t, some ⟨cson, csoff, weon, weoff, reon, reoff, wecyc, recyc, cs_pulse, actim⟩)

/-- `rfbi_convert_timings`: the result and the updated structure. -/
def rfbi_convert_timings (rfbi : rfbi_data) (t : rfbi_timings) : Option (Int × rfbi_timings) :=
  (rfbi_convert_ticks rfbi t).map fun r => (r.1, r.2.1)

/-- `calc_reg_timing`: store the divider, round the ten fields in place, convert.
Each assignment `t->f = round_to_extif_ticks(t->f, div)` reads only the field it
writes, so the ten rounded values are computed in the order of the source and stored
together. -/
def calc_reg_timing (extif_clk_period : Nat) (rfbi : rfbi_data) (t : rfbi_timings) (div : Int) :
    Option (Int × rfbi_timings) :=
  (round_field extif_clk_period t.cs_on_time div).bind fun cs_on_time =>
  (round_field extif_clk_period t.we_on_time div).bind fun we_on_time =>
  (round_field extif_clk_period t.we_off_time div).bind fun we_off_time =>
  (round_field extif_clk_period t.we_cycle_time div).bind fun we_cycle_time =>
  (round_field extif_clk_period t.re_on_time div).bind fun re_on_time =>
  (round_field extif_clk_period t.re_off_time div).bind fun re_off_time =>
  (round_field extif_clk_period t.re_cycle_time div).bind fun re_cycle_time =>
  (round_field extif_clk_period t.access_time div).bind fun access_time =>
  (round_field extif_clk_period t.cs_off_time div).bind fun cs_off_time =>
  (round_field extif_clk_period t.cs_pulse_width div).bind fun cs_pulse_width =>
  rfbi_convert_timings rfbi
    { t with clk_div := div, cs_on_time := cs_on_time, we_on_time := we_on_time,
             we_off_time := we_off_time, we_cycle_time := we_cycle_time,
             re_on_time := re_on_time, re_off_time := re_off_time,
             re_cycle_time := re_cycle_time, access_time := access_time,
             cs_off_time := cs_off_time, cs_pulse_width := cs_pulse_width }

/-- The loop `for (div = 1; div <= max_clk_div; div++)` of `calc_extif_timings`, from
the state `(div, t)` on: at most `fuel` tests of the loop condition; the value is the
`div` and the structure at the exit of the loop. -/
def calc_extif_loop (extif_clk_period : Nat) (rfbi : rfbi_data) (max_clk_div : Nat) :
    Nat → Int → rfbi_timings → Option (Int × rfbi_timings)
  | 0, _, _ => none
  | fuel + 1, div, t =>
    if int_to_u32 div ≤ max_clk_div then
      (calc_reg_timing extif_clk_period rfbi t div).bind fun r =>
      if r.1 = 0 then some (div, r.2)
      else calc_extif_loop extif_clk_period rfbi max_clk_div fuel (wrap_int (div + 1)) r.2
    else some (div, t)

/-- `calc_extif_timings`: the result, the updated structure and the new value of the
global `extif_clk_period`, whose value before the call is the first argument. -/
def calc_extif_timings (_extif_clk_period : Nat) (rfbi : rfbi_data) (t : rfbi_timings) :
    Option (Int × rfbi_timings × Nat) :=
  (rfbi_get_clk_info rfbi).bind fun ci =>
  let extif_clk_period := ci.1
  let max_clk_div := ci.2
  (calc_extif_loop extif_clk_period rfbi max_clk_div (max_clk_div + 1) 1 t).bind fun r =>
  if int_to_u32 r.1 ≤ max_clk_div then some (0, r.2, extif_clk_period)
  else some (-1, r.2, extif_clk_period)

/-! ## Bus formatter -/

/-- The `switch (bpp)` of `rfbi_configure_bus`; `none` is the `default:` case. -/
def datatype_of_bpp (bpp : Int) : Option omap_rfbi_datatype :=
  if bpp = 12 then some omap_rfbi_datatype.DATATYPE_12
  else if bpp = 16 then some omap_rfbi_datatype.DATATYPE_16
  else if bpp = 18 then some omap_rfbi_datatype.DATATYPE_18
  else if bpp = 24 then some omap_rfbi_datatype.DATATYPE_24
  else none

/-- The `switch (lines)` of `rfbi_configure_bus`; `none` is the `default:` case. -/
def parallelmode_of_lines (lines : Int) : Option omap_rfbi_parallelmode :=
  if lines = 8 then some omap_rfbi_parallelmode.PARALLELMODE_8
  else if lines = 9 then some omap_rfbi_parallelmode.PARALLELMODE_9
  else if lines = 12 then some omap_rfbi_parallelmode.PARALLELMODE_12
  else if lines = 16 then some omap_rfbi_parallelmode.PARALLELMODE_16
  else none

/-- The choice of the cycle format in `rfbi_configure_bus` (`if ((bpp % lines) == 0)
... else if ((2 * bpp % lines) == 0) ... else`), with the `BUG()` it stops in when
there is none.  `%` and `/` are those of C, truncating. -/
def cycleformat_of (bpp lines : Int) : Except bug_site omap_rfbi_cycleformat :=
  if Int.tmod bpp lines = 0 then
    if Int.tdiv bpp lines = 1 then Except.ok omap_rfbi_cycleformat.CYCLEFORMAT_1_1
    else if Int.tdiv bpp lines = 2 then Except.ok omap_rfbi_cycleformat.CYCLEFORMAT_2_1
    else if Int.tdiv bpp lines = 3 then Except.ok omap_rfbi_cycleformat.CYCLEFORMAT_3_1
    else Except.error bug_site.ratio_invalid
  else if Int.tmod (wrap_int (2 * bpp)) lines = 0 then
    if Int.tdiv (wrap_int (2 * bpp)) lines = 3 then
      Except.ok omap_rfbi_cycleformat.CYCLEFORMAT_3_2
    else Except.error bug_site.ratio_not_3_2
  else Except.error bug_site.ratio_none

/-- The `switch (cycleformat)` of `rfbi_configure_bus`: the values of `cycle1`,
`cycle2`, `cycle3` as the `u32` words written to the registers. -/
def data_cycles (cycleformat : omap_rfbi_cycleformat) (lines : Int) : Nat × Nat × Nat :=
  match cycleformat with
  | omap_rfbi_cycleformat.CYCLEFORMAT_1_1 => (int_to_u32 lines, 0, 0)
  | omap_rfbi_cycleformat.CYCLEFORMAT_2_1 => (int_to_u32 lines, int_to_u32 lines, 0)
  | omap_rfbi_cycleformat.CYCLEFORMAT_3_1 =>
    (int_to_u32 lines, int_to_u32 lines, int_to_u32 lines)
  | omap_rfbi_cycleformat.CYCLEFORMAT_3_2 =>
    (int_to_u32 lines,
      int_to_u32 (Int.tdiv lines 2) ||| shl_u32 (Int.tdiv lines 2) 16,
      shl_u32 lines 16)

/-- The word `rfbi_configure_bus` writes to `RFBI_CONFIG(n)`. -/
def config_word (parallelmode : omap_rfbi_parallelmode) (datatype : omap_rfbi_datatype)
    (cycleformat : omap_rfbi_cycleformat) : Nat :=
  let l := 0
  let l := l ||| FLD_VAL parallelmode.val 1 0
  let l := l ||| FLD_VAL 0 3 2
  let l := l ||| FLD_VAL 0 4 4
  let l := l ||| FLD_VAL datatype.val 6 5
  let l := l ||| FLD_VAL 0 8 7
  let l := l ||| FLD_VAL cycleformat.val 10 9
  let l := l ||| FLD_VAL 0 12 11
  let l := l ||| FLD_VAL 0 16 16
  let l := l ||| FLD_VAL 0 17 17
  let l := l ||| FLD_VAL 0 18 18
  let l := l ||| FLD_VAL 0 19 19
  let l := l ||| FLD_VAL 1 20 20
  let l := l ||| FLD_VAL 1 21 21
  l

/-- `rfbi_configure_bus`: how the call ends and the state it leaves. -/
def rfbi_configure_bus (rfbi : rfbi_data) (rfbi_module bpp lines : Int) :
    outcome × rfbi_data :=
  match datatype_of_bpp bpp with
  | none => (outcome.bug bug_site.invalid_bpp, rfbi)
  | some datatype =>
  let rfbi := { rfbi with datatype := datatype }
  match parallelmode_of_lines lines with
  | none => (outcome.bug bug_site.invalid_lines, rfbi)
  | some parallelmode =>
  let rfbi := { rfbi with parallelmode := parallelmode }
  match cycleformat_of bpp lines with
  | Except.error site => (outcome.bug site, rfbi)
  | Except.ok cycleformat =>
  let cycles := data_cycles cycleformat lines
  let rfbi := REG_FLD_MOD rfbi RFBI_CONTROL 0 3 2
  let rfbi := rfbi_write_reg rfbi (RFBI_CONFIG rfbi_module)
    (config_word parallelmode datatype cycleformat)
  let rfbi := rfbi_write_reg rfbi (RFBI_DATA_CYCLE1 rfbi_module) cycles.1
  let rfbi := rfbi_write_reg rfbi (RFBI_DATA_CYCLE2 rfbi_module) cycles.2.1
  let rfbi := rfbi_write_reg rfbi (RFBI_DATA_CYCLE3 rfbi_module) cycles.2.2
  let r := rfbi_read_reg rfbi RFBI_CONTROL
  let l := FLD_MOD r.1 (int_to_u32 (wrap_int (rfbi_module + 1))) 3 2
  let l := FLD_MOD l 0 1 1
  let rfbi := rfbi_write_reg r.2 RFBI_CONTROL l
  (outcome.ret 0, rfbi)

/-! ## Frame transfer -/

/-- `rfbi_transfer_area`: how the call ends and the state it leaves.  `width` and
`height` are the `u16` copies of `vm.hactive` and `vm.vactive`; their product is
computed in `int` and written as `u32`. -/
def rfbi_transfer_area (rfbi : rfbi_data) (callback : Option Nat) (data : Nat) :
    outcome × rfbi_data :=
  let width := rfbi.hactive % 65536
  let height := rfbi.vactive % 65536
  if rfbi.framedone_callback ≠ none then (outcome.bug bug_site.callback_pending, rfbi) else
  let rfbi := { rfbi with log := rfbi.log ++ [bus_event.mgr_start_update] }
  let rfbi := { rfbi with framedone_callback := callback, framedone_callback_data := data }
  let rfbi := rfbi_write_reg rfbi RFBI_PIXEL_CNT
    (int_to_u32 (wrap_int ((width : Int) * (height : Int))))
  let r := rfbi_read_reg rfbi RFBI_CONTROL
  let l := FLD_MOD r.1 1 0 0
  let l := if rfbi.te_enabled = 0 then FLD_MOD l 1 4 4 else l
  let rfbi := rfbi_write_reg r.2 RFBI_CONTROL l
  (outcome.ret 0, rfbi)

/-- `rfbi_framedone_callback`: clear the enable bit, take the pending callback out of
the structure and call it.  The call is recorded; what the callback does is code of the
caller and is not part of the model. -/
def rfbi_framedone_callback (rfbi : rfbi_data) : rfbi_data :=
  let rfbi := REG_FLD_MOD rfbi RFBI_CONTROL 0 0 0
  let callback := rfbi.framedone_callback
  let rfbi := { rfbi with framedone_callback := none }
  match callback with
  | some fn =>
    { rfbi with log := rfbi.log ++ [bus_event.callback fn rfbi.framedone_callback_data] }
  | none => rfbi

/-! ## Raw transfers -/

/-- The loop `for (; len; len -= step) body` on the `u32` variable `len`: at most
`fuel` tests of the loop condition, `k` the number of iterations done so far (the
offset of the unit pointer `b` or `w` from `buf`); `none` when the fuel does not reach
the end of the loop. -/
def for_len {σ : Type} (step : Nat) (body : Nat → σ → σ) : Nat → Nat → Nat → σ → Option σ
  | 0, _, _, _ => none
  | fuel + 1, len, k, s =>
    if len = 0 then some s
    else for_len step body fuel (u32 (len + (4294967296 - step))) (k + 1) (body k s)

/-- The unit `((const u8 *)buf)[i]` of a buffer, given as the bytes of memory from
`buf` on. -/
def u8_at (buf : Nat → Nat) (i : Nat) : Nat := buf i % 256

/-- The unit `((const u16 *)buf)[j]` of a buffer (little-endian, as the OMAP2 is). -/
def u16_at (buf : Nat → Nat) (j : Nat) : Nat :=
  buf (2 * j) % 256 + 256 * (buf (2 * j + 1) % 256)

/-- The assignment `((u8 *)buf)[i] = v`. -/
def store_u8 (buf : Nat → Nat) (i v : Nat) : Nat → Nat := Function.update buf i (v % 256)

/-- The assignment `((u16 *)buf)[j] = v`. -/
def store_u16 (buf : Nat → Nat) (j v : Nat) : Nat → Nat :=
  Function.update (Function.update buf (2 * j) (v % 256)) (2 * j + 1) (v / 256 % 256)

/-- Modelled from the spec: the hardware side of one read ("issue a dummy write to the
read-trigger register, then read the result register"): after the dummy write the
interface presents the unit `v` it fetched from the panel in the `READ` register. -/
def read_cycle (rfbi : rfbi_data) (v : Nat) : rfbi_data :=
  { rfbi with regs := Function.update rfbi.regs RFBI_READ v }

/-- `rfbi_write_command`: the `BUG()` it stops in, if any, and the state it leaves;
`none` when the loop does not end. -/
def rfbi_write_command (rfbi : rfbi_data) (buf : Nat → Nat) (len : Nat) :
    Option (Option bug_site × rfbi_data) :=
  match rfbi.parallelmode with
  | omap_rfbi_parallelmode.PARALLELMODE_8 =>
    (for_len 1 (fun k rfbi => rfbi_write_reg rfbi RFBI_CMD (u8_at buf k)) (len + 1) len 0
      rfbi).map fun rfbi => (none, rfbi)
  | omap_rfbi_parallelmode.PARALLELMODE_16 =>
    if len &&& 1 ≠ 0 then some (some bug_site.len_odd, rfbi)
    else (for_len 2 (fun k rfbi => rfbi_write_reg rfbi RFBI_CMD (u16_at buf k)) (len + 1) len 0
      rfbi).map fun rfbi => (none, rfbi)
  | omap_rfbi_parallelmode.PARALLELMODE_9 => some (some bug_site.parallelmode, rfbi)
  | omap_rfbi_parallelmode.PARALLELMODE_12 => some (some bug_site.parallelmode, rfbi)

/-- `rfbi_read_data`: the `BUG()` it stops in, if any, the state it leaves and the
buffer it filled; `device k` is the unit the panel supplies to the `k`-th read;
`none` when the loop does not end. -/
def rfbi_read_data (rfbi : rfbi_data) (device : Nat → Nat) (buf : Nat → Nat) (len : Nat) :
    Option (Option bug_site × rfbi_data × (Nat → Nat)) :=
  match rfbi.parallelmode with
  | omap_rfbi_parallelmode.PARALLELMODE_8 =>
    (for_len 1
      (fun k (s : rfbi_data × (Nat → Nat)) =>
        let rfbi := rfbi_write_reg s.1 RFBI_READ 0
        let r := rfbi_read_reg (read_cycle rfbi (device k)) RFBI_READ
        (r.2, store_u8 s.2 k r.1))
      (len + 1) len 0 (rfbi, buf)).map fun s => (none, s.1, s.2)
  | omap_rfbi_parallelmode.PARALLELMODE_16 =>
    if len &&& 4294967294 ≠ 0 then some (some bug_site.len_not_below_2, rfbi, buf)
    else (for_len 2
      (fun k (s : rfbi_data × (Nat → Nat)) =>
        let rfbi := rfbi_write_reg s.1 RFBI_READ 0
        let r := rfbi_read_reg (read_cycle rfbi (device k)) RFBI_READ
        (r.2, store_u16 s.2 k r.1))
      (len + 1) len 0 (rfbi, buf)).map fun s => (none, s.1, s.2)
  | omap_rfbi_parallelmode.PARALLELMODE_9 => some (some bug_site.parallelmode, rfbi, buf)
  | omap_rfbi_parallelmode.PARALLELMODE_12 => some (some bug_site.parallelmode, rfbi, buf)

/-- `rfbi_write_data`: the `BUG()` it stops in, if any, and the state it leaves; `none`
when the loop does not end. -/
def rfbi_write_data (rfbi : rfbi_data) (buf : Nat → Nat) (len : Nat) :
    Option (Option bug_site × rfbi_data) :=
  match rfbi.parallelmode with
  | omap_rfbi_parallelmode.PARALLELMODE_8 =>
    (for_len 1 (fun k rfbi => rfbi_write_reg rfbi RFBI_PARAM (u8_at buf k)) (len + 1) len 0
      rfbi).map fun rfbi => (none, rfbi)
  | omap_rfbi_parallelmode.PARALLELMODE_16 =>
    if len &&& 1 ≠ 0 then some (some bug_site.len_odd, rfbi)
    else (for_len 2 (fun k rfbi => rfbi_write_reg rfbi RFBI_PARAM (u16_at buf k)) (len + 1) len 0
      rfbi).map fun rfbi => (none, rfbi)
  | omap_rfbi_parallelmode.PARALLELMODE_9 => some (some bug_site.parallelmode, rfbi)
  | omap_rfbi_parallelmode.PARALLELMODE_12 => some (some bug_site.parallelmode, rfbi)

/-! ## Writing the timings -/

/-- `rfbi_print_timings`: the three register reads and the division
`1000000000 / rfbi->l4_khz` it makes; what it prints is not modelled. -/
def rfbi_print_timings (rfbi : rfbi_data) : Option rfbi_data :=
  let r := rfbi_read_reg rfbi (RFBI_CONFIG 0)
  if r.2.l4_khz = 0 then none
  else
    let r := rfbi_read_reg r.2 (RFBI_ONOFF_TIME 0)
    let r := rfbi_read_reg r.2 (RFBI_CYCLE_TIME 0)
    some r.2

/-- The six values `rfbi_print_timings` prints from the word `l` it read from
`RFBI_ONOFF_TIME(0)`: CSONTIME, CSOFFTIME, WEONTIME, WEOFFTIME, REONTIME, REOFFTIME. -/
def rfbi_print_timings_onoff (l : Nat) : List Nat :=
  [l &&& 0x0f, (l >>> 4) &&& 0x3f, (l >>> 10) &&& 0x0f, (l >>> 14) &&& 0x3f,
    (l >>> 20) &&& 0x0f, (l >>> 24) &&& 0x3f]

/-- The four values `rfbi_print_timings` prints from the word `l` it read from
`RFBI_CYCLE_TIME(0)`: WECYCLETIME, RECYCLETIME, CSPULSEWIDTH, ACCESSTIME. -/
def rfbi_print_timings_cycle (l : Nat) : List Nat :=
  [l &&& 0x3f, (l >>> 6) &&& 0x3f, (l >>> 12) &&& 0x3f, (l >>> 22) &&& 0x3f]

/-- `_rfbi_set_rfbi_timings`: the `BUG()` it stops in, if any, the state it leaves, the
timing structure behind `t` and the global `extif_clk_period`.  The caller passes
`&rfbi->intf_timings` for `t`; the solver reads of `rfbi` only `l4_khz`, so the
structure is threaded next to `rfbi` and stored back by the caller. -/
def _rfbi_set_rfbi_timings (extif_clk_period : Nat) (rfbi : rfbi_data) (rfbi_module : Int)
    (t : rfbi_timings) : Option (Option bug_site × rfbi_data × rfbi_timings × Nat) :=
  let after_calc :=
    if t.converted = 0 then
      (calc_extif_timings extif_clk_period rfbi t).map fun r => (r.2.1, r.2.2)
    else some (t, extif_clk_period)
  match after_calc with
  | none => none
  | some (t, extif_clk_period) =>
    if t.converted = 0 then some (some bug_site.not_converted, rfbi, t, extif_clk_period)
    else
      let rfbi := rfbi_write_reg rfbi (RFBI_ONOFF_TIME rfbi_module) t.tim0
      let rfbi := rfbi_write_reg rfbi (RFBI_CYCLE_TIME rfbi_module) t.tim1
      let rfbi := REG_FLD_MOD rfbi (RFBI_CONFIG rfbi_module) (if t.tim2 ≠ 0 then 1 else 0) 4 4
      (rfbi_print_timings rfbi).map fun rfbi => (none, rfbi, t, extif_clk_period)

/-! ## Collaborators: the mutex, runtime power management, the display manager -/

/-- `mutex_lock(&rfbi->lock)`.  The kernel's mutex is not among the sources and the
spec does not describe it; it is a lock with one bit of state.  The call returns when
the mutex is free, and the caller then holds it.  While the mutex is held the call
waits: the model follows one caller, so nobody releases the mutex and the call does not
return (`none`). -/
def mutex_lock (rfbi : rfbi_data) : Option rfbi_data :=
  if rfbi.lock = true then none else some { rfbi with lock := true }

/-- `mutex_unlock(&rfbi->lock)`: the mutex is free again. -/
def mutex_unlock (rfbi : rfbi_data) : rfbi_data := { rfbi with lock := false }

/-- Modelled from the spec: `pm_runtime_get_sync` is not among the sources ("power
resource acquire/release (reference-counted runtime power management)").  It takes a
reference and returns `r`, negative when the resume failed; the reference is taken
also then, which is why `rfbi_runtime_get` drops it again. -/
def pm_runtime_get_sync (rfbi : rfbi_data) (r : Int) : rfbi_data :=
  { rfbi with usage_count := rfbi.usage_count + 1,
              log := rfbi.log ++ [bus_event.pm_runtime_get_sync r] }

/-- Modelled from the spec: `pm_runtime_put_noidle` is not among the sources; it drops
one reference. -/
def pm_runtime_put_noidle (rfbi : rfbi_data) : rfbi_data :=
  { rfbi with usage_count := rfbi.usage_count - 1,
              log := rfbi.log ++ [bus_event.pm_runtime_put_noidle] }

/-- Modelled from the spec: `pm_runtime_put_sync` is not among the sources; it drops
one reference.  The driver only warns about its result. -/
def pm_runtime_put_sync (rfbi : rfbi_data) : rfbi_data :=
  { rfbi with usage_count := rfbi.usage_count - 1,
              log := rfbi.log ++ [bus_event.pm_runtime_put_sync] }

/-- Modelled from the spec: `dss_mgr_register_framedone_handler` is not among the
sources ("frame-done interrupt handler registration/unregistration keyed by (handler,
opaque context)").  It returns `r`; when `r` is 0 the manager holds the pair `h`, else
what it held before. -/
def dss_mgr_register_framedone_handler (rfbi : rfbi_data) (h : framedone_handler) (r : Int) :
    rfbi_data :=
  { rfbi with
    mgr_framedone_handler := if r = 0 then some h else rfbi.mgr_framedone_handler,
    log := rfbi.log ++ [bus_event.mgr_register_framedone_handler h r] }

/-- Modelled from the spec: `dss_mgr_unregister_framedone_handler` is not among the
sources; the manager lets go of the pair `h` if that is the pair it holds. -/
def dss_mgr_unregister_framedone_handler (rfbi : rfbi_data) (h : framedone_handler) : rfbi_data :=
  { rfbi with
    mgr_framedone_handler :=
      if rfbi.mgr_framedone_handler = some h then none else rfbi.mgr_framedone_handler,
    log := rfbi.log ++ [bus_event.mgr_unregister_framedone_handler h] }

/-- Modelled from the spec: `dss_mgr_set_timings` is not among the sources; the call
is recorded. -/
def dss_mgr_set_timings (rfbi : rfbi_data) : rfbi_data :=
  { rfbi with log := rfbi.log ++ [bus_event.mgr_set_timings] }

/-- Modelled from the spec: `dss_mgr_enable` is not among the sources; it returns `r`
and the call is recorded. -/
def dss_mgr_enable (rfbi : rfbi_data) (r : Int) : rfbi_data :=
  { rfbi with log := rfbi.log ++ [bus_event.mgr_enable r] }

/-- Modelled from the spec: `dss_mgr_disable` is not among the sources; the call is
recorded. -/
def dss_mgr_disable (rfbi : rfbi_data) : rfbi_data :=
  { rfbi with log := rfbi.log ++ [bus_event.mgr_disable] }

/-- The values the collaborators return to one call of `rfbi_display_enable`, each an
`int`. -/
structure collaborators where
  pm_runtime_get_sync : Int
  mgr_register_framedone_handler : Int
  mgr_enable : Int
  deriving DecidableEq, Repr

/-! ## Enabling and disabling the bus -/

/-- `rfbi_runtime_get`, `r` being the value `pm_runtime_get_sync` returns. -/
def rfbi_runtime_get (rfbi : rfbi_data) (r : Int) : Int × rfbi_data :=
  let rfbi := pm_runtime_get_sync rfbi r
  if r < 0 then (r, pm_runtime_put_noidle rfbi) else (0, rfbi)

/-- `rfbi_runtime_put`. -/
def rfbi_runtime_put (rfbi : rfbi_data) : rfbi_data := pm_runtime_put_sync rfbi

/-- `rfbi_display_enable`: how the call ends, the state it leaves and the global
`extif_clk_period`; `none` when the call does not return (it waits for the mutex, or
it divides by zero). -/
def rfbi_display_enable (extif_clk_period : Nat) (env : collaborators) (rfbi : rfbi_data) :
    Option (outcome × rfbi_data × Nat) :=
  match mutex_lock rfbi with
  | none => none
  | some rfbi =>
  let r := rfbi_runtime_get rfbi env.pm_runtime_get_sync
  if r.1 ≠ 0 then some (outcome.ret r.1, r.2, extif_clk_period)
  else
    let rfbi := dss_mgr_register_framedone_handler r.2 framedone_handler.own
      env.mgr_register_framedone_handler
    if env.mgr_register_framedone_handler ≠ 0 then
      some (outcome.ret env.mgr_register_framedone_handler, rfbi_runtime_put rfbi,
        extif_clk_period)
    else
      match rfbi_configure_bus rfbi rfbi.of_port rfbi.pixel_size rfbi.data_lines with
      | (outcome.bug site, rfbi) => some (outcome.bug site, rfbi, extif_clk_period)
      | (outcome.ret _, rfbi) =>
        match _rfbi_set_rfbi_timings extif_clk_period rfbi rfbi.of_port rfbi.intf_timings with
        | none => none
        | some (some site, rfbi, t, extif_clk_period) =>
          some (outcome.bug site, { rfbi with intf_timings := t }, extif_clk_period)
        | some (none, rfbi, t, extif_clk_period) =>
          let rfbi := { rfbi with intf_timings := t }
          let rfbi := dss_mgr_set_timings rfbi
          let rfbi := dss_mgr_enable rfbi env.mgr_enable
          if env.mgr_enable ≠ 0 then
            some (outcome.ret env.mgr_enable, rfbi_runtime_put rfbi, extif_clk_period)
          else some (outcome.ret 0, mutex_unlock rfbi, extif_clk_period)

/-- `rfbi_display_disable`: the state it leaves; `none` when the call does not return
(it waits for the mutex). -/
def rfbi_display_disable (rfbi : rfbi_data) : Option rfbi_data :=
  match mutex_lock rfbi with
  | none => none
  | some rfbi =>
  let rfbi := dss_mgr_disable rfbi
  let rfbi := dss_mgr_unregister_framedone_handler rfbi framedone_handler.own
  let rfbi := rfbi_runtime_put rfbi
  some (mutex_unlock rfbi)

/-! ## Specification side: the timing solver of the spec (section 4.2) -/

namespace Spec

/-- The spec's `ceil(x / t)`. -/
def ceil_div (x t : Nat) : Nat := if x % t = 0 then x / t else x / t + 1

/-- The tick of the spec, `clock.period_ps * div`, the period being `1000000000 / l4_khz`. -/
def tick_ps (l4_khz d : Nat) : Nat := 1000000000 / l4_khz * d

/-- The ten tick counts of the spec after the ordering rules. -/
structure counts where
  cs_on : Nat
  cs_off : Nat
  we_on : Nat
  we_off : Nat
  re_on : Nat
  re_off : Nat
  we_cycle : Nat
  re_cycle : Nat
  cs_pulse : Nat
  access : Nat
  deriving DecidableEq, Repr

/-- The ordering rules of step 1c of the spec applied to the tick counts `tk`. -/
def adjusted_by (tk : Int → Nat) (t : rfbi_timings) : counts :=
  let we_on := tk t.we_on_time
  let we_off := max (tk t.we_off_time) (we_on + 1)
  let re_on := tk t.re_on_time
  let re_off := max (tk t.re_off_time) (re_on + 1)
  let cs_on := tk t.cs_on_time
  let cs_off := max (max (tk t.cs_off_time) (cs_on + 1)) (max we_off re_off)
  let access := max (tk t.access_time) (re_on + 1)
  let we_cycle := max (tk t.we_cycle_time) we_off
  let re_cycle := max (tk t.re_cycle_time) re_off
  let cs_pulse := tk t.cs_pulse_width
  { cs_on := cs_on, cs_off := cs_off, we_on := we_on, we_off := we_off, re_on := re_on,
    re_off := re_off, we_cycle := we_cycle, re_cycle := re_cycle, cs_pulse := cs_pulse,
    access := access }

/-- The adjusted tick counts of a requirement at the tick `tick`:
`ticks(x) = ceil(x / tick)` followed by the ordering rules. -/
def adjusted (tick : Nat) (t : rfbi_timings) : counts :=
  adjusted_by (fun x => ceil_div x.toNat tick) t

/-- Word A of the spec. -/
def word_A (c : counts) : Nat :=
  c.cs_on ||| c.cs_off <<< 4 ||| c.we_on <<< 10 ||| c.we_off <<< 14 ||| c.re_on <<< 20
    ||| c.re_off <<< 24

/-- Word B of the spec. -/
def word_B (c : counts) : Nat :=
  c.we_cycle ||| c.re_cycle <<< 6 ||| c.cs_pulse <<< 12 ||| c.access <<< 22

/-- Every count fits its register width: 4 bits for the three on-times, 6 bits for
the other seven. -/
def fits (c : counts) : Prop :=
  c.cs_on ≤ 15 ∧ c.we_on ≤ 15 ∧ c.re_on ≤ 15 ∧ c.cs_off ≤ 63 ∧ c.we_off ≤ 63 ∧ c.re_off ≤ 63 ∧
  c.we_cycle ≤ 63 ∧ c.re_cycle ≤ 63 ∧ c.cs_pulse ≤ 63 ∧ c.access ≤ 63

instance (c : counts) : Decidable (fits c) := by unfold fits; infer_instance

/-- A requirement is satisfiable at divider `d`: the tick is positive and every
adjusted count fits its width. -/
def satisfiable (l4_khz d : Nat) (t : rfbi_timings) : Prop :=
  0 < tick_ps l4_khz d ∧ fits (adjusted (tick_ps l4_khz d) t)

instance (l4_khz d : Nat) (t : rfbi_timings) : Decidable (satisfiable l4_khz d t) := by
  unfold satisfiable; infer_instance

end Spec

/-- The tick counts of the spec as the locals of `rfbi_convert_timings`. -/
def ticks_of_counts (c : Spec.counts) : rfbi_ticks :=
  ⟨c.cs_on, c.cs_off, c.we_on, c.we_off, c.re_on, c.re_off, c.we_cycle, c.re_cycle, c.cs_pulse,
    c.access⟩

/-! ## Auxiliary definitions for the proofs -/

/-- The body of `rfbi_convert_timings` with the ten tick counts given by `tk`. -/
def convert_with (tk : Int → Int) (t : rfbi_timings) : Int × rfbi_timings × Option rfbi_ticks :=
  let div := t.clk_div
  if div ≤ 0 ∨ div > 2 then (-1, t, none) else
  let weon := tk t.we_on_time
  let weoff := raise_above (tk t.we_off_time) weon
  if weon > 0x0f then (-1, t, none) else
  if weoff > 0x3f then (-1, t, none) else
  let reon := tk t.re_on_time
  let reoff := raise_above (tk t.re_off_time) reon
  if reon > 0x0f then (-1, t, none) else
  if reoff > 0x3f then (-1, t, none) else
  let cson := tk t.cs_on_time
  let csoff := raise_to (raise_above (tk t.cs_off_time) cson) (max_int weoff reoff)
  if cson > 0x0f then (-1, t, none) else
  if csoff > 0x3f then (-1, t, none) else
  let l := int_to_u32 cson ||| shl_u32 csoff 4 ||| shl_u32 weon 10 ||| shl_u32 weoff 14
    ||| shl_u32 reon 20 ||| shl_u32 reoff 24
  let actim := raise_above (tk t.access_time) reon
  if actim > 0x3f then (-1, { t with tim0 := l }, none) else
  let wecyc := raise_to (tk t.we_cycle_time) weoff
  if wecyc > 0x3f then (-1, { t with tim0 := l }, none) else
  let recyc := raise_to (tk t.re_cycle_time) reoff
  if recyc > 0x3f then (-1, { t with tim0 := l }, none) else
  let cs_pulse := tk t.cs_pulse_width
  if cs_pulse > 0x3f then (-1, { t with tim0 := l }, none) else
  (0, { t with tim0 := l,
               tim1 := int_to_u32 wecyc ||| shl_u32 recyc 6 ||| shl_u32 cs_pulse 12
                 ||| shl_u32 actim 22,
               tim2 := int_to_u32 (wrap_int (div - 1)),
               converted := 1 },
    some ⟨cson, csoff, weon, weoff, reon, reoff, wecyc, recyc, cs_pulse, actim⟩)

/-- A property of each of the ten requirements of a timing structure. -/
def all_fields (P : Int → Prop) (t : rfbi_timings) : Prop :=
  P t.cs_on_time ∧ P t.cs_off_time ∧ P t.we_on_time ∧ P t.we_off_time ∧ P t.re_on_time ∧
  P t.re_off_time ∧ P t.we_cycle_time ∧ P t.re_cycle_time ∧ P t.cs_pulse_width ∧ P t.access_time

/-- The ten requirements of a timing structure replaced by their images under `g`. -/
def map_fields (g : Int → Int) (t : rfbi_timings) : rfbi_timings :=
  { t with cs_on_time := g t.cs_on_time, cs_off_time := g t.cs_off_time,
           we_on_time := g t.we_on_time, we_off_time := g t.we_off_time,
           re_on_time := g t.re_on_time, re_off_time := g t.re_off_time,
           we_cycle_time := g t.we_cycle_time, re_cycle_time := g t.re_cycle_time,
           cs_pulse_width := g t.cs_pulse_width, access_time := g t.access_time }

/-- The value an `int` requirement holds after rounding up to a multiple of `bt`. -/
def rounded_field (bt : Nat) (f : Int) : Int :=
  wrap_int ((Spec.ceil_div (int_to_u32 f) bt * bt : Nat) : Int)

/-- The ten requirements are non-negative values of type `int`. -/
def nonneg_req (t : rfbi_timings) : Prop :=
  all_fields (fun x => 0 ≤ x ∧ x < 2147483648) t

/-- The tick count of an `int` requirement at the tick `bt`, the requirement read as
`unsigned long`. -/
def ticks_u32 (bt : Nat) (x : Int) : Nat := Spec.ceil_div (int_to_u32 x) bt

/-- The structure a successful `calc_reg_timing` at divider `n` and tick `bt` leaves:
the ten requirements rounded, the divider stored, the words packed, `converted` set. -/
def solved (bt n : Nat) (t : rfbi_timings) : rfbi_timings :=
  { map_fields (rounded_field bt) t with
    clk_div := (n : Int),
    tim0 := Spec.word_A (Spec.adjusted_by (ticks_u32 bt) t),
    tim1 := Spec.word_B (Spec.adjusted_by (ticks_u32 bt) t),
    tim2 := n - 1,
    converted := 1 }

/-! ## Specification side: register sub-fields and errors -/

namespace Spec

/-- The sub-field `hi:lo` of a register word. -/
def field_of (w hi lo : Nat) : Nat := (w >>> lo) % 2 ^ (hi - lo + 1)

/-- The errors of the spec's taxonomy (section 7) that the modelled functions can end
in. -/
inductive error where
  | UnsupportedFormat
  | UnsupportedRatio
  | TransferAlreadyPending
  | MisalignedLength
  | UnsupportedParallelMode
  | TimingUnsatisfiable
  deriving DecidableEq, Repr

/-- The error of the spec that a `BUG()` of the driver stands for: the two `default:`
cases of the validation are `UnsupportedFormat`, the three ends of the choice of the
cycle format are `UnsupportedRatio`, the pending callback is
`TransferAlreadyPending`, the 9-bit and 12-bit modes of a raw transfer are
`UnsupportedParallelMode`, a rejected length is `MisalignedLength`, and timings that
stay unconverted are `TimingUnsatisfiable`. -/
def error_of : bug_site → error
  | bug_site.invalid_bpp => error.UnsupportedFormat
  | bug_site.invalid_lines => error.UnsupportedFormat
  | bug_site.ratio_invalid => error.UnsupportedRatio
  | bug_site.ratio_not_3_2 => error.UnsupportedRatio
  | bug_site.ratio_none => error.UnsupportedRatio
  | bug_site.callback_pending => error.TransferAlreadyPending
  | bug_site.parallelmode => error.UnsupportedParallelMode
  | bug_site.len_odd => error.MisalignedLength
  | bug_site.len_not_below_2 => error.MisalignedLength
  | bug_site.not_converted => error.TimingUnsatisfiable

end Spec

namespace Spec

/-- The six counts of word A fit their widths: the checks `rfbi_convert_timings` makes
before it stores `tim[0]`. -/
def fits_onoff (c : counts) : Prop :=
  c.cs_on ≤ 15 ∧ c.we_on ≤ 15 ∧ c.re_on ≤ 15 ∧ c.cs_off ≤ 63 ∧ c.we_off ≤ 63 ∧ c.re_off ≤ 63

end Spec

/-! ## Auxiliary definitions for the proofs: the bus formatter -/

/-- The state a successful `rfbi_configure_bus` leaves, given the values of its
locals. -/
def configured (rfbi : rfbi_data) (rfbi_module : Int) (datatype : omap_rfbi_datatype)
    (parallelmode : omap_rfbi_parallelmode) (cycleformat : omap_rfbi_cycleformat)
    (lines : Int) : rfbi_data :=
  let rfbi := { rfbi with datatype := datatype, parallelmode := parallelmode }
  let rfbi := REG_FLD_MOD rfbi RFBI_CONTROL 0 3 2
  let rfbi := rfbi_write_reg rfbi (RFBI_CONFIG rfbi_module)
    (config_word parallelmode datatype cycleformat)
  let rfbi := rfbi_write_reg rfbi (RFBI_DATA_CYCLE1 rfbi_module)
    (data_cycles cycleformat lines).1
  let rfbi := rfbi_write_reg rfbi (RFBI_DATA_CYCLE2 rfbi_module)
    (data_cycles cycleformat lines).2.1
  let rfbi := rfbi_write_reg rfbi (RFBI_DATA_CYCLE3 rfbi_module)
    (data_cycles cycleformat lines).2.2
  rfbi_write_reg (rfbi_read_reg rfbi RFBI_CONTROL).2 RFBI_CONTROL
    (FLD_MOD (FLD_MOD (rfbi_read_reg rfbi RFBI_CONTROL).1
      (int_to_u32 (wrap_int (rfbi_module + 1))) 3 2) 0 1 1)

/-! ## Auxiliary definitions for the proofs: determinism, enabling the bus -/

/-- Two timing structures hold the same ten requirements. -/
def same_req (t1 t2 : rfbi_timings) : Prop :=
  t1.cs_on_time = t2.cs_on_time ∧ t1.cs_off_time = t2.cs_off_time ∧
  t1.we_on_time = t2.we_on_time ∧ t1.we_off_time = t2.we_off_time ∧
  t1.re_on_time = t2.re_on_time ∧ t1.re_off_time = t2.re_off_time ∧
  t1.we_cycle_time = t2.we_cycle_time ∧ t1.re_cycle_time = t2.re_cycle_time ∧
  t1.cs_pulse_width = t2.cs_pulse_width ∧ t1.access_time = t2.access_time

/-- The second state has the fields of the first that neither a register access nor
the choice of the bus format changes. -/
def same_context (s s' : rfbi_data) : Prop :=
  s'.lock = s.lock ∧ s'.usage_count = s.usage_count ∧
  s'.mgr_framedone_handler = s.mgr_framedone_handler ∧ s'.of_port = s.of_port ∧
  s'.l4_khz = s.l4_khz ∧ s'.pixel_size = s.pixel_size ∧ s'.data_lines = s.data_lines ∧
  s'.intf_timings = s.intf_timings ∧ s'.framedone_callback = s.framedone_callback ∧
  s'.framedone_callback_data = s.framedone_callback_data

/-- The state in which `mutex_lock` has returned: the caller holds the mutex. -/
def lock_held (rfbi : rfbi_data) : rfbi_data := { rfbi with lock := true }

/-- The part of `rfbi_display_enable` that follows the registration of the frame-done
handler, `r` being the value `dss_mgr_enable` returns. -/
def display_enable_from (extif_clk_period : Nat) (r : Int) (rfbi : rfbi_data) :
    Option (outcome × rfbi_data × Nat) :=
  match rfbi_configure_bus rfbi rfbi.of_port rfbi.pixel_size rfbi.data_lines with
  | (outcome.bug site, rfbi) => some (outcome.bug site, rfbi, extif_clk_period)
  | (outcome.ret _, rfbi) =>
    match _rfbi_set_rfbi_timings extif_clk_period rfbi rfbi.of_port rfbi.intf_timings with
    | none => none
    | some (some site, rfbi, t, extif_clk_period) =>
      some (outcome.bug site, { rfbi with intf_timings := t }, extif_clk_period)
    | some (none, rfbi, t, extif_clk_period) =>
      let rfbi := { rfbi with intf_timings := t }
      let rfbi := dss_mgr_set_timings rfbi
      let rfbi := dss_mgr_enable rfbi r
      if r ≠ 0 then some (outcome.ret r, rfbi_runtime_put rfbi, extif_clk_period)
      else some (outcome.ret 0, mutex_unlock rfbi, extif_clk_period)

/-! ## The bus lock -/

/-- The state of the bus-lock protocol: the count of the semaphore `rfbi->bus_lock`,
the callers that have returned from `rfbi_bus_lock` and have not called
`rfbi_bus_unlock` since (the holders), and the callers that are inside a bus operation
(configure, a raw transfer, `transfer_area`).  A caller is a `Nat`. -/
structure bus_lock_state where
  count : Nat
  holders : List Nat
  busy : List Nat
  deriving DecidableEq, Repr

/-- Modelled from the spec: `sema_init(&rfbi->bus_lock, val)` of `rfbi_probe`
(semaphore.h is not among the sources): the count is `val`; nobody holds the lock and
nobody is on the bus. -/
def sema_init (val : Nat) : bus_lock_state := ⟨val, [], []⟩

/-- Modelled from the spec: `down` (kernel/locking/semaphore.c is not among the
sources; "blocking acquire (caller suspends until available)"): the call returns when
the count is positive, and decrements it; `none` is the caller that stays suspended. -/
def down (s : bus_lock_state) : Option bus_lock_state :=
  if 0 < s.count then some { s with count := s.count - 1 } else none

/-- Modelled from the spec: `up` increments the count (which lets one suspended caller
of `down` go on). -/
def up (s : bus_lock_state) : bus_lock_state := { s with count := s.count + 1 }

/-- `rfbi_bus_lock` called by `caller`: `down(&rfbi->bus_lock)`; when it returns, the
caller holds the bus lock. -/
def rfbi_bus_lock (s : bus_lock_state) (caller : Nat) : Option bus_lock_state :=
  (down s).map fun s => { s with holders := caller :: s.holders }

/-- `rfbi_bus_unlock` called by `caller`: `up(&rfbi->bus_lock)`; the caller holds the
bus lock no longer. -/
def rfbi_bus_unlock (s : bus_lock_state) (caller : Nat) : bus_lock_state :=
  { up s with holders := s.holders.erase caller }

/-- What one bus user does next: it calls `rfbi_bus_lock` or `rfbi_bus_unlock`, or it
enters or leaves a bus operation. -/
inductive bus_user_step where
  | bus_lock (caller : Nat)
  | bus_unlock (caller : Nat)
  | op_begin (caller : Nat)
  | op_end (caller : Nat)
  deriving DecidableEq, Repr

/-- One step of the system under the bus-lock protocol of the spec ("acquired before
configure/transfer, released after", unlock only by the holder): a call of
`rfbi_bus_lock` that returns; a call of `rfbi_bus_unlock` by a holder that is not
inside an operation; the start of an operation by a holder; the end of an operation.
`none`: the step cannot happen in this state. -/
def bus_step (s : bus_lock_state) : bus_user_step → Option bus_lock_state
  | bus_user_step.bus_lock c => rfbi_bus_lock s c
  | bus_user_step.bus_unlock c =>
    if c ∈ s.holders ∧ c ∉ s.busy then some (rfbi_bus_unlock s c) else none
  | bus_user_step.op_begin c =>
    if c ∈ s.holders ∧ c ∉ s.busy then some { s with busy := c :: s.busy } else none
  | bus_user_step.op_end c =>
    if c ∈ s.busy then some { s with busy := s.busy.erase c } else none

/-- The state after a sequence of steps of the bus users, interleaved in any way. -/
def bus_run (s : bus_lock_state) : List bus_user_step → Option bus_lock_state
  | [] => some s
  | e :: es => (bus_step s e).bind fun s => bus_run s es

/-- The invariant of the bus-lock protocol: the count and the number of holders add up
to 1, no caller is inside two operations, and who is inside an operation holds the
lock. -/
def bus_lock_inv (s : bus_lock_state) : Prop :=
  s.count + s.holders.length = 1 ∧ s.busy.Nodup ∧ ∀ c, c ∈ s.busy → c ∈ s.holders

/-! ## The older driver (drivers/video/fbdev/omap2/omapfb/dss/rfbi.c)

The fbdev driver keeps its state in one static structure `_rfbi`, reached through the
global pointer `rfbi`; its functions take a `dssdev` they do not use.  In the embedding
the structure is the first argument, named after the global. -/

namespace Fbdev

/-- `rfbi_write_reg` of the fbdev driver: `__raw_writel(val, rfbi->base + idx.idx)`. -/
def rfbi_write_reg (_rfbi : rfbi_data) (idx val : Nat) : rfbi_data :=
  { _rfbi with regs := Function.update _rfbi.regs idx (u32 val),
               log := _rfbi.log ++ [bus_event.write idx (u32 val)] }

/-- `rfbi_read_reg` of the fbdev driver: `__raw_readl(rfbi->base + idx.idx)`. -/
def rfbi_read_reg (_rfbi : rfbi_data) (idx : Nat) : Nat × rfbi_data :=
  (u32 (_rfbi.regs idx),
    { _rfbi with log := _rfbi.log ++ [bus_event.read idx (u32 (_rfbi.regs idx))] })

/-- `REG_FLD_MOD(idx, val, start, end)` of the fbdev driver:
`rfbi_write_reg(dssdev, idx, FLD_MOD(rfbi_read_reg(dssdev, idx), val, start, end))`. -/
def REG_FLD_MOD (_rfbi : rfbi_data) (idx val start stop : Nat) : rfbi_data :=
  rfbi_write_reg (rfbi_read_reg _rfbi idx).2 idx (FLD_MOD (rfbi_read_reg _rfbi idx).1 val start stop)

/-- `round_to_extif_ticks` of the fbdev driver. -/
def round_to_extif_ticks (extif_clk_period : Nat) (ps : Nat) (div : Int) : Option Nat :=
  let bus_tick : Int := wrap_int (u32 (extif_clk_period * int_to_u32 div))
  if int_to_u32 bus_tick = 0 then none
  else some (u32 (u32 (u32 (ps + int_to_u32 bus_tick) + 4294967295) / int_to_u32 bus_tick
    * int_to_u32 bus_tick))

/-- `ps_to_rfbi_ticks` of the fbdev driver. -/
def ps_to_rfbi_ticks (_rfbi : rfbi_data) (time div : Int) : Option Int :=
  if _rfbi.l4_khz = 0 then none
  else if u32 (1000000000 / _rfbi.l4_khz * int_to_u32 div) = 0 then none
  else
    some (wrap_int ((u32 (u32 (int_to_u32 time + u32 (1000000000 / _rfbi.l4_khz * int_to_u32 div))
      + 4294967295) / u32 (1000000000 / _rfbi.l4_khz * int_to_u32 div) : Nat) : Int))

/-- `rfbi_get_clk_info` of the fbdev driver. -/
def rfbi_get_clk_info (_rfbi : rfbi_data) : Option (Nat × Nat) :=
  if _rfbi.l4_khz = 0 then none else some (1000000000 / _rfbi.l4_khz, 2)

/-- `rfbi_convert_timings` of the fbdev driver: the result and the updated structure. -/
def rfbi_convert_timings (_rfbi : rfbi_data) (t : rfbi_timings) : Option (Int × rfbi_timings) :=
  let div := t.clk_div
  if div ≤ 0 ∨ div > 2 then some (-1, t) else
  match ps_to_rfbi_ticks _rfbi t.we_on_time div, ps_to_rfbi_ticks _rfbi t.we_off_time div with
  | none, _ => none
  | _, none => none
  | some weon, some weoff =>
  let weoff := if weoff ≤ weon then wrap_int (weon + 1) else weoff
  if weon > 0x0f then some (-1, t) else
  if weoff > 0x3f then some (-1, t) else
  match ps_to_rfbi_ticks _rfbi t.re_on_time div, ps_to_rfbi_ticks _rfbi t.re_off_time div with
  | none, _ => none
  | _, none => none
  | some reon, some reoff =>
  let reoff := if reoff ≤ reon then wrap_int (reon + 1) else reoff
  if reon > 0x0f then some (-1, t) else
  if reoff > 0x3f then some (-1, t) else
  match ps_to_rfbi_ticks _rfbi t.cs_on_time div, ps_to_rfbi_ticks _rfbi t.cs_off_time div with
  | none, _ => none
  | _, none => none
  | some cson, some csoff =>
  let csoff := if csoff ≤ cson then wrap_int (cson + 1) else csoff
  let csoff := if csoff < (if weoff > reoff then weoff else reoff)
    then (if weoff > reoff then weoff else reoff) else csoff
  if cson > 0x0f then some (-1, t) else
  if csoff > 0x3f then some (-1, t) else
  let l := int_to_u32 cson ||| shl_u32 csoff 4 ||| shl_u32 weon 10 ||| shl_u32 weoff 14
    ||| shl_u32 reon 20 ||| shl_u32 reoff 24
  let t := { t with tim0 := l }
  match ps_to_rfbi_ticks _rfbi t.access_time div with
  | none => none
  | some actim =>
  let actim := if actim ≤ reon then wrap_int (reon + 1) else actim
  if actim > 0x3f then some (-1, t) else
  match ps_to_rfbi_ticks _rfbi t.we_cycle_time div with
  | none => none
  | some wecyc =>
  let wecyc := if wecyc < weoff then weoff else wecyc
  if wecyc > 0x3f then some (-1, t) else
  match ps_to_rfbi_ticks _rfbi t.re_cycle_time div with
  | none => none
  | some recyc =>
  let recyc := if recyc < reoff then reoff else recyc
  if recyc > 0x3f then some (-1, t) else
  match ps_to_rfbi_ticks _rfbi t.cs_pulse_width div with
  | none => none
  | some cs_pulse =>
  if cs_pulse > 0x3f then some (-1, t) else
  let l := int_to_u32 wecyc ||| shl_u32 recyc 6 ||| shl_u32 cs_pulse 12 ||| shl_u32 actim 22
  some (0, { t with tim1 := l, tim2 := int_to_u32 (wrap_int (div - 1)), converted := 1 })

/-- One assignment `t->f = round_to_extif_ticks(t->f, div)` of the fbdev
`calc_reg_timing`: the new value of the `int` field. -/
def round_in_place (extif_clk_period : Nat) (f div : Int) : Option Int :=
  (round_to_extif_ticks extif_clk_period (int_to_u32 f) div).bind fun r => some (wrap_int r)

/-- `calc_reg_timing` of the fbdev driver: `t->clk_div = div`, the ten assignments in
the order of the source, then the conversion.  Each assignment reads only the field it
writes, so the structure is built once from the ten new values. -/
def calc_reg_timing (extif_clk_period : Nat) (_rfbi : rfbi_data) (t : rfbi_timings) (div : Int) :
    Option (Int × rfbi_timings) :=
  (round_in_place extif_clk_period t.cs_on_time div).bind fun cs_on_time =>
  (round_in_place extif_clk_period t.we_on_time div).bind fun we_on_time =>
  (round_in_place extif_clk_period t.we_off_time div).bind fun we_off_time =>
  (round_in_place extif_clk_period t.we_cycle_time div).bind fun we_cycle_time =>
  (round_in_place extif_clk_period t.re_on_time div).bind fun re_on_time =>
  (round_in_place extif_clk_period t.re_off_time div).bind fun re_off_time =>
  (round_in_place extif_clk_period t.re_cycle_time div).bind fun re_cycle_time =>
  (round_in_place extif_clk_period t.access_time div).bind fun access_time =>
  (round_in_place extif_clk_period t.cs_off_time div).bind fun cs_off_time =>
  (round_in_place extif_clk_period t.cs_pulse_width div).bind fun cs_pulse_width =>
  rfbi_convert_timings _rfbi
    ⟨cs_on_time, cs_off_time, we_on_time, we_off_time, re_on_time, re_off_time, we_cycle_time,
      re_cycle_time, cs_pulse_width, access_time, div, t.tim0, t.tim1, t.tim2, t.converted⟩

/-- The loop `for (div = 1; div <= max_clk_div; div++)` of the fbdev
`calc_extif_timings`, from the state `(div, t)` on, with at most `fuel` tests of the
loop condition. -/
def calc_extif_loop (extif_clk_period : Nat) (_rfbi : rfbi_data) (max_clk_div : Nat) :
    Nat → Int → rfbi_timings → Option (Int × rfbi_timings)
  | 0, _, _ => none
  | fuel + 1, div, t =>
    if int_to_u32 div ≤ max_clk_div then
      (calc_reg_timing extif_clk_period _rfbi t div).bind fun reg =>
      if reg.1 = 0 then some (div, reg.2)
      else calc_extif_loop extif_clk_period _rfbi max_clk_div fuel (wrap_int (div + 1)) reg.2
    else some (div, t)

/-- `calc_extif_timings` of the fbdev driver: the result, the updated structure and the
new value of the global `extif_clk_period`. -/
def calc_extif_timings (_extif_clk_period : Nat) (_rfbi : rfbi_data) (t : rfbi_timings) :
    Option (Int × rfbi_timings × Nat) :=
  match rfbi_get_clk_info _rfbi with
  | none => none
  | some (extif_clk_period, max_clk_div) =>
    (calc_extif_loop extif_clk_period _rfbi max_clk_div (max_clk_div + 1) 1 t).bind fun found =>
    some (if int_to_u32 found.1 ≤ max_clk_div then 0 else -1, found.2, extif_clk_period)

/-- `rfbi_configure_bus` of the fbdev driver: how the call ends and the state it
leaves. -/
def rfbi_configure_bus (_rfbi : rfbi_data) (rfbi_module bpp lines : Int) :
    outcome × rfbi_data :=
  if ¬ (bpp = 12 ∨ bpp = 16 ∨ bpp = 18 ∨ bpp = 24) then
    (outcome.bug bug_site.invalid_bpp, _rfbi)
  else
  let datatype :=
    if bpp = 12 then omap_rfbi_datatype.DATATYPE_12
    else if bpp = 16 then omap_rfbi_datatype.DATATYPE_16
    else if bpp = 18 then omap_rfbi_datatype.DATATYPE_18
    else omap_rfbi_datatype.DATATYPE_24
  let _rfbi := { _rfbi with datatype := datatype }
  if ¬ (lines = 8 ∨ lines = 9 ∨ lines = 12 ∨ lines = 16) then
    (outcome.bug bug_site.invalid_lines, _rfbi)
  else
  let parallelmode :=
    if lines = 8 then omap_rfbi_parallelmode.PARALLELMODE_8
    else if lines = 9 then omap_rfbi_parallelmode.PARALLELMODE_9
    else if lines = 12 then omap_rfbi_parallelmode.PARALLELMODE_12
    else omap_rfbi_parallelmode.PARALLELMODE_16
  let _rfbi := { _rfbi with parallelmode := parallelmode }
  let chosen : Except bug_site omap_rfbi_cycleformat :=
    if Int.tmod bpp lines = 0 then
      if Int.tdiv bpp lines = 1 then Except.ok omap_rfbi_cycleformat.CYCLEFORMAT_1_1
      else if Int.tdiv bpp lines = 2 then Except.ok omap_rfbi_cycleformat.CYCLEFORMAT_2_1
      else if Int.tdiv bpp lines = 3 then Except.ok omap_rfbi_cycleformat.CYCLEFORMAT_3_1
      else Except.error bug_site.ratio_invalid
    else if Int.tmod (wrap_int (2 * bpp)) lines = 0 then
      if Int.tdiv (wrap_int (2 * bpp)) lines = 3 then
        Except.ok omap_rfbi_cycleformat.CYCLEFORMAT_3_2
      else Except.error bug_site.ratio_not_3_2
    else Except.error bug_site.ratio_none
  match chosen with
  | Except.error site => (outcome.bug site, _rfbi)
  | Except.ok cycleformat =>
  let cycle1 := int_to_u32 lines
  let cycle2 :=
    match cycleformat with
    | omap_rfbi_cycleformat.CYCLEFORMAT_1_1 => 0
    | omap_rfbi_cycleformat.CYCLEFORMAT_2_1 => int_to_u32 lines
    | omap_rfbi_cycleformat.CYCLEFORMAT_3_1 => int_to_u32 lines
    | omap_rfbi_cycleformat.CYCLEFORMAT_3_2 =>
      int_to_u32 (Int.tdiv lines 2) ||| shl_u32 (Int.tdiv lines 2) 16
  let cycle3 :=
    match cycleformat with
    | omap_rfbi_cycleformat.CYCLEFORMAT_1_1 => 0
    | omap_rfbi_cycleformat.CYCLEFORMAT_2_1 => 0
    | omap_rfbi_cycleformat.CYCLEFORMAT_3_1 => int_to_u32 lines
    | omap_rfbi_cycleformat.CYCLEFORMAT_3_2 => shl_u32 lines 16
  let _rfbi := REG_FLD_MOD _rfbi RFBI_CONTROL 0 3 2
  let l := 0 ||| FLD_VAL parallelmode.val 1 0 ||| FLD_VAL 0 3 2 ||| FLD_VAL 0 4 4
    ||| FLD_VAL datatype.val 6 5 ||| FLD_VAL 0 8 7 ||| FLD_VAL cycleformat.val 10 9
    ||| FLD_VAL 0 12 11 ||| FLD_VAL 0 16 16 ||| FLD_VAL 0 17 17 ||| FLD_VAL 0 18 18
    ||| FLD_VAL 0 19 19 ||| FLD_VAL 1 20 20 ||| FLD_VAL 1 21 21
  let _rfbi := rfbi_write_reg _rfbi (RFBI_CONFIG rfbi_module) l
  let _rfbi := rfbi_write_reg _rfbi (RFBI_DATA_CYCLE1 rfbi_module) cycle1
  let _rfbi := rfbi_write_reg _rfbi (RFBI_DATA_CYCLE2 rfbi_module) cycle2
  let _rfbi := rfbi_write_reg _rfbi (RFBI_DATA_CYCLE3 rfbi_module) cycle3
  let l := (rfbi_read_reg _rfbi RFBI_CONTROL).1
  let l := FLD_MOD l (int_to_u32 (wrap_int (rfbi_module + 1))) 3 2
  let l := FLD_MOD l 0 1 1
  (outcome.ret 0, rfbi_write_reg (rfbi_read_reg _rfbi RFBI_CONTROL).2 RFBI_CONTROL l)

end Fbdev

/-! ## The panel's controller (drivers/video/fbdev/omap2/omapfb/displays/panel-n8x0.c) -/

/-- What `framebuffer_init` does to the outside: a call of one of the three raw
transfers behind `dssdev->ops.rfbi` with the one byte it carries (`write_command`,
`write_data`) or receives (`read_data`), a call of `msleep` and a call of `dev_warn`
with the value it prints. -/
inductive panel_event where
  | write_command (cmd : Nat)
  | write_data (val : Nat)
  | read_data (val : Nat)
  | msleep (msecs : Nat)
  | dev_warn (l : Nat)
  deriving DecidableEq, Repr

/-- The state `framebuffer_init` works on: the events so far (oldest first) and the
number of `read_data` calls made so far. -/
structure panel_drv_data where
  log : List panel_event
  reads : Nat

def BLIZZARD_PLL_DIV : Nat := 0x04
def BLIZZARD_PLL_MODE : Nat := 0x0c
def BLIZZARD_DISPLAY_MODE : Nat := 0x68
def BLIZZARD_POWER_SAVE : Nat := 0xE6

/-- `blizzard_write_reg(dssdev, reg, val)`, through `blizzard_write`: the command byte
`reg`, then the data byte `val`; both parameters are `u8`. -/
def blizzard_write_reg (ddata : panel_drv_data) (reg val : Nat) : panel_drv_data :=
  { ddata with log := ddata.log ++
      [panel_event.write_command (reg % 256), panel_event.write_data (val % 256)] }

/-- `blizzard_read_reg(dssdev, cmd)`, through `blizzard_read`: the command byte `cmd`,
then one byte read.  `device k cmd` is the byte the controller supplies to the `k`-th
read of the run when the command was `cmd`. -/
def blizzard_read_reg (device : Nat → Nat → Nat) (ddata : panel_drv_data) (cmd : Nat) :
    Nat × panel_drv_data :=
  (device ddata.reads (cmd % 256) % 256,
    { log := ddata.log ++ [panel_event.write_command (cmd % 256),
        panel_event.read_data (device ddata.reads (cmd % 256) % 256)],
      reads := ddata.reads + 1 })

/-- `msleep(msecs)`: the call is recorded. -/
def msleep (ddata : panel_drv_data) (msecs : Nat) : panel_drv_data :=
  { ddata with log := ddata.log ++ [panel_event.msleep msecs] }

/-- `dev_warn(dssdev->dev, "%s: pll loops left %d\n", __func__, l)`: the call is
recorded with the value of `l`. -/
def dev_warn (ddata : panel_drv_data) (l : Nat) : panel_drv_data :=
  { ddata with log := ddata.log ++ [panel_event.dev_warn l] }

/-- The loop `while (!(blizzard_read_reg(dssdev, BLIZZARD_PLL_DIV) & (1 << 7)) &&
(l-- > 0)) msleep(1);` of `framebuffer_init` on the `u32` variable `l`: at most `fuel`
evaluations of the condition; the value is `l` and the state at the exit of the loop.
`&&` evaluates `l-- > 0` only when the bit is clear, and `l--` decrements `l` also when
the comparison is false. -/
def framebuffer_init_wait (device : Nat → Nat → Nat) :
    Nat → Nat → panel_drv_data → Option (Nat × panel_drv_data)
  | 0, _, _ => none
  | fuel + 1, l, ddata =>
    let r := blizzard_read_reg device ddata BLIZZARD_PLL_DIV
    if r.1 &&& (1 <<< 7) ≠ 0 then some (l, r.2)
    else if l > 0 then
      framebuffer_init_wait device fuel (u32 (l + 4294967295)) (msleep r.2 1)
    else some (u32 (l + 4294967295), r.2)

/-- `framebuffer_init`: the state it leaves; `none` when the loop does not end. -/
def framebuffer_init (device : Nat → Nat → Nat) (ddata : panel_drv_data) :
    Option panel_drv_data :=
  let r := blizzard_read_reg device ddata BLIZZARD_POWER_SAVE
  let l := r.1
  let l := l &&& (4294967295 ^^^ 0x03)
  let ddata := blizzard_write_reg r.2 BLIZZARD_POWER_SAVE l
  let r := blizzard_read_reg device ddata BLIZZARD_PLL_MODE
  let l := r.1
  let l := l &&& (4294967295 ^^^ 0x03)
  let l := l ||| 0x1
  let ddata := blizzard_write_reg r.2 BLIZZARD_PLL_MODE l
  let l := 1000
  (framebuffer_init_wait device (l + 1) l ddata).map fun r =>
    let ddata := if r.1 < 900 then dev_warn r.2 r.1 else r.2
    blizzard_write_reg ddata BLIZZARD_DISPLAY_MODE 0x01

/-- The number of `msleep(1)` calls among the events. -/
def msleep_count (log : List panel_event) : Nat :=
  log.countP fun e => decide (e = panel_event.msleep 1)

/-- The values `dev_warn` was called with, in order. -/
def warnings : List panel_event → List Nat
  | [] => []
  | panel_event.dev_warn l :: es => l :: warnings es
  | _ :: es => warnings es

/-- A controller whose PLL never locks: every byte it supplies is 0. -/
def pll_never_locks : Nat → Nat → Nat := fun _ _ => 0

/-- A controller whose PLL locks after 120 ms: bit 7 is set from the read number 122 on
(two reads precede the loop). -/
def pll_locks_late : Nat → Nat → Nat := fun k _ => if 122 ≤ k then 0x80 else 0

/-- The panel state before `framebuffer_init`: nothing has happened yet. -/
def panel_fresh : panel_drv_data := ⟨[], 0⟩

/-! ## Concrete inputs -/

/-- The timing requirement of the panel, `n8x0_panel_rfbi_timings`
(drivers/gpu/drm/panel/panel-nokia-n8x0.c); the members the initialiser leaves out
are zero. -/
def n8x0_panel_rfbi_timings : rfbi_timings :=
  { cs_on_time := 0,
    we_on_time := 9000, we_off_time := 18000, we_cycle_time := 36000,
    re_on_time := 9000, re_off_time := 27000, re_cycle_time := 36000,
    access_time := 27000, cs_off_time := 36000,
    cs_pulse_width := 0,
    clk_div := 0, tim0 := 0, tim1 := 0, tim2 := 0, converted := 0 }

/-- The bus instance `rfbi_probe` leaves: the structure zeroed by `devm_kzalloc`,
`l4_khz` set from the clock rate, `output.of_port` set to 0, the mutex free; every
register reads 0, nothing has been accessed yet, no power reference is held and no
frame-done handler is registered. -/
def rfbi_probed (l4_khz : Nat) : rfbi_data :=
  { regs := fun _ => 0, log := [], lock := false, usage_count := 0,
    mgr_framedone_handler := none, of_port := 0, l4_khz := l4_khz,
    datatype := omap_rfbi_datatype.DATATYPE_12,
    parallelmode := omap_rfbi_parallelmode.PARALLELMODE_8,
    te_enabled := 0, framedone_callback := none, framedone_callback_data := 0,
    hactive := 0, vactive := 0, pixel_size := 0, data_lines := 0,
    intf_timings := ⟨0, 0, 0, 0, 0, 0, 0, 0, 0, 0, 0, 0, 0, 0, 0⟩ }

/-- The panel's requirement with the divider 1 stored in `clk_div`. -/
def n8x0_div1 : rfbi_timings := { n8x0_panel_rfbi_timings with clk_div := 1 }

/-- The structure `rfbi_convert_timings` leaves for `n8x0_div1` at 50 MHz. -/
def n8x0_div1_converted : rfbi_timings :=
  { n8x0_div1 with tim0 := 34636832, tim1 := 8388738, tim2 := 0, converted := 1 }

/-- A probed bus on which the panel has set its pixel size (16), its data lines (8) and
its timings. -/
def bus_ready : rfbi_data :=
  { rfbi_probed 50000 with pixel_size := 16, data_lines := 8,
                           intf_timings := n8x0_panel_rfbi_timings }

/-- A probed bus in 16-bit parallel mode. -/
def bus_16bit : rfbi_data :=
  { rfbi_probed 50000 with parallelmode := omap_rfbi_parallelmode.PARALLELMODE_16 }

/-- A buffer holding the bytes 1, 2, 3, ... -/
def buf_count : Nat → Nat := fun i => i + 1

/-- The panel's requirement with a write-enable on-time of 1 us, which fits neither
divider at 50 MHz. -/
def n8x0_slow : rfbi_timings := { n8x0_panel_rfbi_timings with we_on_time := 1000000 }

/-- The panel's bus with the requirement `n8x0_slow`, not converted. -/
def bus_slow : rfbi_data := { bus_ready with intf_timings := n8x0_slow }

/-- The panel's bus with the requirement `n8x0_slow` and `converted` set all the same. -/
def bus_stale : rfbi_data :=
  { bus_ready with intf_timings := { n8x0_slow with converted := 1 } }

/-- The structure `calc_extif_timings` leaves for the panel's requirement at 50 MHz. -/
def n8x0_solved : rfbi_timings :=
  { cs_on_time := 0, cs_off_time := 40000, we_on_time := 20000, we_off_time := 20000,
    re_on_time := 20000, re_off_time := 40000, we_cycle_time := 40000,
    re_cycle_time := 40000, cs_pulse_width := 0, access_time := 40000,
    clk_div := 1, tim0 := 34636832, tim1 := 8388738, tim2 := 0, converted := 1 }

/-- A requirement at divider 1 with a write-enable on-time of -1 ps, every other field
zero. -/
def req_negative : rfbi_timings := ⟨0, 0, -1, 0, 0, 0, 0, 0, 0, 0, 1, 0, 0, 0, 0⟩

/-- The structure `rfbi_convert_timings` leaves for `req_negative` at 50 MHz. -/
def req_negative_converted : rfbi_timings :=
  { req_negative with tim0 := 16793616, tim1 := 4194369, tim2 := 0, converted := 1 }

/-- The tick counts `rfbi_convert_timings` packs for `n8x0_div1` at 50 MHz. -/
def n8x0_div1_ticks : rfbi_ticks := ⟨0, 2, 1, 2, 1, 2, 2, 2, 0, 2⟩

/-- The panel's requirement with a write cycle time of 50 ns: at a period of 700 ps it
fails at divider 1 after `tim[0]` is stored and fits at divider 2. -/
def n8x0_long_cycle : rfbi_timings := { n8x0_panel_rfbi_timings with we_cycle_time := 50000 }

/-- The structure the failed attempt at divider 1 leaves for `n8x0_long_cycle` at a
period of 700 ps. -/
def n8x0_long_cycle_div1 : rfbi_timings :=
  { cs_on_time := 0, cs_off_time := 36400, we_on_time := 9100, we_off_time := 18200,
    re_on_time := 9100, re_off_time := 27300, we_cycle_time := 50400,
    re_cycle_time := 36400, cs_pulse_width := 0, access_time := 27300,
    clk_div := 1, tim0 := 668383040, tim1 := 0, tim2 := 0, converted := 0 }

/-- The structure the attempt at divider 2 leaves for `n8x0_long_cycle` at a period of
700 ps. -/
def n8x0_long_cycle_div2 : rfbi_timings :=
  { cs_on_time := 0, cs_off_time := 36400, we_on_time := 9800, we_off_time := 18200,
    re_on_time := 9800, re_off_time := 28000, we_cycle_time := 50400,
    re_cycle_time := 36400, cs_pulse_width := 0, access_time := 28000,
    clk_div := 2, tim0 := 343104928, tim1 := 83887780, tim2 := 1, converted := 1 }

/-! # Properties -/

theorem int_to_u32_natCast (n : Nat) (h : n < 4294967296) : int_to_u32 (n : Int) = n := by
  unfold int_to_u32; omega

theorem shl_u32_natCast (n k b : Nat) (hn : n ≤ b) (hb : b * 2 ^ k < 4294967296) :
    shl_u32 (n : Int) k = n <<< k := by
  have h1 : n * 2 ^ k ≤ b * 2 ^ k := Nat.mul_le_mul_right _ hn
  have h2 : n < 4294967296 := by
    have : n * 1 ≤ n * 2 ^ k := Nat.mul_le_mul_left _ (Nat.one_le_two_pow)
    omega
  unfold shl_u32 u32
  rw [int_to_u32_natCast n h2, Nat.shiftLeft_eq, Nat.mod_eq_of_lt (by omega)]

theorem raise_above_natCast (a b : Nat) (hb : b ≤ 15) :
    raise_above (a : Int) (b : Int) = ((max a (b + 1) : Nat) : Int) := by
  unfold raise_above wrap_int
  split_ifs with h <;> omega

theorem raise_to_natCast (a b : Nat) : raise_to (a : Int) (b : Int) = ((max a b : Nat) : Int) := by
  unfold raise_to
  split_ifs with h <;> omega

theorem max_int_natCast (a b : Nat) : max_int (a : Int) (b : Int) = ((max a b : Nat) : Int) := by
  unfold max_int
  split_ifs with h <;> omega

/-! ## Ceiling division -/

theorem ceil_div_eq (x t : Nat) (ht : 0 < t) : (x + t - 1) / t = Spec.ceil_div x t := by
  unfold Spec.ceil_div
  have h1 := Nat.div_add_mod x t
  have h2 := Nat.mod_lt x ht
  split_ifs with h
  · have : x + t - 1 = (t - 1) + x / t * t := by
      rw [h, Nat.mul_comm] at h1; omega
    rw [this, Nat.add_mul_div_right _ _ ht, Nat.div_eq_of_lt (by omega)]; omega
  · have : x + t - 1 = (x % t - 1) + (x / t + 1) * t := by
      rw [Nat.add_mul, Nat.mul_comm (x / t)]; omega
    rw [this, Nat.add_mul_div_right _ _ ht, Nat.div_eq_of_lt (by omega)]; omega

theorem ceil_div_le_iff (x t n : Nat) (ht : 0 < t) : Spec.ceil_div x t ≤ n ↔ x ≤ n * t := by
  rw [← ceil_div_eq x t ht, ← Nat.lt_succ_iff, Nat.div_lt_iff_lt_mul ht, Nat.succ_mul]
  omega

theorem le_ceil_div_mul (x t : Nat) (ht : 0 < t) : x ≤ Spec.ceil_div x t * t :=
  (ceil_div_le_iff x t _ ht).1 (Nat.le_refl _)

theorem ceil_div_mul_lt (x t : Nat) (ht : 0 < t) : Spec.ceil_div x t * t < x + t := by
  unfold Spec.ceil_div
  have h1 := Nat.div_add_mod x t
  have h2 := Nat.mod_lt x ht
  split_ifs with h
  · rw [Nat.mul_comm]; omega
  · rw [Nat.add_mul, Nat.mul_comm (x / t)]; omega

theorem ceil_div_le_self (x t : Nat) (ht : 0 < t) : Spec.ceil_div x t ≤ x := by
  rw [ceil_div_le_iff x t x ht]
  exact Nat.le_mul_of_pos_right x ht

theorem ceil_div_mul_self (n t : Nat) (ht : 0 < t) : Spec.ceil_div (n * t) t = n := by
  unfold Spec.ceil_div
  simp [Nat.mul_mod_left, Nat.mul_div_cancel _ ht]

theorem ceil_div_ceil_div_mul (x p d : Nat) (hp : 0 < p) (hd : 0 < d) :
    Spec.ceil_div (Spec.ceil_div x p * p) (p * d) = Spec.ceil_div x (p * d) := by
  have hpd : 0 < p * d := Nat.mul_pos hp hd
  apply Nat.le_antisymm
  · rw [ceil_div_le_iff _ _ _ hpd]
    have h := le_ceil_div_mul x (p * d) hpd
    have h2 : Spec.ceil_div x p ≤ Spec.ceil_div x (p * d) * d := by
      rw [ceil_div_le_iff _ _ _ hp, Nat.mul_assoc, Nat.mul_comm d p]; exact h
    calc Spec.ceil_div x p * p ≤ Spec.ceil_div x (p * d) * d * p := Nat.mul_le_mul_right _ h2
      _ = Spec.ceil_div x (p * d) * (p * d) := by rw [Nat.mul_assoc, Nat.mul_comm d p]
  · rw [ceil_div_le_iff _ _ _ hpd]
    exact Nat.le_trans (le_ceil_div_mul x p hp) (le_ceil_div_mul _ (p * d) hpd)

/-! ## Machine integers -/

theorem int_to_u32_lt (x : Int) : int_to_u32 x < 4294967296 := by
  unfold int_to_u32; omega

theorem int_to_u32_wrap_int (n : Nat) (h : n < 4294967296) : int_to_u32 (wrap_int n) = n := by
  unfold int_to_u32 wrap_int; omega

theorem int_to_u32_of_nonneg (x : Int) (h0 : 0 ≤ x) (h1 : x < 4294967296) :
    int_to_u32 x = x.toNat := by
  unfold int_to_u32; omega

theorem wrap_int_of_lt (n : Nat) (h : n < 2147483648) : wrap_int n = n := by
  unfold wrap_int; omega

theorem wrap_int_range (x : Int) : -2147483648 ≤ wrap_int x ∧ wrap_int x < 2147483648 := by
  unfold wrap_int; omega

/-! ## The two roundings of the solver -/

theorem ps_to_rfbi_ticks_eq (rfbi : rfbi_data) (x : Int) (n : Nat)
    (hn : n = 1 ∨ n = 2) (hk : 0 < rfbi.l4_khz)
    (ht : 0 < Spec.tick_ps rfbi.l4_khz n)
    (hov : int_to_u32 x + Spec.tick_ps rfbi.l4_khz n ≤ 4294967296)
    (hq : Spec.ceil_div (int_to_u32 x) (Spec.tick_ps rfbi.l4_khz n) < 2147483648) :
    ps_to_rfbi_ticks rfbi x (n : Int) =
      some ((Spec.ceil_div (int_to_u32 x) (Spec.tick_ps rfbi.l4_khz n) : Nat) : Int) := by
  have hp : 1000000000 / rfbi.l4_khz ≤ 1000000000 := Nat.div_le_self _ _
  have hn32 : int_to_u32 (n : Int) = n := int_to_u32_natCast n (by omega)
  unfold Spec.tick_ps at ht hov hq ⊢
  have htl : 1000000000 / rfbi.l4_khz * n < 4294967296 := by
    rcases hn with h | h <;> subst h <;> omega
  unfold ps_to_rfbi_ticks
  simp only [hn32]
  have hu : u32 (1000000000 / rfbi.l4_khz * n) = 1000000000 / rfbi.l4_khz * n :=
    Nat.mod_eq_of_lt htl
  rw [if_neg (by omega), hu, if_neg (by omega)]
  have hs : u32 (u32 (int_to_u32 x + 1000000000 / rfbi.l4_khz * n) + 4294967295)
      = int_to_u32 x + 1000000000 / rfbi.l4_khz * n - 1 := by
    unfold u32; omega
  rw [hs, ceil_div_eq _ _ ht, wrap_int_of_lt _ hq]

theorem round_field_eq (p : Nat) (f : Int) (n : Nat) (hn : n = 1 ∨ n = 2)
    (hp0 : 0 < p) (hp : p ≤ 1000000000) (hov : int_to_u32 f + p * n ≤ 4294967296) :
    round_field p f (n : Int) = some (rounded_field (p * n) f) := by
  have hn32 : int_to_u32 (n : Int) = n := int_to_u32_natCast n (by omega)
  have hbt : p * n < 2147483648 := by
    rcases hn with h | h <;> subst h <;> omega
  have hbt0 : 0 < p * n := by
    rcases hn with h | h <;> subst h <;> omega
  have hlt := ceil_div_mul_lt (int_to_u32 f) (p * n) hbt0
  unfold round_field round_to_extif_ticks rounded_field
  simp only [hn32]
  have hu : u32 (p * n) = p * n := Nat.mod_eq_of_lt (by omega)
  have hw : int_to_u32 (wrap_int ((p * n : Nat) : Int)) = p * n := by
    rw [wrap_int_of_lt _ hbt, int_to_u32_natCast _ (by omega)]
  rw [hu, hw, if_neg (by omega)]
  have hs : u32 (u32 (int_to_u32 f + p * n) + 4294967295) = int_to_u32 f + p * n - 1 := by
    unfold u32; omega
  rw [hs, ceil_div_eq _ _ hbt0]
  have hm : u32 (Spec.ceil_div (int_to_u32 f) (p * n) * (p * n))
      = Spec.ceil_div (int_to_u32 f) (p * n) * (p * n) := Nat.mod_eq_of_lt (by omega)
  rw [hm]
  rfl

/-! ## Conversion with known tick counts -/

theorem convert_ticks_eq_with (rfbi : rfbi_data) (t : rfbi_timings) (tk : Int → Int)
    (h : all_fields (fun x => ps_to_rfbi_ticks rfbi x t.clk_div = some (tk x)) t) :
    rfbi_convert_ticks rfbi t = some (convert_with tk t) := by
  obtain ⟨h1, h2, h3, h4, h5, h6, h7, h8, h9, h10⟩ := h
  unfold rfbi_convert_ticks convert_with
  simp only [h1, h2, h3, h4, h5, h6, h7, h8, h9, h10,
    apply_ite (@some (Int × rfbi_timings × Option rfbi_ticks))]


theorem convert_with_fits (tk : Int → Nat) (t : rfbi_timings)
    (hd : t.clk_div = 1 ∨ t.clk_div = 2) (hf : Spec.fits (Spec.adjusted_by tk t)) :
    convert_with (fun x => (tk x : Int)) t =
      (0, { t with tim0 := Spec.word_A (Spec.adjusted_by tk t),
                   tim1 := Spec.word_B (Spec.adjusted_by tk t),
                   tim2 := int_to_u32 (t.clk_div - 1),
                   converted := 1 },
        some (ticks_of_counts (Spec.adjusted_by tk t))) := by
  obtain ⟨f1, f2, f3, f4, f5, f6, f7, f8, f9, f10⟩ := hf
  simp only [Spec.adjusted_by] at f1 f2 f3 f4 f5 f6 f7 f8 f9 f10
  have hdiv : ¬ (t.clk_div ≤ 0 ∨ t.clk_div > 2) := by omega
  have hw : wrap_int (t.clk_div - 1) = t.clk_div - 1 := by unfold wrap_int; omega
  unfold convert_with
  simp only [raise_above_natCast _ _ f1, raise_above_natCast _ _ f2, raise_above_natCast _ _ f3,
    raise_to_natCast, max_int_natCast, hw]
  rw [if_neg hdiv]
  repeat rw [if_neg (by omega)]
  simp only [Spec.word_A, Spec.word_B, Spec.adjusted_by, ticks_of_counts]
  rw [int_to_u32_natCast _ (by omega), int_to_u32_natCast _ (by omega),
    shl_u32_natCast _ 4 63 f4 (by norm_num), shl_u32_natCast _ 10 15 f2 (by norm_num),
    shl_u32_natCast _ 14 63 f5 (by norm_num), shl_u32_natCast _ 20 15 f3 (by norm_num),
    shl_u32_natCast _ 24 63 f6 (by norm_num), shl_u32_natCast _ 6 63 f8 (by norm_num),
    shl_u32_natCast _ 12 63 f9 (by norm_num), shl_u32_natCast _ 22 63 f10 (by norm_num)]

theorem convert_with_unfit (tk : Int → Nat) (t : rfbi_timings)
    (hf : ¬ Spec.fits (Spec.adjusted_by tk t)) :
    ∃ w, convert_with (fun x => (tk x : Int)) t = (-1, { t with tim0 := w }, none) := by
  unfold convert_with
  simp only []
  by_cases c0 : t.clk_div ≤ 0 ∨ t.clk_div > 2
  · rw [if_pos c0]; exact ⟨_, rfl⟩
  rw [if_neg c0]
  by_cases c1 : (tk t.we_on_time : Int) > 15
  · rw [if_pos c1]; exact ⟨_, rfl⟩
  rw [if_neg c1]
  have g1 : tk t.we_on_time ≤ 15 := by omega
  rw [raise_above_natCast _ _ g1]
  by_cases c2 : ((max (tk t.we_off_time) (tk t.we_on_time + 1) : Nat) : Int) > 63
  · rw [if_pos c2]; exact ⟨_, rfl⟩
  rw [if_neg c2]
  by_cases c3 : (tk t.re_on_time : Int) > 15
  · rw [if_pos c3]; exact ⟨_, rfl⟩
  rw [if_neg c3]
  have g3 : tk t.re_on_time ≤ 15 := by omega
  simp only [raise_above_natCast _ _ g3]
  by_cases c4 : ((max (tk t.re_off_time) (tk t.re_on_time + 1) : Nat) : Int) > 63
  · rw [if_pos c4]; exact ⟨_, rfl⟩
  rw [if_neg c4]
  by_cases c5 : (tk t.cs_on_time : Int) > 15
  · rw [if_pos c5]; exact ⟨_, rfl⟩
  rw [if_neg c5]
  have g5 : tk t.cs_on_time ≤ 15 := by omega
  simp only [raise_above_natCast _ _ g5, max_int_natCast, raise_to_natCast]
  split_ifs with c6 c7 c8 c9 c10
  · exact ⟨_, rfl⟩
  · exact ⟨_, rfl⟩
  · exact ⟨_, rfl⟩
  · exact ⟨_, rfl⟩
  · exact ⟨_, rfl⟩
  · exfalso
    apply hf
    simp only [Spec.fits, Spec.adjusted_by]
    omega

/-! ## `calc_reg_timing` in terms of the spec -/

theorem all_fields_imp {P Q : Int → Prop} (t : rfbi_timings) (h : ∀ x, P x → Q x)
    (hp : all_fields P t) : all_fields Q t := by
  obtain ⟨h1, h2, h3, h4, h5, h6, h7, h8, h9, h10⟩ := hp
  exact ⟨h _ h1, h _ h2, h _ h3, h _ h4, h _ h5, h _ h6, h _ h7, h _ h8, h _ h9, h _ h10⟩

theorem adjusted_by_congr (tk1 tk2 : Int → Nat) (t : rfbi_timings)
    (h : all_fields (fun x => tk1 x = tk2 x) t) :
    Spec.adjusted_by tk1 t = Spec.adjusted_by tk2 t := by
  obtain ⟨h1, h2, h3, h4, h5, h6, h7, h8, h9, h10⟩ := h
  simp only [Spec.adjusted_by, h1, h2, h3, h4, h5, h6, h7, h8, h9, h10]

theorem calc_reg_timing_eq (p : Nat) (rfbi : rfbi_data) (t : rfbi_timings) (n : Nat)
    (hn : n = 1 ∨ n = 2) (hp0 : 0 < p) (hp : p ≤ 1000000000)
    (hov : all_fields (fun f => int_to_u32 f + p * n ≤ 4294967296) t) :
    calc_reg_timing p rfbi t (n : Int) =
      rfbi_convert_timings rfbi
        (map_fields (rounded_field (p * n)) { t with clk_div := (n : Int) }) := by
  obtain ⟨h1, h2, h3, h4, h5, h6, h7, h8, h9, h10⟩ := hov
  unfold calc_reg_timing
  simp only [round_field_eq p _ n hn hp0 hp h1, round_field_eq p _ n hn hp0 hp h2,
    round_field_eq p _ n hn hp0 hp h3, round_field_eq p _ n hn hp0 hp h4,
    round_field_eq p _ n hn hp0 hp h5, round_field_eq p _ n hn hp0 hp h6,
    round_field_eq p _ n hn hp0 hp h7, round_field_eq p _ n hn hp0 hp h8,
    round_field_eq p _ n hn hp0 hp h9, round_field_eq p _ n hn hp0 hp h10, Option.some_bind]
  rfl

/-- The bound under which neither rounding of a requirement at the tick `bt` wraps. -/
theorem int_to_u32_rounded_field (bt : Nat) (f : Int) (hbt : 0 < bt)
    (h : Spec.ceil_div (int_to_u32 f) bt * bt + bt ≤ 4294967296) :
    int_to_u32 (rounded_field bt f) = Spec.ceil_div (int_to_u32 f) bt * bt := by
  unfold rounded_field
  exact int_to_u32_wrap_int _ (by omega)

theorem ticks_u32_rounded_field (bt : Nat) (f : Int) (hbt : 0 < bt)
    (h : Spec.ceil_div (int_to_u32 f) bt * bt + bt ≤ 4294967296) :
    ticks_u32 bt (rounded_field bt f) = ticks_u32 bt f := by
  unfold ticks_u32
  rw [int_to_u32_rounded_field bt f hbt h, ceil_div_mul_self _ _ hbt]

theorem all_fields_map_fields (P : Int → Prop) (g : Int → Int) (t : rfbi_timings) (d : Int) :
    all_fields P (map_fields g { t with clk_div := d }) ↔ all_fields (fun x => P (g x)) t :=
  Iff.rfl

theorem adjusted_by_map_fields (tk : Int → Nat) (g : Int → Int) (t : rfbi_timings) (d : Int) :
    Spec.adjusted_by tk (map_fields g { t with clk_div := d })
      = Spec.adjusted_by (fun x => tk (g x)) t :=
  rfl

theorem calc_reg_timing_spec (rfbi : rfbi_data) (t : rfbi_timings) (n : Nat)
    (hn : n = 1 ∨ n = 2) (hk : 0 < rfbi.l4_khz) (hp0 : 0 < 1000000000 / rfbi.l4_khz)
    (hb : all_fields (fun f =>
      Spec.ceil_div (int_to_u32 f) (Spec.tick_ps rfbi.l4_khz n) * Spec.tick_ps rfbi.l4_khz n
        + Spec.tick_ps rfbi.l4_khz n ≤ 4294967296
      ∧ Spec.ceil_div (int_to_u32 f) (Spec.tick_ps rfbi.l4_khz n) < 2147483648) t) :
    (Spec.fits (Spec.adjusted_by (ticks_u32 (Spec.tick_ps rfbi.l4_khz n)) t) →
      calc_reg_timing (1000000000 / rfbi.l4_khz) rfbi t (n : Int)
        = some (0, solved (Spec.tick_ps rfbi.l4_khz n) n t)) ∧
    (¬ Spec.fits (Spec.adjusted_by (ticks_u32 (Spec.tick_ps rfbi.l4_khz n)) t) →
      ∃ w, calc_reg_timing (1000000000 / rfbi.l4_khz) rfbi t (n : Int)
        = some (-1, { map_fields (rounded_field (Spec.tick_ps rfbi.l4_khz n)) t with
                      clk_div := (n : Int), tim0 := w })) := by
  have hp : 1000000000 / rfbi.l4_khz ≤ 1000000000 := Nat.div_le_self _ _
  have hbt : 0 < Spec.tick_ps rfbi.l4_khz n := by
    unfold Spec.tick_ps; rcases hn with h | h <;> subst h <;> omega
  have hov : all_fields (fun f =>
      int_to_u32 f + (1000000000 / rfbi.l4_khz) * n ≤ 4294967296) t := by
    refine all_fields_imp t (fun x hx => ?_) hb
    have := le_ceil_div_mul (int_to_u32 x) _ hbt
    unfold Spec.tick_ps at hx this
    omega
  rw [calc_reg_timing_eq _ rfbi t n hn hp0 hp hov]
  have hbt_eq : 1000000000 / rfbi.l4_khz * n = Spec.tick_ps rfbi.l4_khz n := rfl
  rw [hbt_eq]
  generalize hbt_def : Spec.tick_ps rfbi.l4_khz n = bt at *
  have hticks : all_fields (fun y =>
      ps_to_rfbi_ticks rfbi y (map_fields (rounded_field bt) { t with clk_div := (n : Int) }).clk_div
        = some (((ticks_u32 bt y : Nat) : Int)))
      (map_fields (rounded_field bt) { t with clk_div := (n : Int) }) := by
    rw [all_fields_map_fields]
    refine all_fields_imp t (fun x hx => ?_) hb
    obtain ⟨hx1, hx2⟩ := hx
    have e1 := int_to_u32_rounded_field bt x hbt hx1
    have e2 := ticks_u32_rounded_field bt x hbt hx1
    unfold ticks_u32 at e2 ⊢
    show ps_to_rfbi_ticks rfbi (rounded_field bt x) (n : Int) = _
    subst hbt_def
    exact ps_to_rfbi_ticks_eq rfbi _ n hn hk hbt (by rw [e1]; exact hx1) (by rw [e2]; exact hx2)
  have hlink := convert_ticks_eq_with rfbi _ _ hticks
  have hadj : Spec.adjusted_by (ticks_u32 bt)
      (map_fields (rounded_field bt) { t with clk_div := (n : Int) })
      = Spec.adjusted_by (ticks_u32 bt) t := by
    rw [adjusted_by_map_fields]
    refine adjusted_by_congr _ _ _ (all_fields_imp t (fun x hx => ?_) hb)
    exact ticks_u32_rounded_field bt x hbt hx.1
  have hdiv : (map_fields (rounded_field bt) { t with clk_div := (n : Int) }).clk_div = 1 ∨
      (map_fields (rounded_field bt) { t with clk_div := (n : Int) }).clk_div = 2 := by
    show (n : Int) = 1 ∨ (n : Int) = 2
    omega
  unfold rfbi_convert_timings
  rw [hlink]
  constructor
  · intro hf
    rw [← hadj] at hf
    rw [convert_with_fits _ _ hdiv hf, hadj]
    rcases hn with h | h <;> subst h <;> rfl
  · intro hf
    rw [← hadj] at hf
    obtain ⟨w, hw⟩ := convert_with_unfit _ _ hf
    rw [hw]
    exact ⟨w, rfl⟩

/-! ## Non-negative requirements -/

theorem tick_ps_one (k : Nat) : Spec.tick_ps k 1 = 1000000000 / k := Nat.mul_one _

theorem adjusted_by_ticks_u32 (bt : Nat) (t : rfbi_timings) (hnn : nonneg_req t) :
    Spec.adjusted_by (ticks_u32 bt) t = Spec.adjusted bt t := by
  unfold Spec.adjusted
  refine adjusted_by_congr _ _ _ (all_fields_imp t (fun x hx => ?_) hnn)
  show Spec.ceil_div (int_to_u32 x) bt = Spec.ceil_div x.toNat bt
  rw [int_to_u32_of_nonneg x hx.1 (by omega)]

theorem nonneg_req_bounds (bt : Nat) (t : rfbi_timings) (hnn : nonneg_req t)
    (hbt : 0 < bt) (hle : bt ≤ 1000000000) :
    all_fields (fun f =>
      Spec.ceil_div (int_to_u32 f) bt * bt + bt ≤ 4294967296
      ∧ Spec.ceil_div (int_to_u32 f) bt < 2147483648) t := by
  refine all_fields_imp t (fun x hx => ?_) hnn
  have h1 := ceil_div_mul_lt (int_to_u32 x) bt hbt
  have h2 := ceil_div_le_self (int_to_u32 x) bt hbt
  have h3 := int_to_u32_of_nonneg x hx.1 (by omega)
  omega

theorem calc_reg_timing_nonneg (rfbi : rfbi_data) (t : rfbi_timings) (n : Nat)
    (hn : n = 1 ∨ n = 2) (hk : 0 < rfbi.l4_khz) (hp0 : 0 < 1000000000 / rfbi.l4_khz)
    (hle : Spec.tick_ps rfbi.l4_khz n ≤ 1000000000) (hnn : nonneg_req t) :
    (Spec.satisfiable rfbi.l4_khz n t →
      calc_reg_timing (1000000000 / rfbi.l4_khz) rfbi t (n : Int)
        = some (0, solved (Spec.tick_ps rfbi.l4_khz n) n t)) ∧
    (¬ Spec.satisfiable rfbi.l4_khz n t →
      ∃ w, calc_reg_timing (1000000000 / rfbi.l4_khz) rfbi t (n : Int)
        = some (-1, { map_fields (rounded_field (Spec.tick_ps rfbi.l4_khz n)) t with
                      clk_div := (n : Int), tim0 := w })) := by
  have hbt : 0 < Spec.tick_ps rfbi.l4_khz n := by
    unfold Spec.tick_ps; rcases hn with h | h <;> subst h <;> omega
  have h := calc_reg_timing_spec rfbi t n hn hk hp0 (nonneg_req_bounds _ t hnn hbt hle)
  rw [adjusted_by_ticks_u32 _ t hnn] at h
  constructor
  · intro hs
    exact h.1 hs.2
  · intro hs
    exact h.2 (fun hf => hs ⟨hbt, hf⟩)

theorem satisfiable_of_khz_one (rfbi : rfbi_data) (t : rfbi_timings) (hk : rfbi.l4_khz = 1)
    (hnn : nonneg_req t) : Spec.satisfiable rfbi.l4_khz 1 t := by
  have hc : all_fields (fun x => Spec.ceil_div x.toNat 1000000000 ≤ 3) t := by
    refine all_fields_imp t (fun x hx => ?_) hnn
    rw [ceil_div_le_iff _ _ _ (by omega)]
    omega
  obtain ⟨h1, h2, h3, h4, h5, h6, h7, h8, h9, h10⟩ := hc
  rw [hk]
  have e : Spec.tick_ps 1 1 = 1000000000 := by decide
  unfold Spec.satisfiable
  rw [e]
  refine ⟨by omega, ?_⟩
  simp only [Spec.fits, Spec.adjusted, Spec.adjusted_by]
  omega

/-! ## The second attempt works on the structure the first attempt rounded -/

theorem all_fields_failed_attempt (P : Int → Prop) (g : Int → Int) (t : rfbi_timings) (d : Int)
    (w : Nat) :
    all_fields P { map_fields g t with clk_div := d, tim0 := w }
      ↔ all_fields (fun x => P (g x)) t :=
  Iff.rfl

theorem adjusted_by_failed_attempt (tk : Int → Nat) (g : Int → Int) (t : rfbi_timings) (d : Int)
    (w : Nat) :
    Spec.adjusted_by tk { map_fields g t with clk_div := d, tim0 := w }
      = Spec.adjusted_by (fun x => tk (g x)) t :=
  rfl

theorem rounded_twice (p : Nat) (x : Int) (hp0 : 0 < p) (hp : p ≤ 500000000)
    (hx : 0 ≤ x ∧ x < 2147483648) :
    ticks_u32 (p * 2) (rounded_field p x) = ticks_u32 (p * 2) x ∧
    rounded_field (p * 2) (rounded_field p x) = rounded_field (p * 2) x := by
  have h1 := ceil_div_mul_lt (int_to_u32 x) p hp0
  have h3 := int_to_u32_of_nonneg x hx.1 (by omega)
  have e1 := int_to_u32_rounded_field p x hp0 (by omega)
  have e2 := ceil_div_ceil_div_mul (int_to_u32 x) p 2 hp0 (by omega)
  constructor
  · unfold ticks_u32
    rw [e1, e2]
  · unfold rounded_field at e1 ⊢
    rw [e1, e2]

theorem solved_failed_attempt (p : Nat) (t : rfbi_timings) (d : Int) (w : Nat)
    (hp0 : 0 < p) (hp : p ≤ 500000000) (hnn : nonneg_req t) :
    solved (p * 2) 2 { map_fields (rounded_field p) t with clk_div := d, tim0 := w }
      = solved (p * 2) 2 t := by
  have hadj : Spec.adjusted_by (ticks_u32 (p * 2))
      { map_fields (rounded_field p) t with clk_div := d, tim0 := w }
      = Spec.adjusted_by (ticks_u32 (p * 2)) t := by
    rw [adjusted_by_failed_attempt]
    exact adjusted_by_congr _ _ _
      (all_fields_imp t (fun x hx => (rounded_twice p x hp0 hp hx).1) hnn)
  have hr : all_fields (fun x =>
      rounded_field (p * 2) (rounded_field p x) = rounded_field (p * 2) x) t :=
    all_fields_imp t (fun x hx => (rounded_twice p x hp0 hp hx).2) hnn
  obtain ⟨h1, h2, h3, h4, h5, h6, h7, h8, h9, h10⟩ := hr
  unfold solved
  rw [hadj]
  simp only [map_fields, h1, h2, h3, h4, h5, h6, h7, h8, h9, h10]

theorem second_attempt (rfbi : rfbi_data) (t : rfbi_timings) (d : Int) (w : Nat) (p : Nat)
    (hpdef : p = 1000000000 / rfbi.l4_khz)
    (hk : 2 ≤ rfbi.l4_khz) (hp0 : 0 < p) (hnn : nonneg_req t) :
    (Spec.satisfiable rfbi.l4_khz 2 t →
      calc_reg_timing p rfbi
        { map_fields (rounded_field p) t with clk_div := d, tim0 := w } 2
        = some (0, solved (p * 2) 2 t)) ∧
    (¬ Spec.satisfiable rfbi.l4_khz 2 t →
      ∃ t', calc_reg_timing p rfbi
        { map_fields (rounded_field p) t with clk_div := d, tim0 := w } 2
        = some (-1, t')) := by
  have hp : p ≤ 500000000 := by
    rw [hpdef]
    exact Nat.le_trans (Nat.div_le_div_left hk (by omega)) (by decide)
  have hbt_eq : Spec.tick_ps rfbi.l4_khz 2 = p * 2 := by rw [hpdef]; rfl
  have hb0 := nonneg_req_bounds (p * 2) t hnn (by omega) (by omega)
  have hb : all_fields (fun f =>
      Spec.ceil_div (int_to_u32 f) (p * 2) * (p * 2) + (p * 2) ≤ 4294967296
      ∧ Spec.ceil_div (int_to_u32 f) (p * 2) < 2147483648)
      { map_fields (rounded_field p) t with clk_div := d, tim0 := w } := by
    rw [all_fields_failed_attempt]
    have hboth : all_fields (fun x => (0 ≤ x ∧ x < 2147483648) ∧
        (Spec.ceil_div (int_to_u32 x) (p * 2) * (p * 2) + (p * 2) ≤ 4294967296
        ∧ Spec.ceil_div (int_to_u32 x) (p * 2) < 2147483648)) t := by
      obtain ⟨a1, a2, a3, a4, a5, a6, a7, a8, a9, a10⟩ := hnn
      obtain ⟨b1, b2, b3, b4, b5, b6, b7, b8, b9, b10⟩ := hb0
      exact ⟨⟨a1, b1⟩, ⟨a2, b2⟩, ⟨a3, b3⟩, ⟨a4, b4⟩, ⟨a5, b5⟩, ⟨a6, b6⟩, ⟨a7, b7⟩, ⟨a8, b8⟩,
        ⟨a9, b9⟩, ⟨a10, b10⟩⟩
    refine all_fields_imp t (fun x hx => ?_) hboth
    have e := (rounded_twice p x hp0 hp hx.1).1
    unfold ticks_u32 at e
    rw [e]
    exact hx.2
  have hadj : Spec.adjusted_by (ticks_u32 (p * 2))
      { map_fields (rounded_field p) t with clk_div := d, tim0 := w }
      = Spec.adjusted (p * 2) t := by
    rw [adjusted_by_failed_attempt, ← adjusted_by_ticks_u32 _ t hnn]
    exact adjusted_by_congr _ _ _
      (all_fields_imp t (fun x hx => (rounded_twice p x hp0 hp hx).1) hnn)
  have hsolved := solved_failed_attempt p t d w hp0 hp hnn
  rw [← hbt_eq] at hb hadj hsolved
  subst hpdef
  have h := calc_reg_timing_spec rfbi
    { map_fields (rounded_field (1000000000 / rfbi.l4_khz)) t with clk_div := d, tim0 := w } 2
    (Or.inr rfl) (by omega) hp0 hb
  rw [hadj, hsolved] at h
  constructor
  · intro hs
    exact h.1 hs.2
  · intro hs
    obtain ⟨w2, hw2⟩ := h.2 (fun hf => hs ⟨by rw [hbt_eq]; omega, hf⟩)
    exact ⟨_, hw2⟩

/-! ## `calc_extif_timings` in terms of the spec -/

theorem calc_extif_loop_found (p : Nat) (rfbi : rfbi_data) (m fuel : Nat) (div : Int)
    (t t' : rfbi_timings) (hdiv : int_to_u32 div ≤ m)
    (h : calc_reg_timing p rfbi t div = some (0, t')) :
    calc_extif_loop p rfbi m (fuel + 1) div t = some (div, t') := by
  rw [calc_extif_loop, if_pos hdiv, h, Option.some_bind, if_pos rfl]

theorem calc_extif_loop_next (p : Nat) (rfbi : rfbi_data) (m fuel : Nat) (div : Int)
    (t t' : rfbi_timings) (hdiv : int_to_u32 div ≤ m)
    (h : calc_reg_timing p rfbi t div = some (-1, t')) :
    calc_extif_loop p rfbi m (fuel + 1) div t
      = calc_extif_loop p rfbi m fuel (wrap_int (div + 1)) t' := by
  rw [calc_extif_loop, if_pos hdiv, h, Option.some_bind,
    if_neg (show ¬ ((-1 : Int) = 0) from by decide)]

theorem calc_extif_loop_exit (p : Nat) (rfbi : rfbi_data) (m fuel : Nat) (div : Int)
    (t : rfbi_timings) (hdiv : ¬ int_to_u32 div ≤ m) :
    calc_extif_loop p rfbi m (fuel + 1) div t = some (div, t) := by
  rw [calc_extif_loop, if_neg hdiv]

theorem calc_extif_timings_eq (g : Nat) (rfbi : rfbi_data) (t : rfbi_timings)
    (hk : 0 < rfbi.l4_khz) :
    calc_extif_timings g rfbi t =
      (calc_extif_loop (1000000000 / rfbi.l4_khz) rfbi 2 (2 + 1) 1 t).bind fun r =>
        if int_to_u32 r.1 ≤ 2 then some (0, r.2, 1000000000 / rfbi.l4_khz)
        else some (-1, r.2, 1000000000 / rfbi.l4_khz) := by
  unfold calc_extif_timings rfbi_get_clk_info
  rw [if_neg (by omega), Option.some_bind]

theorem calc_extif_timings_spec (g : Nat) (rfbi : rfbi_data) (t : rfbi_timings)
    (hk : 0 < rfbi.l4_khz) (hp0 : 0 < 1000000000 / rfbi.l4_khz) (hnn : nonneg_req t) :
    (Spec.satisfiable rfbi.l4_khz 1 t →
      calc_extif_timings g rfbi t
        = some (0, solved (Spec.tick_ps rfbi.l4_khz 1) 1 t, 1000000000 / rfbi.l4_khz)) ∧
    (¬ Spec.satisfiable rfbi.l4_khz 1 t → Spec.satisfiable rfbi.l4_khz 2 t →
      calc_extif_timings g rfbi t
        = some (0, solved (Spec.tick_ps rfbi.l4_khz 2) 2 t, 1000000000 / rfbi.l4_khz)) ∧
    (¬ Spec.satisfiable rfbi.l4_khz 1 t → ¬ Spec.satisfiable rfbi.l4_khz 2 t →
      ∃ t', calc_extif_timings g rfbi t = some (-1, t', 1000000000 / rfbi.l4_khz)) := by
  have hple : 1000000000 / rfbi.l4_khz ≤ 1000000000 := Nat.div_le_self _ _
  have h1 := calc_reg_timing_nonneg rfbi t 1 (Or.inl rfl) hk hp0
    (by rw [tick_ps_one]; exact hple) hnn
  have e1 : int_to_u32 1 ≤ 2 := by decide
  have e2 : int_to_u32 (wrap_int (1 + 1)) ≤ 2 := by decide
  have e3 : ¬ int_to_u32 (wrap_int (wrap_int (1 + 1) + 1)) ≤ 2 := by decide
  have e4 : int_to_u32 (1 : Int) ≤ 2 := by decide
  have w1 : wrap_int (1 + 1) = 2 := by decide
  rw [calc_extif_timings_eq g rfbi t hk]
  have hsecond : ¬ Spec.satisfiable rfbi.l4_khz 1 t →
      ∃ t1, calc_extif_loop (1000000000 / rfbi.l4_khz) rfbi 2 (2 + 1) 1 t =
          calc_extif_loop (1000000000 / rfbi.l4_khz) rfbi 2 2 (wrap_int (1 + 1)) t1 ∧
        (Spec.satisfiable rfbi.l4_khz 2 t →
          calc_reg_timing (1000000000 / rfbi.l4_khz) rfbi t1 (wrap_int (1 + 1))
            = some (0, solved (Spec.tick_ps rfbi.l4_khz 2) 2 t)) ∧
        (¬ Spec.satisfiable rfbi.l4_khz 2 t →
          ∃ t', calc_reg_timing (1000000000 / rfbi.l4_khz) rfbi t1 (wrap_int (1 + 1))
            = some (-1, t')) := by
    intro hs1
    obtain ⟨w, hw⟩ := h1.2 hs1
    have hk2 : 2 ≤ rfbi.l4_khz := by
      by_contra hlt
      exact hs1 (satisfiable_of_khz_one rfbi t (by omega) hnn)
    rw [tick_ps_one] at hw
    have h2 := second_attempt rfbi t ((1 : Nat) : Int) w _ rfl hk2 hp0 hnn
    rw [w1]
    exact ⟨_, calc_extif_loop_next _ rfbi 2 2 1 t _ e1 hw, h2.1, h2.2⟩
  refine ⟨fun hs => ?_, fun hs1 hs2 => ?_, fun hs1 hs2 => ?_⟩
  · rw [calc_extif_loop_found _ rfbi 2 2 1 t _ e1 (h1.1 hs), Option.some_bind, if_pos e4]
  · obtain ⟨t1, hloop, h2a, _⟩ := hsecond hs1
    rw [hloop, calc_extif_loop_found _ rfbi 2 1 _ t1 _ e2 (h2a hs2), Option.some_bind, if_pos e2]
  · obtain ⟨t1, hloop, _, h2b⟩ := hsecond hs1
    obtain ⟨t', ht'⟩ := h2b hs2
    rw [hloop, calc_extif_loop_next _ rfbi 2 1 _ t1 _ e2 ht',
      calc_extif_loop_exit _ rfbi 2 0 _ t' e3, Option.some_bind, if_neg e3]
    exact ⟨t', rfl⟩

/-! ## What a successful conversion packed -/

theorem raise_above_gt (x lo : Int) (h : lo ≤ 15) : raise_above x lo > lo := by
  unfold raise_above wrap_int
  split_ifs <;> omega

theorem raise_to_ge (x lo : Int) : raise_to x lo ≥ lo ∧ raise_to x lo ≥ x := by
  unfold raise_to
  split_ifs <;> omega

theorem ps_to_rfbi_ticks_cases (rfbi : rfbi_data) (d : Int) :
    (∀ x, ps_to_rfbi_ticks rfbi x d = none) ∨
    (∃ tk : Int → Int, ∀ x, ps_to_rfbi_ticks rfbi x d = some (tk x)) := by
  by_cases h1 : rfbi.l4_khz = 0
  · left; intro x; unfold ps_to_rfbi_ticks; rw [if_pos h1]
  by_cases h2 : u32 (1000000000 / rfbi.l4_khz * int_to_u32 d) = 0
  · left; intro x; unfold ps_to_rfbi_ticks; rw [if_neg h1]; simp only []; rw [if_pos h2]
  · right
    refine ⟨fun x => wrap_int ((u32 (u32 (int_to_u32 x
      + u32 (1000000000 / rfbi.l4_khz * int_to_u32 d)) + 4294967295)
      / u32 (1000000000 / rfbi.l4_khz * int_to_u32 d) : Nat) : Int), fun x => ?_⟩
    unfold ps_to_rfbi_ticks
    rw [if_neg h1]
    simp only []
    rw [if_neg h2]

theorem convert_ticks_none (rfbi : rfbi_data) (t : rfbi_timings)
    (h : ∀ x, ps_to_rfbi_ticks rfbi x t.clk_div = none) :
    rfbi_convert_ticks rfbi t = none ∨ rfbi_convert_ticks rfbi t = some (-1, t, none) := by
  unfold rfbi_convert_ticks
  simp only []
  by_cases hd : t.clk_div ≤ 0 ∨ t.clk_div > 2
  · right; rw [if_pos hd]
  · left; rw [if_neg hd, h]

theorem convert_with_success (tk : Int → Int) (t t' : rfbi_timings) (x : Option rfbi_ticks)
    (h : convert_with tk t = (0, t', x)) :
    ∃ L : rfbi_ticks, x = some L ∧
      t'.converted = 1 ∧
      (t'.tim2 : Int) = t.clk_div - 1 ∧
      t'.tim0 = (int_to_u32 L.cson ||| shl_u32 L.csoff 4 ||| shl_u32 L.weon 10
        ||| shl_u32 L.weoff 14 ||| shl_u32 L.reon 20 ||| shl_u32 L.reoff 24) ∧
      t'.tim1 = (int_to_u32 L.wecyc ||| shl_u32 L.recyc 6 ||| shl_u32 L.cs_pulse 12
        ||| shl_u32 L.actim 22) ∧
      L.weon ≤ 15 ∧ L.reon ≤ 15 ∧ L.cson ≤ 15 ∧ L.weoff ≤ 63 ∧ L.reoff ≤ 63 ∧ L.csoff ≤ 63 ∧
      L.actim ≤ 63 ∧ L.wecyc ≤ 63 ∧ L.recyc ≤ 63 ∧ L.cs_pulse ≤ 63 ∧
      L.weoff > L.weon ∧ L.reoff > L.reon ∧ L.csoff > L.cson ∧
      L.csoff ≥ max_int L.weoff L.reoff ∧ L.actim > L.reon ∧
      L.wecyc ≥ L.weoff ∧ L.recyc ≥ L.reoff := by
  unfold convert_with at h
  simp only [] at h
  by_cases c0 : t.clk_div ≤ 0 ∨ t.clk_div > 2
  · rw [if_pos c0] at h; exact absurd (congrArg Prod.fst h) (show ¬ ((-1 : Int) = 0) from by decide)
  rw [if_neg c0] at h
  by_cases c1 : tk t.we_on_time > 15
  · rw [if_pos c1] at h; exact absurd (congrArg Prod.fst h) (show ¬ ((-1 : Int) = 0) from by decide)
  rw [if_neg c1] at h
  by_cases c2 : raise_above (tk t.we_off_time) (tk t.we_on_time) > 63
  · rw [if_pos c2] at h; exact absurd (congrArg Prod.fst h) (show ¬ ((-1 : Int) = 0) from by decide)
  rw [if_neg c2] at h
  by_cases c3 : tk t.re_on_time > 15
  · rw [if_pos c3] at h; exact absurd (congrArg Prod.fst h) (show ¬ ((-1 : Int) = 0) from by decide)
  rw [if_neg c3] at h
  by_cases c4 : raise_above (tk t.re_off_time) (tk t.re_on_time) > 63
  · rw [if_pos c4] at h; exact absurd (congrArg Prod.fst h) (show ¬ ((-1 : Int) = 0) from by decide)
  rw [if_neg c4] at h
  by_cases c5 : tk t.cs_on_time > 15
  · rw [if_pos c5] at h; exact absurd (congrArg Prod.fst h) (show ¬ ((-1 : Int) = 0) from by decide)
  rw [if_neg c5] at h
  split_ifs at h with c6 c7 c8 c9 c10
  · exact absurd (congrArg Prod.fst h) (show ¬ ((-1 : Int) = 0) from by decide)
  · exact absurd (congrArg Prod.fst h) (show ¬ ((-1 : Int) = 0) from by decide)
  · exact absurd (congrArg Prod.fst h) (show ¬ ((-1 : Int) = 0) from by decide)
  · exact absurd (congrArg Prod.fst h) (show ¬ ((-1 : Int) = 0) from by decide)
  · exact absurd (congrArg Prod.fst h) (show ¬ ((-1 : Int) = 0) from by decide)
  · have ht : t' = _ := (congrArg (fun r => r.2.1) h).symm
    have hx : x = _ := (congrArg (fun r => r.2.2) h).symm
    have hw : wrap_int (t.clk_div - 1) = t.clk_div - 1 := by unfold wrap_int; omega
    have hdiv : (int_to_u32 (t.clk_div - 1) : Int) = t.clk_div - 1 := by
      unfold int_to_u32; omega
    have g1 := raise_above_gt (tk t.we_off_time) (tk t.we_on_time) (by omega)
    have g2 := raise_above_gt (tk t.re_off_time) (tk t.re_on_time) (by omega)
    have g3 := raise_above_gt (tk t.cs_off_time) (tk t.cs_on_time) (by omega)
    have g4 := raise_above_gt (tk t.access_time) (tk t.re_on_time) (by omega)
    have g5 := raise_to_ge (raise_above (tk t.cs_off_time) (tk t.cs_on_time))
      (max_int (raise_above (tk t.we_off_time) (tk t.we_on_time))
        (raise_above (tk t.re_off_time) (tk t.re_on_time)))
    have g6 := raise_to_ge (tk t.we_cycle_time) (raise_above (tk t.we_off_time) (tk t.we_on_time))
    have g7 := raise_to_ge (tk t.re_cycle_time) (raise_above (tk t.re_off_time) (tk t.re_on_time))
    simp only [] at ht hx
    refine ⟨_, hx, ?_⟩
    subst ht
    simp only [hw]
    refine ⟨trivial, hdiv, trivial, trivial, ?_⟩
    refine ⟨by omega, by omega, by omega, by omega, by omega, by omega, by omega, by omega,
      by omega, by omega, g1, g2, by omega, g5.1, g4, g6.1, g7.1⟩

/-! ## Packed words and their sub-fields -/

theorem lor_shiftLeft_eq_add (a b k : Nat) (h : a < 2 ^ k) : a ||| b <<< k = a + b * 2 ^ k := by
  rw [Nat.shiftLeft_eq, Nat.lor_comm, Nat.mul_comm, ← Nat.mul_add_lt_is_or h, Nat.add_comm]

theorem word_A_eq_sum (c : Spec.counts) (hf : Spec.fits c) :
    Spec.word_A c = c.cs_on + c.cs_off * 16 + c.we_on * 1024 + c.we_off * 16384
      + c.re_on * 1048576 + c.re_off * 16777216 := by
  obtain ⟨f1, f2, f3, f4, f5, f6, f7, f8, f9, f10⟩ := hf
  unfold Spec.word_A
  rw [lor_shiftLeft_eq_add _ _ 4 (by norm_num; omega)]
  rw [lor_shiftLeft_eq_add _ _ 10 (by norm_num; omega)]
  rw [lor_shiftLeft_eq_add _ _ 14 (by norm_num; omega)]
  rw [lor_shiftLeft_eq_add _ _ 20 (by norm_num; omega)]
  rw [lor_shiftLeft_eq_add _ _ 24 (by norm_num; omega)]
  norm_num

theorem word_B_eq_sum (c : Spec.counts) (hf : Spec.fits c) :
    Spec.word_B c = c.we_cycle + c.re_cycle * 64 + c.cs_pulse * 4096 + c.access * 4194304 := by
  obtain ⟨f1, f2, f3, f4, f5, f6, f7, f8, f9, f10⟩ := hf
  unfold Spec.word_B
  rw [lor_shiftLeft_eq_add _ _ 6 (by norm_num; omega)]
  rw [lor_shiftLeft_eq_add _ _ 12 (by norm_num; omega)]
  rw [lor_shiftLeft_eq_add _ _ 22 (by norm_num; omega)]
  norm_num

theorem word_A_fields (c : Spec.counts) (hf : Spec.fits c) :
    Spec.field_of (Spec.word_A c) 3 0 = c.cs_on ∧ Spec.field_of (Spec.word_A c) 9 4 = c.cs_off ∧
    Spec.field_of (Spec.word_A c) 13 10 = c.we_on ∧
    Spec.field_of (Spec.word_A c) 19 14 = c.we_off ∧
    Spec.field_of (Spec.word_A c) 23 20 = c.re_on ∧
    Spec.field_of (Spec.word_A c) 29 24 = c.re_off ∧ Spec.word_A c < 2 ^ 30 := by
  rw [word_A_eq_sum c hf]
  obtain ⟨f1, f2, f3, f4, f5, f6, f7, f8, f9, f10⟩ := hf
  simp only [Spec.field_of, Nat.shiftRight_eq_div_pow]
  norm_num
  omega

theorem word_B_fields (c : Spec.counts) (hf : Spec.fits c) :
    Spec.field_of (Spec.word_B c) 5 0 = c.we_cycle ∧
    Spec.field_of (Spec.word_B c) 11 6 = c.re_cycle ∧
    Spec.field_of (Spec.word_B c) 17 12 = c.cs_pulse ∧
    Spec.field_of (Spec.word_B c) 27 22 = c.access ∧
    Spec.field_of (Spec.word_B c) 21 18 = 0 ∧ Spec.word_B c < 2 ^ 28 := by
  rw [word_B_eq_sum c hf]
  obtain ⟨f1, f2, f3, f4, f5, f6, f7, f8, f9, f10⟩ := hf
  simp only [Spec.field_of, Nat.shiftRight_eq_div_pow]
  norm_num
  omega

/-! ## The timing solver: claims C1 to C4 -/

theorem converts_iff_satisfiable (rfbi : rfbi_data) (t : rfbi_timings) (n : Nat)
    (hn : n = 1 ∨ n = 2) (hk : 0 < rfbi.l4_khz) (hp0 : 0 < 1000000000 / rfbi.l4_khz)
    (hle : Spec.tick_ps rfbi.l4_khz n ≤ 1000000000) (hnn : nonneg_req t) :
    (∃ t', calc_reg_timing (1000000000 / rfbi.l4_khz) rfbi t (n : Int) = some (0, t'))
      ↔ Spec.satisfiable rfbi.l4_khz n t := by
  have h := calc_reg_timing_nonneg rfbi t n hn hk hp0 hle hnn
  constructor
  · rintro ⟨t', ht'⟩
    by_contra hs
    obtain ⟨w, hw⟩ := h.2 hs
    rw [hw] at ht'
    exact absurd (congrArg (fun r => r.1) (Option.some.inj ht'))
      (show ¬ ((-1 : Int) = 0) from by decide)
  · intro hs
    exact ⟨_, h.1 hs⟩

/-- C1: for a requirement of non-negative fields and a clock rate with a positive
period, `calc_extif_timings` returns 0 or -1; it returns 0 exactly when
`calc_reg_timing` applied to the original requirement returns 0 at divider 1 or at
divider 2; on success the divider stored is 1 or 2, the structure is the one
`calc_reg_timing` produces from the original requirement at that divider, a requirement
that converts at divider 1 gets divider 1, and `tim[2]` is `clk_div - 1`. -/
theorem calc_extif_timings_smallest_divider (g : Nat) (rfbi : rfbi_data) (t : rfbi_timings)
    (hk : 0 < rfbi.l4_khz) (hp0 : 0 < 1000000000 / rfbi.l4_khz) (hnn : nonneg_req t) :
    ∃ r t', calc_extif_timings g rfbi t = some (r, t', 1000000000 / rfbi.l4_khz) ∧
      (r = 0 ∨ r = -1) ∧
      (r = 0 ↔
        ((∃ t1, calc_reg_timing (1000000000 / rfbi.l4_khz) rfbi t 1 = some (0, t1)) ∨
         (∃ t2, calc_reg_timing (1000000000 / rfbi.l4_khz) rfbi t 2 = some (0, t2)))) ∧
      (r = 0 →
        (t'.clk_div = 1 ∨ t'.clk_div = 2) ∧
        calc_reg_timing (1000000000 / rfbi.l4_khz) rfbi t t'.clk_div = some (0, t') ∧
        ((∃ t1, calc_reg_timing (1000000000 / rfbi.l4_khz) rfbi t 1 = some (0, t1)) →
          t'.clk_div = 1) ∧
        (t'.tim2 : Int) = t'.clk_div - 1) := by
  have hple : 1000000000 / rfbi.l4_khz ≤ 1000000000 := Nat.div_le_self _ _
  have hle1 : Spec.tick_ps rfbi.l4_khz 1 ≤ 1000000000 := by rw [tick_ps_one]; exact hple
  have hspec := calc_extif_timings_spec g rfbi t hk hp0 hnn
  have h1 := calc_reg_timing_nonneg rfbi t 1 (Or.inl rfl) hk hp0 hle1 hnn
  have c1 := converts_iff_satisfiable rfbi t 1 (Or.inl rfl) hk hp0 hle1 hnn
  rw [Nat.cast_one] at h1 c1
  by_cases hs1 : Spec.satisfiable rfbi.l4_khz 1 t
  · refine ⟨0, _, hspec.1 hs1, Or.inl rfl, ?_, fun _ => ?_⟩
    · exact ⟨fun _ => Or.inl (c1.2 hs1), fun _ => rfl⟩
    · exact ⟨Or.inl rfl, h1.1 hs1, fun _ => rfl, rfl⟩
  · have hk2 : 2 ≤ rfbi.l4_khz := by
      by_contra hlt
      exact hs1 (satisfiable_of_khz_one rfbi t (by omega) hnn)
    have hle2 : Spec.tick_ps rfbi.l4_khz 2 ≤ 1000000000 := by
      have : 1000000000 / rfbi.l4_khz ≤ 500000000 :=
        Nat.le_trans (Nat.div_le_div_left hk2 (by omega)) (by decide)
      unfold Spec.tick_ps
      omega
    have h2 := calc_reg_timing_nonneg rfbi t 2 (Or.inr rfl) hk hp0 hle2 hnn
    have c2 := converts_iff_satisfiable rfbi t 2 (Or.inr rfl) hk hp0 hle2 hnn
    rw [Nat.cast_ofNat] at h2 c2
    by_cases hs2 : Spec.satisfiable rfbi.l4_khz 2 t
    · refine ⟨0, _, hspec.2.1 hs1 hs2, Or.inl rfl, ?_, fun _ => ?_⟩
      · exact ⟨fun _ => Or.inr (c2.2 hs2), fun _ => rfl⟩
      · exact ⟨Or.inr rfl, h2.1 hs2, fun hc => absurd (c1.1 hc) hs1, rfl⟩
    · obtain ⟨t', ht'⟩ := hspec.2.2 hs1 hs2
      refine ⟨-1, t', ht', Or.inr rfl, ?_, fun hr => ?_⟩
      · constructor
        · intro hr
          exact absurd hr (by decide)
        · rintro (hc | hc)
          · exact absurd (c1.1 hc) hs1
          · exact absurd (c2.1 hc) hs2
      · exact absurd hr (by decide)

theorem solved_words (bt n : Nat) (t : rfbi_timings) (hnn : nonneg_req t) :
    (solved bt n t).tim0 = Spec.word_A (Spec.adjusted bt t) ∧
    (solved bt n t).tim1 = Spec.word_B (Spec.adjusted bt t) ∧
    (solved bt n t).converted = 1 ∧ (solved bt n t).clk_div = (n : Int) := by
  rw [← adjusted_by_ticks_u32 bt t hnn]
  exact ⟨rfl, rfl, rfl, rfl⟩

/-- C2: for a requirement of non-negative fields that is satisfiable at divider 1 or at
divider 2 (positive tick, every adjusted tick count of the spec within its width),
`calc_extif_timings` returns 0 with `converted = 1` and a divider `d` of 1 or 2, and
every sub-field of the two packed words holds the adjusted tick count of the
requirement at that divider, within its width: in `tim[0]` bits 3:0, 13:10, 23:20
(cs_on, we_on, re_on) are at most 15 and bits 9:4, 19:14, 29:24 (cs_off, we_off, re_off)
at most 63; in `tim[1]` bits 5:0, 11:6, 17:12, 27:22 (we_cycle, re_cycle, cs_pulse,
access) are at most 63; no other bit of either word is set. -/
theorem calc_extif_timings_fields_within_width (g : Nat) (rfbi : rfbi_data) (t : rfbi_timings)
    (hk : 0 < rfbi.l4_khz) (hnn : nonneg_req t)
    (hsat : Spec.satisfiable rfbi.l4_khz 1 t ∨ Spec.satisfiable rfbi.l4_khz 2 t) :
    ∃ (t' : rfbi_timings) (d : Nat), (d = 1 ∨ d = 2) ∧
      calc_extif_timings g rfbi t = some (0, t', 1000000000 / rfbi.l4_khz) ∧
      t'.converted = 1 ∧ t'.clk_div = (d : Int) ∧
      Spec.field_of t'.tim0 3 0 = (Spec.adjusted (Spec.tick_ps rfbi.l4_khz d) t).cs_on ∧
      Spec.field_of t'.tim0 13 10 = (Spec.adjusted (Spec.tick_ps rfbi.l4_khz d) t).we_on ∧
      Spec.field_of t'.tim0 23 20 = (Spec.adjusted (Spec.tick_ps rfbi.l4_khz d) t).re_on ∧
      Spec.field_of t'.tim0 9 4 = (Spec.adjusted (Spec.tick_ps rfbi.l4_khz d) t).cs_off ∧
      Spec.field_of t'.tim0 19 14 = (Spec.adjusted (Spec.tick_ps rfbi.l4_khz d) t).we_off ∧
      Spec.field_of t'.tim0 29 24 = (Spec.adjusted (Spec.tick_ps rfbi.l4_khz d) t).re_off ∧
      Spec.field_of t'.tim1 5 0 = (Spec.adjusted (Spec.tick_ps rfbi.l4_khz d) t).we_cycle ∧
      Spec.field_of t'.tim1 11 6 = (Spec.adjusted (Spec.tick_ps rfbi.l4_khz d) t).re_cycle ∧
      Spec.field_of t'.tim1 17 12 = (Spec.adjusted (Spec.tick_ps rfbi.l4_khz d) t).cs_pulse ∧
      Spec.field_of t'.tim1 27 22 = (Spec.adjusted (Spec.tick_ps rfbi.l4_khz d) t).access ∧
      Spec.field_of t'.tim0 3 0 ≤ 15 ∧ Spec.field_of t'.tim0 13 10 ≤ 15 ∧
      Spec.field_of t'.tim0 23 20 ≤ 15 ∧ Spec.field_of t'.tim0 9 4 ≤ 63 ∧
      Spec.field_of t'.tim0 19 14 ≤ 63 ∧ Spec.field_of t'.tim0 29 24 ≤ 63 ∧
      Spec.field_of t'.tim1 5 0 ≤ 63 ∧ Spec.field_of t'.tim1 11 6 ≤ 63 ∧
      Spec.field_of t'.tim1 17 12 ≤ 63 ∧ Spec.field_of t'.tim1 27 22 ≤ 63 ∧
      t'.tim0 < 2 ^ 30 ∧ t'.tim1 < 2 ^ 28 ∧ Spec.field_of t'.tim1 21 18 = 0 := by
  have hp0 : 0 < 1000000000 / rfbi.l4_khz := by
    rcases hsat with h | h
    · have := h.1; unfold Spec.tick_ps at this; omega
    · have := h.1; unfold Spec.tick_ps at this; omega
  have hspec := calc_extif_timings_spec g rfbi t hk hp0 hnn
  obtain ⟨d, hd, hs, he⟩ : ∃ d : Nat, (d = 1 ∨ d = 2) ∧ Spec.satisfiable rfbi.l4_khz d t ∧
      calc_extif_timings g rfbi t
        = some (0, solved (Spec.tick_ps rfbi.l4_khz d) d t, 1000000000 / rfbi.l4_khz) := by
    by_cases hs1 : Spec.satisfiable rfbi.l4_khz 1 t
    · exact ⟨1, Or.inl rfl, hs1, hspec.1 hs1⟩
    · have hs2 : Spec.satisfiable rfbi.l4_khz 2 t := by
        rcases hsat with h | h
        · exact absurd h hs1
        · exact h
      exact ⟨2, Or.inr rfl, hs2, hspec.2.1 hs1 hs2⟩
  obtain ⟨w0, w1, wc, wd⟩ := solved_words (Spec.tick_ps rfbi.l4_khz d) d t hnn
  obtain ⟨a1, a2, a3, a4, a5, a6, a7⟩ := word_A_fields _ hs.2
  obtain ⟨b1, b2, b3, b4, b5, b6⟩ := word_B_fields _ hs.2
  obtain ⟨f1, f2, f3, f4, f5, f6, f7, f8, f9, f10⟩ := hs.2
  refine ⟨solved (Spec.tick_ps rfbi.l4_khz d) d t, d, hd, he, wc, wd, ?_⟩
  rw [w0, w1, a1, a2, a3, a4, a5, a6, b1, b2, b3, b4, b5]
  exact ⟨rfl, rfl, rfl, rfl, rfl, rfl, rfl, rfl, rfl, rfl, f1, f2, f3, f4, f5, f6, f7, f8, f9,
    f10, a7, b6, rfl⟩

/-- C3: whenever `rfbi_convert_timings` returns 0 it has set `converted = 1`, and the
tick counts it packed into `tim[0]` and `tim[1]` satisfy the ordering invariants:
we_off > we_on, re_off > re_on, cs_off > cs_on, cs_off >= max(we_off, re_off),
access > re_on, we_cycle >= we_off and re_cycle >= re_off. -/
theorem rfbi_convert_timings_ordering (rfbi : rfbi_data) (t t' : rfbi_timings)
    (h : rfbi_convert_timings rfbi t = some (0, t')) :
    t'.converted = 1 ∧
    ∃ L : rfbi_ticks, rfbi_convert_ticks rfbi t = some (0, t', some L) ∧
      t'.tim0 = (int_to_u32 L.cson ||| shl_u32 L.csoff 4 ||| shl_u32 L.weon 10
        ||| shl_u32 L.weoff 14 ||| shl_u32 L.reon 20 ||| shl_u32 L.reoff 24) ∧
      t'.tim1 = (int_to_u32 L.wecyc ||| shl_u32 L.recyc 6 ||| shl_u32 L.cs_pulse 12
        ||| shl_u32 L.actim 22) ∧
      L.weoff > L.weon ∧ L.reoff > L.reon ∧ L.csoff > L.cson ∧
      L.csoff ≥ max_int L.weoff L.reoff ∧ L.actim > L.reon ∧
      L.wecyc ≥ L.weoff ∧ L.recyc ≥ L.reoff := by
  unfold rfbi_convert_timings at h
  cases hres : rfbi_convert_ticks rfbi t with
  | none => rw [hres] at h; exact absurd h (by simp)
  | some r =>
    rw [hres, Option.map_some'] at h
    have hr := Option.some.inj h
    have hr1 : r.1 = 0 := congrArg Prod.fst hr
    have hr2 : r.2.1 = t' := congrArg Prod.snd hr
    rcases ps_to_rfbi_ticks_cases rfbi t.clk_div with hn | ⟨tk, htk⟩
    · rcases convert_ticks_none rfbi t hn with e | e
      · rw [e] at hres; exact absurd hres (by simp)
      · rw [e] at hres
        have e1 : (-1 : Int) = r.1 := congrArg Prod.fst (Option.some.inj hres)
        rw [hr1] at e1
        exact absurd e1 (by decide)
    · have hlink := convert_ticks_eq_with rfbi t tk
        ⟨htk _, htk _, htk _, htk _, htk _, htk _, htk _, htk _, htk _, htk _⟩
      rw [hlink] at hres
      have hcw : convert_with tk t = (0, t', r.2.2) := by
        rw [Option.some.inj hres, ← hr1, ← hr2]
      obtain ⟨L, hx, hc, _, h0, h1, _, _, _, _, _, _, _, _, _, _, i1, i2, i3, i4, i5, i6, i7⟩ :=
        convert_with_success tk t t' r.2.2 hcw
      refine ⟨hc, L, ?_, h0, h1, i1, i2, i3, i4, i5, i6, i7⟩
      rw [← Option.some.inj hres, hcw, hx]

theorem ps_to_rfbi_ticks_zero_period (rfbi : rfbi_data) (x d : Int)
    (h : 1000000000 / rfbi.l4_khz = 0) : ps_to_rfbi_ticks rfbi x d = none := by
  unfold ps_to_rfbi_ticks
  by_cases h1 : rfbi.l4_khz = 0
  · rw [if_pos h1]
  · rw [if_neg h1]
    simp only [h, Nat.zero_mul]
    rfl

theorem convert_timings_ne_of_none (rfbi : rfbi_data) (t t' : rfbi_timings)
    (hn : ∀ x, ps_to_rfbi_ticks rfbi x t.clk_div = none) :
    rfbi_convert_timings rfbi t ≠ some (0, t') := by
  intro h
  unfold rfbi_convert_timings at h
  rcases convert_ticks_none rfbi t hn with e | e
  · rw [e] at h; exact absurd h (by simp)
  · rw [e, Option.map_some'] at h
    exact absurd (congrArg Prod.fst (Option.some.inj h)) (show ¬ ((-1 : Int) = 0) from by decide)

/-- C4: for a divider `d` of 1 or 2, a positive clock rate and a requirement of
non-negative fields on which `rfbi_convert_timings` returns 0, the packed words are
those of the spec: with `ticks(x) = ceil(x / ((1000000000 / l4_khz) * d))` and the counts
adjusted by the ordering rules, `tim[0] = cs_on | cs_off<<4 | we_on<<10 | we_off<<14 |
re_on<<20 | re_off<<24` and `tim[1] = we_cycle | re_cycle<<6 | cs_pulse<<12 | access<<22`. -/
theorem rfbi_convert_timings_words (rfbi : rfbi_data) (t t' : rfbi_timings) (d : Nat)
    (hd : d = 1 ∨ d = 2) (hk : 0 < rfbi.l4_khz) (hnn : nonneg_req t)
    (hdiv : t.clk_div = (d : Int)) (h : rfbi_convert_timings rfbi t = some (0, t')) :
    t'.tim0 = Spec.word_A (Spec.adjusted (Spec.tick_ps rfbi.l4_khz d) t) ∧
    t'.tim1 = Spec.word_B (Spec.adjusted (Spec.tick_ps rfbi.l4_khz d) t) := by
  by_cases hp0 : 0 < 1000000000 / rfbi.l4_khz
  · have hple : 1000000000 / rfbi.l4_khz ≤ 1000000000 := Nat.div_le_self _ _
    have ht : 0 < Spec.tick_ps rfbi.l4_khz d := by
      unfold Spec.tick_ps; rcases hd with e | e <;> subst e <;> omega
    have htle : Spec.tick_ps rfbi.l4_khz d ≤ 2000000000 := by
      unfold Spec.tick_ps; rcases hd with e | e <;> subst e <;> omega
    have hticks : all_fields (fun x => ps_to_rfbi_ticks rfbi x t.clk_div
        = some ((ticks_u32 (Spec.tick_ps rfbi.l4_khz d) x : Nat) : Int)) t := by
      rw [hdiv]
      refine all_fields_imp t (fun x hx => ?_) hnn
      have h3 := int_to_u32_of_nonneg x hx.1 (by omega)
      have h4 := ceil_div_le_self (int_to_u32 x) _ ht
      exact ps_to_rfbi_ticks_eq rfbi x d hd hk ht (by omega) (by omega)
    have hlink := convert_ticks_eq_with rfbi t _ hticks
    unfold rfbi_convert_timings at h
    rw [hlink, Option.map_some'] at h
    have hr := Option.some.inj h
    rw [← adjusted_by_ticks_u32 _ t hnn]
    by_cases hf : Spec.fits (Spec.adjusted_by (ticks_u32 (Spec.tick_ps rfbi.l4_khz d)) t)
    · have hdiv2 : t.clk_div = 1 ∨ t.clk_div = 2 := by omega
      rw [convert_with_fits _ t hdiv2 hf] at hr
      have ht' : t' = _ := (congrArg Prod.snd hr).symm
      rw [ht']
      exact ⟨rfl, rfl⟩
    · obtain ⟨w, hw⟩ := convert_with_unfit _ t hf
      rw [hw] at hr
      exact absurd (congrArg Prod.fst hr) (show ¬ ((-1 : Int) = 0) from by decide)
  · exact absurd h (convert_timings_ne_of_none rfbi t t'
      (fun x => ps_to_rfbi_ticks_zero_period rfbi x _ (Nat.eq_zero_of_not_pos hp0)))

/-- Witness of C1: the panel's requirement on a 2 GHz bus clock (period 500 ps), where
divider 1 does not fit and divider 2 does. -/
theorem calc_extif_timings_smallest_divider_witness :
    0 < (rfbi_probed 2000000).l4_khz ∧ 0 < 1000000000 / (rfbi_probed 2000000).l4_khz ∧
    nonneg_req n8x0_panel_rfbi_timings ∧
    ∃ r t', calc_extif_timings 0 (rfbi_probed 2000000) n8x0_panel_rfbi_timings
        = some (r, t', 1000000000 / (rfbi_probed 2000000).l4_khz) ∧
      (r = 0 ∨ r = -1) ∧
      (r = 0 ↔
        ((∃ t1, calc_reg_timing (1000000000 / (rfbi_probed 2000000).l4_khz)
            (rfbi_probed 2000000) n8x0_panel_rfbi_timings 1 = some (0, t1)) ∨
         (∃ t2, calc_reg_timing (1000000000 / (rfbi_probed 2000000).l4_khz)
            (rfbi_probed 2000000) n8x0_panel_rfbi_timings 2 = some (0, t2)))) ∧
      (r = 0 →
        (t'.clk_div = 1 ∨ t'.clk_div = 2) ∧
        calc_reg_timing (1000000000 / (rfbi_probed 2000000).l4_khz) (rfbi_probed 2000000)
          n8x0_panel_rfbi_timings t'.clk_div = some (0, t') ∧
        ((∃ t1, calc_reg_timing (1000000000 / (rfbi_probed 2000000).l4_khz)
            (rfbi_probed 2000000) n8x0_panel_rfbi_timings 1 = some (0, t1)) →
          t'.clk_div = 1) ∧
        (t'.tim2 : Int) = t'.clk_div - 1) :=
  ⟨by decide, by decide, by unfold nonneg_req all_fields; decide,
    calc_extif_timings_smallest_divider 0 (rfbi_probed 2000000) n8x0_panel_rfbi_timings
      (by decide) (by decide) (by unfold nonneg_req all_fields; decide)⟩

/-- Witness of C2: the panel's requirement on a 50 MHz bus clock is satisfiable at
divider 1. -/
theorem calc_extif_timings_fields_within_width_witness :
    Spec.satisfiable (rfbi_probed 50000).l4_khz 1 n8x0_panel_rfbi_timings ∧
    ∃ (t' : rfbi_timings) (d : Nat), (d = 1 ∨ d = 2) ∧
      calc_extif_timings 0 (rfbi_probed 50000) n8x0_panel_rfbi_timings
        = some (0, t', 1000000000 / (rfbi_probed 50000).l4_khz) ∧
      t'.converted = 1 ∧ t'.clk_div = (d : Int) ∧
      Spec.field_of t'.tim0 3 0 ≤ 15 ∧ Spec.field_of t'.tim0 13 10 ≤ 15 ∧
      Spec.field_of t'.tim0 23 20 ≤ 15 ∧ Spec.field_of t'.tim0 9 4 ≤ 63 ∧
      Spec.field_of t'.tim0 19 14 ≤ 63 ∧ Spec.field_of t'.tim0 29 24 ≤ 63 ∧
      Spec.field_of t'.tim1 5 0 ≤ 63 ∧ Spec.field_of t'.tim1 11 6 ≤ 63 ∧
      Spec.field_of t'.tim1 17 12 ≤ 63 ∧ Spec.field_of t'.tim1 27 22 ≤ 63 ∧
      t'.tim0 < 2 ^ 30 ∧ t'.tim1 < 2 ^ 28 := by
  refine ⟨by decide, ?_⟩
  obtain ⟨t', d, h1, h2, h3, h4, _, _, _, _, _, _, _, _, _, _, b1, b2, b3, b4, b5, b6, b7, b8,
    b9, b10, b11, b12, _⟩ :=
    calc_extif_timings_fields_within_width 0 (rfbi_probed 50000) n8x0_panel_rfbi_timings
      (by decide) (by unfold nonneg_req all_fields; decide) (Or.inl (by decide))
  exact ⟨t', d, h1, h2, h3, h4, b1, b2, b3, b4, b5, b6, b7, b8, b9, b10, b11, b12⟩

/-- Witness of C3: the conversion of the panel's requirement at divider 1, 50 MHz. -/
theorem rfbi_convert_timings_ordering_witness :
    rfbi_convert_timings (rfbi_probed 50000) n8x0_div1 = some (0, n8x0_div1_converted) ∧
    n8x0_div1_converted.converted = 1 ∧
    ∃ L : rfbi_ticks,
      rfbi_convert_ticks (rfbi_probed 50000) n8x0_div1 = some (0, n8x0_div1_converted, some L) ∧
      L.weoff > L.weon ∧ L.reoff > L.reon ∧ L.csoff > L.cson ∧
      L.csoff ≥ max_int L.weoff L.reoff ∧ L.actim > L.reon ∧
      L.wecyc ≥ L.weoff ∧ L.recyc ≥ L.reoff := by
  refine ⟨by decide, ?_⟩
  obtain ⟨hc, L, h0, _, _, i1, i2, i3, i4, i5, i6, i7⟩ :=
    rfbi_convert_timings_ordering (rfbi_probed 50000) n8x0_div1 n8x0_div1_converted (by decide)
  exact ⟨hc, L, h0, i1, i2, i3, i4, i5, i6, i7⟩

/-- Witness of C4: the words packed for the panel's requirement at divider 1, 50 MHz. -/
theorem rfbi_convert_timings_words_witness :
    rfbi_convert_timings (rfbi_probed 50000) n8x0_div1 = some (0, n8x0_div1_converted) ∧
    n8x0_div1_converted.tim0
      = Spec.word_A (Spec.adjusted (Spec.tick_ps (rfbi_probed 50000).l4_khz 1) n8x0_div1) ∧
    n8x0_div1_converted.tim1
      = Spec.word_B (Spec.adjusted (Spec.tick_ps (rfbi_probed 50000).l4_khz 1) n8x0_div1) :=
  ⟨by decide,
    rfbi_convert_timings_words (rfbi_probed 50000) n8x0_div1 n8x0_div1_converted 1
      (Or.inl rfl) (by decide) (by unfold nonneg_req all_fields; decide) rfl (by decide)⟩

/-! ## Register fields -/

theorem u32_lt (n : Nat) : u32 n < 4294967296 := Nat.mod_lt _ (by decide)

theorem u32_of_lt (n : Nat) (h : n < 4294967296) : u32 n = n := Nat.mod_eq_of_lt h

theorem testBit_u32 (x i : Nat) : (u32 x).testBit i = (decide (i < 32) && x.testBit i) := by
  have : u32 x = x % 2 ^ 32 := rfl
  rw [this, Nat.testBit_mod_two_pow]

theorem testBit_FLD_MASK (s e i : Nat) (hs : s < 32) (he : e ≤ s) :
    (FLD_MASK s e).testBit i = decide (e ≤ i ∧ i ≤ s) := by
  unfold FLD_MASK
  rw [testBit_u32, Nat.testBit_shiftLeft, Nat.testBit_two_pow_sub_one]
  by_cases h1 : e ≤ i
  · by_cases h2 : i ≤ s
    · simp [h1, h2]; omega
    · simp [h1, h2]; omega
  · simp [h1]

theorem testBit_FLD_VAL (val s e i : Nat) (hs : s < 32) (he : e ≤ s) :
    (FLD_VAL val s e).testBit i = (decide (e ≤ i ∧ i ≤ s) && val.testBit (i - e)) := by
  unfold FLD_VAL
  rw [Nat.testBit_and, testBit_FLD_MASK s e i hs he, testBit_u32, Nat.testBit_shiftLeft]
  by_cases h1 : e ≤ i
  · by_cases h2 : i ≤ s
    · have : i < 32 := by omega
      simp [h1, h2, this]
    · simp [h1, h2]
  · simp [h1]

theorem testBit_FLD_MOD (orig val s e i : Nat) (ho : orig < 4294967296) (hs : s < 32)
    (he : e ≤ s) :
    (FLD_MOD orig val s e).testBit i
      = if e ≤ i ∧ i ≤ s then val.testBit (i - e) else orig.testBit i := by
  unfold FLD_MOD
  have h32 : (4294967295 : Nat) = 2 ^ 32 - 1 := by norm_num
  rw [Nat.testBit_or, Nat.testBit_and, Nat.testBit_xor, testBit_FLD_VAL val s e i hs he,
    testBit_FLD_MASK s e i hs he, h32, Nat.testBit_two_pow_sub_one]
  by_cases h1 : e ≤ i ∧ i ≤ s
  · have : i < 32 := by omega
    simp [h1, this]
  · rw [if_neg h1]
    by_cases h2 : i < 32
    · simp [h1, h2]
    · have : orig.testBit i = false :=
        Nat.testBit_lt_two_pow (Nat.lt_of_lt_of_le ho
          (Nat.pow_le_pow_right (show 2 > 0 from by decide) (by omega : 32 ≤ i)))
      simp [h1, h2, this]

theorem FLD_MOD_lt (orig val s e : Nat) (ho : orig < 4294967296) :
    FLD_MOD orig val s e < 4294967296 := by
  unfold FLD_MOD FLD_VAL
  have h32 : (4294967296 : Nat) = 2 ^ 32 := by norm_num
  rw [h32] at ho ⊢
  apply Nat.or_lt_two_pow
  · exact Nat.lt_of_le_of_lt Nat.and_le_left ho
  · exact Nat.lt_of_le_of_lt Nat.and_le_left (by rw [← h32]; exact u32_lt _)

theorem testBit_one (i : Nat) : (1 : Nat).testBit i = decide (i = 0) := by
  cases i with
  | zero => rfl
  | succ j => simp [Nat.testBit_succ]

/-- Setting the enable bit: `FLD_MOD(l, 1, 0, 0)` is `l | 0x01`. -/
theorem FLD_MOD_enable (c : Nat) (hc : c < 4294967296) : FLD_MOD c 1 0 0 = c ||| 0x01 := by
  apply Nat.eq_of_testBit_eq
  intro i
  rw [testBit_FLD_MOD c 1 0 0 i hc (by decide) (by decide), Nat.testBit_or, testBit_one,
    testBit_one]
  by_cases h : i = 0
  · subst h; simp
  · have : ¬ (0 ≤ i ∧ i ≤ 0) := by omega
    simp [h, this]

/-- Setting the enable bit and the ITE bit: the two `FLD_MOD` give `l | 0x11`. -/
theorem FLD_MOD_enable_ite (c : Nat) (hc : c < 4294967296) :
    FLD_MOD (FLD_MOD c 1 0 0) 1 4 4 = c ||| 0x11 := by
  have h17 : (0x11 : Nat) = 1 ||| 1 <<< 4 := by decide
  apply Nat.eq_of_testBit_eq
  intro i
  rw [testBit_FLD_MOD _ 1 4 4 i (FLD_MOD_lt c 1 0 0 hc) (by decide) (by decide),
    testBit_FLD_MOD c 1 0 0 i hc (by decide) (by decide), h17, Nat.testBit_or, Nat.testBit_or,
    Nat.testBit_shiftLeft, testBit_one, testBit_one, testBit_one]
  by_cases h4 : i = 4
  · subst h4; simp
  · by_cases h0 : i = 0
    · subst h0; simp
    · have a : ¬ (4 ≤ i ∧ i ≤ 4) := by omega
      have b : ¬ (0 ≤ i ∧ i ≤ 0) := by omega
      have c4 : ¬ (i - 4 = 0 ∧ 4 ≤ i) := by omega
      simp [a, b, h0]
      omega

/-! ## The bus formatter: claims C5 to C8 -/

theorem rfbi_configure_bus_of_ok (rfbi : rfbi_data) (n bpp lines : Int)
    (dt : omap_rfbi_datatype) (pm : omap_rfbi_parallelmode) (cf : omap_rfbi_cycleformat)
    (h1 : datatype_of_bpp bpp = some dt) (h2 : parallelmode_of_lines lines = some pm)
    (h3 : cycleformat_of bpp lines = Except.ok cf) :
    rfbi_configure_bus rfbi n bpp lines = (outcome.ret 0, configured rfbi n dt pm cf lines) := by
  unfold rfbi_configure_bus
  simp only [h1, h2, h3]
  rfl

theorem rfbi_configure_bus_of_error (rfbi : rfbi_data) (n bpp lines : Int)
    (dt : omap_rfbi_datatype) (pm : omap_rfbi_parallelmode) (site : bug_site)
    (h1 : datatype_of_bpp bpp = some dt) (h2 : parallelmode_of_lines lines = some pm)
    (h3 : cycleformat_of bpp lines = Except.error site) :
    rfbi_configure_bus rfbi n bpp lines
      = (outcome.bug site, { rfbi with datatype := dt, parallelmode := pm }) := by
  unfold rfbi_configure_bus
  simp only [h1, h2, h3]

theorem rfbi_configure_bus_invalid_bpp (rfbi : rfbi_data) (n bpp lines : Int)
    (h : ¬ (bpp = 12 ∨ bpp = 16 ∨ bpp = 18 ∨ bpp = 24)) :
    rfbi_configure_bus rfbi n bpp lines = (outcome.bug bug_site.invalid_bpp, rfbi) := by
  have h1 : datatype_of_bpp bpp = none := by
    unfold datatype_of_bpp
    rw [if_neg (by omega), if_neg (by omega), if_neg (by omega), if_neg (by omega)]
  unfold rfbi_configure_bus
  simp only [h1]

theorem datatype_of_bpp_valid (bpp : Int) (h : bpp = 12 ∨ bpp = 16 ∨ bpp = 18 ∨ bpp = 24) :
    ∃ dt, datatype_of_bpp bpp = some dt := by
  rcases h with h | h | h | h <;> subst h <;> exact ⟨_, rfl⟩

theorem parallelmode_of_lines_valid (lines : Int)
    (h : lines = 8 ∨ lines = 9 ∨ lines = 12 ∨ lines = 16) :
    ∃ pm, parallelmode_of_lines lines = some pm := by
  rcases h with h | h | h | h <;> subst h <;> exact ⟨_, rfl⟩

theorem rfbi_configure_bus_invalid_lines (rfbi : rfbi_data) (n bpp lines : Int)
    (hb : bpp = 12 ∨ bpp = 16 ∨ bpp = 18 ∨ bpp = 24)
    (h : ¬ (lines = 8 ∨ lines = 9 ∨ lines = 12 ∨ lines = 16)) :
    (rfbi_configure_bus rfbi n bpp lines).1 = outcome.bug bug_site.invalid_lines := by
  obtain ⟨dt, h1⟩ := datatype_of_bpp_valid bpp hb
  have h2 : parallelmode_of_lines lines = none := by
    unfold parallelmode_of_lines
    rw [if_neg (by omega), if_neg (by omega), if_neg (by omega), if_neg (by omega)]
  unfold rfbi_configure_bus
  simp only [h1, h2]

theorem reg_offsets_0 :
    RFBI_CONTROL = 64 ∧ RFBI_PIXEL_CNT = 68 ∧ RFBI_CONFIG 0 = 96 ∧ RFBI_DATA_CYCLE1 0 = 108 ∧
    RFBI_DATA_CYCLE2 0 = 112 ∧ RFBI_DATA_CYCLE3 0 = 116 := by decide

theorem reg_offsets_1 :
    RFBI_CONFIG 1 = 120 ∧ RFBI_DATA_CYCLE1 1 = 132 ∧ RFBI_DATA_CYCLE2 1 = 136 ∧
    RFBI_DATA_CYCLE3 1 = 140 := by decide

/-- The registers a successful `rfbi_configure_bus` leaves for channel 0 or 1. -/
theorem configured_regs (rfbi : rfbi_data) (n : Int) (dt : omap_rfbi_datatype)
    (pm : omap_rfbi_parallelmode) (cf : omap_rfbi_cycleformat) (lines : Int)
    (hn : n = 0 ∨ n = 1) :
    (configured rfbi n dt pm cf lines).regs (RFBI_CONFIG n) = u32 (config_word pm dt cf) ∧
    (configured rfbi n dt pm cf lines).regs (RFBI_DATA_CYCLE1 n)
      = u32 (data_cycles cf lines).1 ∧
    (configured rfbi n dt pm cf lines).regs (RFBI_DATA_CYCLE2 n)
      = u32 (data_cycles cf lines).2.1 ∧
    (configured rfbi n dt pm cf lines).regs (RFBI_DATA_CYCLE3 n)
      = u32 (data_cycles cf lines).2.2 := by
  obtain ⟨c0, _, c1, c2, c3, c4⟩ := reg_offsets_0
  obtain ⟨d1, d2, d3, d4⟩ := reg_offsets_1
  rcases hn with h | h <;> subst h <;>
    simp [configured, REG_FLD_MOD, rfbi_write_reg, rfbi_read_reg, Function.update,
      c0, c1, c2, c3, c4, d1, d2, d3, d4]

/-- The accesses a successful `rfbi_configure_bus` makes, in order. -/
theorem configured_log (rfbi : rfbi_data) (n : Int) (dt : omap_rfbi_datatype)
    (pm : omap_rfbi_parallelmode) (cf : omap_rfbi_cycleformat) (lines : Int) :
    ∃ c0 c1 c2 c3, (configured rfbi n dt pm cf lines).log = rfbi.log ++
      [bus_event.read RFBI_CONTROL c0, bus_event.write RFBI_CONTROL c1,
       bus_event.write (RFBI_CONFIG n) (u32 (config_word pm dt cf)),
       bus_event.write (RFBI_DATA_CYCLE1 n) (u32 (data_cycles cf lines).1),
       bus_event.write (RFBI_DATA_CYCLE2 n) (u32 (data_cycles cf lines).2.1),
       bus_event.write (RFBI_DATA_CYCLE3 n) (u32 (data_cycles cf lines).2.2),
       bus_event.read RFBI_CONTROL c2, bus_event.write RFBI_CONTROL c3] := by
  simp only [configured, REG_FLD_MOD, rfbi_write_reg, rfbi_read_reg, List.append_assoc,
    List.cons_append, List.nil_append]
  exact ⟨_, _, _, _, rfl⟩

theorem config_word_cycleformat (pm : omap_rfbi_parallelmode) (dt : omap_rfbi_datatype)
    (cf : omap_rfbi_cycleformat) :
    Spec.field_of (u32 (config_word pm dt cf)) 10 9 = cf.val := by
  cases pm <;> cases dt <;> cases cf <;> decide

theorem lines_of_parallelmode (lines : Int) (pm : omap_rfbi_parallelmode)
    (h : parallelmode_of_lines lines = some pm) :
    lines = 8 ∨ lines = 9 ∨ lines = 12 ∨ lines = 16 := by
  unfold parallelmode_of_lines at h
  by_contra hc
  rw [if_neg (by omega), if_neg (by omega), if_neg (by omega), if_neg (by omega)] at h
  exact absurd h (by simp)

theorem bpp_of_datatype (bpp : Int) (dt : omap_rfbi_datatype)
    (h : datatype_of_bpp bpp = some dt) : bpp = 12 ∨ bpp = 16 ∨ bpp = 18 ∨ bpp = 24 := by
  unfold datatype_of_bpp at h
  by_contra hc
  rw [if_neg (by omega), if_neg (by omega), if_neg (by omega), if_neg (by omega)] at h
  exact absurd h (by simp)

/-- A call of `rfbi_configure_bus` that returns 0 passed the three checks. -/
theorem rfbi_configure_bus_ret (rfbi : rfbi_data) (n bpp lines : Int)
    (h : (rfbi_configure_bus rfbi n bpp lines).1 = outcome.ret 0) :
    ∃ dt pm cf, datatype_of_bpp bpp = some dt ∧ parallelmode_of_lines lines = some pm ∧
      cycleformat_of bpp lines = Except.ok cf := by
  cases h1 : datatype_of_bpp bpp with
  | none =>
    unfold rfbi_configure_bus at h
    simp only [h1] at h
    exact absurd h (by simp)
  | some dt =>
    cases h2 : parallelmode_of_lines lines with
    | none =>
      unfold rfbi_configure_bus at h
      simp only [h1, h2] at h
      exact absurd h (by simp)
    | some pm =>
      cases h3 : cycleformat_of bpp lines with
      | error site =>
        rw [rfbi_configure_bus_of_error rfbi n bpp lines dt pm site h1 h2 h3] at h
        exact absurd h (by simp)
      | ok cf => exact ⟨dt, pm, cf, rfl, rfl, rfl⟩

theorem wrap_int_two_bpp (bpp : Int) (hb : bpp = 12 ∨ bpp = 16 ∨ bpp = 18 ∨ bpp = 24) :
    wrap_int (2 * bpp) = 2 * bpp := by
  unfold wrap_int; omega

/-- C5: `rfbi_configure_bus` (channel 0 or 1) stops with the unsupported-format error
when `bpp` is not in {12,16,18,24} or `lines` is not in {8,9,12,16}; otherwise, when
`bpp % lines == 0`, the cycle format is 1:1, 2:1 or 3:1 for the quotient 1, 2 or 3 and
any other quotient stops with the unsupported-ratio error; else when
`(2*bpp) % lines == 0` and `(2*bpp) / lines == 3` the format is 3:2; every other
combination stops with the unsupported-ratio error.  A chosen format means that the
call returns 0 and leaves the format's code in bits 10:9 of `CONFIG(n)`. -/
theorem rfbi_configure_bus_cycle_format (rfbi : rfbi_data) (n bpp lines : Int)
    (hn : n = 0 ∨ n = 1) :
    ((¬ (bpp = 12 ∨ bpp = 16 ∨ bpp = 18 ∨ bpp = 24) ∨
        ¬ (lines = 8 ∨ lines = 9 ∨ lines = 12 ∨ lines = 16)) →
      ∃ site, (rfbi_configure_bus rfbi n bpp lines).1 = outcome.bug site ∧
        Spec.error_of site = Spec.error.UnsupportedFormat) ∧
    ((bpp = 12 ∨ bpp = 16 ∨ bpp = 18 ∨ bpp = 24) →
      (lines = 8 ∨ lines = 9 ∨ lines = 12 ∨ lines = 16) →
      (∀ f, cycleformat_of bpp lines = Except.ok f →
        (rfbi_configure_bus rfbi n bpp lines).1 = outcome.ret 0 ∧
        Spec.field_of ((rfbi_configure_bus rfbi n bpp lines).2.regs (RFBI_CONFIG n)) 10 9
          = f.val) ∧
      (Int.tmod bpp lines = 0 →
        (Int.tdiv bpp lines = 1 →
          cycleformat_of bpp lines = Except.ok omap_rfbi_cycleformat.CYCLEFORMAT_1_1) ∧
        (Int.tdiv bpp lines = 2 →
          cycleformat_of bpp lines = Except.ok omap_rfbi_cycleformat.CYCLEFORMAT_2_1) ∧
        (Int.tdiv bpp lines = 3 →
          cycleformat_of bpp lines = Except.ok omap_rfbi_cycleformat.CYCLEFORMAT_3_1) ∧
        (¬ (Int.tdiv bpp lines = 1 ∨ Int.tdiv bpp lines = 2 ∨ Int.tdiv bpp lines = 3) →
          ∃ site, (rfbi_configure_bus rfbi n bpp lines).1 = outcome.bug site ∧
            Spec.error_of site = Spec.error.UnsupportedRatio)) ∧
      (Int.tmod bpp lines ≠ 0 → Int.tmod (2 * bpp) lines = 0 → Int.tdiv (2 * bpp) lines = 3 →
        cycleformat_of bpp lines = Except.ok omap_rfbi_cycleformat.CYCLEFORMAT_3_2) ∧
      (Int.tmod bpp lines ≠ 0 →
        ¬ (Int.tmod (2 * bpp) lines = 0 ∧ Int.tdiv (2 * bpp) lines = 3) →
        ∃ site, (rfbi_configure_bus rfbi n bpp lines).1 = outcome.bug site ∧
          Spec.error_of site = Spec.error.UnsupportedRatio)) := by
  constructor
  · intro h
    by_cases hb : bpp = 12 ∨ bpp = 16 ∨ bpp = 18 ∨ bpp = 24
    · rcases h with h | h
      · exact absurd hb h
      · exact ⟨bug_site.invalid_lines, rfbi_configure_bus_invalid_lines rfbi n bpp lines hb h,
          rfl⟩
    · exact ⟨bug_site.invalid_bpp,
        by rw [rfbi_configure_bus_invalid_bpp rfbi n bpp lines hb], rfl⟩
  · intro hb hl
    obtain ⟨dt, h1⟩ := datatype_of_bpp_valid bpp hb
    obtain ⟨pm, h2⟩ := parallelmode_of_lines_valid lines hl
    have hw := wrap_int_two_bpp bpp hb
    have herr : ∀ site, cycleformat_of bpp lines = Except.error site →
        (rfbi_configure_bus rfbi n bpp lines).1 = outcome.bug site := fun site h3 => by
      rw [rfbi_configure_bus_of_error rfbi n bpp lines dt pm site h1 h2 h3]
    refine ⟨fun f h3 => ?_, fun hm => ⟨fun hq => ?_, fun hq => ?_, fun hq => ?_, fun hq => ?_⟩,
      fun hm h2m hq => ?_, fun hm hq => ?_⟩
    · rw [rfbi_configure_bus_of_ok rfbi n bpp lines dt pm f h1 h2 h3]
      refine ⟨rfl, ?_⟩
      rw [(configured_regs rfbi n dt pm f lines hn).1]
      exact config_word_cycleformat pm dt f
    · unfold cycleformat_of; rw [if_pos hm, if_pos hq]
    · unfold cycleformat_of
      rw [if_pos hm, if_neg (by omega), if_pos hq]
    · unfold cycleformat_of
      rw [if_pos hm, if_neg (by omega), if_neg (by omega), if_pos hq]
    · refine ⟨bug_site.ratio_invalid, herr _ ?_, rfl⟩
      unfold cycleformat_of
      rw [if_pos hm, if_neg (by omega), if_neg (by omega), if_neg (by omega)]
    · unfold cycleformat_of
      rw [if_neg hm, hw, if_pos h2m, if_pos hq]
    · by_cases h2m : Int.tmod (2 * bpp) lines = 0
      · refine ⟨bug_site.ratio_not_3_2, herr _ ?_, rfl⟩
        unfold cycleformat_of
        rw [if_neg hm, hw, if_pos h2m, if_neg (fun h3 => hq ⟨h2m, h3⟩)]
      · refine ⟨bug_site.ratio_none, herr _ ?_, rfl⟩
        unfold cycleformat_of
        rw [if_neg hm, hw, if_neg h2m]

/-- Witness of C5: 18 bits per pixel over 12 lines on channel 0 is the 3:2 format. -/
theorem rfbi_configure_bus_cycle_format_witness :
    (rfbi_configure_bus (rfbi_probed 50000) 0 18 12).1 = outcome.ret 0 ∧
    Spec.field_of ((rfbi_configure_bus (rfbi_probed 50000) 0 18 12).2.regs (RFBI_CONFIG 0)) 10 9
      = omap_rfbi_cycleformat.CYCLEFORMAT_3_2.val :=
  ((rfbi_configure_bus_cycle_format (rfbi_probed 50000) 0 18 12 (Or.inl rfl)).2
    (by decide) (by decide)).1 omap_rfbi_cycleformat.CYCLEFORMAT_3_2
    (((rfbi_configure_bus_cycle_format (rfbi_probed 50000) 0 18 12 (Or.inl rfl)).2
      (by decide) (by decide)).2.2.1 (by decide) (by decide) (by decide))

theorem data_cycles_values (lines : Int) (hl : lines = 8 ∨ lines = 9 ∨ lines = 12 ∨ lines = 16)
    (cf : omap_rfbi_cycleformat) :
    u32 (data_cycles cf lines).1 = lines.toNat ∧
    (cf = omap_rfbi_cycleformat.CYCLEFORMAT_1_1 →
      u32 (data_cycles cf lines).2.1 = 0 ∧ u32 (data_cycles cf lines).2.2 = 0) ∧
    (cf = omap_rfbi_cycleformat.CYCLEFORMAT_2_1 →
      u32 (data_cycles cf lines).2.1 = lines.toNat ∧ u32 (data_cycles cf lines).2.2 = 0) ∧
    (cf = omap_rfbi_cycleformat.CYCLEFORMAT_3_1 →
      u32 (data_cycles cf lines).2.1 = lines.toNat ∧
      u32 (data_cycles cf lines).2.2 = lines.toNat) ∧
    (cf = omap_rfbi_cycleformat.CYCLEFORMAT_3_2 →
      u32 (data_cycles cf lines).2.1 = (lines.toNat / 2) ||| ((lines.toNat / 2) <<< 16) ∧
      u32 (data_cycles cf lines).2.2 = lines.toNat <<< 16) := by
  rcases hl with h | h | h | h <;> subst h <;> cases cf <;> decide

/-- C6: when `rfbi_configure_bus` (channel `n` of 0 or 1) returns 0, the words it writes
to `DATA_CYCLE1(n)`, `DATA_CYCLE2(n)`, `DATA_CYCLE3(n)`, which those registers then
hold, are `(lines, 0, 0)` for the format 1:1, `(lines, lines, 0)` for 2:1,
`(lines, lines, lines)` for 3:1 and `(lines, (lines/2) | ((lines/2) << 16), lines << 16)`
for 3:2; and `bpp = 24`, `lines = 16` returns 0, is the format 3:2 and writes
`cycle2 = 8 | (8 << 16)` and `cycle3 = 16 << 16`. -/
theorem rfbi_configure_bus_data_cycles (rfbi : rfbi_data) (n bpp lines : Int)
    (hn : n = 0 ∨ n = 1) :
    ((rfbi_configure_bus rfbi n bpp lines).1 = outcome.ret 0 →
      ∃ f, cycleformat_of bpp lines = Except.ok f ∧
        (∃ c0 c1 w c2 c3, (rfbi_configure_bus rfbi n bpp lines).2.log = rfbi.log ++
          [bus_event.read RFBI_CONTROL c0, bus_event.write RFBI_CONTROL c1,
           bus_event.write (RFBI_CONFIG n) w,
           bus_event.write (RFBI_DATA_CYCLE1 n)
             ((rfbi_configure_bus rfbi n bpp lines).2.regs (RFBI_DATA_CYCLE1 n)),
           bus_event.write (RFBI_DATA_CYCLE2 n)
             ((rfbi_configure_bus rfbi n bpp lines).2.regs (RFBI_DATA_CYCLE2 n)),
           bus_event.write (RFBI_DATA_CYCLE3 n)
             ((rfbi_configure_bus rfbi n bpp lines).2.regs (RFBI_DATA_CYCLE3 n)),
           bus_event.read RFBI_CONTROL c2, bus_event.write RFBI_CONTROL c3]) ∧
        (rfbi_configure_bus rfbi n bpp lines).2.regs (RFBI_DATA_CYCLE1 n) = lines.toNat ∧
        (f = omap_rfbi_cycleformat.CYCLEFORMAT_1_1 →
          (rfbi_configure_bus rfbi n bpp lines).2.regs (RFBI_DATA_CYCLE2 n) = 0 ∧
          (rfbi_configure_bus rfbi n bpp lines).2.regs (RFBI_DATA_CYCLE3 n) = 0) ∧
        (f = omap_rfbi_cycleformat.CYCLEFORMAT_2_1 →
          (rfbi_configure_bus rfbi n bpp lines).2.regs (RFBI_DATA_CYCLE2 n) = lines.toNat ∧
          (rfbi_configure_bus rfbi n bpp lines).2.regs (RFBI_DATA_CYCLE3 n) = 0) ∧
        (f = omap_rfbi_cycleformat.CYCLEFORMAT_3_1 →
          (rfbi_configure_bus rfbi n bpp lines).2.regs (RFBI_DATA_CYCLE2 n) = lines.toNat ∧
          (rfbi_configure_bus rfbi n bpp lines).2.regs (RFBI_DATA_CYCLE3 n) = lines.toNat) ∧
        (f = omap_rfbi_cycleformat.CYCLEFORMAT_3_2 →
          (rfbi_configure_bus rfbi n bpp lines).2.regs (RFBI_DATA_CYCLE2 n)
            = (lines.toNat / 2) ||| ((lines.toNat / 2) <<< 16) ∧
          (rfbi_configure_bus rfbi n bpp lines).2.regs (RFBI_DATA_CYCLE3 n)
            = lines.toNat <<< 16)) ∧
    ((rfbi_configure_bus rfbi n 24 16).1 = outcome.ret 0 ∧
      cycleformat_of 24 16 = Except.ok omap_rfbi_cycleformat.CYCLEFORMAT_3_2 ∧
      (rfbi_configure_bus rfbi n 24 16).2.regs (RFBI_DATA_CYCLE1 n) = 16 ∧
      (rfbi_configure_bus rfbi n 24 16).2.regs (RFBI_DATA_CYCLE2 n) = 8 ||| (8 <<< 16) ∧
      (rfbi_configure_bus rfbi n 24 16).2.regs (RFBI_DATA_CYCLE3 n) = 16 <<< 16) := by
  constructor
  · intro hok
    obtain ⟨dt, pm, cf, h1, h2, h3⟩ := rfbi_configure_bus_ret rfbi n bpp lines hok
    have hl := lines_of_parallelmode lines pm h2
    obtain ⟨r0, r1, r2, r3⟩ := configured_regs rfbi n dt pm cf lines hn
    obtain ⟨v1, v2, v3, v4, v5⟩ := data_cycles_values lines hl cf
    obtain ⟨c0, c1, c2, c3, hlog⟩ := configured_log rfbi n dt pm cf lines
    rw [rfbi_configure_bus_of_ok rfbi n bpp lines dt pm cf h1 h2 h3]
    refine ⟨cf, h3, ⟨c0, c1, u32 (config_word pm dt cf), c2, c3, ?_⟩, ?_, fun hf => ?_, fun hf => ?_, fun hf => ?_,
      fun hf => ?_⟩
    · show (configured rfbi n dt pm cf lines).log = rfbi.log ++
        [_, _, _, bus_event.write _ ((configured rfbi n dt pm cf lines).regs _),
          bus_event.write _ ((configured rfbi n dt pm cf lines).regs _),
          bus_event.write _ ((configured rfbi n dt pm cf lines).regs _), _, _]
      rw [r1, r2, r3]
      exact hlog
    · exact r1.trans v1
    · exact ⟨r2.trans (v2 hf).1, r3.trans (v2 hf).2⟩
    · exact ⟨r2.trans (v3 hf).1, r3.trans (v3 hf).2⟩
    · exact ⟨r2.trans (v4 hf).1, r3.trans (v4 hf).2⟩
    · exact ⟨r2.trans (v5 hf).1, r3.trans (v5 hf).2⟩
  · have h3 : cycleformat_of 24 16 = Except.ok omap_rfbi_cycleformat.CYCLEFORMAT_3_2 := rfl
    obtain ⟨_, r1, r2, r3⟩ := configured_regs rfbi n omap_rfbi_datatype.DATATYPE_24
      omap_rfbi_parallelmode.PARALLELMODE_16 omap_rfbi_cycleformat.CYCLEFORMAT_3_2 16 hn
    rw [rfbi_configure_bus_of_ok rfbi n 24 16 _ _ _ rfl rfl h3]
    exact ⟨rfl, h3, r1, r2, r3⟩

/-- Witness of C6: 18 bits per pixel over 12 lines on channel 1 of a probed bus. -/
theorem rfbi_configure_bus_data_cycles_witness :
    (rfbi_configure_bus (rfbi_probed 50000) 1 18 12).1 = outcome.ret 0 ∧
    (rfbi_configure_bus (rfbi_probed 50000) 1 18 12).2.regs (RFBI_DATA_CYCLE1 1) = 12 ∧
    (rfbi_configure_bus (rfbi_probed 50000) 1 24 16).2.regs (RFBI_DATA_CYCLE2 1)
      = 8 ||| (8 <<< 16) := by
  obtain ⟨h, g⟩ := rfbi_configure_bus_data_cycles (rfbi_probed 50000) 1 18 12 (Or.inr rfl)
  obtain ⟨f, _, _, h1, _⟩ := h (by decide)
  exact ⟨by decide, h1, g.2.2.2.1⟩

/-- C7, as the claim states it, fails: 16 bits per pixel over 8 lines is not the 1:1
format and `DATA_CYCLE2` does not hold 0. -/
theorem rfbi_configure_bus_16_8_not_1_1 :
    ¬ ((rfbi_configure_bus (rfbi_probed 50000) 0 16 8).1 = outcome.ret 0 ∧
      cycleformat_of 16 8 = Except.ok omap_rfbi_cycleformat.CYCLEFORMAT_1_1 ∧
      (rfbi_configure_bus (rfbi_probed 50000) 0 16 8).2.regs (RFBI_DATA_CYCLE1 0) = 8 ∧
      (rfbi_configure_bus (rfbi_probed 50000) 0 16 8).2.regs (RFBI_DATA_CYCLE2 0) = 0 ∧
      (rfbi_configure_bus (rfbi_probed 50000) 0 16 8).2.regs (RFBI_DATA_CYCLE3 0) = 0) :=
  fun h => absurd h.2.2.2.1 (by decide)

/-- C7, amended: `rfbi_configure_bus` with `bpp = 16` and `lines = 8` (channel 0 or 1)
returns 0, is the 2:1 cycle format (code 1 in bits 10:9 of `CONFIG(n)`), and leaves
`DATA_CYCLE1 = 8`, `DATA_CYCLE2 = 8` and `DATA_CYCLE3 = 0`. -/
theorem rfbi_configure_bus_16_8 (rfbi : rfbi_data) (n : Int) (hn : n = 0 ∨ n = 1) :
    (rfbi_configure_bus rfbi n 16 8).1 = outcome.ret 0 ∧
    cycleformat_of 16 8 = Except.ok omap_rfbi_cycleformat.CYCLEFORMAT_2_1 ∧
    Spec.field_of ((rfbi_configure_bus rfbi n 16 8).2.regs (RFBI_CONFIG n)) 10 9 = 1 ∧
    (rfbi_configure_bus rfbi n 16 8).2.regs (RFBI_DATA_CYCLE1 n) = 8 ∧
    (rfbi_configure_bus rfbi n 16 8).2.regs (RFBI_DATA_CYCLE2 n) = 8 ∧
    (rfbi_configure_bus rfbi n 16 8).2.regs (RFBI_DATA_CYCLE3 n) = 0 := by
  have h3 : cycleformat_of 16 8 = Except.ok omap_rfbi_cycleformat.CYCLEFORMAT_2_1 := rfl
  obtain ⟨r0, r1, r2, r3⟩ := configured_regs rfbi n omap_rfbi_datatype.DATATYPE_16
    omap_rfbi_parallelmode.PARALLELMODE_8 omap_rfbi_cycleformat.CYCLEFORMAT_2_1 8 hn
  rw [rfbi_configure_bus_of_ok rfbi n 16 8 _ _ _ rfl rfl h3]
  refine ⟨rfl, h3, ?_, r1, r2, r3⟩
  show Spec.field_of ((configured rfbi n _ _ _ 8).regs (RFBI_CONFIG n)) 10 9 = 1
  rw [r0]
  rfl

/-- Witness of the amended C7: channel 0 of a probed bus. -/
theorem rfbi_configure_bus_16_8_witness :
    (rfbi_configure_bus (rfbi_probed 50000) 0 16 8).1 = outcome.ret 0 ∧
    cycleformat_of 16 8 = Except.ok omap_rfbi_cycleformat.CYCLEFORMAT_2_1 ∧
    Spec.field_of ((rfbi_configure_bus (rfbi_probed 50000) 0 16 8).2.regs (RFBI_CONFIG 0)) 10 9
      = 1 ∧
    (rfbi_configure_bus (rfbi_probed 50000) 0 16 8).2.regs (RFBI_DATA_CYCLE1 0) = 8 ∧
    (rfbi_configure_bus (rfbi_probed 50000) 0 16 8).2.regs (RFBI_DATA_CYCLE2 0) = 8 ∧
    (rfbi_configure_bus (rfbi_probed 50000) 0 16 8).2.regs (RFBI_DATA_CYCLE3 0) = 0 :=
  rfbi_configure_bus_16_8 (rfbi_probed 50000) 0 (Or.inl rfl)

/-- C8, as the claim states it, fails: the failure of `bpp = 11`, `lines = 4` is not
the unsupported-ratio error. -/
theorem rfbi_configure_bus_11_4_not_ratio :
    ¬ (∃ site, (rfbi_configure_bus (rfbi_probed 50000) 0 11 4).1 = outcome.bug site ∧
      Spec.error_of site = Spec.error.UnsupportedRatio) := by
  rintro ⟨site, h1, h2⟩
  have e : (rfbi_configure_bus (rfbi_probed 50000) 0 11 4).1
      = outcome.bug bug_site.invalid_bpp := rfl
  rw [e] at h1
  have hs : site = bug_site.invalid_bpp := (outcome.bug.inj h1).symm
  rw [hs] at h2
  exact absurd h2 (by decide)

/-- C8, amended: `rfbi_configure_bus` with `bpp = 11` and `lines = 4` stops in the
`default:` case of `switch (bpp)`, which is the unsupported-format error, and leaves
the state as it was. -/
theorem rfbi_configure_bus_11_4 (rfbi : rfbi_data) (n : Int) :
    rfbi_configure_bus rfbi n 11 4 = (outcome.bug bug_site.invalid_bpp, rfbi) ∧
    Spec.error_of bug_site.invalid_bpp = Spec.error.UnsupportedFormat :=
  ⟨rfbi_configure_bus_invalid_bpp rfbi n 11 4 (by decide), rfl⟩

/-! ## The frame transfer: claims C9 and C10 -/

theorem pixel_count_exact (w h : Nat) (hw : w < 65536) (hh : h < 65536) :
    u32 (int_to_u32 (wrap_int ((w : Int) * (h : Int)))) = w * h := by
  have hb : w * h < 4294967296 :=
    Nat.lt_of_le_of_lt (Nat.mul_le_mul (Nat.le_of_lt_succ hw) (Nat.le_of_lt_succ hh))
      (by decide)
  have hc : ((w : Int) * (h : Int)) = ((w * h : Nat) : Int) := by push_cast; rfl
  rw [hc, int_to_u32_wrap_int _ hb, u32_of_lt _ hb]

/-- The state `rfbi_transfer_area` leaves when no callback is pending. -/
theorem rfbi_transfer_area_idle (s : rfbi_data) (cb : Option Nat) (d : Nat)
    (h : s.framedone_callback = none) :
    (rfbi_transfer_area s cb d).1 = outcome.ret 0 ∧
    (rfbi_transfer_area s cb d).2.framedone_callback = cb ∧
    (rfbi_transfer_area s cb d).2.framedone_callback_data = d ∧
    (rfbi_transfer_area s cb d).2.regs RFBI_PIXEL_CNT
      = (s.hactive % 65536) * (s.vactive % 65536) ∧
    (rfbi_transfer_area s cb d).2.regs RFBI_CONTROL
      = (if s.te_enabled = 0 then u32 (s.regs RFBI_CONTROL) ||| 0x11
         else u32 (s.regs RFBI_CONTROL) ||| 0x01) ∧
    (rfbi_transfer_area s cb d).2.log = s.log ++
      [bus_event.mgr_start_update,
       bus_event.write RFBI_PIXEL_CNT ((s.hactive % 65536) * (s.vactive % 65536)),
       bus_event.read RFBI_CONTROL (u32 (s.regs RFBI_CONTROL)),
       bus_event.write RFBI_CONTROL
         (if s.te_enabled = 0 then u32 (s.regs RFBI_CONTROL) ||| 0x11
          else u32 (s.regs RFBI_CONTROL) ||| 0x01)] ∧
    (∀ i, i ≠ RFBI_PIXEL_CNT → i ≠ RFBI_CONTROL →
      (rfbi_transfer_area s cb d).2.regs i = s.regs i) := by
  obtain ⟨c0, c1, _⟩ := reg_offsets_0
  have hpix := pixel_count_exact (s.hactive % 65536) (s.vactive % 65536)
    (Nat.mod_lt _ (by decide)) (Nat.mod_lt _ (by decide))
  have hc := u32_lt (s.regs RFBI_CONTROL)
  have e1 := FLD_MOD_enable _ hc
  have e2 := FLD_MOD_enable_ite _ hc
  have hread : Function.update s.regs RFBI_PIXEL_CNT
      ((s.hactive % 65536) * (s.vactive % 65536)) RFBI_CONTROL = s.regs RFBI_CONTROL :=
    Function.update_noteq (by rw [c0, c1]; decide) _ _
  have hl : u32 (if s.te_enabled = 0 then FLD_MOD (FLD_MOD (u32 (s.regs RFBI_CONTROL)) 1 0 0) 1 4 4
      else FLD_MOD (u32 (s.regs RFBI_CONTROL)) 1 0 0)
      = (if s.te_enabled = 0 then u32 (s.regs RFBI_CONTROL) ||| 0x11
         else u32 (s.regs RFBI_CONTROL) ||| 0x01) := by
    split_ifs
    · rw [u32_of_lt _ (FLD_MOD_lt _ _ _ _ (FLD_MOD_lt _ _ _ _ hc)), e2]
    · rw [u32_of_lt _ (FLD_MOD_lt _ _ _ _ hc), e1]
  unfold rfbi_transfer_area
  simp only [h, ne_eq, not_true_eq_false, if_false, rfbi_write_reg, rfbi_read_reg, hpix, hread,
    hl, List.append_assoc, List.cons_append, List.nil_append, Function.update_same]
  refine ⟨trivial, trivial, trivial, ?_, trivial, trivial, fun i h1 h2 => ?_⟩
  · rw [Function.update_noteq (by rw [c0, c1]; decide), Function.update_same]
  · rw [Function.update_noteq h2, Function.update_noteq h1]

/-- C9, as the claim states it, fails: when the first request carries no callback the
second call does not stop at the `BUG_ON`. -/
theorem rfbi_transfer_area_twice_no_callback :
    ¬ ((rfbi_transfer_area (rfbi_transfer_area (rfbi_probed 50000) none 0).2 (some 1) 0).1
      = outcome.bug bug_site.callback_pending) := by
  decide

/-- C9, amended: on a bus with no transfer pending, after a call of `rfbi_transfer_area`
whose callback is not null, a second call with no frame-done in between stops at the
`BUG_ON` on the pending callback (`TransferAlreadyPending`) and leaves the state as the
first call left it: no register is written, nothing is accessed, and the callback and
argument of the first request stay pending. -/
theorem rfbi_transfer_area_twice (s : rfbi_data) (f d1 : Nat) (cb2 : Option Nat) (d2 : Nat)
    (h : s.framedone_callback = none) :
    (rfbi_transfer_area s (some f) d1).1 = outcome.ret 0 ∧
    rfbi_transfer_area (rfbi_transfer_area s (some f) d1).2 cb2 d2
      = (outcome.bug bug_site.callback_pending, (rfbi_transfer_area s (some f) d1).2) ∧
    Spec.error_of bug_site.callback_pending = Spec.error.TransferAlreadyPending ∧
    (rfbi_transfer_area s (some f) d1).2.framedone_callback = some f ∧
    (rfbi_transfer_area s (some f) d1).2.framedone_callback_data = d1 := by
  obtain ⟨h1, h2, h3, _⟩ := rfbi_transfer_area_idle s (some f) d1 h
  refine ⟨h1, ?_, rfl, h2, h3⟩
  generalize (rfbi_transfer_area s (some f) d1).2 = s1 at h2
  unfold rfbi_transfer_area
  simp only [h2, ne_eq, reduceCtorEq, not_false_eq_true, if_true]

/-- Witness of the amended C9: a probed bus showing 800 x 480. -/
theorem rfbi_transfer_area_twice_witness :
    (rfbi_probed 50000).framedone_callback = none ∧
    rfbi_transfer_area (rfbi_transfer_area (rfbi_probed 50000) (some 7) 3).2 none 4
      = (outcome.bug bug_site.callback_pending,
          (rfbi_transfer_area (rfbi_probed 50000) (some 7) 3).2) :=
  ⟨rfl, (rfbi_transfer_area_twice (rfbi_probed 50000) 7 3 none 4 rfl).2.1⟩

/-- C10: on a bus with no pending callback `rfbi_transfer_area` returns 0, stores the
callback and its argument as the pending completion, writes `PIXEL_CNT = width * height`
(the exact product of the two 16-bit values), and writes `CONTROL = c | 0x01` when
tear-elimination is enabled and `CONTROL = c | 0x11` when it is not, `c` being the value
of `CONTROL` it read; it writes no other register and makes no other access. -/
theorem rfbi_transfer_area_programs (s : rfbi_data) (cb : Option Nat) (d : Nat)
    (h : s.framedone_callback = none) :
    (rfbi_transfer_area s cb d).1 = outcome.ret 0 ∧
    (rfbi_transfer_area s cb d).2.framedone_callback = cb ∧
    (rfbi_transfer_area s cb d).2.framedone_callback_data = d ∧
    (rfbi_transfer_area s cb d).2.regs RFBI_PIXEL_CNT
      = (s.hactive % 65536) * (s.vactive % 65536) ∧
    (s.te_enabled ≠ 0 →
      (rfbi_transfer_area s cb d).2.regs RFBI_CONTROL = (rfbi_read_reg s RFBI_CONTROL).1 ||| 0x01) ∧
    (s.te_enabled = 0 →
      (rfbi_transfer_area s cb d).2.regs RFBI_CONTROL = (rfbi_read_reg s RFBI_CONTROL).1 ||| 0x11) ∧
    (∃ l, (rfbi_transfer_area s cb d).2.log = s.log ++
      [bus_event.mgr_start_update,
       bus_event.write RFBI_PIXEL_CNT ((s.hactive % 65536) * (s.vactive % 65536)),
       bus_event.read RFBI_CONTROL (rfbi_read_reg s RFBI_CONTROL).1,
       bus_event.write RFBI_CONTROL l]) ∧
    (∀ i, i ≠ RFBI_PIXEL_CNT → i ≠ RFBI_CONTROL →
      (rfbi_transfer_area s cb d).2.regs i = s.regs i) := by
  obtain ⟨h1, h2, h3, h4, h5, h6, h7⟩ := rfbi_transfer_area_idle s cb d h
  refine ⟨h1, h2, h3, h4, fun ht => ?_, fun ht => ?_, ⟨_, h6⟩, h7⟩
  · rw [h5, if_neg ht]; rfl
  · rw [h5, if_pos ht]; rfl

/-- Witness of C10: a probed bus showing 800 x 480, tear-elimination off. -/
theorem rfbi_transfer_area_programs_witness :
    (rfbi_transfer_area { rfbi_probed 50000 with hactive := 800, vactive := 480 } (some 7) 3).1
      = outcome.ret 0 ∧
    (rfbi_transfer_area { rfbi_probed 50000 with hactive := 800, vactive := 480 }
      (some 7) 3).2.regs RFBI_PIXEL_CNT = 800 % 65536 * (480 % 65536) :=
  ⟨(rfbi_transfer_area_programs { rfbi_probed 50000 with hactive := 800, vactive := 480 }
      (some 7) 3 rfl).1,
    (rfbi_transfer_area_programs { rfbi_probed 50000 with hactive := 800, vactive := 480 }
      (some 7) 3 rfl).2.2.2.1⟩

/-! ## The frame-done handler: claim C11 -/

/-- The state `rfbi_framedone_callback` leaves. -/
theorem rfbi_framedone_callback_eq (s : rfbi_data) :
    (rfbi_framedone_callback s).regs
      = Function.update s.regs RFBI_CONTROL (FLD_MOD (u32 (s.regs RFBI_CONTROL)) 0 0 0) ∧
    (rfbi_framedone_callback s).framedone_callback = none ∧
    (rfbi_framedone_callback s).framedone_callback_data = s.framedone_callback_data ∧
    (rfbi_framedone_callback s).log = s.log ++
      [bus_event.read RFBI_CONTROL (u32 (s.regs RFBI_CONTROL)),
       bus_event.write RFBI_CONTROL (FLD_MOD (u32 (s.regs RFBI_CONTROL)) 0 0 0)] ++
      (match s.framedone_callback with
       | some fn => [bus_event.callback fn s.framedone_callback_data]
       | none => []) := by
  have hu : u32 (FLD_MOD (u32 (s.regs RFBI_CONTROL)) 0 0 0)
      = FLD_MOD (u32 (s.regs RFBI_CONTROL)) 0 0 0 := u32_of_lt _ (FLD_MOD_lt _ _ _ _ (u32_lt _))
  unfold rfbi_framedone_callback REG_FLD_MOD rfbi_write_reg rfbi_read_reg
  cases hcb : s.framedone_callback <;>
    simp only [hcb, hu, List.append_assoc, List.cons_append, List.nil_append, List.append_nil,
      and_self]

/-- Clearing the enable bit: `FLD_MOD(l, 0, 0, 0)` has bit 0 clear and the other bits
of `l`. -/
theorem FLD_MOD_disable (c i : Nat) (hc : c < 4294967296) :
    (FLD_MOD c 0 0 0).testBit i = (decide (i ≠ 0) && c.testBit i) := by
  rw [testBit_FLD_MOD c 0 0 0 i hc (by decide) (by decide)]
  by_cases h : i = 0
  · subst h; simp
  · have : ¬ (0 ≤ i ∧ i ≤ 0) := by omega
    simp [h, this]

/-- C11: for every bus state `rfbi_framedone_callback` (a function without a result,
so it reports no error) writes `CONTROL` with bit 0 cleared and every other bit as it
read it, writes no other register, leaves the pending-callback slot empty, and calls
the callback that was pending once, with the stored argument, as its last action; with
no callback pending it calls nothing.  The argument is the one `rfbi_transfer_area`
stored; a second frame-done calls no callback; and a new `rfbi_transfer_area` after a
frame-done is accepted. -/
theorem rfbi_framedone_callback_completes (s : rfbi_data) (fn d : Nat) (cb : Option Nat) :
    ((rfbi_framedone_callback s).regs RFBI_CONTROL).testBit 0 = false ∧
    (∀ i, i ≠ 0 → ((rfbi_framedone_callback s).regs RFBI_CONTROL).testBit i
      = ((rfbi_read_reg s RFBI_CONTROL).1).testBit i) ∧
    (∀ idx, idx ≠ RFBI_CONTROL → (rfbi_framedone_callback s).regs idx = s.regs idx) ∧
    (rfbi_framedone_callback s).framedone_callback = none ∧
    (∃ c, (rfbi_framedone_callback s).log = s.log ++
      [bus_event.read RFBI_CONTROL (rfbi_read_reg s RFBI_CONTROL).1,
       bus_event.write RFBI_CONTROL c] ++
      (match s.framedone_callback with
       | some fn => [bus_event.callback fn s.framedone_callback_data]
       | none => [])) ∧
    (∃ c0 c1, (rfbi_framedone_callback
        (rfbi_transfer_area { s with framedone_callback := none } (some fn) d).2).log
      = (rfbi_transfer_area { s with framedone_callback := none } (some fn) d).2.log ++
        [bus_event.read RFBI_CONTROL c0, bus_event.write RFBI_CONTROL c1,
         bus_event.callback fn d]) ∧
    (∃ c0 c1, (rfbi_framedone_callback (rfbi_framedone_callback s)).log
      = (rfbi_framedone_callback s).log ++
        [bus_event.read RFBI_CONTROL c0, bus_event.write RFBI_CONTROL c1]) ∧
    (rfbi_transfer_area (rfbi_framedone_callback s) cb d).1 = outcome.ret 0 := by
  obtain ⟨hr, hc, _, hl⟩ := rfbi_framedone_callback_eq s
  have hb := fun i => FLD_MOD_disable (u32 (s.regs RFBI_CONTROL)) i (u32_lt _)
  refine ⟨?_, fun i hi => ?_, fun idx hidx => ?_, hc, ⟨_, hl⟩, ?_, ?_, ?_⟩
  · rw [hr, Function.update_same, hb]; simp
  · rw [hr, Function.update_same, hb]; simp [hi, rfbi_read_reg]
  · rw [hr, Function.update_noteq hidx]
  · obtain ⟨_, _, _, hl1⟩ := rfbi_framedone_callback_eq
      (rfbi_transfer_area { s with framedone_callback := none } (some fn) d).2
    obtain ⟨_, h2, h3, _⟩ := rfbi_transfer_area_idle { s with framedone_callback := none }
      (some fn) d rfl
    rw [hl1, h2, h3, List.append_assoc]
    exact ⟨_, _, rfl⟩
  · obtain ⟨_, _, _, hl2⟩ := rfbi_framedone_callback_eq (rfbi_framedone_callback s)
    rw [hl2, hc, List.append_assoc]
    exact ⟨_, _, rfl⟩
  · exact (rfbi_transfer_area_idle (rfbi_framedone_callback s) cb d hc).1

/-! ## Raw transfers: claims C12 to C14 -/

/-- A loop over `n` units ends after `n` iterations when the fuel allows `n + 1` tests
of its condition. -/
theorem for_len_units {σ : Type} (step : Nat) (body : Nat → σ → σ) (hs0 : 0 < step) :
    ∀ (n fuel k : Nat) (s : σ), n < fuel → n * step < 4294967296 →
      for_len step body fuel (n * step) k s
        = some ((List.range' k n).foldl (fun s i => body i s) s) := by
  intro n
  induction n with
  | zero =>
    intro fuel k s hf _
    obtain ⟨f, rfl⟩ : ∃ f, fuel = f + 1 := ⟨fuel - 1, by omega⟩
    rw [for_len, Nat.zero_mul, if_pos rfl]
    rfl
  | succ n ih =>
    intro fuel k s hf hlen
    obtain ⟨f, rfl⟩ : ∃ f, fuel = f + 1 := ⟨fuel - 1, by omega⟩
    have hmul : (n + 1) * step = n * step + step := Nat.succ_mul n step
    have hne : ¬ (n + 1) * step = 0 := by omega
    have hnext : u32 ((n + 1) * step + (4294967296 - step)) = n * step := by
      unfold u32; omega
    rw [for_len, if_neg hne, hnext, ih f (k + 1) (body k s) (by omega) (by omega)]
    rfl

/-- What a run of writes of the units `f i` to the register `idx` leaves. -/
theorem write_units (idx : Nat) (f : Nat → Nat) (hf : ∀ i, f i < 4294967296) :
    ∀ (l : List Nat) (s : rfbi_data),
      (l.foldl (fun s i => rfbi_write_reg s idx (f i)) s).log
        = s.log ++ l.map (fun i => bus_event.write idx (f i)) ∧
      (∀ j, j ≠ idx → (l.foldl (fun s i => rfbi_write_reg s idx (f i)) s).regs j = s.regs j) := by
  intro l
  induction l with
  | nil => intro s; exact ⟨by simp, fun _ _ => rfl⟩
  | cons a l ih =>
    intro s
    obtain ⟨h1, h2⟩ := ih (rfbi_write_reg s idx (f a))
    rw [List.foldl_cons]
    refine ⟨?_, fun j hj => ?_⟩
    · rw [h1]
      simp only [rfbi_write_reg, u32_of_lt _ (hf a), List.map_cons, List.append_assoc,
        List.cons_append, List.nil_append]
    · rw [h2 j hj]
      simp only [rfbi_write_reg, Function.update_noteq hj]

theorem u8_at_lt (buf : Nat → Nat) (i : Nat) : u8_at buf i < 4294967296 := by
  unfold u8_at; omega

theorem u16_at_lt (buf : Nat → Nat) (j : Nat) : u16_at buf j < 4294967296 := by
  unfold u16_at; omega

theorem even_len (len : Nat) (h : len % 2 = 0) : len / 2 * 2 = len := by omega

theorem and_one_ne_zero (len : Nat) : len &&& 1 ≠ 0 ↔ len % 2 = 1 := by
  rw [Nat.and_one_is_mod]; omega

theorem rfbi_write_command_8 (rfbi : rfbi_data) (buf : Nat → Nat) (len : Nat)
    (hlen : len < 4294967296)
    (hm : rfbi.parallelmode = omap_rfbi_parallelmode.PARALLELMODE_8) :
    rfbi_write_command rfbi buf len = some (none,
      (List.range len).foldl (fun s i => rfbi_write_reg s RFBI_CMD (u8_at buf i)) rfbi) := by
  have h := for_len_units 1 (fun k rfbi => rfbi_write_reg rfbi RFBI_CMD (u8_at buf k))
    (by decide) len (len + 1) 0 rfbi (by omega) (by omega)
  rw [Nat.mul_one] at h
  unfold rfbi_write_command
  rw [hm]
  simp only [h, Option.map_some', List.range_eq_range']

theorem rfbi_write_command_16 (rfbi : rfbi_data) (buf : Nat → Nat) (len : Nat)
    (hlen : len < 4294967296) (he : len % 2 = 0)
    (hm : rfbi.parallelmode = omap_rfbi_parallelmode.PARALLELMODE_16) :
    rfbi_write_command rfbi buf len = some (none,
      (List.range (len / 2)).foldl (fun s j => rfbi_write_reg s RFBI_CMD (u16_at buf j)) rfbi) := by
  have h := for_len_units 2 (fun k rfbi => rfbi_write_reg rfbi RFBI_CMD (u16_at buf k))
    (by decide) (len / 2) (len + 1) 0 rfbi (by omega) (by omega)
  rw [even_len len he] at h
  have hg : ¬ (len &&& 1 ≠ 0) := by rw [and_one_ne_zero]; omega
  unfold rfbi_write_command
  rw [hm]
  simp only [if_neg hg, h, Option.map_some', List.range_eq_range']

theorem rfbi_write_data_8 (rfbi : rfbi_data) (buf : Nat → Nat) (len : Nat)
    (hlen : len < 4294967296)
    (hm : rfbi.parallelmode = omap_rfbi_parallelmode.PARALLELMODE_8) :
    rfbi_write_data rfbi buf len = some (none,
      (List.range len).foldl (fun s i => rfbi_write_reg s RFBI_PARAM (u8_at buf i)) rfbi) := by
  have h := for_len_units 1 (fun k rfbi => rfbi_write_reg rfbi RFBI_PARAM (u8_at buf k))
    (by decide) len (len + 1) 0 rfbi (by omega) (by omega)
  rw [Nat.mul_one] at h
  unfold rfbi_write_data
  rw [hm]
  simp only [h, Option.map_some', List.range_eq_range']

theorem rfbi_write_data_16 (rfbi : rfbi_data) (buf : Nat → Nat) (len : Nat)
    (hlen : len < 4294967296) (he : len % 2 = 0)
    (hm : rfbi.parallelmode = omap_rfbi_parallelmode.PARALLELMODE_16) :
    rfbi_write_data rfbi buf len = some (none,
      (List.range (len / 2)).foldl (fun s j => rfbi_write_reg s RFBI_PARAM (u16_at buf j)) rfbi) := by
  have h := for_len_units 2 (fun k rfbi => rfbi_write_reg rfbi RFBI_PARAM (u16_at buf k))
    (by decide) (len / 2) (len + 1) 0 rfbi (by omega) (by omega)
  rw [even_len len he] at h
  have hg : ¬ (len &&& 1 ≠ 0) := by rw [and_one_ne_zero]; omega
  unfold rfbi_write_data
  rw [hm]
  simp only [if_neg hg, h, Option.map_some', List.range_eq_range']

/-- The raw writes stop in a `BUG()` exactly in the 9-bit and 12-bit modes and, in
16-bit mode, on an odd length; the state is then the one of the call. -/
theorem rfbi_write_command_aborts (rfbi : rfbi_data) (buf : Nat → Nat) (len : Nat)
    (hlen : len < 4294967296) :
    ∃ o s, rfbi_write_command rfbi buf len = some (o, s) ∧
      (o ≠ none ↔ (rfbi.parallelmode = omap_rfbi_parallelmode.PARALLELMODE_9 ∨
        rfbi.parallelmode = omap_rfbi_parallelmode.PARALLELMODE_12 ∨
        (rfbi.parallelmode = omap_rfbi_parallelmode.PARALLELMODE_16 ∧ len % 2 = 1))) ∧
      (rfbi.parallelmode = omap_rfbi_parallelmode.PARALLELMODE_9 ∨
        rfbi.parallelmode = omap_rfbi_parallelmode.PARALLELMODE_12 →
          o = some bug_site.parallelmode) ∧
      (rfbi.parallelmode = omap_rfbi_parallelmode.PARALLELMODE_16 ∧ len % 2 = 1 →
          o = some bug_site.len_odd) ∧
      (o ≠ none → s = rfbi) := by
  cases hm : rfbi.parallelmode
  · exact ⟨_, _, rfbi_write_command_8 rfbi buf len hlen hm, by simp, by simp, by simp, by simp⟩
  · refine ⟨some bug_site.parallelmode, rfbi, ?_, by simp, by simp, by simp, by simp⟩
    unfold rfbi_write_command; rw [hm]
  · refine ⟨some bug_site.parallelmode, rfbi, ?_, by simp, by simp, by simp, by simp⟩
    unfold rfbi_write_command; rw [hm]
  · by_cases he : len % 2 = 1
    · refine ⟨some bug_site.len_odd, rfbi, ?_, by simp [he], by simp, by simp, by simp⟩
      unfold rfbi_write_command; rw [hm]
      simp only [if_pos ((and_one_ne_zero len).2 he)]
    · exact ⟨_, _, rfbi_write_command_16 rfbi buf len hlen (by omega) hm, by simp [he],
        by simp, by simp [he], by simp⟩

theorem rfbi_write_data_aborts (rfbi : rfbi_data) (buf : Nat → Nat) (len : Nat)
    (hlen : len < 4294967296) :
    ∃ o s, rfbi_write_data rfbi buf len = some (o, s) ∧
      (o ≠ none ↔ (rfbi.parallelmode = omap_rfbi_parallelmode.PARALLELMODE_9 ∨
        rfbi.parallelmode = omap_rfbi_parallelmode.PARALLELMODE_12 ∨
        (rfbi.parallelmode = omap_rfbi_parallelmode.PARALLELMODE_16 ∧ len % 2 = 1))) ∧
      (rfbi.parallelmode = omap_rfbi_parallelmode.PARALLELMODE_9 ∨
        rfbi.parallelmode = omap_rfbi_parallelmode.PARALLELMODE_12 →
          o = some bug_site.parallelmode) ∧
      (rfbi.parallelmode = omap_rfbi_parallelmode.PARALLELMODE_16 ∧ len % 2 = 1 →
          o = some bug_site.len_odd) ∧
      (o ≠ none → s = rfbi) := by
  cases hm : rfbi.parallelmode
  · exact ⟨_, _, rfbi_write_data_8 rfbi buf len hlen hm, by simp, by simp, by simp, by simp⟩
  · refine ⟨some bug_site.parallelmode, rfbi, ?_, by simp, by simp, by simp, by simp⟩
    unfold rfbi_write_data; rw [hm]
  · refine ⟨some bug_site.parallelmode, rfbi, ?_, by simp, by simp, by simp, by simp⟩
    unfold rfbi_write_data; rw [hm]
  · by_cases he : len % 2 = 1
    · refine ⟨some bug_site.len_odd, rfbi, ?_, by simp [he], by simp, by simp, by simp⟩
      unfold rfbi_write_data; rw [hm]
      simp only [if_pos ((and_one_ne_zero len).2 he)]
    · exact ⟨_, _, rfbi_write_data_16 rfbi buf len hlen (by omega) hm, by simp [he],
        by simp, by simp [he], by simp⟩

/-- A call of `rfbi_read_data` that stops in a `BUG()` has touched neither the
registers nor the buffer. -/
theorem rfbi_read_data_aborts (rfbi : rfbi_data) (device buf : Nat → Nat) (len : Nat) :
    (rfbi.parallelmode = omap_rfbi_parallelmode.PARALLELMODE_9 ∨
      rfbi.parallelmode = omap_rfbi_parallelmode.PARALLELMODE_12 →
        rfbi_read_data rfbi device buf len = some (some bug_site.parallelmode, rfbi, buf)) ∧
    (∀ site s b, rfbi_read_data rfbi device buf len = some (some site, s, b) →
      s = rfbi ∧ b = buf) := by
  refine ⟨fun h => ?_, fun site s b h => ?_⟩
  · rcases h with h | h <;> (unfold rfbi_read_data; rw [h])
  · unfold rfbi_read_data at h
    cases hm : rfbi.parallelmode <;> rw [hm] at h <;> simp only [] at h
    · simp only [Option.map_eq_some', Prod.mk.injEq, reduceCtorEq, false_and, and_false,
        exists_const] at h
      exact h.elim (fun _ hf => hf.elim)
    · simp only [Option.some.injEq, Prod.mk.injEq] at h
      exact ⟨h.2.1.symm, h.2.2.symm⟩
    · simp only [Option.some.injEq, Prod.mk.injEq] at h
      exact ⟨h.2.1.symm, h.2.2.symm⟩
    · split_ifs at h
      · simp only [Option.some.injEq, Prod.mk.injEq] at h
        exact ⟨h.2.1.symm, h.2.2.symm⟩
      · simp only [Option.map_eq_some', Prod.mk.injEq, reduceCtorEq, false_and, and_false,
          exists_const] at h
        exact h.elim (fun _ hf => hf.elim)

/-- C12: for every buffer and every length (a `u32`), `rfbi_write_command` and
`rfbi_write_data` stop in a `BUG()` if and only if the parallel mode is 9-bit or
12-bit (`UnsupportedParallelMode`) or it is 16-bit and the length is odd
(`MisalignedLength`), and otherwise return; `rfbi_read_data` stops in the `BUG()` of
the 9-bit and 12-bit modes as well.  Whenever one of the three stops in a `BUG()` the
state is the state of the call: no register has been written or read. -/
theorem raw_transfer_aborts (rfbi : rfbi_data) (device buf : Nat → Nat) (len : Nat)
    (hlen : len < 4294967296) :
    (∃ o s, rfbi_write_command rfbi buf len = some (o, s) ∧
      (o ≠ none ↔ (rfbi.parallelmode = omap_rfbi_parallelmode.PARALLELMODE_9 ∨
        rfbi.parallelmode = omap_rfbi_parallelmode.PARALLELMODE_12 ∨
        (rfbi.parallelmode = omap_rfbi_parallelmode.PARALLELMODE_16 ∧ len % 2 = 1))) ∧
      (rfbi.parallelmode = omap_rfbi_parallelmode.PARALLELMODE_9 ∨
        rfbi.parallelmode = omap_rfbi_parallelmode.PARALLELMODE_12 →
          o = some bug_site.parallelmode) ∧
      (rfbi.parallelmode = omap_rfbi_parallelmode.PARALLELMODE_16 ∧ len % 2 = 1 →
          o = some bug_site.len_odd) ∧
      (o ≠ none → s = rfbi)) ∧
    (∃ o s, rfbi_write_data rfbi buf len = some (o, s) ∧
      (o ≠ none ↔ (rfbi.parallelmode = omap_rfbi_parallelmode.PARALLELMODE_9 ∨
        rfbi.parallelmode = omap_rfbi_parallelmode.PARALLELMODE_12 ∨
        (rfbi.parallelmode = omap_rfbi_parallelmode.PARALLELMODE_16 ∧ len % 2 = 1))) ∧
      (rfbi.parallelmode = omap_rfbi_parallelmode.PARALLELMODE_9 ∨
        rfbi.parallelmode = omap_rfbi_parallelmode.PARALLELMODE_12 →
          o = some bug_site.parallelmode) ∧
      (rfbi.parallelmode = omap_rfbi_parallelmode.PARALLELMODE_16 ∧ len % 2 = 1 →
          o = some bug_site.len_odd) ∧
      (o ≠ none → s = rfbi)) ∧
    (rfbi.parallelmode = omap_rfbi_parallelmode.PARALLELMODE_9 ∨
      rfbi.parallelmode = omap_rfbi_parallelmode.PARALLELMODE_12 →
        rfbi_read_data rfbi device buf len = some (some bug_site.parallelmode, rfbi, buf)) ∧
    (∀ site s b, rfbi_read_data rfbi device buf len = some (some site, s, b) →
      s = rfbi ∧ b = buf) ∧
    Spec.error_of bug_site.parallelmode = Spec.error.UnsupportedParallelMode ∧
    Spec.error_of bug_site.len_odd = Spec.error.MisalignedLength :=
  ⟨rfbi_write_command_aborts rfbi buf len hlen, rfbi_write_data_aborts rfbi buf len hlen,
    (rfbi_read_data_aborts rfbi device buf len).1, (rfbi_read_data_aborts rfbi device buf len).2,
    rfl, rfl⟩

/-- Witness of C12: an odd length in 16-bit mode. -/
theorem raw_transfer_aborts_witness :
    (3 : Nat) < 4294967296 ∧
    rfbi_write_data bus_16bit buf_count 3 = some (some bug_site.len_odd, bus_16bit) := by
  refine ⟨by decide, ?_⟩
  obtain ⟨o, s, h, _, _, h16, hs⟩ :=
    (raw_transfer_aborts bus_16bit buf_count buf_count 3 (by decide)).2.1
  have ho := h16 ⟨rfl, by decide⟩
  subst ho
  have hs' := hs (by simp)
  subst hs'
  exact h

/-- C13: for every buffer and every length `len` (a `u32`): in 8-bit mode
`rfbi_write_command` returns after exactly `len` register writes, the `i`-th writing
byte `i` of the buffer to `CMD` (offset 0x04c); in 16-bit mode with `len` even it
returns after exactly `len / 2` writes, the `j`-th writing the `j`-th 16-bit word of
the buffer to `CMD`; `rfbi_write_data` does the same with `PARAM` (offset 0x050) in the
place of `CMD`.  The writes are all the accesses the call makes, in buffer order, and
every other register keeps its value. -/
theorem raw_write_units (rfbi : rfbi_data) (buf : Nat → Nat) (len : Nat)
    (hlen : len < 4294967296) :
    RFBI_CMD = 0x04c ∧ RFBI_PARAM = 0x050 ∧
    (rfbi.parallelmode = omap_rfbi_parallelmode.PARALLELMODE_8 →
      (∃ s, rfbi_write_command rfbi buf len = some (none, s) ∧
        s.log = rfbi.log ++ (List.range len).map (fun i => bus_event.write RFBI_CMD (u8_at buf i)) ∧
        ∀ idx, idx ≠ RFBI_CMD → s.regs idx = rfbi.regs idx) ∧
      (∃ s, rfbi_write_data rfbi buf len = some (none, s) ∧
        s.log = rfbi.log ++
          (List.range len).map (fun i => bus_event.write RFBI_PARAM (u8_at buf i)) ∧
        ∀ idx, idx ≠ RFBI_PARAM → s.regs idx = rfbi.regs idx)) ∧
    (rfbi.parallelmode = omap_rfbi_parallelmode.PARALLELMODE_16 → len % 2 = 0 →
      (∃ s, rfbi_write_command rfbi buf len = some (none, s) ∧
        s.log = rfbi.log ++
          (List.range (len / 2)).map (fun j => bus_event.write RFBI_CMD (u16_at buf j)) ∧
        ∀ idx, idx ≠ RFBI_CMD → s.regs idx = rfbi.regs idx) ∧
      (∃ s, rfbi_write_data rfbi buf len = some (none, s) ∧
        s.log = rfbi.log ++
          (List.range (len / 2)).map (fun j => bus_event.write RFBI_PARAM (u16_at buf j)) ∧
        ∀ idx, idx ≠ RFBI_PARAM → s.regs idx = rfbi.regs idx)) := by
  refine ⟨by decide, by decide, fun hm => ⟨?_, ?_⟩, fun hm he => ⟨?_, ?_⟩⟩
  · exact ⟨_, rfbi_write_command_8 rfbi buf len hlen hm,
      write_units RFBI_CMD (u8_at buf) (u8_at_lt buf) (List.range len) rfbi⟩
  · exact ⟨_, rfbi_write_data_8 rfbi buf len hlen hm,
      write_units RFBI_PARAM (u8_at buf) (u8_at_lt buf) (List.range len) rfbi⟩
  · exact ⟨_, rfbi_write_command_16 rfbi buf len hlen he hm,
      write_units RFBI_CMD (u16_at buf) (u16_at_lt buf) (List.range (len / 2)) rfbi⟩
  · exact ⟨_, rfbi_write_data_16 rfbi buf len hlen he hm,
      write_units RFBI_PARAM (u16_at buf) (u16_at_lt buf) (List.range (len / 2)) rfbi⟩

/-- Witness of C13: four bytes in 16-bit mode are written as two words. -/
theorem raw_write_units_witness :
    (4 : Nat) < 4294967296 ∧
    ∃ s, rfbi_write_command bus_16bit buf_count 4 = some (none, s) ∧
      s.log = [bus_event.write RFBI_CMD 513, bus_event.write RFBI_CMD 1027] := by
  refine ⟨by decide, ?_⟩
  obtain ⟨s, h1, h2, _⟩ :=
    ((raw_write_units bus_16bit buf_count 4 (by decide)).2.2.2 rfl (by decide)).1
  exact ⟨s, h1, by rw [h2]; decide⟩

/-- The guard `len & ~1` of `rfbi_read_data` is non-zero exactly from length 2 on. -/
theorem and_not_one_ne_zero (len : Nat) (hlen : len < 4294967296) :
    len &&& 4294967294 ≠ 0 ↔ 2 ≤ len := by
  constructor
  · intro h
    by_contra hlt
    have : len = 0 ∨ len = 1 := by omega
    rcases this with h0 | h1
    · subst h0; exact h (by decide)
    · subst h1; exact h (by decide)
  · intro h2 h0
    have hne : len / 2 ≠ 0 := by omega
    obtain ⟨j, hj⟩ := Nat.ne_zero_implies_bit_true hne
    have hb : len.testBit (j + 1) = true := by rw [Nat.testBit_succ]; exact hj
    have hj31 : j + 1 ≤ 31 := by
      by_contra hgt
      have : len.testBit (j + 1) = false :=
        Nat.testBit_lt_two_pow (Nat.lt_of_lt_of_le hlen
          (Nat.pow_le_pow_right (show 2 > 0 from by decide) (by omega : 32 ≤ j + 1)))
      rw [this] at hb
      exact Bool.noConfusion hb
    have hm : (4294967294 : Nat) = FLD_MASK 31 1 := by decide
    have hbit : (len &&& 4294967294).testBit (j + 1) = true := by
      rw [Nat.testBit_and, hb, hm, testBit_FLD_MASK 31 1 (j + 1) (by decide) (by decide)]
      simp; omega
    rw [h0, Nat.zero_testBit] at hbit
    exact Bool.noConfusion hbit

/-- A loop `for (; len; len -= 2)` entered with an odd `len` does not end: `len` stays
odd and never is 0. -/
theorem for_len_odd {σ : Type} (body : Nat → σ → σ) :
    ∀ (fuel len k : Nat) (s : σ), len % 2 = 1 → len < 4294967296 →
      for_len 2 body fuel len k s = none := by
  intro fuel
  induction fuel with
  | zero => intro len k s _ _; rfl
  | succ f ih =>
    intro len k s ho hl
    rw [for_len, if_neg (by omega)]
    exact ih _ _ _ (by unfold u32; omega) (u32_lt _)

/-- What the 16-bit case of `rfbi_read_data` does on each length: from 2 on it stops
at `BUG_ON(len & ~1)` with nothing accessed, on 0 it returns with nothing accessed, on
1 the loop does not end. -/
theorem rfbi_read_data_16 (rfbi : rfbi_data) (device buf : Nat → Nat) (len : Nat)
    (hlen : len < 4294967296)
    (hm : rfbi.parallelmode = omap_rfbi_parallelmode.PARALLELMODE_16) :
    (2 ≤ len →
      rfbi_read_data rfbi device buf len = some (some bug_site.len_not_below_2, rfbi, buf)) ∧
    (len = 0 → rfbi_read_data rfbi device buf len = some (none, rfbi, buf)) ∧
    (len = 1 → rfbi_read_data rfbi device buf len = none) := by
  refine ⟨fun h => ?_, fun h => ?_, fun h => ?_⟩
  · unfold rfbi_read_data
    rw [hm]
    simp only [if_pos ((and_not_one_ne_zero len hlen).2 h)]
  · subst h
    unfold rfbi_read_data
    rw [hm]
    rfl
  · subst h
    unfold rfbi_read_data
    rw [hm]
    simp only [if_neg (show ¬ (1 &&& 4294967294 ≠ 0) from by decide)]
    rw [for_len_odd _ _ 1 0 _ (by decide) (by decide)]
    rfl

/-- What a run of byte reads leaves: the two accesses of each iteration in the trace,
the other registers untouched, the units read in the buffer. -/
theorem read_units_8 (device : Nat → Nat) :
    ∀ (n k : Nat) (s : rfbi_data × (Nat → Nat)),
      ((List.range' k n).foldl (fun (s : rfbi_data × (Nat → Nat)) i =>
          ((rfbi_read_reg (read_cycle (rfbi_write_reg s.1 RFBI_READ 0) (device i)) RFBI_READ).2,
            store_u8 s.2 i
              (rfbi_read_reg (read_cycle (rfbi_write_reg s.1 RFBI_READ 0) (device i))
                RFBI_READ).1)) s).1.log
        = s.1.log ++ (List.range' k n).flatMap (fun i =>
            [bus_event.write RFBI_READ 0, bus_event.read RFBI_READ (u32 (device i))]) ∧
      (∀ i, k ≤ i → i < k + n →
        ((List.range' k n).foldl (fun (s : rfbi_data × (Nat → Nat)) i =>
          ((rfbi_read_reg (read_cycle (rfbi_write_reg s.1 RFBI_READ 0) (device i)) RFBI_READ).2,
            store_u8 s.2 i
              (rfbi_read_reg (read_cycle (rfbi_write_reg s.1 RFBI_READ 0) (device i))
                RFBI_READ).1)) s).2 i = device i % 256) ∧
      (∀ i, i < k ∨ k + n ≤ i →
        ((List.range' k n).foldl (fun (s : rfbi_data × (Nat → Nat)) i =>
          ((rfbi_read_reg (read_cycle (rfbi_write_reg s.1 RFBI_READ 0) (device i)) RFBI_READ).2,
            store_u8 s.2 i
              (rfbi_read_reg (read_cycle (rfbi_write_reg s.1 RFBI_READ 0) (device i))
                RFBI_READ).1)) s).2 i = s.2 i) := by
  intro n
  induction n with
  | zero =>
    intro k s
    exact ⟨by simp, fun i h1 h2 => by omega, fun i _ => rfl⟩
  | succ n ih =>
    intro k s
    rw [List.range'_succ, List.foldl_cons]
    obtain ⟨h1, h2, h3⟩ := ih (k + 1)
      ((rfbi_read_reg (read_cycle (rfbi_write_reg s.1 RFBI_READ 0) (device k)) RFBI_READ).2,
        store_u8 s.2 k
          (rfbi_read_reg (read_cycle (rfbi_write_reg s.1 RFBI_READ 0) (device k)) RFBI_READ).1)
    have hv : (rfbi_read_reg (read_cycle (rfbi_write_reg s.1 RFBI_READ 0) (device k))
        RFBI_READ).1 = u32 (device k) := by
      simp only [rfbi_read_reg, read_cycle, Function.update_same]
    have hlog : (rfbi_read_reg (read_cycle (rfbi_write_reg s.1 RFBI_READ 0) (device k))
        RFBI_READ).2.log = s.1.log ++
          [bus_event.write RFBI_READ 0, bus_event.read RFBI_READ (u32 (device k))] := by
      simp only [rfbi_read_reg, read_cycle, rfbi_write_reg, Function.update_same,
        List.append_assoc, List.cons_append, List.nil_append]
      rfl
    refine ⟨?_, fun i hi1 hi2 => ?_, fun i hi => ?_⟩
    · rw [h1, hlog, List.flatMap_cons, List.append_assoc]
    · by_cases hik : i = k
      · subst hik
        rw [h3 i (Or.inl (by omega)), hv]
        simp only [store_u8, Function.update_same]
        unfold u32; omega
      · exact h2 i (by omega) (by omega)
    · rw [h3 i (by omega)]
      simp only [store_u8]
      rw [Function.update_noteq (by omega)]

/-- The 8-bit case of `rfbi_read_data`: for every length it returns after `len`
iterations, each a write of 0 to `READ` followed by a read of `READ` whose low 8 bits
are stored as the next byte of the buffer. -/
theorem rfbi_read_data_8 (rfbi : rfbi_data) (device buf : Nat → Nat) (len : Nat)
    (hlen : len < 4294967296)
    (hm : rfbi.parallelmode = omap_rfbi_parallelmode.PARALLELMODE_8) :
    ∃ s b, rfbi_read_data rfbi device buf len = some (none, s, b) ∧
      s.log = rfbi.log ++ (List.range len).flatMap (fun i =>
        [bus_event.write RFBI_READ 0, bus_event.read RFBI_READ (u32 (device i))]) ∧
      (∀ i, i < len → b i = device i % 256) ∧ (∀ i, len ≤ i → b i = buf i) := by
  have h := for_len_units 1
    (fun k (s : rfbi_data × (Nat → Nat)) =>
      ((rfbi_read_reg (read_cycle (rfbi_write_reg s.1 RFBI_READ 0) (device k)) RFBI_READ).2,
        store_u8 s.2 k
          (rfbi_read_reg (read_cycle (rfbi_write_reg s.1 RFBI_READ 0) (device k)) RFBI_READ).1))
    (by decide) len (len + 1) 0 (rfbi, buf) (by omega) (by omega)
  rw [Nat.mul_one] at h
  obtain ⟨h1, h2, h3⟩ := read_units_8 device len 0 (rfbi, buf)
  generalize List.foldl _ (rfbi, buf) (List.range' 0 len) = r at h h1 h2 h3
  refine ⟨r.1, r.2, ?_, ?_, fun i hi => h2 i (Nat.zero_le i) (by omega),
    fun i hi => h3 i (Or.inr (by omega))⟩
  · unfold rfbi_read_data
    rw [hm]
    simp only [h, Option.map_some']
  · rw [h1, List.range_eq_range']

/-- C14 fails on the code: in 16-bit mode a read of length 2 stops at
`BUG_ON(len & ~1)`, which rejects every length from 2 on, before any register is
accessed; the claim has it complete after one iteration. -/
theorem rfbi_read_data_16_len_2 :
    bus_16bit.parallelmode = omap_rfbi_parallelmode.PARALLELMODE_16 ∧
    rfbi_read_data bus_16bit buf_count buf_count 2
      = some (some bug_site.len_not_below_2, bus_16bit, buf_count) ∧
    rfbi_write_data bus_16bit buf_count 2 ≠ some (some bug_site.len_odd, bus_16bit) :=
  ⟨rfl, (rfbi_read_data_16 bus_16bit buf_count buf_count 2 (by decide) rfl).1 (by decide),
    by rw [rfbi_write_data_16 bus_16bit buf_count 2 (by decide) (by decide) rfl]; simp⟩

/-! ## The solver reads the clock rate and the ten requirements only -/

theorem calc_reg_timing_clock (p : Nat) (rfbi : rfbi_data) (t : rfbi_timings) (d : Int) :
    calc_reg_timing p rfbi t d = calc_reg_timing p (rfbi_probed rfbi.l4_khz) t d := rfl

theorem calc_extif_loop_clock (p : Nat) (rfbi : rfbi_data) (m : Nat) :
    ∀ (fuel : Nat) (div : Int) (t : rfbi_timings),
      calc_extif_loop p rfbi m fuel div t
        = calc_extif_loop p (rfbi_probed rfbi.l4_khz) m fuel div t := by
  intro fuel
  induction fuel with
  | zero => intro div t; rfl
  | succ f ih =>
    intro div t
    rw [calc_extif_loop, calc_extif_loop, ← calc_reg_timing_clock]
    simp only [ih]

theorem calc_extif_timings_clock (g g' : Nat) (rfbi : rfbi_data) (t : rfbi_timings) :
    calc_extif_timings g rfbi t = calc_extif_timings g' (rfbi_probed rfbi.l4_khz) t := by
  unfold calc_extif_timings
  have h : rfbi_get_clk_info (rfbi_probed rfbi.l4_khz) = rfbi_get_clk_info rfbi := rfl
  rw [h]
  simp only [calc_extif_loop_clock _ rfbi]

/-- The solver gives the same on two states with the same clock rate. -/
theorem calc_extif_timings_same_clock (g : Nat) (s1 s2 : rfbi_data) (t : rfbi_timings)
    (h : s1.l4_khz = s2.l4_khz) :
    calc_extif_timings g s1 t = calc_extif_timings g s2 t := by
  rw [calc_extif_timings_clock g g s1 t, calc_extif_timings_clock g g s2 t, h]

/-- The conversion leaves the requirements and the divider alone, returns 0 or -1, and
when it returns -1 it leaves `tim[1]`, `tim[2]` and `converted` alone as well. -/
theorem convert_with_frame (tk : Int → Int) (t : rfbi_timings) :
    same_req (convert_with tk t).2.1 t ∧ (convert_with tk t).2.1.clk_div = t.clk_div ∧
    ((convert_with tk t).1 = 0 ∨
      ((convert_with tk t).1 = -1 ∧ (convert_with tk t).2.1.converted = t.converted ∧
        (convert_with tk t).2.1.tim1 = t.tim1 ∧ (convert_with tk t).2.1.tim2 = t.tim2)) := by
  generalize h : convert_with tk t = r
  unfold convert_with at h
  simp only [] at h
  by_cases c0 : t.clk_div ≤ 0 ∨ t.clk_div > 2
  · rw [if_pos c0] at h; subst h; simp [same_req]
  rw [if_neg c0] at h
  by_cases c1 : tk t.we_on_time > 15
  · rw [if_pos c1] at h; subst h; simp [same_req]
  rw [if_neg c1] at h
  by_cases c2 : raise_above (tk t.we_off_time) (tk t.we_on_time) > 63
  · rw [if_pos c2] at h; subst h; simp [same_req]
  rw [if_neg c2] at h
  by_cases c3 : tk t.re_on_time > 15
  · rw [if_pos c3] at h; subst h; simp [same_req]
  rw [if_neg c3] at h
  by_cases c4 : raise_above (tk t.re_off_time) (tk t.re_on_time) > 63
  · rw [if_pos c4] at h; subst h; simp [same_req]
  rw [if_neg c4] at h
  by_cases c5 : tk t.cs_on_time > 15
  · rw [if_pos c5] at h; subst h; simp [same_req]
  rw [if_neg c5] at h
  split_ifs at h <;> subst h <;> simp [same_req]

/-- Two conversions of structures with the same requirements and the same divider
return the same value, and the same structure when that value is 0. -/
theorem convert_with_rel (tk : Int → Int) (t1 t2 : rfbi_timings) (h : same_req t1 t2)
    (hd : t1.clk_div = t2.clk_div) :
    (convert_with tk t1).1 = (convert_with tk t2).1 ∧
    ((convert_with tk t1).1 = 0 → (convert_with tk t1).2.1 = (convert_with tk t2).2.1) := by
  obtain ⟨a1, a2, a3, a4, a5, a6, a7, a8, a9, a10, a11, a12, a13, a14, a15⟩ := t1
  obtain ⟨b1, b2, b3, b4, b5, b6, b7, b8, b9, b10, b11, b12, b13, b14, b15⟩ := t2
  simp only [same_req] at h hd
  obtain ⟨rfl, rfl, rfl, rfl, rfl, rfl, rfl, rfl, rfl, rfl⟩ := h
  subst hd
  generalize h1 : convert_with tk _ = r1
  generalize h2 : convert_with tk _ = r2
  unfold convert_with at h1 h2
  simp only [] at h1 h2
  by_cases c0 : a11 ≤ 0 ∨ a11 > 2
  · rw [if_pos c0] at h1 h2; subst h1 h2; simp
  rw [if_neg c0] at h1 h2
  by_cases c1 : tk a3 > 15
  · rw [if_pos c1] at h1 h2; subst h1 h2; simp
  rw [if_neg c1] at h1 h2
  by_cases c2 : raise_above (tk a4) (tk a3) > 63
  · rw [if_pos c2] at h1 h2; subst h1 h2; simp
  rw [if_neg c2] at h1 h2
  by_cases c3 : tk a5 > 15
  · rw [if_pos c3] at h1 h2; subst h1 h2; simp
  rw [if_neg c3] at h1 h2
  by_cases c4 : raise_above (tk a6) (tk a5) > 63
  · rw [if_pos c4] at h1 h2; subst h1 h2; simp
  rw [if_neg c4] at h1 h2
  by_cases c5 : tk a1 > 15
  · rw [if_pos c5] at h1 h2; subst h1 h2; simp
  rw [if_neg c5] at h1 h2
  split_ifs at h1 h2 <;> subst h1 h2 <;> simp

theorem same_req_symm (t1 t2 : rfbi_timings) (h : same_req t1 t2) : same_req t2 t1 := by
  unfold same_req at *
  obtain ⟨h1, h2, h3, h4, h5, h6, h7, h8, h9, h10⟩ := h
  exact ⟨h1.symm, h2.symm, h3.symm, h4.symm, h5.symm, h6.symm, h7.symm, h8.symm, h9.symm,
    h10.symm⟩

theorem same_req_trans (t1 t2 t3 : rfbi_timings) (h : same_req t1 t2) (g : same_req t2 t3) :
    same_req t1 t3 := by
  unfold same_req at *
  obtain ⟨h1, h2, h3, h4, h5, h6, h7, h8, h9, h10⟩ := h
  obtain ⟨g1, g2, g3, g4, g5, g6, g7, g8, g9, g10⟩ := g
  exact ⟨h1.trans g1, h2.trans g2, h3.trans g3, h4.trans g4, h5.trans g5, h6.trans g6,
    h7.trans g7, h8.trans g8, h9.trans g9, h10.trans g10⟩

theorem same_req_map_fields (g : Int → Int) (t1 t2 : rfbi_timings) (d : Int)
    (h : same_req t1 t2) :
    same_req (map_fields g { t1 with clk_div := d }) (map_fields g { t2 with clk_div := d }) := by
  obtain ⟨h1, h2, h3, h4, h5, h6, h7, h8, h9, h10⟩ := h
  simp only [same_req, map_fields, h1, h2, h3, h4, h5, h6, h7, h8, h9, h10, and_self]

/-- The rounding of `calc_reg_timing` at a divider either divides by zero for every
field or is a function of the field. -/
theorem round_field_cases (p : Nat) (d : Int) :
    (∀ f, round_field p f d = none) ∨ (∃ g : Int → Int, ∀ f, round_field p f d = some (g f)) := by
  by_cases h : int_to_u32 (wrap_int (u32 (p * int_to_u32 d))) = 0
  · left; intro f
    unfold round_field round_to_extif_ticks
    simp only [if_pos h]
    rfl
  · right
    refine ⟨fun f => wrap_int ((u32 (u32 (u32 (int_to_u32 f
      + int_to_u32 (wrap_int (u32 (p * int_to_u32 d)))) + 4294967295)
      / int_to_u32 (wrap_int (u32 (p * int_to_u32 d)))
      * int_to_u32 (wrap_int (u32 (p * int_to_u32 d)))) : Nat) : Int), fun f => ?_⟩
    unfold round_field round_to_extif_ticks
    simp only [if_neg h]
    rfl

theorem convert_ticks_div_zero (rfbi : rfbi_data) (t : rfbi_timings)
    (hd : ¬ (t.clk_div ≤ 0 ∨ t.clk_div > 2))
    (h : ∀ x, ps_to_rfbi_ticks rfbi x t.clk_div = none) :
    rfbi_convert_ticks rfbi t = none := by
  unfold rfbi_convert_ticks
  simp only []
  rw [if_neg hd, h]

/-- `calc_reg_timing` when neither the rounding nor the tick count divides by zero: the
conversion, with tick counts `tk`, of the structure rounded by `g`. -/
theorem calc_reg_timing_some (p : Nat) (rfbi : rfbi_data) (d : Int) (g tk : Int → Int)
    (hg : ∀ f, round_field p f d = some (g f))
    (htk : ∀ x, ps_to_rfbi_ticks rfbi x d = some (tk x)) (t : rfbi_timings) :
    calc_reg_timing p rfbi t d
      = some ((convert_with tk (map_fields g { t with clk_div := d })).1,
          (convert_with tk (map_fields g { t with clk_div := d })).2.1) := by
  have hcrt : calc_reg_timing p rfbi t d
      = rfbi_convert_timings rfbi (map_fields g { t with clk_div := d }) := by
    unfold calc_reg_timing
    simp only [hg, Option.some_bind]
    rfl
  rw [hcrt]
  unfold rfbi_convert_timings
  rw [convert_ticks_eq_with rfbi _ tk
    ⟨htk _, htk _, htk _, htk _, htk _, htk _, htk _, htk _, htk _, htk _⟩]
  rfl

/-- At divider 1 or 2 `calc_reg_timing` either divides by zero whatever the structure,
or is the conversion, with tick counts `tk`, of the structure rounded by `g`. -/
theorem calc_reg_timing_shape (p : Nat) (rfbi : rfbi_data) (d : Int) (hd : d = 1 ∨ d = 2) :
    (∀ t, calc_reg_timing p rfbi t d = none) ∨
    (∃ g tk : Int → Int, ∀ t, calc_reg_timing p rfbi t d
      = some ((convert_with tk (map_fields g { t with clk_div := d })).1,
          (convert_with tk (map_fields g { t with clk_div := d })).2.1)) := by
  rcases round_field_cases p d with hn | ⟨g, hg⟩
  · left; intro t
    unfold calc_reg_timing
    rw [hn]; rfl
  · rcases ps_to_rfbi_ticks_cases rfbi d with hp | ⟨tk, htk⟩
    · left; intro t
      have hcrt : calc_reg_timing p rfbi t d
          = rfbi_convert_timings rfbi (map_fields g { t with clk_div := d }) := by
        unfold calc_reg_timing
        simp only [hg, Option.some_bind]
        rfl
      rw [hcrt]
      unfold rfbi_convert_timings
      rw [convert_ticks_div_zero rfbi _ (by
        show ¬ (d ≤ 0 ∨ d > 2)
        omega) (fun x => hp x)]
      rfl
    · exact Or.inr ⟨g, tk, calc_reg_timing_some p rfbi d g tk hg htk⟩

/-- With a positive clock rate and a positive period `calc_reg_timing` returns at
divider 1 and at divider 2. -/
theorem calc_reg_timing_returns (rfbi : rfbi_data) (t : rfbi_timings) (d : Int)
    (hd : d = 1 ∨ d = 2) (hk : 0 < rfbi.l4_khz) (hp0 : 0 < 1000000000 / rfbi.l4_khz) :
    ∃ r t', calc_reg_timing (1000000000 / rfbi.l4_khz) rfbi t d = some (r, t') := by
  have hple : 1000000000 / rfbi.l4_khz ≤ 1000000000 := Nat.div_le_self _ _
  have hd32 : int_to_u32 d = 1 ∨ int_to_u32 d = 2 := by
    rcases hd with h | h <;> subst h
    · exact Or.inl (by decide)
    · exact Or.inr (by decide)
  have hprod : 0 < 1000000000 / rfbi.l4_khz * int_to_u32 d ∧
      1000000000 / rfbi.l4_khz * int_to_u32 d < 2147483648 := by
    rcases hd32 with h | h <;> rw [h] <;> omega
  have hu : u32 (1000000000 / rfbi.l4_khz * int_to_u32 d)
      = 1000000000 / rfbi.l4_khz * int_to_u32 d := u32_of_lt _ (by omega)
  have hbt : int_to_u32 (wrap_int (u32 (1000000000 / rfbi.l4_khz * int_to_u32 d)))
      = 1000000000 / rfbi.l4_khz * int_to_u32 d := by
    rw [hu, int_to_u32_wrap_int _ (by omega)]
  obtain ⟨g, hg⟩ : ∃ g : Int → Int, ∀ f,
      round_field (1000000000 / rfbi.l4_khz) f d = some (g f) := by
    rcases round_field_cases (1000000000 / rfbi.l4_khz) d with hn | h
    · have h0 := hn 0
      unfold round_field round_to_extif_ticks at h0
      simp only [hbt, if_neg (Nat.pos_iff_ne_zero.1 hprod.1)] at h0
      exact Option.noConfusion h0
    · exact h
  obtain ⟨tk, htk⟩ : ∃ tk : Int → Int, ∀ x, ps_to_rfbi_ticks rfbi x d = some (tk x) := by
    rcases ps_to_rfbi_ticks_cases rfbi d with hn | h
    · have h0 := hn 0
      unfold ps_to_rfbi_ticks at h0
      simp only [hu, if_neg (Nat.pos_iff_ne_zero.1 hk), if_neg (Nat.pos_iff_ne_zero.1 hprod.1)]
        at h0
      exact Option.noConfusion h0
    · exact h
  exact ⟨_, _, calc_reg_timing_some _ rfbi d g tk hg htk t⟩

theorem or_lt_u32 (a b : Nat) (ha : a < 4294967296) (hb : b < 4294967296) :
    a ||| b < 4294967296 := by
  have h32 : (4294967296 : Nat) = 2 ^ 32 := by norm_num
  rw [h32] at ha hb ⊢
  exact Nat.or_lt_two_pow ha hb

theorem shl_u32_lt (x : Int) (k : Nat) : shl_u32 x k < 4294967296 := u32_lt _

/-- What a call of `calc_reg_timing` at divider 1 or 2 that returns leaves: the value is
0 or -1 and the divider is stored; on 0 the structure is converted, `tim[2]` is the
divider less one and the two words are 32-bit values; on -1 `converted`, `tim[1]` and
`tim[2]` are as before. -/
theorem calc_reg_timing_facts (p : Nat) (rfbi : rfbi_data) (t t' : rfbi_timings) (d r : Int)
    (hd : d = 1 ∨ d = 2) (h : calc_reg_timing p rfbi t d = some (r, t')) :
    (r = 0 ∨ r = -1) ∧ t'.clk_div = d ∧
    (r = 0 → t'.converted = 1 ∧ (t'.tim2 : Int) = d - 1 ∧ t'.tim0 < 4294967296 ∧
      t'.tim1 < 4294967296) ∧
    (r = -1 → t'.converted = t.converted ∧ t'.tim1 = t.tim1 ∧ t'.tim2 = t.tim2) := by
  rcases calc_reg_timing_shape p rfbi d hd with hn | ⟨g, tk, hs⟩
  · rw [hn] at h; exact Option.noConfusion h
  · rw [hs] at h
    have hr : (convert_with tk (map_fields g { t with clk_div := d })).1 = r :=
      congrArg Prod.fst (Option.some.inj h)
    have ht : (convert_with tk (map_fields g { t with clk_div := d })).2.1 = t' :=
      congrArg Prod.snd (Option.some.inj h)
    obtain ⟨_, hclk, hcase⟩ := convert_with_frame tk (map_fields g { t with clk_div := d })
    rw [hr, ht] at hcase
    rw [ht] at hclk
    refine ⟨?_, hclk, fun h0 => ?_, fun h1 => ?_⟩
    · rcases hcase with h0 | h1
      · exact Or.inl h0
      · exact Or.inr h1.1
    · have hcw : convert_with tk (map_fields g { t with clk_div := d })
          = (0, t', (convert_with tk (map_fields g { t with clk_div := d })).2.2) :=
        Prod.ext (hr.trans h0) (Prod.ext ht rfl)
      obtain ⟨L, _, hconv, htim2, ht0, ht1, _⟩ := convert_with_success tk _ t' _ hcw
      refine ⟨hconv, htim2, ?_, ?_⟩
      · rw [ht0]
        exact or_lt_u32 _ _ (or_lt_u32 _ _ (or_lt_u32 _ _ (or_lt_u32 _ _ (or_lt_u32 _ _
          (int_to_u32_lt _) (shl_u32_lt _ _)) (shl_u32_lt _ _)) (shl_u32_lt _ _))
          (shl_u32_lt _ _)) (shl_u32_lt _ _)
      · rw [ht1]
        exact or_lt_u32 _ _ (or_lt_u32 _ _ (or_lt_u32 _ _ (int_to_u32_lt _) (shl_u32_lt _ _))
          (shl_u32_lt _ _)) (shl_u32_lt _ _)
    · rcases hcase with h0 | h1'
      · rw [h0] at h1; exact absurd h1 (by decide)
      · exact h1'.2

/-- Two calls of `calc_reg_timing` at the same divider on structures with the same
requirements end the same way: both do not return, or both return the same value, with
the same requirements, and with the same structure when the value is 0. -/
theorem calc_reg_timing_rel (p : Nat) (rfbi : rfbi_data) (t1 t2 : rfbi_timings) (d : Int)
    (hd : d = 1 ∨ d = 2) (h : same_req t1 t2) :
    (calc_reg_timing p rfbi t1 d = none ∧ calc_reg_timing p rfbi t2 d = none) ∨
    (∃ r t1' t2', calc_reg_timing p rfbi t1 d = some (r, t1') ∧
      calc_reg_timing p rfbi t2 d = some (r, t2') ∧ same_req t1' t2' ∧ (r = 0 → t1' = t2')) := by
  rcases calc_reg_timing_shape p rfbi d hd with hn | ⟨g, tk, hs⟩
  · exact Or.inl ⟨hn t1, hn t2⟩
  · right
    have hm := same_req_map_fields g t1 t2 d h
    obtain ⟨e1, e2⟩ := convert_with_rel tk _ _ hm rfl
    obtain ⟨f1, _, _⟩ := convert_with_frame tk (map_fields g { t1 with clk_div := d })
    obtain ⟨f2, _, _⟩ := convert_with_frame tk (map_fields g { t2 with clk_div := d })
    refine ⟨_, _, _, hs t1, ?_, ?_, e2⟩
    · rw [hs t2, e1]
    · exact same_req_trans _ _ _ f1 (same_req_trans _ _ _ hm (same_req_symm _ _ f2))

theorem calc_extif_loop_none (p : Nat) (rfbi : rfbi_data) (m fuel : Nat) (div : Int)
    (t : rfbi_timings) (hdiv : int_to_u32 div ≤ m) (h : calc_reg_timing p rfbi t div = none) :
    calc_extif_loop p rfbi m (fuel + 1) div t = none := by
  rw [calc_extif_loop, if_pos hdiv, h, Option.none_bind]

theorem calc_extif_loop_cont (p : Nat) (rfbi : rfbi_data) (m fuel : Nat) (div r : Int)
    (t t' : rfbi_timings) (hdiv : int_to_u32 div ≤ m) (hr : r ≠ 0)
    (h : calc_reg_timing p rfbi t div = some (r, t')) :
    calc_extif_loop p rfbi m (fuel + 1) div t
      = calc_extif_loop p rfbi m fuel (wrap_int (div + 1)) t' := by
  rw [calc_extif_loop, if_pos hdiv, h, Option.some_bind, if_neg hr]

/-- The loop of `calc_extif_timings` written out: the attempt at divider 1, and the
attempt at divider 2 on the structure the first attempt left. -/
theorem calc_extif_timings_unroll (g : Nat) (rfbi : rfbi_data) (t : rfbi_timings)
    (hk : 0 < rfbi.l4_khz) :
    calc_extif_timings g rfbi t =
      (calc_reg_timing (1000000000 / rfbi.l4_khz) rfbi t 1).bind fun a =>
        if a.1 = 0 then some (0, a.2, 1000000000 / rfbi.l4_khz)
        else (calc_reg_timing (1000000000 / rfbi.l4_khz) rfbi a.2 2).bind fun b =>
          if b.1 = 0 then some (0, b.2, 1000000000 / rfbi.l4_khz)
          else some (-1, b.2, 1000000000 / rfbi.l4_khz) := by
  have e1 : int_to_u32 1 ≤ 2 := by decide
  have e2 : int_to_u32 (wrap_int (1 + 1)) ≤ 2 := by decide
  have e3 : ¬ int_to_u32 (wrap_int (wrap_int (1 + 1) + 1)) ≤ 2 := by decide
  have w1 : wrap_int (1 + 1) = 2 := by decide
  rw [calc_extif_timings_eq g rfbi t hk]
  cases h1 : calc_reg_timing (1000000000 / rfbi.l4_khz) rfbi t 1 with
  | none =>
    rw [calc_extif_loop_none _ rfbi 2 2 1 t e1 h1, Option.none_bind, Option.none_bind]
  | some a =>
    rw [Option.some_bind]
    by_cases ha : a.1 = 0
    · have h1' : calc_reg_timing (1000000000 / rfbi.l4_khz) rfbi t 1 = some (0, a.2) := by
        rw [h1, ← ha]
      rw [if_pos ha, calc_extif_loop_found _ rfbi 2 2 1 t _ e1 h1', Option.some_bind, if_pos e1]
    · rw [if_neg ha, calc_extif_loop_cont _ rfbi 2 2 1 a.1 t a.2 e1 ha h1]
      rw [w1] at e2 e3
      rw [w1]
      cases h2 : calc_reg_timing (1000000000 / rfbi.l4_khz) rfbi a.2 2 with
      | none =>
        rw [calc_extif_loop_none _ rfbi 2 1 2 a.2 e2 h2, Option.none_bind, Option.none_bind]
      | some b =>
        rw [Option.some_bind]
        by_cases hb : b.1 = 0
        · have h2' : calc_reg_timing (1000000000 / rfbi.l4_khz) rfbi a.2 2 = some (0, b.2) := by
            rw [h2, ← hb]
          rw [if_pos hb, calc_extif_loop_found _ rfbi 2 1 2 a.2 _ e2 h2', Option.some_bind,
            if_pos e2]
        · rw [if_neg hb, calc_extif_loop_cont _ rfbi 2 1 2 b.1 a.2 b.2 e2 hb h2,
            calc_extif_loop_exit _ rfbi 2 0 _ b.2 e3, Option.some_bind, if_neg e3]

theorem calc_extif_timings_no_clock (g : Nat) (rfbi : rfbi_data) (t : rfbi_timings)
    (hk : rfbi.l4_khz = 0) : calc_extif_timings g rfbi t = none := by
  unfold calc_extif_timings rfbi_get_clk_info
  rw [if_pos hk, Option.none_bind]

/-- What a call of `calc_extif_timings` that returns leaves: the value is 0 or -1 and
`extif_clk_period` is the clock period; on 0 the structure is converted, the divider is
1 or 2, `tim[2]` is the divider less one and the two words are 32-bit values; on -1
`converted` is as before. -/
theorem calc_extif_timings_facts (g : Nat) (rfbi : rfbi_data) (t t' : rfbi_timings) (r : Int)
    (p' : Nat) (h : calc_extif_timings g rfbi t = some (r, t', p')) :
    (r = 0 ∨ r = -1) ∧ p' = 1000000000 / rfbi.l4_khz ∧ 0 < rfbi.l4_khz ∧
    (r = 0 → t'.converted = 1 ∧ (t'.clk_div = 1 ∨ t'.clk_div = 2) ∧
      (t'.tim2 : Int) = t'.clk_div - 1 ∧ t'.tim0 < 4294967296 ∧ t'.tim1 < 4294967296) ∧
    (r = -1 → t'.converted = t.converted) := by
  have hk : 0 < rfbi.l4_khz := by
    by_contra h0
    rw [calc_extif_timings_no_clock g rfbi t (by omega)] at h
    exact Option.noConfusion h
  rw [calc_extif_timings_unroll g rfbi t hk] at h
  cases h1 : calc_reg_timing (1000000000 / rfbi.l4_khz) rfbi t 1 with
  | none => rw [h1, Option.none_bind] at h; exact Option.noConfusion h
  | some a =>
    rw [h1, Option.some_bind] at h
    obtain ⟨ra, ca, sa, fa⟩ := calc_reg_timing_facts _ rfbi t a.2 1 a.1 (Or.inl rfl) h1
    by_cases ha : a.1 = 0
    · rw [if_pos ha] at h
      obtain ⟨rfl, rfl, rfl⟩ : (0 : Int) = r ∧ a.2 = t' ∧ 1000000000 / rfbi.l4_khz = p' := by
        simpa using h
      obtain ⟨c1, c2, c3, c4⟩ := sa ha
      refine ⟨Or.inl rfl, rfl, hk, fun _ => ⟨c1, Or.inl ca, ?_, c3, c4⟩, fun hr => ?_⟩
      · rw [c2, ca]
      · exact absurd hr (by decide)
    · rw [if_neg ha] at h
      have ha1 : a.1 = -1 := by rcases ra with h0 | h0; exact absurd h0 ha; exact h0
      obtain ⟨k1, _, _⟩ := fa ha1
      cases h2 : calc_reg_timing (1000000000 / rfbi.l4_khz) rfbi a.2 2 with
      | none => rw [h2, Option.none_bind] at h; exact Option.noConfusion h
      | some b =>
        rw [h2, Option.some_bind] at h
        obtain ⟨rb, cb, sb, fb⟩ := calc_reg_timing_facts _ rfbi a.2 b.2 2 b.1 (Or.inr rfl) h2
        by_cases hb : b.1 = 0
        · rw [if_pos hb] at h
          obtain ⟨rfl, rfl, rfl⟩ : (0 : Int) = r ∧ b.2 = t' ∧ 1000000000 / rfbi.l4_khz = p' := by
            simpa using h
          obtain ⟨c1, c2, c3, c4⟩ := sb hb
          refine ⟨Or.inl rfl, rfl, hk, fun _ => ⟨c1, Or.inr cb, ?_, c3, c4⟩, fun hr => ?_⟩
          · rw [c2, cb]
          · exact absurd hr (by decide)
        · rw [if_neg hb] at h
          have hb1 : b.1 = -1 := by rcases rb with h0 | h0; exact absurd h0 hb; exact h0
          obtain ⟨k2, _, _⟩ := fb hb1
          obtain ⟨rfl, rfl, rfl⟩ : (-1 : Int) = r ∧ b.2 = t' ∧ 1000000000 / rfbi.l4_khz = p' := by
            simpa using h
          refine ⟨Or.inr rfl, rfl, hk, fun hr => ?_, fun _ => k2.trans k1⟩
          exact absurd hr (by decide)

/-- With a positive clock rate and a positive period `calc_extif_timings` returns. -/
theorem calc_extif_timings_returns (g : Nat) (rfbi : rfbi_data) (t : rfbi_timings)
    (hk : 0 < rfbi.l4_khz) (hp0 : 0 < 1000000000 / rfbi.l4_khz) :
    ∃ r t', calc_extif_timings g rfbi t = some (r, t', 1000000000 / rfbi.l4_khz) := by
  rw [calc_extif_timings_unroll g rfbi t hk]
  obtain ⟨r1, t1, h1⟩ := calc_reg_timing_returns rfbi t 1 (Or.inl rfl) hk hp0
  rw [h1, Option.some_bind]
  by_cases ha : r1 = 0
  · exact ⟨_, _, by rw [if_pos ha]⟩
  · obtain ⟨r2, t2, h2⟩ := calc_reg_timing_returns rfbi t1 2 (Or.inr rfl) hk hp0
    rw [if_neg ha, h2, Option.some_bind]
    by_cases hb : r2 = 0
    · exact ⟨_, _, by rw [if_pos hb]⟩
    · exact ⟨_, _, by rw [if_neg hb]⟩

/-- Two runs of `calc_extif_timings` on structures with the same requirements end the
same way: both do not return, or both return the same value and the same period, and
the same structure when the value is 0. -/
theorem calc_extif_timings_rel (g1 g2 : Nat) (rfbi : rfbi_data) (t1 t2 : rfbi_timings)
    (hs : same_req t1 t2) :
    (calc_extif_timings g1 rfbi t1 = none ∧ calc_extif_timings g2 rfbi t2 = none) ∨
    (∃ r t1' t2' p, calc_extif_timings g1 rfbi t1 = some (r, t1', p) ∧
      calc_extif_timings g2 rfbi t2 = some (r, t2', p) ∧ (r = 0 → t1' = t2')) := by
  by_cases hk : rfbi.l4_khz = 0
  · exact Or.inl ⟨calc_extif_timings_no_clock g1 rfbi t1 hk,
      calc_extif_timings_no_clock g2 rfbi t2 hk⟩
  have hk' : 0 < rfbi.l4_khz := by omega
  rw [calc_extif_timings_unroll g1 rfbi t1 hk', calc_extif_timings_unroll g2 rfbi t2 hk']
  rcases calc_reg_timing_rel (1000000000 / rfbi.l4_khz) rfbi t1 t2 1 (Or.inl rfl) hs with
    ⟨n1, n2⟩ | ⟨r, a1, a2, e1, e2, sa, ea⟩
  · rw [n1, n2]; exact Or.inl ⟨rfl, rfl⟩
  · rw [e1, e2, Option.some_bind, Option.some_bind]
    by_cases hr : r = 0
    · simp only [if_pos hr]
      exact Or.inr ⟨_, _, _, _, rfl, rfl, fun _ => ea hr⟩
    · simp only [if_neg hr]
      rcases calc_reg_timing_rel (1000000000 / rfbi.l4_khz) rfbi a1 a2 2 (Or.inr rfl) sa with
        ⟨n1, n2⟩ | ⟨r', b1, b2, e1', e2', _, eb⟩
      · rw [n1, n2]; exact Or.inl ⟨rfl, rfl⟩
      · rw [e1', e2', Option.some_bind, Option.some_bind]
        by_cases hr' : r' = 0
        · simp only [if_pos hr']
          exact Or.inr ⟨_, _, _, _, rfl, rfl, fun _ => eb hr'⟩
        · simp only [if_neg hr']
          exact Or.inr ⟨_, _, _, _, rfl, rfl, fun h => absurd h (by decide)⟩

/-! ## Writing the timings: claim C15 -/

theorem timing_reg_offsets (n : Int) (hn : n = 0 ∨ n = 1) :
    RFBI_CONFIG n ≠ RFBI_ONOFF_TIME n ∧ RFBI_CONFIG n ≠ RFBI_CYCLE_TIME n ∧
    RFBI_ONOFF_TIME n ≠ RFBI_CYCLE_TIME n ∧
    RFBI_ONOFF_TIME n = 0x64 + 0x18 * n.toNat ∧ RFBI_CYCLE_TIME n = 0x68 + 0x18 * n.toNat ∧
    RFBI_CONFIG n = 0x60 + 0x18 * n.toNat := by
  rcases hn with h | h <;> subst h <;> decide

/-- `rfbi_print_timings` returns when the clock rate is not 0 and leaves the registers
as they are. -/
theorem rfbi_print_timings_regs (s : rfbi_data) (hk : 0 < s.l4_khz) :
    ∃ s', rfbi_print_timings s = some s' ∧ s'.regs = s.regs := by
  unfold rfbi_print_timings
  simp only [rfbi_read_reg, if_neg (Nat.pos_iff_ne_zero.1 hk)]
  exact ⟨_, rfl, rfl⟩

/-- The part of `_rfbi_set_rfbi_timings` after the `BUG_ON`, for a converted structure. -/
theorem rfbi_set_rfbi_timings_converted (g : Nat) (rfbi : rfbi_data) (n : Int)
    (t : rfbi_timings) (hc : t.converted ≠ 0) (hk : 0 < rfbi.l4_khz) :
    ∃ s, _rfbi_set_rfbi_timings g rfbi n t = some (none, s, t, g) ∧
      s.regs = Function.update
        (Function.update (Function.update rfbi.regs (RFBI_ONOFF_TIME n) (u32 t.tim0))
          (RFBI_CYCLE_TIME n) (u32 t.tim1))
        (RFBI_CONFIG n)
        (u32 (FLD_MOD (u32 (Function.update (Function.update rfbi.regs (RFBI_ONOFF_TIME n)
          (u32 t.tim0)) (RFBI_CYCLE_TIME n) (u32 t.tim1) (RFBI_CONFIG n)))
          (if t.tim2 ≠ 0 then 1 else 0) 4 4)) := by
  obtain ⟨s', h1, h2⟩ := rfbi_print_timings_regs
    (REG_FLD_MOD (rfbi_write_reg (rfbi_write_reg rfbi (RFBI_ONOFF_TIME n) t.tim0)
      (RFBI_CYCLE_TIME n) t.tim1) (RFBI_CONFIG n) (if t.tim2 ≠ 0 then 1 else 0) 4 4) hk
  refine ⟨s', ?_, ?_⟩
  · unfold _rfbi_set_rfbi_timings
    simp only [if_neg hc, h1, Option.map_some']
  · rw [h2]
    rfl

/-- `_rfbi_set_rfbi_timings` on an unconverted structure: the solver runs, and the rest
is the call on the structure the solver left. -/
theorem rfbi_set_rfbi_timings_unconverted (g : Nat) (rfbi : rfbi_data) (n : Int)
    (t t' : rfbi_timings) (r : Int) (p' : Nat) (h0 : t.converted = 0)
    (hcalc : calc_extif_timings g rfbi t = some (r, t', p')) :
    _rfbi_set_rfbi_timings g rfbi n t =
      if t'.converted = 0 then some (some bug_site.not_converted, rfbi, t', p')
      else _rfbi_set_rfbi_timings p' rfbi n t' := by
  unfold _rfbi_set_rfbi_timings
  by_cases hc : t'.converted = 0
  · simp only [if_pos h0, hcalc, Option.map_some', if_pos hc]
  · simp only [if_pos h0, hcalc, Option.map_some', if_neg hc]

/-- C15: for every register file, channel `n` in {0, 1} and timing structure that is
converted already (with `tim[0]` and `tim[1]` 32-bit values, on a bus whose clock rate
is not 0) or that `calc_extif_timings` converts, `_rfbi_set_rfbi_timings` returns, and
the register file it leaves has `ONOFF_TIME(n) = tim[0]`, `CYCLE_TIME(n) = tim[1]`,
bit 4 of `CONFIG(n)` set exactly when `tim[2]` is not 0 (which, when the solver ran,
is exactly when it chose divider 2), every other bit of `CONFIG(n)` as it was, and
every other register as it was. -/
theorem rfbi_set_rfbi_timings_frame (g : Nat) (rfbi : rfbi_data) (n : Int) (t : rfbi_timings)
    (hn : n = 0 ∨ n = 1)
    (hc : (t.converted ≠ 0 ∧ 0 < rfbi.l4_khz ∧ t.tim0 < 4294967296 ∧ t.tim1 < 4294967296) ∨
      (t.converted = 0 ∧ ∃ t' p', calc_extif_timings g rfbi t = some (0, t', p'))) :
    ∃ s t' p', _rfbi_set_rfbi_timings g rfbi n t = some (none, s, t', p') ∧
      (t.converted ≠ 0 → t' = t) ∧
      (t.converted = 0 → calc_extif_timings g rfbi t = some (0, t', p') ∧
        (t'.tim2 ≠ 0 ↔ t'.clk_div = 2)) ∧
      s.regs (RFBI_ONOFF_TIME n) = t'.tim0 ∧
      s.regs (RFBI_CYCLE_TIME n) = t'.tim1 ∧
      ((s.regs (RFBI_CONFIG n)).testBit 4 = true ↔ t'.tim2 ≠ 0) ∧
      (∀ i, i ≠ 4 → (s.regs (RFBI_CONFIG n)).testBit i
        = ((rfbi_read_reg rfbi (RFBI_CONFIG n)).1).testBit i) ∧
      (∀ idx, idx ≠ RFBI_ONOFF_TIME n → idx ≠ RFBI_CYCLE_TIME n → idx ≠ RFBI_CONFIG n →
        s.regs idx = rfbi.regs idx) := by
  obtain ⟨o1, o2, o3, _⟩ := timing_reg_offsets n hn
  -- the registers after the call on a converted structure
  have key : ∀ (g' : Nat) (t' : rfbi_timings), t'.converted ≠ 0 → 0 < rfbi.l4_khz →
      t'.tim0 < 4294967296 → t'.tim1 < 4294967296 →
      ∃ s, _rfbi_set_rfbi_timings g' rfbi n t' = some (none, s, t', g') ∧
        s.regs (RFBI_ONOFF_TIME n) = t'.tim0 ∧
        s.regs (RFBI_CYCLE_TIME n) = t'.tim1 ∧
        ((s.regs (RFBI_CONFIG n)).testBit 4 = true ↔ t'.tim2 ≠ 0) ∧
        (∀ i, i ≠ 4 → (s.regs (RFBI_CONFIG n)).testBit i
          = ((rfbi_read_reg rfbi (RFBI_CONFIG n)).1).testBit i) ∧
        (∀ idx, idx ≠ RFBI_ONOFF_TIME n → idx ≠ RFBI_CYCLE_TIME n → idx ≠ RFBI_CONFIG n →
          s.regs idx = rfbi.regs idx) := by
    intro g' t' hconv hk h0 h1
    obtain ⟨s, hs, hregs⟩ := rfbi_set_rfbi_timings_converted g' rfbi n t' hconv hk
    have hread : Function.update (Function.update rfbi.regs (RFBI_ONOFF_TIME n) (u32 t'.tim0))
        (RFBI_CYCLE_TIME n) (u32 t'.tim1) (RFBI_CONFIG n) = rfbi.regs (RFBI_CONFIG n) := by
      rw [Function.update_noteq o2, Function.update_noteq o1]
    rw [hread] at hregs
    have hlt := FLD_MOD_lt (u32 (rfbi.regs (RFBI_CONFIG n))) (if t'.tim2 ≠ 0 then 1 else 0) 4 4
      (u32_lt _)
    rw [u32_of_lt _ hlt, u32_of_lt _ h0, u32_of_lt _ h1] at hregs
    have hbit := fun i => testBit_FLD_MOD (u32 (rfbi.regs (RFBI_CONFIG n)))
      (if t'.tim2 ≠ 0 then 1 else 0) 4 4 i (u32_lt _) (by decide) (by decide)
    refine ⟨s, hs, ?_, ?_, ?_, fun i hi => ?_, fun idx i1 i2 i3 => ?_⟩
    · rw [hregs, Function.update_noteq (Ne.symm o1), Function.update_noteq o3,
        Function.update_same]
    · rw [hregs, Function.update_noteq (Ne.symm o2), Function.update_same]
    · rw [hregs, Function.update_same, hbit 4, if_pos ⟨Nat.le_refl 4, Nat.le_refl 4⟩]
      by_cases h2 : t'.tim2 = 0
      · simp [h2]
      · simp [h2]
    · rw [hregs, Function.update_same, hbit i, if_neg (by omega)]
      rfl
    · rw [hregs, Function.update_noteq i3, Function.update_noteq i2, Function.update_noteq i1]
  rcases hc with ⟨hconv, hk, h0, h1⟩ | ⟨hz, t', p', hcalc⟩
  · obtain ⟨s, hs, r1, r2, r3, r4, r5⟩ := key g t hconv hk h0 h1
    exact ⟨s, t, g, hs, fun _ => rfl, fun hz => absurd hz hconv, r1, r2, r3, r4, r5⟩
  · obtain ⟨_, _, hk, hsucc, _⟩ := calc_extif_timings_facts g rfbi t t' 0 p' hcalc
    obtain ⟨c1, c2, c3, c4, c5⟩ := hsucc rfl
    have hconv : t'.converted ≠ 0 := by rw [c1]; decide
    obtain ⟨s, hs, r1, r2, r3, r4, r5⟩ := key p' t' hconv hk c4 c5
    refine ⟨s, t', p', ?_, fun hnz => absurd hz hnz, fun _ => ⟨hcalc, ?_⟩, r1, r2, r3, r4, r5⟩
    · rw [rfbi_set_rfbi_timings_unconverted g rfbi n t t' 0 p' hz hcalc, if_neg hconv, hs]
    · constructor
      · intro h2
        rcases c2 with h | h
        · rw [h] at c3
          exact absurd (by omega : t'.tim2 = 0) h2
        · exact h
      · intro h h2
        rw [h, h2] at c3
        exact absurd c3 (by decide)

/-- Witness of C15: the panel's requirement, not yet converted, on channel 0. -/
theorem rfbi_set_rfbi_timings_frame_witness :
    calc_extif_timings 0 (rfbi_probed 50000) n8x0_panel_rfbi_timings
      = some (0, n8x0_solved, 20000) ∧
    ∃ s, _rfbi_set_rfbi_timings 0 (rfbi_probed 50000) 0 n8x0_panel_rfbi_timings
        = some (none, s, n8x0_solved, 20000) ∧
      s.regs (RFBI_ONOFF_TIME 0) = 34636832 ∧ s.regs (RFBI_CYCLE_TIME 0) = 8388738 := by
  have hcalc : calc_extif_timings 0 (rfbi_probed 50000) n8x0_panel_rfbi_timings
      = some (0, n8x0_solved, 20000) := by decide
  refine ⟨hcalc, ?_⟩
  obtain ⟨s, t', p', h1, _, h3, h4, h5, _⟩ :=
    rfbi_set_rfbi_timings_frame 0 (rfbi_probed 50000) 0 n8x0_panel_rfbi_timings (Or.inl rfl)
      (Or.inr ⟨rfl, _, _, hcalc⟩)
  have he := ((h3 rfl).1.symm.trans hcalc)
  simp only [Option.some.injEq, Prod.mk.injEq] at he
  obtain ⟨_, e1, e2⟩ := he
  subst e1 e2
  exact ⟨s, h1, h4, h5⟩

/-! ## Enabling and disabling the bus: claims C16 to C18 -/

theorem same_context_refl (s : rfbi_data) : same_context s s :=
  ⟨rfl, rfl, rfl, rfl, rfl, rfl, rfl, rfl, rfl, rfl⟩

theorem configure_bus_context (rfbi : rfbi_data) (n bpp lines : Int) :
    same_context rfbi (rfbi_configure_bus rfbi n bpp lines).2 := by
  cases h1 : datatype_of_bpp bpp with
  | none =>
    unfold rfbi_configure_bus
    simp only [h1]
    exact same_context_refl rfbi
  | some dt =>
    cases h2 : parallelmode_of_lines lines with
    | none =>
      unfold rfbi_configure_bus
      simp only [h1, h2]
      exact ⟨rfl, rfl, rfl, rfl, rfl, rfl, rfl, rfl, rfl, rfl⟩
    | some pm =>
      cases h3 : cycleformat_of bpp lines with
      | error site =>
        rw [rfbi_configure_bus_of_error rfbi n bpp lines dt pm site h1 h2 h3]
        exact ⟨rfl, rfl, rfl, rfl, rfl, rfl, rfl, rfl, rfl, rfl⟩
      | ok cf =>
        rw [rfbi_configure_bus_of_ok rfbi n bpp lines dt pm cf h1 h2 h3]
        exact ⟨rfl, rfl, rfl, rfl, rfl, rfl, rfl, rfl, rfl, rfl⟩

/-- How `rfbi_configure_bus` ends depends on `bpp` and `lines` only. -/
theorem configure_bus_outcome (s1 s2 : rfbi_data) (n1 n2 bpp lines : Int) :
    (rfbi_configure_bus s1 n1 bpp lines).1 = (rfbi_configure_bus s2 n2 bpp lines).1 := by
  cases h1 : datatype_of_bpp bpp with
  | none =>
    unfold rfbi_configure_bus
    simp only [h1]
  | some dt =>
    cases h2 : parallelmode_of_lines lines with
    | none =>
      unfold rfbi_configure_bus
      simp only [h1, h2]
    | some pm =>
      cases h3 : cycleformat_of bpp lines with
      | error site =>
        rw [rfbi_configure_bus_of_error s1 n1 bpp lines dt pm site h1 h2 h3,
          rfbi_configure_bus_of_error s2 n2 bpp lines dt pm site h1 h2 h3]
      | ok cf =>
        rw [rfbi_configure_bus_of_ok s1 n1 bpp lines dt pm cf h1 h2 h3,
          rfbi_configure_bus_of_ok s2 n2 bpp lines dt pm cf h1 h2 h3]

/-- `mutex_lock` on a free mutex returns with the mutex held. -/
theorem mutex_lock_free (rfbi : rfbi_data) (hl : rfbi.lock = false) :
    mutex_lock rfbi = some (lock_held rfbi) := by
  unfold mutex_lock lock_held
  rw [if_neg (by rw [hl]; decide)]

/-- `mutex_lock` on a held mutex does not return. -/
theorem mutex_lock_held (rfbi : rfbi_data) (hl : rfbi.lock = true) : mutex_lock rfbi = none := by
  unfold mutex_lock
  rw [if_pos hl]

/-- While the mutex is held `rfbi_display_enable` does not return. -/
theorem rfbi_display_enable_blocked (g : Nat) (env : collaborators) (rfbi : rfbi_data)
    (hl : rfbi.lock = true) : rfbi_display_enable g env rfbi = none := by
  unfold rfbi_display_enable
  rw [mutex_lock_held rfbi hl]

/-- A call of `rfbi_display_enable` that returns found the mutex free. -/
theorem rfbi_display_enable_free (g : Nat) (env : collaborators) (rfbi : rfbi_data)
    (r : outcome × rfbi_data × Nat) (h : rfbi_display_enable g env rfbi = some r) :
    rfbi.lock = false := by
  cases hl : rfbi.lock with
  | false => rfl
  | true =>
    rw [rfbi_display_enable_blocked g env rfbi hl] at h
    exact Option.noConfusion h

/-- While the mutex is held `rfbi_display_disable` does not return. -/
theorem rfbi_display_disable_blocked (rfbi : rfbi_data) (hl : rfbi.lock = true) :
    rfbi_display_disable rfbi = none := by
  unfold rfbi_display_disable
  rw [mutex_lock_held rfbi hl]

/-- The three ways `rfbi_display_enable` goes on after the lock is taken: power
acquisition fails, the registration fails, or the call goes on to the configuration. -/
theorem rfbi_display_enable_paths (g : Nat) (env : collaborators) (rfbi : rfbi_data)
    (hl : rfbi.lock = false) :
    (env.pm_runtime_get_sync < 0 →
      rfbi_display_enable g env rfbi = some (outcome.ret env.pm_runtime_get_sync,
        pm_runtime_put_noidle (pm_runtime_get_sync (lock_held rfbi) env.pm_runtime_get_sync),
        g)) ∧
    (0 ≤ env.pm_runtime_get_sync → env.mgr_register_framedone_handler ≠ 0 →
      rfbi_display_enable g env rfbi = some (outcome.ret env.mgr_register_framedone_handler,
        rfbi_runtime_put (dss_mgr_register_framedone_handler
          (pm_runtime_get_sync (lock_held rfbi) env.pm_runtime_get_sync)
          framedone_handler.own env.mgr_register_framedone_handler), g)) ∧
    (0 ≤ env.pm_runtime_get_sync → env.mgr_register_framedone_handler = 0 →
      rfbi_display_enable g env rfbi = display_enable_from g env.mgr_enable
        (dss_mgr_register_framedone_handler
          (pm_runtime_get_sync (lock_held rfbi) env.pm_runtime_get_sync)
          framedone_handler.own 0)) := by
  refine ⟨fun hp => ?_, fun hp hr => ?_, fun hp hr => ?_⟩
  · unfold rfbi_display_enable rfbi_runtime_get
    rw [mutex_lock_free rfbi hl]
    simp only [if_pos hp]
    rw [if_pos (by omega)]
  · unfold rfbi_display_enable rfbi_runtime_get
    rw [mutex_lock_free rfbi hl]
    simp only [if_neg (by omega : ¬ env.pm_runtime_get_sync < 0), if_pos hr]
    rw [if_neg (by simp)]
  · unfold rfbi_display_enable rfbi_runtime_get display_enable_from
    rw [mutex_lock_free rfbi hl]
    simp only [if_neg (by omega : ¬ env.pm_runtime_get_sync < 0), hr]
    rfl

theorem display_enable_from_bug (g : Nat) (r : Int) (s : rfbi_data) (site : bug_site)
    (h : (rfbi_configure_bus s s.of_port s.pixel_size s.data_lines).1 = outcome.bug site) :
    display_enable_from g r s
      = some (outcome.bug site,
          (rfbi_configure_bus s s.of_port s.pixel_size s.data_lines).2, g) := by
  unfold display_enable_from
  generalize rfbi_configure_bus s s.of_port s.pixel_size s.data_lines = c at h ⊢
  obtain ⟨o, s'⟩ := c
  simp only at h
  subst h
  rfl

/-- The part of `rfbi_display_enable` after a configuration that returned. -/
theorem display_enable_from_ret (g : Nat) (r : Int) (s : rfbi_data)
    (h : (rfbi_configure_bus s s.of_port s.pixel_size s.data_lines).1 = outcome.ret 0) :
    display_enable_from g r s =
      match _rfbi_set_rfbi_timings g
          (rfbi_configure_bus s s.of_port s.pixel_size s.data_lines).2
          (rfbi_configure_bus s s.of_port s.pixel_size s.data_lines).2.of_port
          (rfbi_configure_bus s s.of_port s.pixel_size s.data_lines).2.intf_timings with
      | none => none
      | some (some site, rfbi, t, p) =>
        some (outcome.bug site, { rfbi with intf_timings := t }, p)
      | some (none, rfbi, t, p) =>
        if r ≠ 0 then
          some (outcome.ret r, rfbi_runtime_put (dss_mgr_enable (dss_mgr_set_timings
            { rfbi with intf_timings := t }) r), p)
        else
          some (outcome.ret 0, mutex_unlock (dss_mgr_enable (dss_mgr_set_timings
            { rfbi with intf_timings := t }) r), p) := by
  unfold display_enable_from
  generalize rfbi_configure_bus s s.of_port s.pixel_size s.data_lines = c at h ⊢
  obtain ⟨o, s'⟩ := c
  simp only at h
  subst h
  rfl

theorem rfbi_print_timings_context (s s' : rfbi_data) (h : rfbi_print_timings s = some s') :
    same_context s s' ∧ s'.regs = s.regs := by
  unfold rfbi_print_timings at h
  simp only [rfbi_read_reg] at h
  split_ifs at h
  have h' := Option.some.inj h
  subst h'
  exact ⟨⟨rfl, rfl, rfl, rfl, rfl, rfl, rfl, rfl, rfl, rfl⟩, rfl⟩

/-- `_rfbi_set_rfbi_timings` on a converted structure: the three register writes, then
`rfbi_print_timings`. -/
theorem rfbi_set_rfbi_timings_tail (g : Nat) (rfbi : rfbi_data) (n : Int) (t : rfbi_timings)
    (hc : t.converted ≠ 0) :
    _rfbi_set_rfbi_timings g rfbi n t =
      (rfbi_print_timings
        (REG_FLD_MOD (rfbi_write_reg (rfbi_write_reg rfbi (RFBI_ONOFF_TIME n) t.tim0)
          (RFBI_CYCLE_TIME n) t.tim1) (RFBI_CONFIG n) (if t.tim2 ≠ 0 then 1 else 0) 4 4)).map
        fun s => (none, s, t, g) := by
  unfold _rfbi_set_rfbi_timings
  simp only [if_neg hc]

/-- What a call of `_rfbi_set_rfbi_timings` that ends leaves outside the registers:
nothing changes; it stops in a `BUG()` only at `BUG_ON(!t->converted)`, with the state
of the call, and returns only with a converted structure. -/
theorem rfbi_set_rfbi_timings_result (g : Nat) (rfbi : rfbi_data) (n : Int)
    (t t' : rfbi_timings) (o : Option bug_site) (s : rfbi_data) (p' : Nat)
    (h : _rfbi_set_rfbi_timings g rfbi n t = some (o, s, t', p')) :
    same_context rfbi s ∧
    (∀ site, o = some site → site = bug_site.not_converted ∧ s = rfbi ∧ t.converted = 0 ∧
      t'.converted = 0) ∧
    (o = none → t'.converted ≠ 0) := by
  have tail : ∀ (g1 : Nat) (t1 : rfbi_timings), t1.converted ≠ 0 →
      _rfbi_set_rfbi_timings g1 rfbi n t1 = some (o, s, t', p') →
      same_context rfbi s ∧ o = none ∧ t' = t1 := by
    intro g1 t1 hc h1
    rw [rfbi_set_rfbi_timings_tail g1 rfbi n t1 hc] at h1
    obtain ⟨s0, hs0, he⟩ := Option.map_eq_some'.1 h1
    obtain ⟨hctx, _⟩ := rfbi_print_timings_context _ _ hs0
    simp only [Prod.mk.injEq] at he
    obtain ⟨e1, e2, e3, _⟩ := he
    subst e2
    exact ⟨hctx, e1.symm, e3.symm⟩
  by_cases hz : t.converted = 0
  · cases hcalc : calc_extif_timings g rfbi t with
    | none =>
      unfold _rfbi_set_rfbi_timings at h
      simp only [if_pos hz, hcalc, Option.map_none'] at h
      exact Option.noConfusion h
    | some x =>
      obtain ⟨r, t1, p1⟩ := x
      rw [rfbi_set_rfbi_timings_unconverted g rfbi n t t1 r p1 hz hcalc] at h
      by_cases hc : t1.converted = 0
      · rw [if_pos hc] at h
        simp only [Option.some.injEq, Prod.mk.injEq] at h
        obtain ⟨e1, e2, e3, _⟩ := h
        subst e1 e2 e3
        refine ⟨same_context_refl rfbi, fun site hs => ?_, fun hn => Option.noConfusion hn⟩
        exact ⟨(Option.some.inj hs).symm, rfl, hz, hc⟩
      · rw [if_neg hc] at h
        obtain ⟨hctx, ho, ht⟩ := tail p1 t1 hc h
        subst ho ht
        exact ⟨hctx, fun site hs => Option.noConfusion hs, fun _ => hc⟩
  · obtain ⟨hctx, ho, ht⟩ := tail g t hz h
    subst ho ht
    exact ⟨hctx, fun site hs => Option.noConfusion hs, fun _ => hz⟩

/-- An unconverted structure on which the solver returns -1 stops
`_rfbi_set_rfbi_timings` at `BUG_ON(!t->converted)`, before any register access. -/
theorem rfbi_set_rfbi_timings_unsolved (g : Nat) (rfbi : rfbi_data) (n : Int)
    (t : rfbi_timings) (hz : t.converted = 0)
    (hcalc : (calc_extif_timings g rfbi t).map Prod.fst = some (-1)) :
    ∃ t' p', _rfbi_set_rfbi_timings g rfbi n t
      = some (some bug_site.not_converted, rfbi, t', p') := by
  obtain ⟨x, hx, hr⟩ := Option.map_eq_some'.1 hcalc
  obtain ⟨r, t1, p1⟩ := x
  simp only at hr
  subst hr
  obtain ⟨_, _, _, _, hfail⟩ := calc_extif_timings_facts g rfbi t t1 (-1) p1 hx
  have hc : t1.converted = 0 := (hfail rfl).trans hz
  exact ⟨t1, p1, by rw [rfbi_set_rfbi_timings_unconverted g rfbi n t t1 (-1) p1 hz hx, if_pos hc]⟩

theorem configure_bus_ret_or_bug (s : rfbi_data) (n bpp lines : Int) :
    (rfbi_configure_bus s n bpp lines).1 = outcome.ret 0 ∨
    ∃ site, (rfbi_configure_bus s n bpp lines).1 = outcome.bug site ∧
      (rfbi_configure_bus s n bpp lines).2.regs = s.regs ∧
      (rfbi_configure_bus s n bpp lines).2.log = s.log := by
  cases h1 : datatype_of_bpp bpp with
  | none =>
    right
    exact ⟨bug_site.invalid_bpp, by simp [rfbi_configure_bus, h1]⟩
  | some dt =>
    cases h2 : parallelmode_of_lines lines with
    | none =>
      right
      exact ⟨bug_site.invalid_lines, by simp [rfbi_configure_bus, h1, h2]⟩
    | some pm =>
      cases h3 : cycleformat_of bpp lines with
      | error site =>
        right
        rw [rfbi_configure_bus_of_error s n bpp lines dt pm site h1 h2 h3]
        exact ⟨_, rfl, rfl, rfl⟩
      | ok cf =>
        left
        rw [rfbi_configure_bus_of_ok s n bpp lines dt pm cf h1 h2 h3]

/-- What the part of `rfbi_display_enable` after the registration leaves when it ends:
it stops in the `BUG()` of the configuration with nothing accessed, or it stops at
`BUG_ON(!t->converted)` with nothing accessed since the configuration, or it returns
the value of `dss_mgr_enable` after dropping the power reference when that value is
not 0 and after releasing the mutex when it is 0. -/
theorem display_enable_from_result (g : Nat) (r : Int) (s : rfbi_data) (o : outcome)
    (s' : rfbi_data) (g' : Nat) (h : display_enable_from g r s = some (o, s', g')) :
    s'.mgr_framedone_handler = s.mgr_framedone_handler ∧
    ((∃ site, o = outcome.bug site ∧
        (rfbi_configure_bus s s.of_port s.pixel_size s.data_lines).1 = outcome.bug site ∧
        s'.regs = s.regs ∧ s'.log = s.log ∧ s'.usage_count = s.usage_count ∧ s'.lock = s.lock) ∨
      (o = outcome.bug bug_site.not_converted ∧
        (rfbi_configure_bus s s.of_port s.pixel_size s.data_lines).1 = outcome.ret 0 ∧
        s'.regs = (rfbi_configure_bus s s.of_port s.pixel_size s.data_lines).2.regs ∧
        s'.log = (rfbi_configure_bus s s.of_port s.pixel_size s.data_lines).2.log ∧
        s.intf_timings.converted = 0 ∧ s'.intf_timings.converted = 0 ∧
        s'.usage_count = s.usage_count ∧ s'.lock = s.lock) ∨
      (o = outcome.ret r ∧ r ≠ 0 ∧ s'.usage_count = s.usage_count - 1 ∧ s'.lock = s.lock ∧
        s'.intf_timings.converted ≠ 0) ∨
      (o = outcome.ret 0 ∧ r = 0 ∧ s'.usage_count = s.usage_count ∧ s'.lock = false ∧
        s'.intf_timings.converted ≠ 0)) := by
  obtain ⟨c1, c2, c3, c4, c5, c6, c7, c8, c9, c10⟩ :=
    configure_bus_context s s.of_port s.pixel_size s.data_lines
  rcases configure_bus_ret_or_bug s s.of_port s.pixel_size s.data_lines with
    hret | ⟨site, hbug, hregs, hlog⟩
  · rw [display_enable_from_ret g r s hret] at h
    cases hset : _rfbi_set_rfbi_timings g
        (rfbi_configure_bus s s.of_port s.pixel_size s.data_lines).2
        (rfbi_configure_bus s s.of_port s.pixel_size s.data_lines).2.of_port
        (rfbi_configure_bus s s.of_port s.pixel_size s.data_lines).2.intf_timings with
    | none =>
      rw [hset] at h
      exact Option.noConfusion h
    | some x =>
      obtain ⟨ob, s4, t4, p4⟩ := x
      rw [hset] at h
      obtain ⟨⟨d1, d2, d3, d4, d5, d6, d7, d8, d9, d10⟩, hb, hn⟩ :=
        rfbi_set_rfbi_timings_result g _ _ _ t4 ob s4 p4 hset
      cases ob with
      | some site =>
        obtain ⟨e1, e2, e3, e4⟩ := hb site rfl
        simp only [Option.some.injEq, Prod.mk.injEq] at h
        obtain ⟨f1, f2, _⟩ := h
        subst f1 f2 e1 e2
        refine ⟨c3, Or.inr (Or.inl ⟨rfl, hret, rfl, rfl, ?_, e4, c2, c1⟩)⟩
        rw [← c8]; exact e3
      | none =>
        have hconv := hn rfl
        simp only at h
        by_cases hr : r = 0
        · rw [if_neg (by simpa using hr)] at h
          simp only [Option.some.injEq, Prod.mk.injEq] at h
          obtain ⟨f1, f2, _⟩ := h
          subst f1 f2
          exact ⟨d3.trans c3, Or.inr (Or.inr (Or.inr ⟨rfl, hr, d2.trans c2, rfl, hconv⟩))⟩
        · rw [if_pos hr] at h
          simp only [Option.some.injEq, Prod.mk.injEq] at h
          obtain ⟨f1, f2, _⟩ := h
          subst f1 f2
          refine ⟨d3.trans c3, Or.inr (Or.inr (Or.inl ⟨rfl, hr, ?_, d1.trans c1, hconv⟩))⟩
          show s4.usage_count - 1 = s.usage_count - 1
          rw [d2, c2]
  · rw [display_enable_from_bug g r s site hbug] at h
    simp only [Option.some.injEq, Prod.mk.injEq] at h
    obtain ⟨f1, f2, _⟩ := h
    subst f1 f2
    exact ⟨c3, Or.inl ⟨site, rfl, hbug, hregs, hlog, c2, c1⟩⟩

/-- A call of `rfbi_display_enable` that returns an error code has dropped the power
reference it took and holds the mutex; the manager holds the handler it held before,
unless the error is the one of `dss_mgr_enable`: then it holds the driver's handler. -/
theorem rfbi_display_enable_failing (g : Nat) (env : collaborators) (rfbi s' : rfbi_data)
    (r : Int) (g' : Nat) (hr : r ≠ 0)
    (h : rfbi_display_enable g env rfbi = some (outcome.ret r, s', g')) :
    s'.usage_count = rfbi.usage_count ∧ s'.lock = true ∧
    (s'.mgr_framedone_handler = rfbi.mgr_framedone_handler ∨
      (0 ≤ env.pm_runtime_get_sync ∧ env.mgr_register_framedone_handler = 0 ∧
        r = env.mgr_enable ∧ s'.mgr_framedone_handler = some framedone_handler.own)) := by
  obtain ⟨p1, p2, p3⟩ := rfbi_display_enable_paths g env rfbi
    (rfbi_display_enable_free g env rfbi _ h)
  by_cases hp : env.pm_runtime_get_sync < 0
  · rw [p1 hp] at h
    simp only [Option.some.injEq, Prod.mk.injEq] at h
    obtain ⟨_, hs, _⟩ := h
    subst hs
    refine ⟨?_, rfl, Or.inl rfl⟩
    show rfbi.usage_count + 1 - 1 = rfbi.usage_count
    omega
  · by_cases hreg : env.mgr_register_framedone_handler = 0
    · rw [p3 (by omega) hreg] at h
      obtain ⟨hh, hcase⟩ := display_enable_from_result g env.mgr_enable _ _ s' g' h
      rcases hcase with ⟨site, ho, _⟩ | ⟨ho, _⟩ | ⟨ho, _, hu, hl, _⟩ | ⟨ho, _⟩
      · exact outcome.noConfusion ho
      · exact outcome.noConfusion ho
      · refine ⟨?_, hl, Or.inr ⟨by omega, hreg, outcome.ret.inj ho, hh⟩⟩
        rw [hu]
        show rfbi.usage_count + 1 - 1 = rfbi.usage_count
        omega
      · exact absurd (outcome.ret.inj ho) hr
    · rw [p2 (by omega) hreg] at h
      simp only [Option.some.injEq, Prod.mk.injEq] at h
      obtain ⟨_, hs, _⟩ := h
      subst hs
      refine ⟨?_, rfl, Or.inl ?_⟩
      · show rfbi.usage_count + 1 - 1 = rfbi.usage_count
        omega
      · show (if env.mgr_register_framedone_handler = 0 then some framedone_handler.own
          else rfbi.mgr_framedone_handler) = rfbi.mgr_framedone_handler
        rw [if_neg hreg]

/-- A call of `rfbi_display_enable` that returns 0 holds one more power reference, has
registered the driver's handler and has released the mutex. -/
theorem rfbi_display_enable_success (g : Nat) (env : collaborators) (rfbi s' : rfbi_data)
    (g' : Nat) (h : rfbi_display_enable g env rfbi = some (outcome.ret 0, s', g')) :
    s'.usage_count = rfbi.usage_count + 1 ∧ s'.lock = false ∧
    s'.mgr_framedone_handler = some framedone_handler.own ∧
    s'.intf_timings.converted ≠ 0 := by
  obtain ⟨p1, p2, p3⟩ := rfbi_display_enable_paths g env rfbi
    (rfbi_display_enable_free g env rfbi _ h)
  by_cases hp : env.pm_runtime_get_sync < 0
  · rw [p1 hp] at h
    simp only [Option.some.injEq, Prod.mk.injEq, outcome.ret.injEq] at h
    omega
  · by_cases hreg : env.mgr_register_framedone_handler = 0
    · rw [p3 (by omega) hreg] at h
      obtain ⟨hh, hcase⟩ := display_enable_from_result g env.mgr_enable _ _ s' g' h
      rcases hcase with ⟨site, ho, _⟩ | ⟨ho, _⟩ | ⟨ho, hne, _⟩ | ⟨_, _, hu, hl, hc⟩
      · exact outcome.noConfusion ho
      · exact outcome.noConfusion ho
      · exact absurd (outcome.ret.inj ho).symm hne
      · exact ⟨hu, hl, hh, hc⟩
    · rw [p2 (by omega) hreg] at h
      simp only [Option.some.injEq, Prod.mk.injEq, outcome.ret.injEq] at h
      exact absurd h.1 hreg

/-- A non-negative requirement that fits neither divider makes the solver return -1. -/
theorem unsatisfiable_solver_fails (g : Nat) (rfbi : rfbi_data) (t : rfbi_timings)
    (hk : 0 < rfbi.l4_khz) (hp0 : 0 < 1000000000 / rfbi.l4_khz) (hnn : nonneg_req t)
    (h1 : ¬ Spec.satisfiable rfbi.l4_khz 1 t) (h2 : ¬ Spec.satisfiable rfbi.l4_khz 2 t) :
    (calc_extif_timings g rfbi t).map Prod.fst = some (-1) := by
  obtain ⟨t', ht'⟩ := (calc_extif_timings_spec g rfbi t hk hp0 hnn).2.2 h1 h2
  rw [ht']
  rfl

/-- C17, as the claim states it, fails: with `converted` already set the solver is
skipped, and a requirement that fits neither divider (the solver returns -1 on it) is
written as it stands while `rfbi_display_enable` returns 0. -/
theorem rfbi_display_enable_stale_converted :
    ¬ Spec.satisfiable bus_stale.l4_khz 1 bus_stale.intf_timings ∧
    ¬ Spec.satisfiable bus_stale.l4_khz 2 bus_stale.intf_timings ∧
    (calc_extif_timings 0 bus_stale bus_stale.intf_timings).map Prod.fst = some (-1) ∧
    (rfbi_display_enable 0 ⟨0, 0, 0⟩ bus_stale).map Prod.fst = some (outcome.ret 0) := by
  decide

/-- C17, amended: for every bus state in which `rfbi_configure_bus` rejects the stored
pixel size and data lines, or in which the stored timing structure is not converted
and the solver fails on it at both dividers (returns -1), `rfbi_display_enable` does not
return 0.  When the mutex is free and the power acquisition and the registration of the
handler succeed, the call does not return at all: it stops in the `BUG()` of the
configuration, with no register accessed, or, the configuration having returned, at
`BUG_ON(!t->converted)`, and then the registers and the trace are those the
configuration left: `_rfbi_set_rfbi_timings` has accessed no register.  While the mutex
is held the call does not return either: it waits in `mutex_lock`. -/
theorem rfbi_display_enable_rejects (g : Nat) (env : collaborators) (rfbi : rfbi_data)
    (h : (∃ site, (rfbi_configure_bus rfbi rfbi.of_port rfbi.pixel_size rfbi.data_lines).1
            = outcome.bug site) ∨
      (rfbi.intf_timings.converted = 0 ∧
        (calc_extif_timings g rfbi rfbi.intf_timings).map Prod.fst = some (-1))) :
    (∀ s' g', rfbi_display_enable g env rfbi ≠ some (outcome.ret 0, s', g')) ∧
    (rfbi.lock = false → 0 ≤ env.pm_runtime_get_sync →
      env.mgr_register_framedone_handler = 0 →
      ∃ site s' g', rfbi_display_enable g env rfbi = some (outcome.bug site, s', g') ∧
        (((rfbi_configure_bus rfbi rfbi.of_port rfbi.pixel_size rfbi.data_lines).1
            = outcome.bug site ∧ s'.regs = rfbi.regs) ∨
         ((rfbi_configure_bus rfbi rfbi.of_port rfbi.pixel_size rfbi.data_lines).1
            = outcome.ret 0 ∧ site = bug_site.not_converted ∧
          s'.regs = (rfbi_configure_bus
            (dss_mgr_register_framedone_handler
              (pm_runtime_get_sync (lock_held rfbi) env.pm_runtime_get_sync)
              framedone_handler.own 0) rfbi.of_port rfbi.pixel_size rfbi.data_lines).2.regs ∧
          s'.log = (rfbi_configure_bus
            (dss_mgr_register_framedone_handler
              (pm_runtime_get_sync (lock_held rfbi) env.pm_runtime_get_sync)
              framedone_handler.own 0) rfbi.of_port rfbi.pixel_size rfbi.data_lines).2.log))) ∧
    (rfbi.lock = true → rfbi_display_enable g env rfbi = none) := by
  have second : rfbi.lock = false → 0 ≤ env.pm_runtime_get_sync →
      env.mgr_register_framedone_handler = 0 →
      ∃ site s' g', rfbi_display_enable g env rfbi = some (outcome.bug site, s', g') ∧
        (((rfbi_configure_bus rfbi rfbi.of_port rfbi.pixel_size rfbi.data_lines).1
            = outcome.bug site ∧ s'.regs = rfbi.regs) ∨
         ((rfbi_configure_bus rfbi rfbi.of_port rfbi.pixel_size rfbi.data_lines).1
            = outcome.ret 0 ∧ site = bug_site.not_converted ∧
          s'.regs = (rfbi_configure_bus
            (dss_mgr_register_framedone_handler
              (pm_runtime_get_sync (lock_held rfbi) env.pm_runtime_get_sync)
              framedone_handler.own 0) rfbi.of_port rfbi.pixel_size rfbi.data_lines).2.regs ∧
          s'.log = (rfbi_configure_bus
            (dss_mgr_register_framedone_handler
              (pm_runtime_get_sync (lock_held rfbi) env.pm_runtime_get_sync)
              framedone_handler.own 0) rfbi.of_port rfbi.pixel_size rfbi.data_lines).2.log)) := by
    intro hl hp hr
    rw [(rfbi_display_enable_paths g env rfbi hl).2.2 hp hr]
    generalize hs2 : dss_mgr_register_framedone_handler
      (pm_runtime_get_sync (lock_held rfbi) env.pm_runtime_get_sync)
      framedone_handler.own 0 = s2
    have e1 : s2.of_port = rfbi.of_port := by rw [← hs2]; rfl
    have e2 : s2.pixel_size = rfbi.pixel_size := by rw [← hs2]; rfl
    have e3 : s2.data_lines = rfbi.data_lines := by rw [← hs2]; rfl
    have e4 : s2.intf_timings = rfbi.intf_timings := by rw [← hs2]; rfl
    have e5 : s2.l4_khz = rfbi.l4_khz := by rw [← hs2]; rfl
    have e6 : s2.regs = rfbi.regs := by rw [← hs2]; rfl
    have hout := configure_bus_outcome s2 rfbi s2.of_port rfbi.of_port rfbi.pixel_size
      rfbi.data_lines
    rcases configure_bus_ret_or_bug s2 s2.of_port s2.pixel_size s2.data_lines with
      hret | ⟨site, hbug, hregs, _⟩
    · -- the configuration returns: the hypothesis is the one on the timings
      have hret' := hret
      rw [e2, e3, hout] at hret'
      rcases h with ⟨site, hb⟩ | ⟨hz, hcalc⟩
      · rw [hret'] at hb; exact outcome.noConfusion hb
      · obtain ⟨c1, c2, c3, c4, c5, c6, c7, c8, c9, c10⟩ :=
          configure_bus_context s2 s2.of_port s2.pixel_size s2.data_lines
        have hz' : (rfbi_configure_bus s2 s2.of_port s2.pixel_size
            s2.data_lines).2.intf_timings.converted = 0 := by rw [c8, e4]; exact hz
        have hcalc' : (calc_extif_timings g
            (rfbi_configure_bus s2 s2.of_port s2.pixel_size s2.data_lines).2
            (rfbi_configure_bus s2 s2.of_port s2.pixel_size s2.data_lines).2.intf_timings).map
            Prod.fst = some (-1) := by
          rw [c8, e4, calc_extif_timings_same_clock g _ rfbi _ (c5.trans e5)]
          exact hcalc
        obtain ⟨t', p', hset⟩ := rfbi_set_rfbi_timings_unsolved g _
          (rfbi_configure_bus s2 s2.of_port s2.pixel_size s2.data_lines).2.of_port _ hz' hcalc'
        rw [display_enable_from_ret g env.mgr_enable s2 hret, hset]
        refine ⟨bug_site.not_converted, _, _, rfl, Or.inr ⟨hret', rfl, ?_, ?_⟩⟩
        · rw [← e1, ← e2, ← e3]
        · rw [← e1, ← e2, ← e3]
    · -- the configuration stops in a `BUG()`
      rw [display_enable_from_bug g env.mgr_enable s2 site hbug]
      refine ⟨site, _, _, rfl, Or.inl ⟨?_, hregs.trans e6⟩⟩
      rw [← hout, ← e2, ← e3]
      exact hbug
  refine ⟨fun s' g' hcontra => ?_, second, rfbi_display_enable_blocked g env rfbi⟩
  have hl := rfbi_display_enable_free g env rfbi _ hcontra
  obtain ⟨p1, p2, p3⟩ := rfbi_display_enable_paths g env rfbi hl
  by_cases hp : env.pm_runtime_get_sync < 0
  · rw [p1 hp] at hcontra
    simp only [Option.some.injEq, Prod.mk.injEq, outcome.ret.injEq] at hcontra
    omega
  · by_cases hr : env.mgr_register_framedone_handler = 0
    · obtain ⟨site, s1, g1, hres, _⟩ := second hl (by omega) hr
      rw [hres] at hcontra
      simp only [Option.some.injEq, Prod.mk.injEq, reduceCtorEq, false_and] at hcontra
    · rw [p2 (by omega) hr] at hcontra
      simp only [Option.some.injEq, Prod.mk.injEq, outcome.ret.injEq] at hcontra
      exact hr hcontra.1

/-- Witness of the amended C17: the panel's bus with the requirement that fits neither
divider, not converted. -/
theorem rfbi_display_enable_rejects_witness :
    bus_slow.intf_timings.converted = 0 ∧
    (calc_extif_timings 0 bus_slow bus_slow.intf_timings).map Prod.fst = some (-1) ∧
    ∃ s' g', rfbi_display_enable 0 ⟨0, 0, 0⟩ bus_slow
      = some (outcome.bug bug_site.not_converted, s', g') := by
  have hc : (calc_extif_timings 0 bus_slow bus_slow.intf_timings).map Prod.fst = some (-1) := by
    decide
  have hr : (rfbi_configure_bus bus_slow bus_slow.of_port bus_slow.pixel_size
      bus_slow.data_lines).1 = outcome.ret 0 := by decide
  refine ⟨rfl, hc, ?_⟩
  obtain ⟨site, s', g', h, hcase⟩ :=
    (rfbi_display_enable_rejects 0 ⟨0, 0, 0⟩ bus_slow (Or.inr ⟨rfl, hc⟩)).2.1 rfl (by decide) rfl
  rcases hcase with ⟨hb, _⟩ | ⟨_, hs, _⟩
  · rw [hr] at hb
    exact outcome.noConfusion hb
  · subst hs
    exact ⟨s', g', h⟩

/-- `rfbi_display_disable` (a function without a result) called with the mutex free
returns after exactly three calls, in this order: `dss_mgr_disable`,
`dss_mgr_unregister_framedone_handler` with the driver's pair, and one
`pm_runtime_put_sync`, which drops one power reference.  It accesses no register,
leaves the pending callback and its argument alone and leaves the mutex free.  After a
`rfbi_display_enable` that returned 0 the pair it unregisters is the pair the manager
holds, and the power reference count is back at its value before the enable. -/
theorem rfbi_display_disable_sequence (s : rfbi_data) (g : Nat) (env : collaborators)
    (s1 : rfbi_data) (g1 : Nat) (hl : s.lock = false) :
    (∃ s', rfbi_display_disable s = some s' ∧
      s'.log = s.log ++
        [bus_event.mgr_disable,
         bus_event.mgr_unregister_framedone_handler framedone_handler.own,
         bus_event.pm_runtime_put_sync] ∧
      s'.regs = s.regs ∧
      s'.framedone_callback = s.framedone_callback ∧
      s'.framedone_callback_data = s.framedone_callback_data ∧
      s'.usage_count = s.usage_count - 1 ∧
      s'.lock = false) ∧
    (rfbi_display_enable g env s = some (outcome.ret 0, s1, g1) →
      s1.mgr_framedone_handler = some framedone_handler.own ∧
      ∃ s2, rfbi_display_disable s1 = some s2 ∧
        s2.mgr_framedone_handler = none ∧ s2.usage_count = s.usage_count) := by
  have hdis : ∀ x : rfbi_data, x.lock = false → rfbi_display_disable x =
      some (mutex_unlock (rfbi_runtime_put (dss_mgr_unregister_framedone_handler
        (dss_mgr_disable (lock_held x)) framedone_handler.own))) := by
    intro x hx
    unfold rfbi_display_disable
    rw [mutex_lock_free x hx]
  refine ⟨⟨_, hdis s hl, ?_, rfl, rfl, rfl, rfl, rfl⟩, fun h => ?_⟩
  · simp only [lock_held, mutex_unlock, dss_mgr_disable,
      dss_mgr_unregister_framedone_handler, rfbi_runtime_put, pm_runtime_put_sync,
      List.append_assoc, List.cons_append, List.nil_append]
  · obtain ⟨hu, hl1, hh, _⟩ := rfbi_display_enable_success g env s s1 g1 h
    refine ⟨hh, _, hdis s1 hl1, ?_, ?_⟩
    · show (if s1.mgr_framedone_handler = some framedone_handler.own then none
        else s1.mgr_framedone_handler) = none
      rw [if_pos hh]
    · show s1.usage_count - 1 = s.usage_count
      omega

/-- C18 fails on the code: a `rfbi_display_enable` that returns an error (the one of
`pm_runtime_get_sync`, of `dss_mgr_register_framedone_handler` or of `dss_mgr_enable`)
returns with the mutex held, and the `rfbi_display_disable` that follows does not
return: it waits in `mutex_lock` and makes none of its three calls.  After an enable
that returned 0 it returns, the handler is unregistered, the power reference count is
back at its value before the enable and the mutex is free. -/
theorem rfbi_display_disable_after_failed_enable :
    bus_ready.lock = false ∧
    (∃ s1 g1, rfbi_display_enable 0 ⟨-5, 0, 0⟩ bus_ready = some (outcome.ret (-5), s1, g1) ∧
      s1.lock = true ∧ rfbi_display_disable s1 = none) ∧
    (∃ s1 g1, rfbi_display_enable 0 ⟨0, -16, 0⟩ bus_ready = some (outcome.ret (-16), s1, g1) ∧
      s1.lock = true ∧ rfbi_display_disable s1 = none) ∧
    (∃ s1 g1, rfbi_display_enable 0 ⟨0, 0, -22⟩ bus_ready = some (outcome.ret (-22), s1, g1) ∧
      s1.lock = true ∧ rfbi_display_disable s1 = none) ∧
    (∃ s1 g1 s2, rfbi_display_enable 0 ⟨0, 0, 0⟩ bus_ready = some (outcome.ret 0, s1, g1) ∧
      rfbi_display_disable s1 = some s2 ∧ s2.mgr_framedone_handler = none ∧
      s2.usage_count = bus_ready.usage_count ∧ s2.lock = false) := by
  have failing : ∀ (env : collaborators) (r : Int), r ≠ 0 →
      (rfbi_display_enable 0 env bus_ready).map Prod.fst = some (outcome.ret r) →
      ∃ s1 g1, rfbi_display_enable 0 env bus_ready = some (outcome.ret r, s1, g1) ∧
        s1.lock = true ∧ rfbi_display_disable s1 = none := by
    intro env r hr h
    obtain ⟨x, hx, hfst⟩ := Option.map_eq_some'.1 h
    obtain ⟨o, s1, g1⟩ := x
    simp only at hfst
    subst hfst
    have hlock := (rfbi_display_enable_failing 0 env bus_ready s1 r g1 hr hx).2.1
    exact ⟨s1, g1, hx, hlock, rfbi_display_disable_blocked s1 hlock⟩
  refine ⟨rfl, failing ⟨-5, 0, 0⟩ (-5) (by decide) (by decide),
    failing ⟨0, -16, 0⟩ (-16) (by decide) (by decide),
    failing ⟨0, 0, -22⟩ (-22) (by decide) (by decide), ?_⟩
  have h : (rfbi_display_enable 0 ⟨0, 0, 0⟩ bus_ready).map Prod.fst = some (outcome.ret 0) := by
    decide
  obtain ⟨x, hx, hfst⟩ := Option.map_eq_some'.1 h
  obtain ⟨o, s1, g1⟩ := x
  simp only at hfst
  subst hfst
  have hl1 := (rfbi_display_enable_success 0 ⟨0, 0, 0⟩ bus_ready s1 g1 hx).2.1
  obtain ⟨_, s2, h2, hm, hu⟩ :=
    (rfbi_display_disable_sequence bus_ready 0 ⟨0, 0, 0⟩ s1 g1 rfl).2 hx
  obtain ⟨⟨s3, h3, _, _, _, _, _, hl3⟩, _⟩ :=
    rfbi_display_disable_sequence s1 0 ⟨0, 0, 0⟩ s1 g1 hl1
  rw [h2] at h3
  have e := Option.some.inj h3
  subst e
  exact ⟨s1, g1, s2, hx, h2, hm, hu, hl3⟩

/-! ## Determinism of the solver and the numeric example: claims C19 and C20 -/

/-- C19: two runs of `calc_extif_timings` at the same clock rate on structures with the
same ten requirements end the same way, whatever the global `extif_clk_period`, the
other fields of the bus structure and the fields `clk_div`, `tim[]` and `converted`
held before: both runs divide by zero, or both return the same value, and when that
value is 0 they leave the same `clk_div`, `tim[0]`, `tim[1]` and `tim[2]` (the same
structure).  With a positive clock rate and a positive period both runs return. -/
theorem calc_extif_timings_deterministic (g1 g2 : Nat) (rfbi1 rfbi2 : rfbi_data)
    (t1 t2 : rfbi_timings) (hk : rfbi1.l4_khz = rfbi2.l4_khz) (hs : same_req t1 t2) :
    ((calc_extif_timings g1 rfbi1 t1 = none ∧ calc_extif_timings g2 rfbi2 t2 = none) ∨
      (∃ r t1' t2' p, calc_extif_timings g1 rfbi1 t1 = some (r, t1', p) ∧
        calc_extif_timings g2 rfbi2 t2 = some (r, t2', p) ∧
        (r = 0 → t1'.clk_div = t2'.clk_div ∧ t1'.tim0 = t2'.tim0 ∧ t1'.tim1 = t2'.tim1 ∧
          t1'.tim2 = t2'.tim2 ∧ t1' = t2'))) ∧
    (0 < rfbi1.l4_khz → 0 < 1000000000 / rfbi1.l4_khz →
      ∃ r t1' t2', calc_extif_timings g1 rfbi1 t1
          = some (r, t1', 1000000000 / rfbi1.l4_khz) ∧
        calc_extif_timings g2 rfbi2 t2 = some (r, t2', 1000000000 / rfbi1.l4_khz)) := by
  have e1 := calc_extif_timings_clock g1 g1 rfbi1 t1
  have e2 := calc_extif_timings_clock g2 g2 rfbi2 t2
  rw [← hk] at e2
  have hrel := calc_extif_timings_rel g1 g2 (rfbi_probed rfbi1.l4_khz) t1 t2 hs
  rw [← e1, ← e2] at hrel
  refine ⟨?_, fun h0 hp => ?_⟩
  · rcases hrel with hn | ⟨r, t1', t2', p, h1, h2, h3⟩
    · exact Or.inl hn
    · refine Or.inr ⟨r, t1', t2', p, h1, h2, fun hr => ?_⟩
      have := h3 hr
      subst this
      exact ⟨rfl, rfl, rfl, rfl, rfl⟩
  · obtain ⟨r, t1', h1⟩ := calc_extif_timings_returns g1 rfbi1 t1 h0 hp
    rcases hrel with hn | ⟨r', u1, u2, p, k1, k2, _⟩
    · rw [hn.1] at h1; exact Option.noConfusion h1
    · rw [h1] at k1
      simp only [Option.some.injEq, Prod.mk.injEq] at k1
      obtain ⟨a1, a2, a3⟩ := k1
      subst a1 a2 a3
      exact ⟨r, t1', u2, h1, k2⟩

/-- Witness of C19: the panel's requirement at 50 MHz, once in a fresh structure and
once in a structure whose output fields hold other values, with another value in the
global and another bus structure. -/
theorem calc_extif_timings_deterministic_witness :
    same_req n8x0_panel_rfbi_timings
      { n8x0_panel_rfbi_timings with clk_div := 7, tim0 := 99, tim1 := 5, tim2 := 1,
                                     converted := 1 } ∧
    ∃ r t1' t2', calc_extif_timings 0 (rfbi_probed 50000) n8x0_panel_rfbi_timings
        = some (r, t1', 1000000000 / (rfbi_probed 50000).l4_khz) ∧
      calc_extif_timings 12345 bus_16bit
        { n8x0_panel_rfbi_timings with clk_div := 7, tim0 := 99, tim1 := 5, tim2 := 1,
                                       converted := 1 }
        = some (r, t2', 1000000000 / (rfbi_probed 50000).l4_khz) :=
  ⟨by unfold same_req; decide,
    (calc_extif_timings_deterministic 0 12345 (rfbi_probed 50000) bus_16bit
      n8x0_panel_rfbi_timings
      { n8x0_panel_rfbi_timings with clk_div := 7, tim0 := 99, tim1 := 5, tim2 := 1,
                                     converted := 1 }
      rfl (by unfold same_req; decide)).2 (by decide) (by decide)⟩

/-- C20: on a bus clocked at 50000 kHz (period 20000 ps) the panel's timing set
(`we_on_time = 9000`, `we_off_time = 18000`) gives at divider 1 one tick for `we_on`
and one tick for `we_off`, which the ordering rule raises to 2; the conversion packs
`weon = 1` and `weoff = 2`, and `calc_extif_timings` accepts divider 1: it returns 0
with `clk_div = 1`, `tim[2] = 0`, bits 13:10 of `tim[0]` equal to 1 and bits 19:14
equal to 2. -/
theorem calc_extif_timings_n8x0_50mhz (g : Nat) (rfbi : rfbi_data)
    (hk : rfbi.l4_khz = 50000) :
    1000000000 / rfbi.l4_khz = 20000 ∧
    n8x0_panel_rfbi_timings.we_on_time = 9000 ∧ n8x0_panel_rfbi_timings.we_off_time = 18000 ∧
    ps_to_rfbi_ticks rfbi 9000 1 = some 1 ∧ ps_to_rfbi_ticks rfbi 18000 1 = some 1 ∧
    raise_above 1 1 = 2 ∧
    (∃ t' L, rfbi_convert_ticks rfbi n8x0_div1 = some (0, t', some L) ∧
      L.weon = 1 ∧ L.weoff = 2 ∧ L.weon ≤ 0x0f ∧ L.weoff ≤ 0x3f) ∧
    (∃ t', calc_extif_timings g rfbi n8x0_panel_rfbi_timings = some (0, t', 20000) ∧
      t'.clk_div = 1 ∧ t'.tim2 = 0 ∧ t'.converted = 1 ∧
      Spec.field_of t'.tim0 13 10 = 1 ∧ Spec.field_of t'.tim0 19 14 = 2) := by
  have hp : ∀ x d, ps_to_rfbi_ticks rfbi x d = ps_to_rfbi_ticks (rfbi_probed 50000) x d := by
    intro x d
    rw [← hk]
    rfl
  have hc : rfbi_convert_ticks rfbi n8x0_div1 = rfbi_convert_ticks (rfbi_probed 50000) n8x0_div1 := by
    rw [← hk]
    rfl
  have he : calc_extif_timings g rfbi n8x0_panel_rfbi_timings
      = calc_extif_timings 0 (rfbi_probed 50000) n8x0_panel_rfbi_timings := by
    rw [calc_extif_timings_clock g 0 rfbi, hk]
  refine ⟨by rw [hk], rfl, rfl, ?_, ?_, by decide, ?_, ?_⟩
  · rw [hp]; decide
  · rw [hp]; decide
  · rw [hc]
    exact ⟨n8x0_div1_converted, ⟨0, 2, 1, 2, 1, 2, 2, 2, 0, 2⟩, by decide, by decide,
      by decide, by decide, by decide⟩
  · rw [he]
    exact ⟨n8x0_solved, by decide, by decide, by decide, by decide, by decide, by decide⟩

/-- Witness of C20: the probed bus at 50000 kHz. -/
theorem calc_extif_timings_n8x0_50mhz_witness :
    (rfbi_probed 50000).l4_khz = 50000 ∧
    ∃ t', calc_extif_timings 0 (rfbi_probed 50000) n8x0_panel_rfbi_timings
        = some (0, t', 20000) ∧
      t'.clk_div = 1 ∧ t'.tim2 = 0 ∧ t'.converted = 1 ∧
      Spec.field_of t'.tim0 13 10 = 1 ∧ Spec.field_of t'.tim0 19 14 = 2 :=
  ⟨rfl, (calc_extif_timings_n8x0_50mhz 0 (rfbi_probed 50000) rfl).2.2.2.2.2.2.2⟩

/-! ## The bus formatter: claims C24, C25 and C30 -/

theorem cycleformat_of_error (bpp lines : Int) (site : bug_site)
    (h : cycleformat_of bpp lines = Except.error site) :
    site = bug_site.ratio_invalid ∨ site = bug_site.ratio_not_3_2 ∨ site = bug_site.ratio_none := by
  unfold cycleformat_of at h
  split_ifs at h <;> simp at h <;> subst h <;> simp

/-- The `BUG()` a failing `rfbi_configure_bus` stops in is one of the five of the
validation, and nothing has been written or read. -/
theorem configure_bus_bug (s : rfbi_data) (n bpp lines : Int)
    (h : (rfbi_configure_bus s n bpp lines).1 ≠ outcome.ret 0) :
    ∃ site, (rfbi_configure_bus s n bpp lines).1 = outcome.bug site ∧
      (Spec.error_of site = Spec.error.UnsupportedFormat ∨
        Spec.error_of site = Spec.error.UnsupportedRatio) ∧
      (rfbi_configure_bus s n bpp lines).2.regs = s.regs ∧
      (rfbi_configure_bus s n bpp lines).2.log = s.log := by
  cases h1 : datatype_of_bpp bpp with
  | none =>
    exact ⟨bug_site.invalid_bpp, by simp [rfbi_configure_bus, h1, Spec.error_of]⟩
  | some dt =>
    cases h2 : parallelmode_of_lines lines with
    | none =>
      exact ⟨bug_site.invalid_lines, by simp [rfbi_configure_bus, h1, h2, Spec.error_of]⟩
    | some pm =>
      cases h3 : cycleformat_of bpp lines with
      | error site =>
        rw [rfbi_configure_bus_of_error s n bpp lines dt pm site h1 h2 h3]
        refine ⟨_, rfl, Or.inr ?_, rfl, rfl⟩
        rcases cycleformat_of_error bpp lines site h3 with e | e | e <;> subst e <;> rfl
      | ok cf =>
        rw [rfbi_configure_bus_of_ok s n bpp lines dt pm cf h1 h2 h3] at h
        exact absurd rfl h

/-- C30: whenever `rfbi_configure_bus` fails (it stops in one of the `BUG()`s of the
validation: unsupported format or unsupported ratio), no register has been accessed:
the register file is the one before the call, so `CONTROL`, `CONFIG(n)` and
`DATA_CYCLE1..3(n)` keep their values, and the sequence of register accesses has not
grown. -/
theorem rfbi_configure_bus_failure_writes_nothing (rfbi : rfbi_data) (n bpp lines : Int)
    (h : (rfbi_configure_bus rfbi n bpp lines).1 ≠ outcome.ret 0) :
    ∃ site, (rfbi_configure_bus rfbi n bpp lines).1 = outcome.bug site ∧
      (Spec.error_of site = Spec.error.UnsupportedFormat ∨
        Spec.error_of site = Spec.error.UnsupportedRatio) ∧
      (rfbi_configure_bus rfbi n bpp lines).2.log = rfbi.log ∧
      (rfbi_configure_bus rfbi n bpp lines).2.regs = rfbi.regs ∧
      (rfbi_configure_bus rfbi n bpp lines).2.regs RFBI_CONTROL = rfbi.regs RFBI_CONTROL ∧
      (rfbi_configure_bus rfbi n bpp lines).2.regs (RFBI_CONFIG n) = rfbi.regs (RFBI_CONFIG n) ∧
      (rfbi_configure_bus rfbi n bpp lines).2.regs (RFBI_DATA_CYCLE1 n)
        = rfbi.regs (RFBI_DATA_CYCLE1 n) ∧
      (rfbi_configure_bus rfbi n bpp lines).2.regs (RFBI_DATA_CYCLE2 n)
        = rfbi.regs (RFBI_DATA_CYCLE2 n) ∧
      (rfbi_configure_bus rfbi n bpp lines).2.regs (RFBI_DATA_CYCLE3 n)
        = rfbi.regs (RFBI_DATA_CYCLE3 n) := by
  obtain ⟨site, h1, h2, h3, h4⟩ := configure_bus_bug rfbi n bpp lines h
  exact ⟨site, h1, h2, h4, h3, by rw [h3], by rw [h3], by rw [h3], by rw [h3], by rw [h3]⟩

/-- Witness of C30: 18 bits per pixel over 8 lines (no supported ratio) on the panel's
bus. -/
theorem rfbi_configure_bus_failure_writes_nothing_witness :
    (rfbi_configure_bus bus_ready 0 18 8).1 ≠ outcome.ret 0 ∧
    ∃ site, (rfbi_configure_bus bus_ready 0 18 8).1 = outcome.bug site ∧
      (Spec.error_of site = Spec.error.UnsupportedFormat ∨
        Spec.error_of site = Spec.error.UnsupportedRatio) ∧
      (rfbi_configure_bus bus_ready 0 18 8).2.log = bus_ready.log ∧
      (rfbi_configure_bus bus_ready 0 18 8).2.regs = bus_ready.regs := by
  obtain ⟨site, h1, h2, h3, h4, _⟩ :=
    rfbi_configure_bus_failure_writes_nothing bus_ready 0 18 8 (by decide)
  exact ⟨by decide, site, h1, h2, h3, h4⟩

theorem config_word_value (pm : omap_rfbi_parallelmode) (dt : omap_rfbi_datatype)
    (cf : omap_rfbi_cycleformat) :
    u32 (config_word pm dt cf)
      = pm.val ||| dt.val <<< 5 ||| cf.val <<< 9 ||| 1 <<< 20 ||| 1 <<< 21 ∧
    (u32 (config_word pm dt cf)).testBit 4 = false ∧
    (u32 (config_word pm dt cf)) &&& (4294967295 ^^^ (3 ||| 3 <<< 5 ||| 3 <<< 9 ||| 3 <<< 20)) = 0 := by
  cases pm <;> cases dt <;> cases cf <;> decide

theorem parallelmode_of_lines_val (lines : Int) (pm : omap_rfbi_parallelmode)
    (h : parallelmode_of_lines lines = some pm) :
    (lines = 8 ∧ pm.val = 0) ∨ (lines = 9 ∧ pm.val = 1) ∨ (lines = 12 ∧ pm.val = 2) ∨
      (lines = 16 ∧ pm.val = 3) := by
  unfold parallelmode_of_lines at h
  split_ifs at h with h1 h2 h3 h4 <;> simp at h <;> subst h <;> simp [omap_rfbi_parallelmode.val, *]

theorem datatype_of_bpp_val (bpp : Int) (dt : omap_rfbi_datatype)
    (h : datatype_of_bpp bpp = some dt) :
    (bpp = 12 ∧ dt.val = 0) ∨ (bpp = 16 ∧ dt.val = 1) ∨ (bpp = 18 ∧ dt.val = 2) ∨
      (bpp = 24 ∧ dt.val = 3) := by
  unfold datatype_of_bpp at h
  split_ifs at h with h1 h2 h3 h4 <;> simp at h <;> subst h <;> simp [omap_rfbi_datatype.val, *]

/-- C24: whenever `rfbi_configure_bus` returns 0 for channel 0 or 1, the word it wrote
to `CONFIG(n)`, which is the value the register holds on return, is
`parallelmode | (datatype << 5) | (cycleformat << 9) | (1 << 20) | (1 << 21)`, with
parallelmode 0, 1, 2, 3 for 8, 9, 12, 16 lines, datatype 0, 1, 2, 3 for 12, 16, 18, 24
bits per pixel and cycleformat the code of the chosen format (1:1 is 0, 2:1 is 1, 3:1 is
2, 3:2 is 3); no bit outside 1:0, 6:5, 10:9, 21:20 is set, the time-granularity bit 4
is 0, and this holds whatever `CONFIG(n)` held before, in particular in the state
`_rfbi_set_rfbi_timings` leaves, where bit 4 is the granularity of the divider. -/
theorem rfbi_configure_bus_config_word (rfbi : rfbi_data) (n bpp lines : Int)
    (hn : n = 0 ∨ n = 1) (h : (rfbi_configure_bus rfbi n bpp lines).1 = outcome.ret 0) :
    ∃ pm dt cf, parallelmode_of_lines lines = some pm ∧ datatype_of_bpp bpp = some dt ∧
      cycleformat_of bpp lines = Except.ok cf ∧
      ((lines = 8 ∧ pm.val = 0) ∨ (lines = 9 ∧ pm.val = 1) ∨ (lines = 12 ∧ pm.val = 2) ∨
        (lines = 16 ∧ pm.val = 3)) ∧
      ((bpp = 12 ∧ dt.val = 0) ∨ (bpp = 16 ∧ dt.val = 1) ∨ (bpp = 18 ∧ dt.val = 2) ∨
        (bpp = 24 ∧ dt.val = 3)) ∧
      bus_event.write (RFBI_CONFIG n)
          (pm.val ||| dt.val <<< 5 ||| cf.val <<< 9 ||| 1 <<< 20 ||| 1 <<< 21)
        ∈ (rfbi_configure_bus rfbi n bpp lines).2.log ∧
      (rfbi_configure_bus rfbi n bpp lines).2.regs (RFBI_CONFIG n)
        = pm.val ||| dt.val <<< 5 ||| cf.val <<< 9 ||| 1 <<< 20 ||| 1 <<< 21 ∧
      ((rfbi_configure_bus rfbi n bpp lines).2.regs (RFBI_CONFIG n)).testBit 4 = false ∧
      (rfbi_configure_bus rfbi n bpp lines).2.regs (RFBI_CONFIG n)
        &&& (4294967295 ^^^ (3 ||| 3 <<< 5 ||| 3 <<< 9 ||| 3 <<< 20)) = 0 ∧
      ∀ (g : Nat) (s0 : rfbi_data) (t t' : rfbi_timings) (s1 : rfbi_data) (g' : Nat),
        _rfbi_set_rfbi_timings g s0 n t = some (none, s1, t', g') →
        (rfbi_configure_bus s1 n bpp lines).1 = outcome.ret 0 ∧
        ((rfbi_configure_bus s1 n bpp lines).2.regs (RFBI_CONFIG n)).testBit 4 = false := by
  obtain ⟨dt, pm, cf, h1, h2, h3⟩ := rfbi_configure_bus_ret rfbi n bpp lines h
  obtain ⟨w1, w2, w3⟩ := config_word_value pm dt cf
  have hreg : ∀ s : rfbi_data, (rfbi_configure_bus s n bpp lines).2.regs (RFBI_CONFIG n)
      = u32 (config_word pm dt cf) := by
    intro s
    rw [rfbi_configure_bus_of_ok s n bpp lines dt pm cf h1 h2 h3]
    exact (configured_regs s n dt pm cf lines hn).1
  refine ⟨pm, dt, cf, h2, h1, h3, parallelmode_of_lines_val lines pm h2,
    datatype_of_bpp_val bpp dt h1, ?_, ?_, ?_, ?_, ?_⟩
  · rw [rfbi_configure_bus_of_ok rfbi n bpp lines dt pm cf h1 h2 h3]
    obtain ⟨c0, c1, c2, c3, hl⟩ := configured_log rfbi n dt pm cf lines
    rw [hl, ← w1]
    simp
  · rw [hreg, w1]
  · rw [hreg]; exact w2
  · rw [hreg]; exact w3
  · intro g s0 t t' s1 g' _
    refine ⟨?_, ?_⟩
    · rw [configure_bus_outcome s1 rfbi n n bpp lines]; exact h
    · rw [hreg]; exact w2

/-- Witness of C24: on a 2 GHz bus clock the solver chooses divider 2 for the panel's
requirement, `_rfbi_set_rfbi_timings` sets bit 4 of `CONFIG(0)`, and the configuration
for 16 bits per pixel over 8 lines that follows writes `0x300220`, bit 4 clear. -/
theorem rfbi_configure_bus_config_word_witness :
    (_rfbi_set_rfbi_timings 0 (rfbi_probed 2000000) 0 n8x0_panel_rfbi_timings).map
        (fun r => (r.1, r.2.2.1.clk_div, (r.2.1.regs (RFBI_CONFIG 0)).testBit 4))
      = some (none, 2, true) ∧
    (_rfbi_set_rfbi_timings 0 (rfbi_probed 2000000) 0 n8x0_panel_rfbi_timings).map
        (fun r => (rfbi_configure_bus r.2.1 0 16 8).2.regs (RFBI_CONFIG 0))
      = some 0x300220 ∧
    ∃ pm dt cf, parallelmode_of_lines 8 = some pm ∧ datatype_of_bpp 16 = some dt ∧
      cycleformat_of 16 8 = Except.ok cf ∧
      (rfbi_configure_bus (rfbi_probed 2000000) 0 16 8).2.regs (RFBI_CONFIG 0)
        = pm.val ||| dt.val <<< 5 ||| cf.val <<< 9 ||| 1 <<< 20 ||| 1 <<< 21 ∧
      ((rfbi_configure_bus (rfbi_probed 2000000) 0 16 8).2.regs (RFBI_CONFIG 0)).testBit 4
        = false := by
  refine ⟨by decide, by decide, ?_⟩
  obtain ⟨pm, dt, cf, h1, h2, h3, _, _, _, h4, h5, _⟩ :=
    rfbi_configure_bus_config_word (rfbi_probed 2000000) 0 16 8 (Or.inl rfl) (by decide)
  exact ⟨pm, dt, cf, h1, h2, h3, h4, h5⟩

theorem testBit_two (j : Nat) : (2 : Nat).testBit j = decide (j = 1) := by
  have h : (2 : Nat) = 1 <<< 1 := by decide
  rw [h, Nat.testBit_shiftLeft, testBit_one]
  by_cases h1 : j = 1
  · subst h1; simp
  · cases j with
    | zero => simp
    | succ k => simp

theorem testBit_14 (i : Nat) : (14 : Nat).testBit i = decide (1 ≤ i ∧ i ≤ 3) := by
  have h : (14 : Nat) = FLD_MASK 3 1 := by decide
  rw [h, testBit_FLD_MASK 3 1 i (by decide) (by decide)]

theorem testBit_12 (i : Nat) : (12 : Nat).testBit i = decide (2 ≤ i ∧ i ≤ 3) := by
  have h : (12 : Nat) = FLD_MASK 3 2 := by decide
  rw [h, testBit_FLD_MASK 3 2 i (by decide) (by decide)]

/-- Clearing the chip-select field: `FLD_MOD(l, 0, 3, 2)` is `l & ~0xC`. -/
theorem FLD_MOD_clear_cs (c : Nat) (hc : c < 4294967296) :
    FLD_MOD c 0 3 2 = c &&& (4294967295 ^^^ 0xC) := by
  have h32 : (4294967295 : Nat) = 2 ^ 32 - 1 := by norm_num
  apply Nat.eq_of_testBit_eq
  intro i
  rw [testBit_FLD_MOD c 0 3 2 i hc (by decide) (by decide), Nat.testBit_and, Nat.testBit_xor,
    testBit_12, h32, Nat.testBit_two_pow_sub_one]
  by_cases h1 : 2 ≤ i ∧ i ≤ 3
  · have : i < 32 := by omega
    simp [h1, this]
  · by_cases h2 : i < 32
    · simp [h1, h2]
    · have : c.testBit i = false :=
        Nat.testBit_lt_two_pow (Nat.lt_of_lt_of_le hc
          (Nat.pow_le_pow_right (show 2 > 0 from by decide) (by omega : 32 ≤ i)))
      simp [h1, this]

/-- Selecting the channel and clearing the bypass bit on a word whose chip-select field
was cleared: the result is `(c & ~0xE) | (k << 2)` for `k` 1 or 2. -/
theorem FLD_MOD_select_cs (c k : Nat) (hc : c < 4294967296) (hk : k = 1 ∨ k = 2) :
    FLD_MOD (FLD_MOD (FLD_MOD c 0 3 2) k 3 2) 0 1 1
      = (c &&& (4294967295 ^^^ 0xE)) ||| k <<< 2 := by
  have h32 : (4294967295 : Nat) = 2 ^ 32 - 1 := by norm_num
  have l1 := FLD_MOD_lt c 0 3 2 hc
  have l2 := FLD_MOD_lt (FLD_MOD c 0 3 2) k 3 2 l1
  apply Nat.eq_of_testBit_eq
  intro i
  rw [testBit_FLD_MOD _ 0 1 1 i l2 (by decide) (by decide),
    testBit_FLD_MOD _ k 3 2 i l1 (by decide) (by decide),
    testBit_FLD_MOD c 0 3 2 i hc (by decide) (by decide),
    Nat.testBit_or, Nat.testBit_and, Nat.testBit_xor, testBit_14, h32,
    Nat.testBit_two_pow_sub_one, Nat.testBit_shiftLeft]
  have hhi : ¬ i < 32 → c.testBit i = false := fun h2 =>
    Nat.testBit_lt_two_pow (Nat.lt_of_lt_of_le hc
      (Nat.pow_le_pow_right (show 2 > 0 from by decide) (by omega : 32 ≤ i)))
  rcases hk with e | e <;> subst e
  · rw [testBit_one]
    by_cases h1 : i = 1
    · subst h1; simp
    · by_cases h2 : i = 2
      · subst h2; simp
      · by_cases h3 : i = 3
        · subst h3; simp
        · have a : ¬ (1 ≤ i ∧ i ≤ 1) := by omega
          have b : ¬ (2 ≤ i ∧ i ≤ 3) := by omega
          have d : ¬ (1 ≤ i ∧ i ≤ 3) := by omega
          have e : ¬ (i - 2 = 0 ∧ 2 ≤ i) := by omega
          by_cases h4 : i < 32
          · simp [a, b, d, h4]; omega
          · simp [a, b, d, h4, hhi h4]; omega
  · rw [testBit_two]
    by_cases h1 : i = 1
    · subst h1; simp
    · by_cases h2 : i = 2
      · subst h2; simp
      · by_cases h3 : i = 3
        · subst h3; simp
        · have a : ¬ (1 ≤ i ∧ i ≤ 1) := by omega
          have b : ¬ (2 ≤ i ∧ i ≤ 3) := by omega
          have d : ¬ (1 ≤ i ∧ i ≤ 3) := by omega
          by_cases h4 : i < 32
          · simp [a, b, d, h4]; omega
          · simp [a, b, d, h4, hhi h4]; omega


theorem other_regs (rfbi : rfbi_data) (n : Int) (dt : omap_rfbi_datatype)
    (pm : omap_rfbi_parallelmode) (cf : omap_rfbi_cycleformat) (lines : Int) (idx : Nat)
    (h0 : idx ≠ RFBI_CONTROL) (h1 : idx ≠ RFBI_CONFIG n) (h2 : idx ≠ RFBI_DATA_CYCLE1 n)
    (h3 : idx ≠ RFBI_DATA_CYCLE2 n) (h4 : idx ≠ RFBI_DATA_CYCLE3 n) :
    (configured rfbi n dt pm cf lines).regs idx = rfbi.regs idx := by
  simp [configured, REG_FLD_MOD, rfbi_write_reg, rfbi_read_reg, Function.update, h0, h1, h2, h3,
    h4]

theorem configured_control (rfbi : rfbi_data) (n : Int) (dt : omap_rfbi_datatype)
    (pm : omap_rfbi_parallelmode) (cf : omap_rfbi_cycleformat) (lines : Int)
    (hn : n = 0 ∨ n = 1) :
    (configured rfbi n dt pm cf lines).log = rfbi.log ++
      [bus_event.read RFBI_CONTROL (u32 (rfbi.regs RFBI_CONTROL)),
       bus_event.write RFBI_CONTROL (u32 (rfbi.regs RFBI_CONTROL) &&& (4294967295 ^^^ 0xC)),
       bus_event.write (RFBI_CONFIG n) (u32 (config_word pm dt cf)),
       bus_event.write (RFBI_DATA_CYCLE1 n) (u32 (data_cycles cf lines).1),
       bus_event.write (RFBI_DATA_CYCLE2 n) (u32 (data_cycles cf lines).2.1),
       bus_event.write (RFBI_DATA_CYCLE3 n) (u32 (data_cycles cf lines).2.2),
       bus_event.read RFBI_CONTROL (u32 (rfbi.regs RFBI_CONTROL) &&& (4294967295 ^^^ 0xC)),
       bus_event.write RFBI_CONTROL
        ((u32 (rfbi.regs RFBI_CONTROL) &&& (4294967295 ^^^ 0xE)) ||| (n + 1).toNat <<< 2)] ∧
    (configured rfbi n dt pm cf lines).regs RFBI_CONTROL
      = (u32 (rfbi.regs RFBI_CONTROL) &&& (4294967295 ^^^ 0xE)) ||| (n + 1).toNat <<< 2 := by
  obtain ⟨c0, _, c1, c2, c3, c4⟩ := reg_offsets_0
  obtain ⟨d1, d2, d3, d4⟩ := reg_offsets_1
  have hc := u32_lt (rfbi.regs RFBI_CONTROL)
  have hk : int_to_u32 (wrap_int (n + 1)) = (n + 1).toNat ∧
      ((n + 1).toNat = 1 ∨ (n + 1).toNat = 2) := by
    rcases hn with h | h <;> subst h <;> decide
  have e1 := FLD_MOD_clear_cs _ hc
  have e2 := FLD_MOD_select_cs _ _ hc hk.2
  have l1 := FLD_MOD_lt _ 0 3 2 hc
  have l2 := FLD_MOD_lt _ (n + 1).toNat 3 2 (FLD_MOD_lt _ 0 3 2 hc)
  have l3 := FLD_MOD_lt _ 0 1 1 l2
  generalize hcdef : u32 (rfbi.regs RFBI_CONTROL) = c at *
  have hread : u32 ((rfbi_write_reg
        (rfbi_write_reg
          (rfbi_write_reg
            (rfbi_write_reg
              (REG_FLD_MOD { rfbi with datatype := dt, parallelmode := pm } RFBI_CONTROL 0 3 2)
              (RFBI_CONFIG n) (config_word pm dt cf))
            (RFBI_DATA_CYCLE1 n) (data_cycles cf lines).1)
          (RFBI_DATA_CYCLE2 n) (data_cycles cf lines).2.1)
        (RFBI_DATA_CYCLE3 n) (data_cycles cf lines).2.2).regs RFBI_CONTROL)
      = FLD_MOD c 0 3 2 := by
    have : (rfbi_write_reg
        (rfbi_write_reg
          (rfbi_write_reg
            (rfbi_write_reg
              (REG_FLD_MOD { rfbi with datatype := dt, parallelmode := pm } RFBI_CONTROL 0 3 2)
              (RFBI_CONFIG n) (config_word pm dt cf))
            (RFBI_DATA_CYCLE1 n) (data_cycles cf lines).1)
          (RFBI_DATA_CYCLE2 n) (data_cycles cf lines).2.1)
        (RFBI_DATA_CYCLE3 n) (data_cycles cf lines).2.2).regs RFBI_CONTROL
        = u32 (FLD_MOD c 0 3 2) := by
      rw [← hcdef]
      rcases hn with h | h <;> subst h <;>
        simp [REG_FLD_MOD, rfbi_write_reg, rfbi_read_reg, Function.update, c0, c1, c2, c3, c4, d1,
          d2, d3, d4]
    rw [this, u32_of_lt _ (u32_lt _), u32_of_lt _ l1]
  have hu : u32 (c &&& (4294967295 ^^^ 0xE) ||| (n + 1).toNat <<< 2)
      = c &&& (4294967295 ^^^ 0xE) ||| (n + 1).toNat <<< 2 :=
    u32_of_lt _ (by rw [← e2]; exact l3)
  constructor
  · simp only [configured, rfbi_read_reg, hread, hk.1, e2]
    simp only [REG_FLD_MOD, rfbi_write_reg, rfbi_read_reg, List.append_assoc, List.cons_append,
      List.nil_append, hcdef, hu, e1]
    rw [← e1, u32_of_lt _ l1]
  · simp only [configured, rfbi_read_reg, hread, hk.1, e2]
    simp only [rfbi_write_reg, Function.update_same]
    exact hu

/-- The bits of the word the configuration leaves in `CONTROL`. -/
theorem select_cs_bits (c k : Nat) (hc : c < 4294967296) (hk : k = 1 ∨ k = 2) :
    ((c &&& (4294967295 ^^^ 0xE)) ||| k <<< 2).testBit 1 = false ∧
    Spec.field_of ((c &&& (4294967295 ^^^ 0xE)) ||| k <<< 2) 3 2 = k ∧
    Spec.field_of (c &&& (4294967295 ^^^ 0xC)) 3 2 = 0 ∧
    (∀ i, i ≠ 1 → i ≠ 2 → i ≠ 3 →
      ((c &&& (4294967295 ^^^ 0xE)) ||| k <<< 2).testBit i = c.testBit i) ∧
    (∀ i, i ≠ 2 → i ≠ 3 → (c &&& (4294967295 ^^^ 0xC)).testBit i = c.testBit i) := by
  have l1 := FLD_MOD_lt c 0 3 2 hc
  have l2 := FLD_MOD_lt (FLD_MOD c 0 3 2) k 3 2 l1
  have hb : ∀ i, ((c &&& (4294967295 ^^^ 0xE)) ||| k <<< 2).testBit i
      = if 1 ≤ i ∧ i ≤ 1 then (0 : Nat).testBit (i - 1)
        else if 2 ≤ i ∧ i ≤ 3 then k.testBit (i - 2)
        else if 2 ≤ i ∧ i ≤ 3 then (0 : Nat).testBit (i - 2) else c.testBit i := by
    intro i
    rw [← FLD_MOD_select_cs c k hc hk, testBit_FLD_MOD _ 0 1 1 i l2 (by decide) (by decide),
      testBit_FLD_MOD _ k 3 2 i l1 (by decide) (by decide),
      testBit_FLD_MOD c 0 3 2 i hc (by decide) (by decide)]
  have hb0 : ∀ i, (c &&& (4294967295 ^^^ 0xC)).testBit i
      = if 2 ≤ i ∧ i ≤ 3 then (0 : Nat).testBit (i - 2) else c.testBit i := by
    intro i
    rw [← FLD_MOD_clear_cs c hc, testBit_FLD_MOD c 0 3 2 i hc (by decide) (by decide)]
  refine ⟨?_, ?_, ?_, ?_, ?_⟩
  · rw [hb]; simp
  · unfold Spec.field_of
    apply Nat.eq_of_testBit_eq
    intro j
    rw [Nat.testBit_mod_two_pow, Nat.testBit_shiftRight, hb]
    by_cases hj : j < 2
    · have a : ¬ (1 ≤ 2 + j ∧ 2 + j ≤ 1) := by omega
      have b : 2 ≤ 2 + j ∧ 2 + j ≤ 3 := by omega
      simp [hj, a, b]
    · have : k.testBit j = false :=
        Nat.testBit_lt_two_pow (Nat.lt_of_lt_of_le (show k < 2 ^ 2 by omega)
          (Nat.pow_le_pow_right (show 2 > 0 from by decide) (by omega : 2 ≤ j)))
      simp [hj, this]
  · unfold Spec.field_of
    apply Nat.eq_of_testBit_eq
    intro j
    rw [Nat.testBit_mod_two_pow, Nat.testBit_shiftRight, hb0]
    by_cases hj : j < 2
    · have b : 2 ≤ 2 + j ∧ 2 + j ≤ 3 := by omega
      simp [hj, b]
    · simp [hj]
  · intro i h1 h2 h3
    rw [hb, if_neg (by omega), if_neg (by omega), if_neg (by omega)]
  · intro i h2 h3
    rw [hb0, if_neg (by omega)]

/-- C25: whenever `rfbi_configure_bus` returns 0 for channel 0 or 1, with `c` the value
of `CONTROL` before the call, the accesses it makes are, in this order: a read of
`CONTROL`, a write of `CONTROL` with `c & ~0xC` (chip-select field 3:2 cleared, every
other bit as in `c`), the writes of `CONFIG(n)` and `DATA_CYCLE1..3(n)`, a read of
`CONTROL` and a write of `CONTROL` with `(c & ~0xE) | ((n + 1) << 2)`, the value the
register holds on return: bits 3:2 are `n + 1`, the bypass bit 1 is 0 and every other
bit (the enable bit 0 and the ITE bit 4 among them) is as in `c`.  Every register other
than `CONTROL`, `CONFIG(n)` and `DATA_CYCLE1..3(n)` keeps its value, those of the other
channel among them. -/
theorem rfbi_configure_bus_control (rfbi : rfbi_data) (n bpp lines : Int)
    (hn : n = 0 ∨ n = 1) (h : (rfbi_configure_bus rfbi n bpp lines).1 = outcome.ret 0) :
    (∃ w d1 d2 d3, (rfbi_configure_bus rfbi n bpp lines).2.log = rfbi.log ++
      [bus_event.read RFBI_CONTROL (u32 (rfbi.regs RFBI_CONTROL)),
       bus_event.write RFBI_CONTROL (u32 (rfbi.regs RFBI_CONTROL) &&& (4294967295 ^^^ 0xC)),
       bus_event.write (RFBI_CONFIG n) w,
       bus_event.write (RFBI_DATA_CYCLE1 n) d1,
       bus_event.write (RFBI_DATA_CYCLE2 n) d2,
       bus_event.write (RFBI_DATA_CYCLE3 n) d3,
       bus_event.read RFBI_CONTROL (u32 (rfbi.regs RFBI_CONTROL) &&& (4294967295 ^^^ 0xC)),
       bus_event.write RFBI_CONTROL
        ((u32 (rfbi.regs RFBI_CONTROL) &&& (4294967295 ^^^ 0xE)) ||| (n + 1).toNat <<< 2)]) ∧
    (rfbi_configure_bus rfbi n bpp lines).2.regs RFBI_CONTROL
      = (u32 (rfbi.regs RFBI_CONTROL) &&& (4294967295 ^^^ 0xE)) ||| (n + 1).toNat <<< 2 ∧
    Spec.field_of (u32 (rfbi.regs RFBI_CONTROL) &&& (4294967295 ^^^ 0xC)) 3 2 = 0 ∧
    (∀ i, i ≠ 2 → i ≠ 3 →
      (u32 (rfbi.regs RFBI_CONTROL) &&& (4294967295 ^^^ 0xC)).testBit i
        = (u32 (rfbi.regs RFBI_CONTROL)).testBit i) ∧
    Spec.field_of ((rfbi_configure_bus rfbi n bpp lines).2.regs RFBI_CONTROL) 3 2
      = (n + 1).toNat ∧
    ((rfbi_configure_bus rfbi n bpp lines).2.regs RFBI_CONTROL).testBit 1 = false ∧
    (∀ i, i ≠ 1 → i ≠ 2 → i ≠ 3 →
      ((rfbi_configure_bus rfbi n bpp lines).2.regs RFBI_CONTROL).testBit i
        = (u32 (rfbi.regs RFBI_CONTROL)).testBit i) ∧
    (∀ idx, idx ≠ RFBI_CONTROL → idx ≠ RFBI_CONFIG n → idx ≠ RFBI_DATA_CYCLE1 n →
      idx ≠ RFBI_DATA_CYCLE2 n → idx ≠ RFBI_DATA_CYCLE3 n →
      (rfbi_configure_bus rfbi n bpp lines).2.regs idx = rfbi.regs idx) ∧
    (∀ idx, idx = RFBI_CONFIG (1 - n) ∨ idx = RFBI_ONOFF_TIME (1 - n) ∨
        idx = RFBI_CYCLE_TIME (1 - n) ∨ idx = RFBI_DATA_CYCLE1 (1 - n) ∨
        idx = RFBI_DATA_CYCLE2 (1 - n) ∨ idx = RFBI_DATA_CYCLE3 (1 - n) →
      (rfbi_configure_bus rfbi n bpp lines).2.regs idx = rfbi.regs idx) := by
  obtain ⟨dt, pm, cf, h1, h2, h3⟩ := rfbi_configure_bus_ret rfbi n bpp lines h
  rw [rfbi_configure_bus_of_ok rfbi n bpp lines dt pm cf h1 h2 h3]
  obtain ⟨hlog, hreg⟩ := configured_control rfbi n dt pm cf lines hn
  have hk : (n + 1).toNat = 1 ∨ (n + 1).toNat = 2 := by
    rcases hn with e | e <;> subst e <;> decide
  obtain ⟨b1, b2, b3, b4, b5⟩ :=
    select_cs_bits (u32 (rfbi.regs RFBI_CONTROL)) _ (u32_lt _) hk
  have hother := other_regs rfbi n dt pm cf lines
  refine ⟨⟨_, _, _, _, hlog⟩, hreg, b3, b5, ?_, ?_, ?_, hother, ?_⟩
  · rw [hreg]; exact b2
  · rw [hreg]; exact b1
  · rw [hreg]; exact b4
  · intro idx hidx
    apply hother
    all_goals
      rcases hn with e | e <;> subst e <;>
        rcases hidx with e | e | e | e | e | e <;> subst e <;> decide

/-- Witness of C25: the panel's configuration (16 bits per pixel, 8 lines, channel 0)
on the probed bus. -/
theorem rfbi_configure_bus_control_witness :
    (rfbi_configure_bus bus_ready 0 16 8).1 = outcome.ret 0 ∧
    (rfbi_configure_bus bus_ready 0 16 8).2.regs RFBI_CONTROL
      = (u32 (bus_ready.regs RFBI_CONTROL) &&& (4294967295 ^^^ 0xE)) ||| ((0 : Int) + 1).toNat <<< 2 ∧
    (rfbi_configure_bus bus_ready 0 16 8).2.regs RFBI_CONTROL = 4 ∧
    (rfbi_configure_bus bus_ready 0 16 8).2.regs (RFBI_CONFIG 1) = bus_ready.regs (RFBI_CONFIG 1) :=
  ⟨by decide,
    (rfbi_configure_bus_control bus_ready 0 16 8 (Or.inl rfl) (by decide)).2.1,
    by decide, by decide⟩

/-! ## The two roundings of the solver: claims C23, C27 and C29 -/

theorem round_to_extif_ticks_eq (p ps n : Nat) (hn : n = 1 ∨ n = 2) (hp0 : 0 < p)
    (hp : p ≤ 1000000000) (hov : ps + p * n ≤ 4294967296) :
    round_to_extif_ticks p ps (n : Int) = some (Spec.ceil_div ps (p * n) * (p * n)) := by
  have hn32 : int_to_u32 (n : Int) = n := int_to_u32_natCast n (by omega)
  have hbt : p * n < 2147483648 := by
    rcases hn with h | h <;> subst h <;> omega
  have hbt0 : 0 < p * n := by
    rcases hn with h | h <;> subst h <;> omega
  have hlt := ceil_div_mul_lt ps (p * n) hbt0
  unfold round_to_extif_ticks
  simp only [hn32]
  have hu : u32 (p * n) = p * n := Nat.mod_eq_of_lt (by omega)
  have hw : int_to_u32 (wrap_int ((p * n : Nat) : Int)) = p * n := by
    rw [wrap_int_of_lt _ hbt, int_to_u32_natCast _ (by omega)]
  rw [hu, hw, if_neg (by omega)]
  have hs : u32 (u32 (ps + p * n) + 4294967295) = ps + p * n - 1 := by
    unfold u32; omega
  rw [hs, ceil_div_eq _ _ hbt0]
  have hm : u32 (Spec.ceil_div ps (p * n) * (p * n))
      = Spec.ceil_div ps (p * n) * (p * n) := Nat.mod_eq_of_lt (by omega)
  rw [hm]

/-- The requirements a successful solve leaves, when no rounded value leaves the range
of `int`: each is the tick count of the original requirement times the tick. -/
theorem solved_fields (bt n : Nat) (t : rfbi_timings) (hnn : nonneg_req t)
    (hov : all_fields (fun x => Spec.ceil_div x.toNat bt * bt < 2147483648) t) :
    same_req (solved bt n t)
      (map_fields (fun x => ((Spec.ceil_div x.toNat bt * bt : Nat) : Int)) t) := by
  have h : all_fields (fun x =>
      rounded_field bt x = ((Spec.ceil_div x.toNat bt * bt : Nat) : Int)) t := by
    obtain ⟨a1, a2, a3, a4, a5, a6, a7, a8, a9, a10⟩ := hnn
    obtain ⟨b1, b2, b3, b4, b5, b6, b7, b8, b9, b10⟩ := hov
    have one : ∀ x : Int, (0 ≤ x ∧ x < 2147483648) →
        Spec.ceil_div x.toNat bt * bt < 2147483648 →
        rounded_field bt x = ((Spec.ceil_div x.toNat bt * bt : Nat) : Int) := by
      intro x hx hb
      unfold rounded_field
      rw [int_to_u32_of_nonneg x hx.1 (by omega), wrap_int_of_lt _ hb]
    exact ⟨one _ a1 b1, one _ a2 b2, one _ a3 b3, one _ a4 b4, one _ a5 b5, one _ a6 b6,
      one _ a7 b7, one _ a8 b8, one _ a9 b9, one _ a10 b10⟩
  obtain ⟨h1, h2, h3, h4, h5, h6, h7, h8, h9, h10⟩ := h
  exact ⟨h1, h2, h3, h4, h5, h6, h7, h8, h9, h10⟩

/-- C23: for a clock rate with period `p = 1000000000 / l4_khz > 0`, a divider `d` of 1
or 2 and a picosecond value `ps` whose rounded value `ceil(ps / (p*d)) * (p*d)` is
below `2^31` (no 32-bit overflow): `round_to_extif_ticks(ps, d)` is
`ceil(ps / (p*d)) * (p*d)`, the smallest multiple of `p*d` that is at least `ps`;
`ps_to_rfbi_ticks` gives `ceil(ps / (p*d))` on the rounded value as on `ps`; and after
a `calc_extif_timings` that returns 0 with `clk_div = d` on a non-negative requirement
each of the ten time fields holds the tick count of the original requirement times
`p*d`. -/
theorem round_to_extif_ticks_ceil (rfbi : rfbi_data) (ps d : Nat) (hd : d = 1 ∨ d = 2)
    (hk : 0 < rfbi.l4_khz) (hp0 : 0 < 1000000000 / rfbi.l4_khz)
    (hov : Spec.ceil_div ps (1000000000 / rfbi.l4_khz * d) * (1000000000 / rfbi.l4_khz * d)
      < 2147483648) :
    round_to_extif_ticks (1000000000 / rfbi.l4_khz) ps (d : Int)
      = some (Spec.ceil_div ps (1000000000 / rfbi.l4_khz * d) * (1000000000 / rfbi.l4_khz * d)) ∧
    ps ≤ Spec.ceil_div ps (1000000000 / rfbi.l4_khz * d) * (1000000000 / rfbi.l4_khz * d) ∧
    (∀ m, ps ≤ m * (1000000000 / rfbi.l4_khz * d) →
      Spec.ceil_div ps (1000000000 / rfbi.l4_khz * d) * (1000000000 / rfbi.l4_khz * d)
        ≤ m * (1000000000 / rfbi.l4_khz * d)) ∧
    ps_to_rfbi_ticks rfbi
        ((Spec.ceil_div ps (1000000000 / rfbi.l4_khz * d) * (1000000000 / rfbi.l4_khz * d) : Nat)
          : Int) (d : Int)
      = some ((Spec.ceil_div ps (1000000000 / rfbi.l4_khz * d) : Nat) : Int) ∧
    ps_to_rfbi_ticks rfbi (ps : Int) (d : Int)
      = some ((Spec.ceil_div ps (1000000000 / rfbi.l4_khz * d) : Nat) : Int) ∧
    (∀ (g : Nat) (t t' : rfbi_timings) (g' : Nat), nonneg_req t →
      all_fields (fun x => Spec.ceil_div x.toNat (1000000000 / rfbi.l4_khz * d)
        * (1000000000 / rfbi.l4_khz * d) < 2147483648) t →
      calc_extif_timings g rfbi t = some (0, t', g') → t'.clk_div = (d : Int) →
      same_req t' (map_fields (fun x =>
        ((Spec.ceil_div x.toNat (1000000000 / rfbi.l4_khz * d)
          * (1000000000 / rfbi.l4_khz * d) : Nat) : Int)) t)) := by
  have hple : 1000000000 / rfbi.l4_khz ≤ 1000000000 := Nat.div_le_self _ _
  generalize hpdef : 1000000000 / rfbi.l4_khz = p at *
  have hbt0 : 0 < p * d := by rcases hd with e | e <;> subst e <;> omega
  have hbtle : p * d ≤ 2000000000 := by rcases hd with e | e <;> subst e <;> omega
  have hle := le_ceil_div_mul ps (p * d) hbt0
  have hself := ceil_div_le_self ps (p * d) hbt0
  have htick : Spec.tick_ps rfbi.l4_khz d = p * d := by unfold Spec.tick_ps; rw [hpdef]
  refine ⟨round_to_extif_ticks_eq p ps d hd hp0 hple (by omega), hle, fun m hm => ?_, ?_, ?_, ?_⟩
  · exact Nat.mul_le_mul_right _ ((ceil_div_le_iff ps (p * d) m hbt0).2 hm)
  · have h := ps_to_rfbi_ticks_eq rfbi ((Spec.ceil_div ps (p * d) * (p * d) : Nat) : Int) d hd hk
      (by rw [htick]; exact hbt0)
      (by rw [htick, int_to_u32_natCast _ (by omega)]; omega)
      (by rw [htick, int_to_u32_natCast _ (by omega), ceil_div_mul_self _ _ hbt0]; omega)
    rw [htick, int_to_u32_natCast _ (by omega), ceil_div_mul_self _ _ hbt0] at h
    exact h
  · have h := ps_to_rfbi_ticks_eq rfbi (ps : Int) d hd hk
      (by rw [htick]; exact hbt0)
      (by rw [htick, int_to_u32_natCast _ (by omega)]; omega)
      (by rw [htick, int_to_u32_natCast _ (by omega)]; omega)
    rw [htick, int_to_u32_natCast _ (by omega)] at h
    exact h
  · intro g t t' g' hnn hovt h hdiv
    have hp0' : 0 < 1000000000 / rfbi.l4_khz := by rw [hpdef]; exact hp0
    obtain ⟨s1, s2, s3⟩ := calc_extif_timings_spec g rfbi t hk hp0' hnn
    have key : t' = solved (p * d) d t := by
      by_cases hs1 : Spec.satisfiable rfbi.l4_khz 1 t
      · rw [s1 hs1] at h
        have e : solved (Spec.tick_ps rfbi.l4_khz 1) 1 t = t' :=
          congrArg (fun r => r.2.1) (Option.some.inj h)
        have hd1 : d = 1 := by
          rw [← e] at hdiv
          have : (((1 : Nat) : Int)) = (d : Int) := hdiv
          omega
        subst hd1
        rw [← e, htick]
      · by_cases hs2 : Spec.satisfiable rfbi.l4_khz 2 t
        · rw [s2 hs1 hs2] at h
          have e : solved (Spec.tick_ps rfbi.l4_khz 2) 2 t = t' :=
            congrArg (fun r => r.2.1) (Option.some.inj h)
          have hd2 : d = 2 := by
            rw [← e] at hdiv
            have : (((2 : Nat) : Int)) = (d : Int) := hdiv
            omega
          subst hd2
          rw [← e, htick]
        · obtain ⟨t2, ht2⟩ := s3 hs1 hs2
          rw [ht2] at h
          exact absurd (congrArg (fun r => r.1) (Option.some.inj h))
            (show ¬ ((-1 : Int) = 0) from by decide)
    rw [key]
    exact solved_fields (p * d) d t hnn hovt

/-- Witness of C23: 18000 ps at divider 1 on a 50 MHz bus clock (period 20000 ps), and
the panel's requirement solved there. -/
theorem round_to_extif_ticks_ceil_witness :
    Spec.ceil_div 18000 (1000000000 / (rfbi_probed 50000).l4_khz * 1)
      * (1000000000 / (rfbi_probed 50000).l4_khz * 1) = 20000 ∧
    round_to_extif_ticks (1000000000 / (rfbi_probed 50000).l4_khz) 18000 ((1 : Nat) : Int)
      = some (Spec.ceil_div 18000 (1000000000 / (rfbi_probed 50000).l4_khz * 1)
        * (1000000000 / (rfbi_probed 50000).l4_khz * 1)) ∧
    ps_to_rfbi_ticks (rfbi_probed 50000) ((18000 : Nat) : Int) ((1 : Nat) : Int)
      = some ((Spec.ceil_div 18000 (1000000000 / (rfbi_probed 50000).l4_khz * 1) : Nat) : Int) ∧
    calc_extif_timings 0 (rfbi_probed 50000) n8x0_panel_rfbi_timings
      = some (0, n8x0_solved, 20000) ∧
    same_req n8x0_solved (map_fields (fun x =>
        ((Spec.ceil_div x.toNat (1000000000 / (rfbi_probed 50000).l4_khz * 1)
          * (1000000000 / (rfbi_probed 50000).l4_khz * 1) : Nat) : Int))
      n8x0_panel_rfbi_timings) := by
  obtain ⟨h1, _, _, _, h5, h6⟩ :=
    round_to_extif_ticks_ceil (rfbi_probed 50000) 18000 1 (Or.inl rfl) (by decide) (by decide)
      (by decide)
  exact ⟨by decide, h1, h5, by decide,
    h6 0 n8x0_panel_rfbi_timings n8x0_solved 20000 (by unfold nonneg_req all_fields; decide)
      (by unfold all_fields; decide) (by decide) rfl⟩

theorem and_15 (x : Nat) : x &&& 0x0f = x % 2 ^ 4 :=
  Nat.and_pow_two_sub_one_eq_mod x 4

theorem and_63 (x : Nat) : x &&& 0x3f = x % 2 ^ 6 :=
  Nat.and_pow_two_sub_one_eq_mod x 6

/-- The values `rfbi_print_timings` decodes from the two words of the spec are the
counts that were packed. -/
theorem print_timings_words (c : Spec.counts) (hf : Spec.fits c) :
    rfbi_print_timings_onoff (Spec.word_A c)
      = [c.cs_on, c.cs_off, c.we_on, c.we_off, c.re_on, c.re_off] ∧
    rfbi_print_timings_cycle (Spec.word_B c) = [c.we_cycle, c.re_cycle, c.cs_pulse, c.access] := by
  obtain ⟨a1, a2, a3, a4, a5, a6, _⟩ := word_A_fields c hf
  obtain ⟨b1, b2, b3, b4, _, _⟩ := word_B_fields c hf
  unfold Spec.field_of at a1 a2 a3 a4 a5 a6 b1 b2 b3 b4
  simp only [Nat.shiftRight_zero] at a1 b1
  unfold rfbi_print_timings_onoff rfbi_print_timings_cycle
  rw [and_15, and_15, and_15, and_63, and_63, and_63, and_63, and_63, and_63, and_63]
  rw [a1, a2, a3, a4, a5, a6, b1, b2, b3, b4]
  exact ⟨rfl, rfl⟩

/-- On a bus clock in the range of `rfbi->l4_khz` (`clk_get_rate(clk) / 1000` of an
`unsigned long` rate, at most 4294967) the tick at divider 1 or 2 is at least 232 ps,
and every tick count is a quotient below 2^31, whatever the `int` passed as time. -/
theorem ps_to_rfbi_ticks_nat (rfbi : rfbi_data) (d : Nat) (hd : d = 1 ∨ d = 2)
    (hk : rfbi.l4_khz ≤ 4294967) :
    (∀ x, ps_to_rfbi_ticks rfbi x (d : Int) = none) ∨
    ∃ tk : Int → Nat, ∀ x, ps_to_rfbi_ticks rfbi x (d : Int) = some ((tk x : Nat) : Int) := by
  by_cases h0 : rfbi.l4_khz = 0
  · left
    intro x
    unfold ps_to_rfbi_ticks
    rw [if_pos h0]
  right
  have hn32 : int_to_u32 (d : Int) = d := int_to_u32_natCast d (by omega)
  have hp1 : 232 ≤ 1000000000 / rfbi.l4_khz := by
    rw [Nat.le_div_iff_mul_le (by omega)]
    omega
  have hp2 : 1000000000 / rfbi.l4_khz ≤ 1000000000 := Nat.div_le_self _ _
  have hT : u32 (1000000000 / rfbi.l4_khz * d) = 1000000000 / rfbi.l4_khz * d := by
    unfold u32
    rcases hd with e | e <;> subst e <;> omega
  have hT1 : 232 ≤ 1000000000 / rfbi.l4_khz * d := by
    rcases hd with e | e <;> subst e <;> omega
  refine ⟨fun x => u32 (u32 (int_to_u32 x + 1000000000 / rfbi.l4_khz * d) + 4294967295)
    / (1000000000 / rfbi.l4_khz * d), fun x => ?_⟩
  unfold ps_to_rfbi_ticks
  rw [if_neg h0]
  simp only [hn32, hT]
  rw [if_neg (by omega)]
  have hq : u32 (u32 (int_to_u32 x + 1000000000 / rfbi.l4_khz * d) + 4294967295)
      / (1000000000 / rfbi.l4_khz * d) < 2147483648 := by
    have h1 : u32 (u32 (int_to_u32 x + 1000000000 / rfbi.l4_khz * d) + 4294967295)
        < 4294967296 := u32_lt _
    have h2 := Nat.div_le_div_right (c := 232) (Nat.le_of_lt h1)
    have h3 := Nat.div_le_div_left hT1 (by omega : 0 < 232)
      (a := u32 (u32 (int_to_u32 x + 1000000000 / rfbi.l4_khz * d) + 4294967295))
    omega
  rw [wrap_int_of_lt _ hq]

/-- C29: whenever `rfbi_convert_timings` returns 0 on a bus whose clock rate is in the
range of `rfbi->l4_khz` (`rfbi_probe` stores `clk_get_rate(clk) / 1000` of an
`unsigned long` rate, so at most 4294967), the values `rfbi_print_timings` decodes from
the packed words (`tim[0]`: `& 0x0f`, `>> 4 & 0x3f`, `>> 10 & 0x0f`, `>> 14 & 0x3f`,
`>> 20 & 0x0f`, `>> 24 & 0x3f`; `tim[1]`: `& 0x3f`, `>> 6 & 0x3f`, `>> 12 & 0x3f`,
`>> 22 & 0x3f`) are the ten adjusted tick counts cs_on, cs_off, we_on, we_off, re_on,
re_off and we_cycle, re_cycle, cs_pulse, access that were packed; bits 31:30 of `tim[0]`
and bits 21:18 and 31:28 of `tim[1]` are 0.  The ten times are any `int`s, negative
ones included. -/
theorem rfbi_convert_timings_decode (rfbi : rfbi_data) (t t' : rfbi_timings) (L : rfbi_ticks)
    (hk : rfbi.l4_khz ≤ 4294967) (h : rfbi_convert_ticks rfbi t = some (0, t', some L)) :
    (rfbi_print_timings_onoff t'.tim0).map Int.ofNat
      = [L.cson, L.csoff, L.weon, L.weoff, L.reon, L.reoff] ∧
    (rfbi_print_timings_cycle t'.tim1).map Int.ofNat
      = [L.wecyc, L.recyc, L.cs_pulse, L.actim] ∧
    Spec.field_of t'.tim0 31 30 = 0 ∧ Spec.field_of t'.tim1 21 18 = 0 ∧
    Spec.field_of t'.tim1 31 28 = 0 := by
  have hconv : rfbi_convert_timings rfbi t = some (0, t') := by
    unfold rfbi_convert_timings; rw [h]; rfl
  have hd : t.clk_div = 1 ∨ t.clk_div = 2 := by
    by_contra hc
    unfold rfbi_convert_ticks at h
    simp only [] at h
    rw [if_pos (by omega)] at h
    exact absurd (congrArg Prod.fst (Option.some.inj h)) (show ¬ ((-1 : Int) = 0) from by decide)
  obtain ⟨d, hdn, hdiv⟩ : ∃ d : Nat, (d = 1 ∨ d = 2) ∧ t.clk_div = (d : Int) := by
    rcases hd with e | e
    · exact ⟨1, Or.inl rfl, e⟩
    · exact ⟨2, Or.inr rfl, e⟩
  rcases ps_to_rfbi_ticks_nat rfbi d hdn hk with hnone | ⟨tk, htk⟩
  · exact absurd hconv (convert_timings_ne_of_none rfbi t t' (fun x => by rw [hdiv]; exact hnone x))
  have hticks : all_fields (fun x => ps_to_rfbi_ticks rfbi x t.clk_div
      = some ((tk x : Nat) : Int)) t := by
    rw [hdiv]
    exact ⟨htk _, htk _, htk _, htk _, htk _, htk _, htk _, htk _, htk _, htk _⟩
  have hlink := convert_ticks_eq_with rfbi t _ hticks
  rw [hlink] at h
  have hr := Option.some.inj h
  by_cases hf : Spec.fits (Spec.adjusted_by tk t)
  · rw [convert_with_fits _ t hd hf] at hr
    have ht' : t' = _ := (congrArg (fun r => r.2.1) hr).symm
    have hL : L = _ := (Option.some.inj (congrArg (fun r => r.2.2) hr)).symm
    obtain ⟨p1, p2⟩ := print_timings_words _ hf
    obtain ⟨_, _, _, _, _, _, a7⟩ := word_A_fields _ hf
    obtain ⟨_, _, _, _, b5, b6⟩ := word_B_fields _ hf
    have ht0 : t'.tim0 = Spec.word_A (Spec.adjusted_by tk t) := by rw [ht']
    have ht1 : t'.tim1 = Spec.word_B (Spec.adjusted_by tk t) := by rw [ht']
    rw [ht0, ht1, p1, p2, hL]
    refine ⟨rfl, rfl, ?_, b5, ?_⟩
    · unfold Spec.field_of
      rw [Nat.shiftRight_eq_div_pow, Nat.div_eq_of_lt a7]
      rfl
    · unfold Spec.field_of
      rw [Nat.shiftRight_eq_div_pow, Nat.div_eq_of_lt b6]
      rfl
  · obtain ⟨w, hw⟩ := convert_with_unfit _ t hf
    rw [hw] at hr
    exact absurd (congrArg Prod.fst hr) (show ¬ ((-1 : Int) = 0) from by decide)

/-- Witness of C29: at 50 MHz, the panel's requirement at divider 1, and a requirement
with a write-enable on-time of -1 ps, whose count is 0. -/
theorem rfbi_convert_timings_decode_witness :
    (rfbi_probed 50000).l4_khz ≤ 4294967 ∧
    rfbi_convert_ticks (rfbi_probed 50000) n8x0_div1
      = some (0, n8x0_div1_converted, some n8x0_div1_ticks) ∧
    (rfbi_print_timings_onoff n8x0_div1_converted.tim0).map Int.ofNat
      = [n8x0_div1_ticks.cson, n8x0_div1_ticks.csoff, n8x0_div1_ticks.weon,
          n8x0_div1_ticks.weoff, n8x0_div1_ticks.reon, n8x0_div1_ticks.reoff] ∧
    (rfbi_print_timings_cycle n8x0_div1_converted.tim1).map Int.ofNat
      = [n8x0_div1_ticks.wecyc, n8x0_div1_ticks.recyc, n8x0_div1_ticks.cs_pulse,
          n8x0_div1_ticks.actim] ∧
    req_negative.we_on_time = -1 ∧
    rfbi_convert_ticks (rfbi_probed 50000) req_negative
      = some (0, req_negative_converted, some ⟨0, 1, 0, 1, 0, 1, 1, 1, 0, 1⟩) ∧
    (rfbi_print_timings_onoff req_negative_converted.tim0).map Int.ofNat
      = [0, 1, 0, 1, 0, 1] ∧
    (rfbi_print_timings_cycle req_negative_converted.tim1).map Int.ofNat = [1, 1, 0, 1] :=
  ⟨by decide, by decide,
    (rfbi_convert_timings_decode (rfbi_probed 50000) n8x0_div1 n8x0_div1_converted
      n8x0_div1_ticks (by decide) (by decide)).1,
    (rfbi_convert_timings_decode (rfbi_probed 50000) n8x0_div1 n8x0_div1_converted
      n8x0_div1_ticks (by decide) (by decide)).2.1,
    by decide, by decide,
    (rfbi_convert_timings_decode (rfbi_probed 50000) req_negative req_negative_converted
      ⟨0, 1, 0, 1, 0, 1, 1, 1, 0, 1⟩ (by decide) (by decide)).1,
    (rfbi_convert_timings_decode (rfbi_probed 50000) req_negative req_negative_converted
      ⟨0, 1, 0, 1, 0, 1, 1, 1, 0, 1⟩ (by decide) (by decide)).2.1⟩

/-- A conversion that fails one of the six checks of word A returns -1 with the
structure untouched. -/
theorem convert_with_early (tk : Int → Nat) (t : rfbi_timings)
    (hf : ¬ Spec.fits_onoff (Spec.adjusted_by tk t)) :
    convert_with (fun x => (tk x : Int)) t = (-1, t, none) := by
  unfold convert_with
  simp only []
  by_cases c0 : t.clk_div ≤ 0 ∨ t.clk_div > 2
  · rw [if_pos c0]
  rw [if_neg c0]
  by_cases c1 : (tk t.we_on_time : Int) > 15
  · rw [if_pos c1]
  rw [if_neg c1]
  have g1 : tk t.we_on_time ≤ 15 := by omega
  rw [raise_above_natCast _ _ g1]
  by_cases c2 : ((max (tk t.we_off_time) (tk t.we_on_time + 1) : Nat) : Int) > 63
  · rw [if_pos c2]
  rw [if_neg c2]
  by_cases c3 : (tk t.re_on_time : Int) > 15
  · rw [if_pos c3]
  rw [if_neg c3]
  have g3 : tk t.re_on_time ≤ 15 := by omega
  simp only [raise_above_natCast _ _ g3]
  by_cases c4 : ((max (tk t.re_off_time) (tk t.re_on_time + 1) : Nat) : Int) > 63
  · rw [if_pos c4]
  rw [if_neg c4]
  by_cases c5 : (tk t.cs_on_time : Int) > 15
  · rw [if_pos c5]
  rw [if_neg c5]
  have g5 : tk t.cs_on_time ≤ 15 := by omega
  simp only [raise_above_natCast _ _ g5, max_int_natCast, raise_to_natCast]
  by_cases c6 : ((max (max (tk t.cs_off_time) (tk t.cs_on_time + 1))
      (max (max (tk t.we_off_time) (tk t.we_on_time + 1))
        (max (tk t.re_off_time) (tk t.re_on_time + 1))) : Nat) : Int) > 63
  · rw [if_pos c6]
  · exfalso
    apply hf
    simp only [Spec.fits_onoff, Spec.adjusted_by]
    omega

/-- A conversion that passes the six checks of word A and fails a later one returns -1
with `tim[0]` stored and nothing else changed. -/
theorem convert_with_late (tk : Int → Nat) (t : rfbi_timings)
    (hd : t.clk_div = 1 ∨ t.clk_div = 2) (ha : Spec.fits_onoff (Spec.adjusted_by tk t))
    (hf : ¬ Spec.fits (Spec.adjusted_by tk t)) :
    convert_with (fun x => (tk x : Int)) t
      = (-1, { t with tim0 := Spec.word_A (Spec.adjusted_by tk t) }, none) := by
  obtain ⟨f1, f2, f3, f4, f5, f6⟩ := ha
  simp only [Spec.adjusted_by] at f1 f2 f3 f4 f5 f6
  have hdiv : ¬ (t.clk_div ≤ 0 ∨ t.clk_div > 2) := by omega
  have hw : Spec.word_A (Spec.adjusted_by tk t)
      = (int_to_u32 ((tk t.cs_on_time : Nat) : Int)
        ||| shl_u32 (((max (max (tk t.cs_off_time) (tk t.cs_on_time + 1))
            (max (max (tk t.we_off_time) (tk t.we_on_time + 1))
              (max (tk t.re_off_time) (tk t.re_on_time + 1))) : Nat) : Int)) 4
        ||| shl_u32 ((tk t.we_on_time : Nat) : Int) 10
        ||| shl_u32 (((max (tk t.we_off_time) (tk t.we_on_time + 1) : Nat) : Int)) 14
        ||| shl_u32 ((tk t.re_on_time : Nat) : Int) 20
        ||| shl_u32 (((max (tk t.re_off_time) (tk t.re_on_time + 1) : Nat) : Int)) 24) := by
    simp only [Spec.word_A, Spec.adjusted_by]
    rw [int_to_u32_natCast _ (by omega),
      shl_u32_natCast _ 4 63 f4 (by norm_num), shl_u32_natCast _ 10 15 f2 (by norm_num),
      shl_u32_natCast _ 14 63 f5 (by norm_num), shl_u32_natCast _ 20 15 f3 (by norm_num),
      shl_u32_natCast _ 24 63 f6 (by norm_num)]
  rw [hw]
  unfold convert_with
  simp only [raise_above_natCast _ _ f1, raise_above_natCast _ _ f2, raise_above_natCast _ _ f3,
    raise_to_natCast, max_int_natCast]
  rw [if_neg hdiv]
  rw [if_neg (by omega), if_neg (by omega), if_neg (by omega), if_neg (by omega),
    if_neg (by omega), if_neg (by omega)]
  split_ifs with c7 c8 c9 c10
  · rfl
  · rfl
  · rfl
  · rfl
  · exfalso
    apply hf
    simp only [Spec.fits, Spec.adjusted_by]
    omega

/-- The tick counts at the doubled tick are not larger. -/
theorem ticks_u32_double (p : Nat) (x : Int) (hp : 0 < p) :
    ticks_u32 (p * 2) x ≤ ticks_u32 p x := by
  unfold ticks_u32
  rw [ceil_div_le_iff _ _ _ (by omega)]
  have := le_ceil_div_mul (int_to_u32 x) p hp
  have h2 : Spec.ceil_div (int_to_u32 x) p * (p * 2) = Spec.ceil_div (int_to_u32 x) p * p * 2 := by
    rw [Nat.mul_assoc]
  omega

/-- Word A fits at divider 2 when it fits at divider 1. -/
theorem fits_onoff_double (p : Nat) (t : rfbi_timings) (hp : 0 < p)
    (h : Spec.fits_onoff (Spec.adjusted_by (ticks_u32 p) t)) :
    Spec.fits_onoff (Spec.adjusted_by (ticks_u32 (p * 2)) t) := by
  have m1 := ticks_u32_double p t.cs_on_time hp
  have m2 := ticks_u32_double p t.cs_off_time hp
  have m3 := ticks_u32_double p t.we_on_time hp
  have m4 := ticks_u32_double p t.we_off_time hp
  have m5 := ticks_u32_double p t.re_on_time hp
  have m6 := ticks_u32_double p t.re_off_time hp
  simp only [Spec.fits_onoff, Spec.adjusted_by] at h ⊢
  omega

/-- `calc_reg_timing` at divider 1 or 2 when no rounding wraps: the conversion, with the
tick counts of the spec, of the rounded structure, whose adjusted counts are those of
the structure before the rounding. -/
theorem calc_reg_timing_conv (rfbi : rfbi_data) (t : rfbi_timings) (n : Nat)
    (hn : n = 1 ∨ n = 2) (hk : 0 < rfbi.l4_khz) (hp0 : 0 < 1000000000 / rfbi.l4_khz)
    (hb : all_fields (fun f =>
      Spec.ceil_div (int_to_u32 f) (Spec.tick_ps rfbi.l4_khz n) * Spec.tick_ps rfbi.l4_khz n
        + Spec.tick_ps rfbi.l4_khz n ≤ 4294967296
      ∧ Spec.ceil_div (int_to_u32 f) (Spec.tick_ps rfbi.l4_khz n) < 2147483648) t) :
    calc_reg_timing (1000000000 / rfbi.l4_khz) rfbi t (n : Int)
      = some ((convert_with (fun x => ((ticks_u32 (Spec.tick_ps rfbi.l4_khz n) x : Nat) : Int))
            (map_fields (rounded_field (Spec.tick_ps rfbi.l4_khz n))
              { t with clk_div := (n : Int) })).1,
          (convert_with (fun x => ((ticks_u32 (Spec.tick_ps rfbi.l4_khz n) x : Nat) : Int))
            (map_fields (rounded_field (Spec.tick_ps rfbi.l4_khz n))
              { t with clk_div := (n : Int) })).2.1) ∧
    Spec.adjusted_by (ticks_u32 (Spec.tick_ps rfbi.l4_khz n))
        (map_fields (rounded_field (Spec.tick_ps rfbi.l4_khz n)) { t with clk_div := (n : Int) })
      = Spec.adjusted_by (ticks_u32 (Spec.tick_ps rfbi.l4_khz n)) t := by
  have hp : 1000000000 / rfbi.l4_khz ≤ 1000000000 := Nat.div_le_self _ _
  have hbt : 0 < Spec.tick_ps rfbi.l4_khz n := by
    unfold Spec.tick_ps; rcases hn with h | h <;> subst h <;> omega
  have hov : all_fields (fun f =>
      int_to_u32 f + (1000000000 / rfbi.l4_khz) * n ≤ 4294967296) t := by
    refine all_fields_imp t (fun x hx => ?_) hb
    have := le_ceil_div_mul (int_to_u32 x) _ hbt
    unfold Spec.tick_ps at hx this
    omega
  rw [calc_reg_timing_eq _ rfbi t n hn hp0 hp hov]
  have hbt_eq : 1000000000 / rfbi.l4_khz * n = Spec.tick_ps rfbi.l4_khz n := rfl
  rw [hbt_eq]
  generalize hbt_def : Spec.tick_ps rfbi.l4_khz n = bt at *
  have hticks : all_fields (fun y =>
      ps_to_rfbi_ticks rfbi y (map_fields (rounded_field bt) { t with clk_div := (n : Int) }).clk_div
        = some (((ticks_u32 bt y : Nat) : Int)))
      (map_fields (rounded_field bt) { t with clk_div := (n : Int) }) := by
    rw [all_fields_map_fields]
    refine all_fields_imp t (fun x hx => ?_) hb
    obtain ⟨hx1, hx2⟩ := hx
    have e1 := int_to_u32_rounded_field bt x hbt hx1
    have e2 := ticks_u32_rounded_field bt x hbt hx1
    unfold ticks_u32 at e2 ⊢
    show ps_to_rfbi_ticks rfbi (rounded_field bt x) (n : Int) = _
    subst hbt_def
    exact ps_to_rfbi_ticks_eq rfbi _ n hn hk hbt (by rw [e1]; exact hx1) (by rw [e2]; exact hx2)
  have hlink := convert_ticks_eq_with rfbi _ _ hticks
  constructor
  · unfold rfbi_convert_timings
    rw [hlink]
    rfl
  · rw [adjusted_by_map_fields]
    refine adjusted_by_congr _ _ _ (all_fields_imp t (fun x hx => ?_) hb)
    exact ticks_u32_rounded_field bt x hbt hx.1

/-- A failing `calc_reg_timing` at divider 1 or 2 when no rounding wraps: `tim[0]` is
stored when the six counts of word A fit, and is left alone when one does not. -/
theorem calc_reg_timing_failing (rfbi : rfbi_data) (t : rfbi_timings) (n : Nat)
    (hn : n = 1 ∨ n = 2) (hk : 0 < rfbi.l4_khz) (hp0 : 0 < 1000000000 / rfbi.l4_khz)
    (hb : all_fields (fun f =>
      Spec.ceil_div (int_to_u32 f) (Spec.tick_ps rfbi.l4_khz n) * Spec.tick_ps rfbi.l4_khz n
        + Spec.tick_ps rfbi.l4_khz n ≤ 4294967296
      ∧ Spec.ceil_div (int_to_u32 f) (Spec.tick_ps rfbi.l4_khz n) < 2147483648) t) :
    (Spec.fits_onoff (Spec.adjusted_by (ticks_u32 (Spec.tick_ps rfbi.l4_khz n)) t) →
      ¬ Spec.fits (Spec.adjusted_by (ticks_u32 (Spec.tick_ps rfbi.l4_khz n)) t) →
      calc_reg_timing (1000000000 / rfbi.l4_khz) rfbi t (n : Int)
        = some (-1, { map_fields (rounded_field (Spec.tick_ps rfbi.l4_khz n)) t with
                      clk_div := (n : Int),
                      tim0 := Spec.word_A
                        (Spec.adjusted_by (ticks_u32 (Spec.tick_ps rfbi.l4_khz n)) t) })) ∧
    (¬ Spec.fits_onoff (Spec.adjusted_by (ticks_u32 (Spec.tick_ps rfbi.l4_khz n)) t) →
      calc_reg_timing (1000000000 / rfbi.l4_khz) rfbi t (n : Int)
        = some (-1, { map_fields (rounded_field (Spec.tick_ps rfbi.l4_khz n)) t with
                      clk_div := (n : Int), tim0 := t.tim0 })) := by
  obtain ⟨hc, hadj⟩ := calc_reg_timing_conv rfbi t n hn hk hp0 hb
  have hdiv : (map_fields (rounded_field (Spec.tick_ps rfbi.l4_khz n))
      { t with clk_div := (n : Int) }).clk_div = 1 ∨
      (map_fields (rounded_field (Spec.tick_ps rfbi.l4_khz n))
      { t with clk_div := (n : Int) }).clk_div = 2 := by
    show (n : Int) = 1 ∨ (n : Int) = 2
    omega
  constructor
  · intro ha hf
    rw [← hadj] at ha hf
    rw [hc, convert_with_late _ _ hdiv ha hf, hadj]
    rfl
  · intro ha
    rw [← hadj] at ha
    rw [hc, convert_with_early _ _ ha]
    rfl

theorem map_fields_failed_attempt (p : Nat) (t : rfbi_timings) (d : Int) (w : Nat)
    (hp0 : 0 < p) (hp : p ≤ 500000000) (hnn : nonneg_req t) :
    map_fields (rounded_field (p * 2))
        { map_fields (rounded_field p) t with clk_div := d, tim0 := w }
      = { map_fields (rounded_field (p * 2)) t with clk_div := d, tim0 := w } := by
  have hr : all_fields (fun x =>
      rounded_field (p * 2) (rounded_field p x) = rounded_field (p * 2) x) t :=
    all_fields_imp t (fun x hx => (rounded_twice p x hp0 hp hx).2) hnn
  obtain ⟨a1, a2, a3, a4, a5, a6, a7, a8, a9, a10, a11, a12, a13, a14, a15⟩ := t
  obtain ⟨h1, h2, h3, h4, h5, h6, h7, h8, h9, h10⟩ := hr
  simp only at h1 h2 h3 h4 h5 h6 h7 h8 h9 h10
  simp only [map_fields]
  rw [h1, h2, h3, h4, h5, h6, h7, h8, h9, h10]

/-- The structure a failed attempt at divider 1 leaves gives at divider 2 what the
original requirement gives. -/
theorem second_attempt_eq (rfbi : rfbi_data) (t t1 : rfbi_timings)
    (hp0 : 0 < 1000000000 / rfbi.l4_khz) (hnn : nonneg_req t)
    (h1 : calc_reg_timing (1000000000 / rfbi.l4_khz) rfbi t 1 = some (-1, t1)) :
    1000000000 / rfbi.l4_khz ≤ 500000000 ∧
    calc_reg_timing (1000000000 / rfbi.l4_khz) rfbi t1 2
      = calc_reg_timing (1000000000 / rfbi.l4_khz) rfbi t 2 ∧
    ∃ r t2, (r = 0 ∨ r = -1) ∧
      calc_reg_timing (1000000000 / rfbi.l4_khz) rfbi t 2 = some (r, t2) := by
  have hk : 0 < rfbi.l4_khz := by
    by_contra hc
    have h0 : rfbi.l4_khz = 0 := by omega
    rw [h0] at hp0
    exact absurd hp0 (by decide)
  have hple : 1000000000 / rfbi.l4_khz ≤ 1000000000 := Nat.div_le_self _ _
  have hle1 : Spec.tick_ps rfbi.l4_khz 1 ≤ 1000000000 := by rw [tick_ps_one]; exact hple
  have n1 := calc_reg_timing_nonneg rfbi t 1 (Or.inl rfl) hk hp0 hle1 hnn
  rw [Nat.cast_one] at n1
  have hs1 : ¬ Spec.satisfiable rfbi.l4_khz 1 t := by
    intro hs
    rw [n1.1 hs] at h1
    exact absurd (congrArg Prod.fst (Option.some.inj h1))
      (show ¬ ((0 : Int) = -1) from by decide)
  have hk2 : 2 ≤ rfbi.l4_khz := by
    by_contra hlt
    exact hs1 (satisfiable_of_khz_one rfbi t (by omega) hnn)
  have hp : 1000000000 / rfbi.l4_khz ≤ 500000000 :=
    Nat.le_trans (Nat.div_le_div_left hk2 (by omega)) (by decide)
  generalize hpdef : 1000000000 / rfbi.l4_khz = p at *
  have ht1 : Spec.tick_ps rfbi.l4_khz 1 = p := by rw [tick_ps_one, hpdef]
  have ht2 : Spec.tick_ps rfbi.l4_khz 2 = p * 2 := by unfold Spec.tick_ps; rw [hpdef]
  -- the first attempt
  have hb1 := nonneg_req_bounds p t hnn hp0 (by omega)
  have f1 := calc_reg_timing_failing rfbi t 1 (Or.inl rfl) hk (by rw [hpdef]; exact hp0)
    (by rw [ht1]; exact hb1)
  rw [ht1, hpdef, Nat.cast_one] at f1
  have hnf1 : ¬ Spec.fits (Spec.adjusted_by (ticks_u32 p) t) := by
    intro hf
    apply hs1
    refine ⟨by rw [ht1]; exact hp0, ?_⟩
    rw [ht1, ← adjusted_by_ticks_u32 p t hnn]
    exact hf
  obtain ⟨w, hw, hwcase⟩ : ∃ w, t1 = { map_fields (rounded_field p) t with
        clk_div := ((1 : Nat) : Int), tim0 := w } ∧
      (¬ Spec.fits_onoff (Spec.adjusted_by (ticks_u32 p) t) → w = t.tim0) := by
    by_cases ha : Spec.fits_onoff (Spec.adjusted_by (ticks_u32 p) t)
    · rw [f1.1 ha hnf1] at h1
      exact ⟨_, (congrArg (fun r => r.2) (Option.some.inj h1)).symm, fun hc => absurd ha hc⟩
    · rw [f1.2 ha] at h1
      exact ⟨_, (congrArg (fun r => r.2) (Option.some.inj h1)).symm, fun _ => rfl⟩
  -- the second attempt on the original requirement
  have hb2 := nonneg_req_bounds (p * 2) t hnn (by omega) (by omega)
  have s2 := calc_reg_timing_spec rfbi t 2 (Or.inr rfl) hk (by rw [hpdef]; exact hp0)
    (by rw [ht2]; exact hb2)
  have f2 := calc_reg_timing_failing rfbi t 2 (Or.inr rfl) hk (by rw [hpdef]; exact hp0)
    (by rw [ht2]; exact hb2)
  rw [ht2, hpdef, Nat.cast_ofNat] at s2 f2
  -- the second attempt on the structure the first attempt left
  have hb2' : all_fields (fun f =>
      Spec.ceil_div (int_to_u32 f) (p * 2) * (p * 2) + (p * 2) ≤ 4294967296
      ∧ Spec.ceil_div (int_to_u32 f) (p * 2) < 2147483648) t1 := by
    rw [hw, all_fields_failed_attempt]
    have hboth : all_fields (fun x => (0 ≤ x ∧ x < 2147483648) ∧
        (Spec.ceil_div (int_to_u32 x) (p * 2) * (p * 2) + (p * 2) ≤ 4294967296
        ∧ Spec.ceil_div (int_to_u32 x) (p * 2) < 2147483648)) t := by
      obtain ⟨a1, a2, a3, a4, a5, a6, a7, a8, a9, a10⟩ := hnn
      obtain ⟨b1, b2, b3, b4, b5, b6, b7, b8, b9, b10⟩ := hb2
      exact ⟨⟨a1, b1⟩, ⟨a2, b2⟩, ⟨a3, b3⟩, ⟨a4, b4⟩, ⟨a5, b5⟩, ⟨a6, b6⟩, ⟨a7, b7⟩, ⟨a8, b8⟩,
        ⟨a9, b9⟩, ⟨a10, b10⟩⟩
    refine all_fields_imp t (fun x hx => ?_) hboth
    have e := (rounded_twice p x hp0 hp hx.1).1
    unfold ticks_u32 at e
    rw [e]
    exact hx.2
  have hadj : Spec.adjusted_by (ticks_u32 (p * 2)) t1
      = Spec.adjusted_by (ticks_u32 (p * 2)) t := by
    rw [hw, adjusted_by_failed_attempt]
    exact adjusted_by_congr _ _ _
      (all_fields_imp t (fun x hx => (rounded_twice p x hp0 hp hx).1) hnn)
  have s2' := calc_reg_timing_spec rfbi t1 2 (Or.inr rfl) hk (by rw [hpdef]; exact hp0)
    (by rw [ht2]; exact hb2')
  have f2' := calc_reg_timing_failing rfbi t1 2 (Or.inr rfl) hk (by rw [hpdef]; exact hp0)
    (by rw [ht2]; exact hb2')
  rw [ht2, hpdef, Nat.cast_ofNat, hadj] at s2' f2'
  have hsolved : solved (p * 2) 2 t1 = solved (p * 2) 2 t := by
    rw [hw]; exact solved_failed_attempt p t _ w hp0 hp hnn
  have hmap : map_fields (rounded_field (p * 2)) t1
      = { map_fields (rounded_field (p * 2)) t with clk_div := ((1 : Nat) : Int), tim0 := w } := by
    rw [hw]; exact map_fields_failed_attempt p t _ w hp0 hp hnn
  refine ⟨hp, ?_, ?_⟩
  · by_cases hf : Spec.fits (Spec.adjusted_by (ticks_u32 (p * 2)) t)
    · rw [s2'.1 hf, s2.1 hf, hsolved]
    · by_cases ha : Spec.fits_onoff (Spec.adjusted_by (ticks_u32 (p * 2)) t)
      · rw [f2'.1 ha hf, f2.1 ha hf, hmap]
      · have hw0 : w = t.tim0 := hwcase (fun hc => ha (fits_onoff_double p t hp0 hc))
        have htim : t1.tim0 = w := by rw [hw]
        rw [f2'.2 ha, f2.2 ha, hmap, htim, hw0]
  · by_cases hf : Spec.fits (Spec.adjusted_by (ticks_u32 (p * 2)) t)
    · exact ⟨0, _, Or.inl rfl, s2.1 hf⟩
    · obtain ⟨w2, hw2⟩ := s2.2 hf
      exact ⟨-1, _, Or.inr rfl, hw2⟩

/-- Rounding at divider 1 and then at divider 2 is rounding at divider 2, for the
function and for the field rounded in place. -/
theorem round_twice (p : Nat) (x : Int) (hp0 : 0 < p) (hp : p ≤ 500000000)
    (hx : 0 ≤ x ∧ x < 2147483648) :
    ((round_to_extif_ticks p (int_to_u32 x) 1).bind fun r => round_to_extif_ticks p r 2)
      = round_to_extif_ticks p (int_to_u32 x) 2 ∧
    ((round_field p x 1).bind fun y => round_field p y 2) = round_field p x 2 := by
  have h3 := int_to_u32_of_nonneg x hx.1 (by omega)
  have hlt := ceil_div_mul_lt (int_to_u32 x) p hp0
  have a1 := round_to_extif_ticks_eq p (int_to_u32 x) 1 (Or.inl rfl) hp0 (by omega) (by omega)
  have a2 := round_to_extif_ticks_eq p (int_to_u32 x) 2 (Or.inr rfl) hp0 (by omega) (by omega)
  have a3 := round_to_extif_ticks_eq p (Spec.ceil_div (int_to_u32 x) p * p) 2 (Or.inr rfl) hp0
    (by omega) (by omega)
  have b1 := round_field_eq p x 1 (Or.inl rfl) hp0 (by omega) (by omega)
  have b2 := round_field_eq p x 2 (Or.inr rfl) hp0 (by omega) (by omega)
  have e1 := int_to_u32_rounded_field p x hp0 (by omega)
  have b3 := round_field_eq p (rounded_field p x) 2 (Or.inr rfl) hp0 (by omega)
    (by rw [e1]; omega)
  rw [Nat.cast_one, Nat.mul_one] at a1 b1
  rw [Nat.cast_ofNat] at a2 a3 b2 b3
  constructor
  · rw [a1, Option.some_bind, a3, a2, ceil_div_ceil_div_mul _ p 2 hp0 (by omega)]
  · rw [b1, Option.some_bind, b3, b2, (rounded_twice p x hp0 hp hx).2]

/-- C27: for a requirement of non-negative fields and a clock period
`p = 1000000000 / l4_khz > 0` on which `calc_reg_timing` at divider 1 fails, the in-place
rounding of that attempt does not change the attempt at divider 2: for each of the ten
fields rounding at divider 1 and then at divider 2 gives what rounding at divider 2
gives, and `calc_reg_timing` at divider 2 applied to the structure the first attempt
left returns what it returns applied to the original requirement, the same value (0 or
-1) and the same structure, `tim[0]`, `tim[1]` and `tim[2]` included. -/
theorem second_attempt_unchanged (rfbi : rfbi_data) (t t1 : rfbi_timings)
    (hp0 : 0 < 1000000000 / rfbi.l4_khz) (hnn : nonneg_req t)
    (h1 : calc_reg_timing (1000000000 / rfbi.l4_khz) rfbi t 1 = some (-1, t1)) :
    all_fields (fun x =>
      ((round_to_extif_ticks (1000000000 / rfbi.l4_khz) (int_to_u32 x) 1).bind
          fun r => round_to_extif_ticks (1000000000 / rfbi.l4_khz) r 2)
        = round_to_extif_ticks (1000000000 / rfbi.l4_khz) (int_to_u32 x) 2 ∧
      ((round_field (1000000000 / rfbi.l4_khz) x 1).bind
          fun y => round_field (1000000000 / rfbi.l4_khz) y 2)
        = round_field (1000000000 / rfbi.l4_khz) x 2) t ∧
    ∃ r t2, (r = 0 ∨ r = -1) ∧
      calc_reg_timing (1000000000 / rfbi.l4_khz) rfbi t 2 = some (r, t2) ∧
      calc_reg_timing (1000000000 / rfbi.l4_khz) rfbi t1 2 = some (r, t2) := by
  obtain ⟨hp, heq, r, t2, hr, h2⟩ := second_attempt_eq rfbi t t1 hp0 hnn h1
  refine ⟨all_fields_imp t (fun x hx => round_twice _ x hp0 hp hx) hnn, r, t2, hr, h2, ?_⟩
  rw [heq, h2]

/-- Witness of C27: a requirement that at a period of 700 ps fails at divider 1 after
`tim[0]` has been stored and fits at divider 2. -/
theorem second_attempt_unchanged_witness :
    nonneg_req n8x0_long_cycle ∧
    calc_reg_timing (1000000000 / (rfbi_probed 1428571).l4_khz) (rfbi_probed 1428571)
      n8x0_long_cycle 1 = some (-1, n8x0_long_cycle_div1) ∧
    calc_reg_timing (1000000000 / (rfbi_probed 1428571).l4_khz) (rfbi_probed 1428571)
      n8x0_long_cycle_div1 2 = some (0, n8x0_long_cycle_div2) ∧
    ∃ r t2, (r = 0 ∨ r = -1) ∧
      calc_reg_timing (1000000000 / (rfbi_probed 1428571).l4_khz) (rfbi_probed 1428571)
        n8x0_long_cycle 2 = some (r, t2) ∧
      calc_reg_timing (1000000000 / (rfbi_probed 1428571).l4_khz) (rfbi_probed 1428571)
        n8x0_long_cycle_div1 2 = some (r, t2) :=
  ⟨by unfold nonneg_req all_fields; decide, by decide, by decide,
    (second_attempt_unchanged (rfbi_probed 1428571) n8x0_long_cycle n8x0_long_cycle_div1
      (by decide) (by unfold nonneg_req all_fields; decide) (by decide)).2⟩

/-! ## Enabling the bus: claim C28 -/

/-- C28 fails on the code: on each of the three failing returns of `rfbi_display_enable`
(power acquisition, handler registration, `dss_mgr_enable`) the mutex taken at entry is
still held, although it was free before the call; only the return of 0 releases it. -/
theorem rfbi_display_enable_lock_leak :
    bus_ready.lock = false ∧
    (rfbi_display_enable 0 ⟨-5, 0, 0⟩ bus_ready).map (fun r => (r.1, r.2.1.lock))
      = some (outcome.ret (-5), true) ∧
    (rfbi_display_enable 0 ⟨0, -16, 0⟩ bus_ready).map (fun r => (r.1, r.2.1.lock))
      = some (outcome.ret (-16), true) ∧
    (rfbi_display_enable 0 ⟨0, 0, -22⟩ bus_ready).map (fun r => (r.1, r.2.1.lock))
      = some (outcome.ret (-22), true) ∧
    (rfbi_display_enable 0 ⟨0, 0, 0⟩ bus_ready).map (fun r => (r.1, r.2.1.lock))
      = some (outcome.ret 0, false) := by
  decide

/-! ## The bus lock: claim C21 -/

theorem bus_lock_inv_init : bus_lock_inv (sema_init 1) :=
  ⟨rfl, List.nodup_nil, fun c hc => absurd hc (List.not_mem_nil c)⟩

theorem bus_step_inv (s s' : bus_lock_state) (e : bus_user_step) (hi : bus_lock_inv s)
    (h : bus_step s e = some s') : bus_lock_inv s' := by
  obtain ⟨h1, h2, h3⟩ := hi
  cases e with
  | bus_lock c =>
    simp only [bus_step, rfbi_bus_lock, down] at h
    by_cases hc : 0 < s.count
    · rw [if_pos hc, Option.map_some'] at h
      have h' := Option.some.inj h
      subst h'
      refine ⟨?_, h2, fun b hb => List.mem_cons_of_mem _ (h3 b hb)⟩
      simp only [List.length_cons]
      omega
    · rw [if_neg hc] at h
      exact Option.noConfusion h
  | bus_unlock c =>
    simp only [bus_step] at h
    by_cases hc : c ∈ s.holders ∧ c ∉ s.busy
    · rw [if_pos hc] at h
      have h' := Option.some.inj h
      subst h'
      refine ⟨?_, h2, fun b hb => ?_⟩
      · simp only [rfbi_bus_unlock, up]
        rw [List.length_erase_of_mem hc.1]
        have : 0 < s.holders.length := List.length_pos_of_mem hc.1
        omega
      · have hne : b ≠ c := fun e => hc.2 (e ▸ hb)
        exact (List.mem_erase_of_ne hne).2 (h3 b hb)
    · rw [if_neg hc] at h
      exact Option.noConfusion h
  | op_begin c =>
    simp only [bus_step] at h
    by_cases hc : c ∈ s.holders ∧ c ∉ s.busy
    · rw [if_pos hc] at h
      have h' := Option.some.inj h
      subst h'
      refine ⟨h1, List.nodup_cons.2 ⟨hc.2, h2⟩, fun b hb => ?_⟩
      rcases List.mem_cons.1 hb with e | e
      · rw [e]; exact hc.1
      · exact h3 b e
    · rw [if_neg hc] at h
      exact Option.noConfusion h
  | op_end c =>
    simp only [bus_step] at h
    by_cases hc : c ∈ s.busy
    · rw [if_pos hc] at h
      have h' := Option.some.inj h
      subst h'
      exact ⟨h1, h2.erase c, fun b hb => h3 b (List.mem_of_mem_erase hb)⟩
    · rw [if_neg hc] at h
      exact Option.noConfusion h

theorem bus_run_inv (steps : List bus_user_step) :
    ∀ s s', bus_lock_inv s → bus_run s steps = some s' → bus_lock_inv s' := by
  induction steps with
  | nil =>
    intro s s' hi h
    have h' := Option.some.inj h
    subst h'
    exact hi
  | cons e es ih =>
    intro s s' hi h
    rw [bus_run] at h
    cases hs : bus_step s e with
    | none => rw [hs] at h; exact Option.noConfusion h
    | some s1 =>
      rw [hs, Option.some_bind] at h
      exact ih s1 s' (bus_step_inv s s1 e hi hs) h

/-- What the invariant gives: at most one holder, at most one caller inside an
operation, and a further `rfbi_bus_lock` does not return while there is a holder. -/
theorem bus_lock_inv_exclusive (s : bus_lock_state) (hi : bus_lock_inv s) :
    s.holders.length ≤ 1 ∧ s.busy.length ≤ 1 ∧
    (∀ c1 c2, c1 ∈ s.holders → c2 ∈ s.holders → c1 = c2) ∧
    (∀ c1 c2, c1 ∈ s.busy → c2 ∈ s.busy → c1 = c2) ∧
    (s.holders ≠ [] → ∀ c, rfbi_bus_lock s c = none) := by
  obtain ⟨h1, h2, h3⟩ := hi
  have hlen : s.holders.length ≤ 1 := by omega
  have hone : ∀ c1 c2, c1 ∈ s.holders → c2 ∈ s.holders → c1 = c2 := by
    intro c1 c2 m1 m2
    match hh : s.holders with
    | [] => rw [hh] at m1; exact absurd m1 (List.not_mem_nil c1)
    | [a] =>
      rw [hh] at m1 m2
      rw [List.mem_singleton.1 m1, List.mem_singleton.1 m2]
    | a :: b :: l =>
      rw [hh] at hlen
      simp only [List.length_cons] at hlen
      omega
  have hbusy : ∀ c1 c2, c1 ∈ s.busy → c2 ∈ s.busy → c1 = c2 :=
    fun c1 c2 m1 m2 => hone c1 c2 (h3 c1 m1) (h3 c2 m2)
  refine ⟨hlen, ?_, hone, hbusy, ?_⟩
  · match hb : s.busy with
    | [] => simp
    | [a] => simp
    | a :: b :: l =>
      rw [hb] at h2 hbusy
      have e : a = b := hbusy a b (List.mem_cons_self _ _)
        (List.mem_cons_of_mem _ (List.mem_cons_self _ _))
      rw [e] at h2
      exact absurd (List.mem_cons_self b l) (List.nodup_cons.1 h2).1
  · intro hne c
    have hpos : 0 < s.holders.length := List.length_pos.2 hne
    simp only [rfbi_bus_lock, down]
    rw [if_neg (by omega)]
    rfl

/-- C21: in every state the bus users can reach from `sema_init(&rfbi->bus_lock, 1)` by
calls of `rfbi_bus_lock` (`down`) that return, calls of `rfbi_bus_unlock` (`up`) by a
holder, and bus operations started by a holder and ended before its unlock, interleaved
in any order, at most one caller holds the bus lock and at most one caller is inside a
bus operation; while there is a holder, `rfbi_bus_lock` does not return for anyone. -/
theorem bus_lock_exclusive (steps : List bus_user_step) (s : bus_lock_state)
    (h : bus_run (sema_init 1) steps = some s) :
    s.holders.length ≤ 1 ∧ s.busy.length ≤ 1 ∧
    (∀ c1 c2, c1 ∈ s.holders → c2 ∈ s.holders → c1 = c2) ∧
    (∀ c1 c2, c1 ∈ s.busy → c2 ∈ s.busy → c1 = c2) ∧
    (∀ c, c ∈ s.busy → c ∈ s.holders) ∧
    (s.holders ≠ [] → ∀ c, rfbi_bus_lock s c = none) := by
  have hi := bus_run_inv steps _ s bus_lock_inv_init h
  obtain ⟨a, b, c, d, e⟩ := bus_lock_inv_exclusive s hi
  exact ⟨a, b, c, d, hi.2.2, e⟩

/-- Witness of C21: caller 1 locks, runs an operation and unlocks, then caller 2 locks
and starts an operation; a lock by caller 2 while caller 1 holds does not return. -/
theorem bus_lock_exclusive_witness :
    bus_run (sema_init 1)
        [bus_user_step.bus_lock 1, bus_user_step.op_begin 1, bus_user_step.op_end 1,
          bus_user_step.bus_unlock 1, bus_user_step.bus_lock 2, bus_user_step.op_begin 2]
      = some ⟨0, [2], [2]⟩ ∧
    bus_run (sema_init 1) [bus_user_step.bus_lock 1, bus_user_step.bus_lock 2] = none ∧
    bus_run (sema_init 1) [bus_user_step.bus_lock 1, bus_user_step.op_begin 2] = none ∧
    (bus_lock_state.mk 0 [2] [2]).holders.length ≤ 1 ∧
    (bus_lock_state.mk 0 [2] [2]).busy.length ≤ 1 :=
  ⟨by decide, by decide, by decide,
    (bus_lock_exclusive
      [bus_user_step.bus_lock 1, bus_user_step.op_begin 1, bus_user_step.op_end 1,
        bus_user_step.bus_unlock 1, bus_user_step.bus_lock 2, bus_user_step.op_begin 2]
      ⟨0, [2], [2]⟩ (by decide)).1,
    (bus_lock_exclusive
      [bus_user_step.bus_lock 1, bus_user_step.op_begin 1, bus_user_step.op_end 1,
        bus_user_step.bus_unlock 1, bus_user_step.bus_lock 2, bus_user_step.op_begin 2]
      ⟨0, [2], [2]⟩ (by decide)).2.1⟩

/-! ## The older driver: claim C22 -/

theorem fbdev_round_to_extif_ticks : Fbdev.round_to_extif_ticks = round_to_extif_ticks := rfl

theorem fbdev_ps_to_rfbi_ticks : Fbdev.ps_to_rfbi_ticks = ps_to_rfbi_ticks := by
  funext s time div
  unfold Fbdev.ps_to_rfbi_ticks ps_to_rfbi_ticks
  by_cases h1 : s.l4_khz = 0
  · rw [if_pos h1]
  · rw [if_neg h1]

theorem fbdev_rfbi_get_clk_info : Fbdev.rfbi_get_clk_info = rfbi_get_clk_info := rfl

theorem fbdev_register_access :
    Fbdev.rfbi_write_reg = rfbi_write_reg ∧ Fbdev.rfbi_read_reg = rfbi_read_reg ∧
    Fbdev.REG_FLD_MOD = REG_FLD_MOD := ⟨rfl, rfl, rfl⟩


theorem fbdev_convert_with (s : rfbi_data) (t : rfbi_timings) (tk : Int → Int)
    (htk : ∀ x, ps_to_rfbi_ticks s x t.clk_div = some (tk x)) :
    Fbdev.rfbi_convert_timings s t = some ((convert_with tk t).1, (convert_with tk t).2.1) := by
  have e1 : ∀ a b : Int, (if a ≤ b then wrap_int (b + 1) else a) = raise_above a b :=
    fun _ _ => rfl
  have e2 : ∀ a b : Int, (if a < b then b else a) = raise_to a b := fun _ _ => rfl
  have e3 : ∀ a b : Int, max_int a b = raise_to b a := fun _ _ => rfl
  unfold Fbdev.rfbi_convert_timings
  simp only [fbdev_ps_to_rfbi_ticks, htk, e1, e2]
  unfold convert_with
  simp only [e3]
  by_cases c0 : t.clk_div ≤ 0 ∨ t.clk_div > 2
  · rw [if_pos c0, if_pos c0]
  rw [if_neg c0, if_neg c0]
  by_cases c1 : tk t.we_on_time > 15
  · rw [if_pos c1, if_pos c1]
  rw [if_neg c1, if_neg c1]
  by_cases c2 : raise_above (tk t.we_off_time) (tk t.we_on_time) > 63
  · rw [if_pos c2, if_pos c2]
  rw [if_neg c2, if_neg c2]
  by_cases c3 : tk t.re_on_time > 15
  · rw [if_pos c3, if_pos c3]
  rw [if_neg c3, if_neg c3]
  by_cases c4 : raise_above (tk t.re_off_time) (tk t.re_on_time) > 63
  · rw [if_pos c4, if_pos c4]
  rw [if_neg c4, if_neg c4]
  by_cases c5 : tk t.cs_on_time > 15
  · rw [if_pos c5, if_pos c5]
  rw [if_neg c5, if_neg c5]
  split_ifs <;> rfl

theorem fbdev_rfbi_convert_timings : Fbdev.rfbi_convert_timings = rfbi_convert_timings := by
  funext s t
  rcases ps_to_rfbi_ticks_cases s t.clk_div with hn | ⟨tk, htk⟩
  · by_cases hd : t.clk_div ≤ 0 ∨ t.clk_div > 2
    · unfold rfbi_convert_timings rfbi_convert_ticks Fbdev.rfbi_convert_timings
      simp only []
      rw [if_pos hd, if_pos hd]
      rfl
    · unfold rfbi_convert_timings
      rw [convert_ticks_div_zero s t hd hn]
      unfold Fbdev.rfbi_convert_timings
      simp only [fbdev_ps_to_rfbi_ticks, hn]
      rw [if_neg hd]
      rfl
  · unfold rfbi_convert_timings
    rw [convert_ticks_eq_with s t tk ⟨htk _, htk _, htk _, htk _, htk _, htk _, htk _, htk _,
      htk _, htk _⟩, fbdev_convert_with s t tk htk]
    rfl

theorem fbdev_round_in_place : Fbdev.round_in_place = round_field := by
  funext p f div
  unfold Fbdev.round_in_place round_field
  rw [fbdev_round_to_extif_ticks]
  generalize round_to_extif_ticks p (int_to_u32 f) div = r
  cases r <;> rfl

theorem fbdev_calc_reg_timing : Fbdev.calc_reg_timing = calc_reg_timing := by
  funext p s t div
  unfold Fbdev.calc_reg_timing calc_reg_timing
  rw [fbdev_round_in_place, fbdev_rfbi_convert_timings]

theorem fbdev_calc_extif_loop : Fbdev.calc_extif_loop = calc_extif_loop := by
  funext p s m fuel
  induction fuel with
  | zero => rfl
  | succ n ih =>
    funext div t
    unfold Fbdev.calc_extif_loop calc_extif_loop
    rw [fbdev_calc_reg_timing, ih]

theorem fbdev_calc_extif_timings : Fbdev.calc_extif_timings = calc_extif_timings := by
  funext p s t
  unfold Fbdev.calc_extif_timings calc_extif_timings
  rw [fbdev_rfbi_get_clk_info, fbdev_calc_extif_loop]
  cases hci : rfbi_get_clk_info s with
  | none => rfl
  | some ci =>
    obtain ⟨a, b⟩ := ci
    simp only [Option.bind]
    generalize calc_extif_loop a s b (b + 1) 1 t = r
    cases r with
    | none => rfl
    | some v =>
      simp only []
      by_cases h : int_to_u32 v.1 ≤ b
      · rw [if_pos h, if_pos h]
      · rw [if_neg h, if_neg h]

theorem fbdev_datatype (bpp : Int) (hb : bpp = 12 ∨ bpp = 16 ∨ bpp = 18 ∨ bpp = 24) :
    datatype_of_bpp bpp = some (if bpp = 12 then omap_rfbi_datatype.DATATYPE_12
      else if bpp = 16 then omap_rfbi_datatype.DATATYPE_16
      else if bpp = 18 then omap_rfbi_datatype.DATATYPE_18
      else omap_rfbi_datatype.DATATYPE_24) := by
  rcases hb with h | h | h | h <;> subst h <;> rfl

theorem fbdev_parallelmode (lines : Int) (hl : lines = 8 ∨ lines = 9 ∨ lines = 12 ∨ lines = 16) :
    parallelmode_of_lines lines = some (if lines = 8 then omap_rfbi_parallelmode.PARALLELMODE_8
      else if lines = 9 then omap_rfbi_parallelmode.PARALLELMODE_9
      else if lines = 12 then omap_rfbi_parallelmode.PARALLELMODE_12
      else omap_rfbi_parallelmode.PARALLELMODE_16) := by
  rcases hl with h | h | h | h <;> subst h <;> rfl

theorem fbdev_rfbi_configure_bus : Fbdev.rfbi_configure_bus = rfbi_configure_bus := by
  funext s m bpp lines
  by_cases hb : bpp = 12 ∨ bpp = 16 ∨ bpp = 18 ∨ bpp = 24
  swap
  · have h1 : datatype_of_bpp bpp = none := by
      unfold datatype_of_bpp
      simp only [not_or] at hb
      rw [if_neg hb.1, if_neg hb.2.1, if_neg hb.2.2.1, if_neg hb.2.2.2]
    unfold Fbdev.rfbi_configure_bus rfbi_configure_bus
    rw [if_pos hb, h1]
  by_cases hl : lines = 8 ∨ lines = 9 ∨ lines = 12 ∨ lines = 16
  swap
  · have h2 : parallelmode_of_lines lines = none := by
      unfold parallelmode_of_lines
      simp only [not_or] at hl
      rw [if_neg hl.1, if_neg hl.2.1, if_neg hl.2.2.1, if_neg hl.2.2.2]
    unfold Fbdev.rfbi_configure_bus rfbi_configure_bus
    rw [if_neg (not_not.mpr hb), fbdev_datatype bpp hb]
    simp only []
    rw [if_pos hl, h2]
  unfold Fbdev.rfbi_configure_bus rfbi_configure_bus
  rw [if_neg (not_not.mpr hb), fbdev_datatype bpp hb]
  simp only []
  rw [if_neg (not_not.mpr hl), fbdev_parallelmode lines hl]
  simp only []
  unfold cycleformat_of
  generalize (if Int.tmod bpp lines = 0 then
      if Int.tdiv bpp lines = 1 then Except.ok omap_rfbi_cycleformat.CYCLEFORMAT_1_1
      else if Int.tdiv bpp lines = 2 then Except.ok omap_rfbi_cycleformat.CYCLEFORMAT_2_1
      else if Int.tdiv bpp lines = 3 then Except.ok omap_rfbi_cycleformat.CYCLEFORMAT_3_1
      else Except.error bug_site.ratio_invalid
    else if Int.tmod (wrap_int (2 * bpp)) lines = 0 then
      if Int.tdiv (wrap_int (2 * bpp)) lines = 3 then
        Except.ok omap_rfbi_cycleformat.CYCLEFORMAT_3_2
      else Except.error bug_site.ratio_not_3_2
    else Except.error bug_site.ratio_none : Except bug_site omap_rfbi_cycleformat) = chosen
  cases chosen with
  | error site => rfl
  | ok cycleformat => cases cycleformat <;> rfl

/-- C22: the older (fbdev) and the newer (DRM) driver are equal as functions on the
timing solver and the bus formatter.  `round_to_extif_ticks`, `ps_to_rfbi_ticks`,
`rfbi_convert_timings` and `calc_extif_timings` give the same result and leave the same
timing structure for every requirement, clock rate and divider, and
`rfbi_configure_bus` ends the same way and leaves the same state, the log of register
reads and writes included, for every channel, `bpp` and `lines`. -/
theorem fbdev_equals_drm :
    Fbdev.round_to_extif_ticks = round_to_extif_ticks ∧
    Fbdev.ps_to_rfbi_ticks = ps_to_rfbi_ticks ∧
    Fbdev.rfbi_convert_timings = rfbi_convert_timings ∧
    Fbdev.calc_extif_timings = calc_extif_timings ∧
    Fbdev.rfbi_configure_bus = rfbi_configure_bus :=
  ⟨fbdev_round_to_extif_ticks, fbdev_ps_to_rfbi_ticks, fbdev_rfbi_convert_timings,
    fbdev_calc_extif_timings, fbdev_rfbi_configure_bus⟩

/-! ## The controller of the panel: claim C26 -/

theorem msleep_count_append (a b : List panel_event) :
    msleep_count (a ++ b) = msleep_count a + msleep_count b := by
  unfold msleep_count
  exact List.countP_append _ a b

theorem warnings_append (a b : List panel_event) :
    warnings (a ++ b) = warnings a ++ warnings b := by
  induction a with
  | nil => rfl
  | cons e es ih =>
    cases e <;> simp [warnings, ih]

/-- The wait loop on a controller that never shows the lock bit: it ends after `l`
sleeps of 1 ms and `l + 1` reads, with `l` wrapped to `0xFFFFFFFF`, and warns of
nothing. -/
theorem framebuffer_init_wait_never (device : Nat → Nat → Nat)
    (hdev : ∀ k, device k (BLIZZARD_PLL_DIV % 256) % 256 &&& (1 <<< 7) = 0) :
    ∀ (fuel l : Nat) (ddata : panel_drv_data), l < fuel → l < 4294967296 →
      ∃ s, framebuffer_init_wait device fuel l ddata = some (4294967295, s) ∧
        msleep_count s.log = msleep_count ddata.log + l ∧
        warnings s.log = warnings ddata.log ∧ s.reads = ddata.reads + l + 1 := by
  intro fuel
  induction fuel with
  | zero => intro l ddata h; omega
  | succ f ih =>
    intro l ddata hl h32
    rw [framebuffer_init_wait]
    simp only [blizzard_read_reg, hdev, ne_eq, not_true_eq_false, if_false]
    by_cases h0 : l > 0
    · rw [if_pos h0]
      have hu : u32 (l + 4294967295) = l - 1 := by unfold u32; omega
      rw [hu]
      obtain ⟨s, hs, h1, h2, h3⟩ := ih (l - 1)
        (msleep ⟨ddata.log ++ [panel_event.write_command (BLIZZARD_PLL_DIV % 256),
            panel_event.read_data (device ddata.reads (BLIZZARD_PLL_DIV % 256) % 256)],
          ddata.reads + 1⟩ 1) (by omega) (by omega)
      refine ⟨s, hs, ?_, ?_, ?_⟩
      · rw [h1]
        simp only [msleep, msleep_count_append]
        simp only [msleep_count, List.countP_cons, List.countP_nil]
        simp
        omega
      · rw [h2]
        simp [msleep, warnings_append, warnings]
      · rw [h3]
        simp only [msleep]
        omega
    · rw [if_neg h0]
      have hl0 : l = 0 := by omega
      subst hl0
      refine ⟨_, rfl, ?_, ?_, rfl⟩
      · simp [msleep_count_append, msleep_count]
      · simp [warnings_append, warnings]


/-- `framebuffer_init` on a controller that never shows the lock bit: it returns, after
exactly 1000 more sleeps of 1 ms and 1003 reads, without a call of `dev_warn`, and its
last two events are the command `BLIZZARD_DISPLAY_MODE` and the data byte `0x01`. -/
theorem framebuffer_init_exhausted (device : Nat → Nat → Nat)
    (hdev : ∀ k, device k (BLIZZARD_PLL_DIV % 256) % 256 &&& (1 <<< 7) = 0)
    (ddata : panel_drv_data) :
    ∃ s pre, framebuffer_init device ddata = some s ∧
      msleep_count s.log = msleep_count ddata.log + 1000 ∧
      warnings s.log = warnings ddata.log ∧ s.reads = ddata.reads + 1003 ∧
      s.log = pre ++ [panel_event.write_command BLIZZARD_DISPLAY_MODE,
        panel_event.write_data 0x01] := by
  unfold framebuffer_init
  simp only []
  obtain ⟨s, hs, h1, h2, h3⟩ := framebuffer_init_wait_never device hdev (1000 + 1) 1000
    (blizzard_write_reg (blizzard_read_reg device
      (blizzard_write_reg (blizzard_read_reg device ddata BLIZZARD_POWER_SAVE).2
        BLIZZARD_POWER_SAVE
        ((blizzard_read_reg device ddata BLIZZARD_POWER_SAVE).1 &&& (4294967295 ^^^ 0x03)))
      BLIZZARD_PLL_MODE).2 BLIZZARD_PLL_MODE
      (((blizzard_read_reg device
        (blizzard_write_reg (blizzard_read_reg device ddata BLIZZARD_POWER_SAVE).2
          BLIZZARD_POWER_SAVE
          ((blizzard_read_reg device ddata BLIZZARD_POWER_SAVE).1 &&& (4294967295 ^^^ 0x03)))
        BLIZZARD_PLL_MODE).1 &&& (4294967295 ^^^ 0x03)) ||| 0x1))
    (by omega) (by omega)
  rw [hs, Option.map_some']
  simp only [if_neg (show ¬ (4294967295 < 900) from by decide)]
  refine ⟨_, s.log, rfl, ?_, ?_, ?_, rfl⟩
  · simp only [blizzard_write_reg, msleep_count_append, h1, blizzard_read_reg]
    simp [msleep_count]
  · simp only [blizzard_write_reg, warnings_append, h2, blizzard_read_reg]
    simp [warnings]
  · simp only [blizzard_write_reg, h3, blizzard_read_reg]

set_option maxRecDepth 100000 in
/-- `framebuffer_init` on a controller whose lock bit is set after 120 sleeps: it warns
with `l = 880`. -/
theorem framebuffer_init_late :
    (framebuffer_init pll_locks_late panel_fresh).map
        (fun s => (msleep_count s.log, warnings s.log))
      = some (120, [880]) := by
  decide

/-- C26 fails on the code: when the lock bit never reads as set, `framebuffer_init`
ends its wait after exactly 1000 sleeps of 1 ms and goes on to write `0x01` to
`BLIZZARD_DISPLAY_MODE`, but it does not call `dev_warn`: the last `l-- > 0` leaves
`0xFFFFFFFF` in the `u32` variable `l`, which is not below 900.  The warning is given
when the bit is set after more than 100 sleeps, here after 120 with `l = 880`. -/
theorem framebuffer_init_no_warning :
    (framebuffer_init_wait pll_never_locks 1001 1000 panel_fresh).map Prod.fst
      = some 4294967295 ∧
    (∃ s pre, framebuffer_init pll_never_locks panel_fresh = some s ∧
      msleep_count s.log = 1000 ∧ warnings s.log = [] ∧
      s.log = pre ++ [panel_event.write_command BLIZZARD_DISPLAY_MODE,
        panel_event.write_data 0x01]) ∧
    (framebuffer_init pll_locks_late panel_fresh).map
        (fun s => (msleep_count s.log, warnings s.log))
      = some (120, [880]) := by
  refine ⟨?_, ?_, framebuffer_init_late⟩
  · obtain ⟨s, hs, _⟩ := framebuffer_init_wait_never pll_never_locks
      (fun _ => show (0 : Nat) % 256 &&& (1 <<< 7) = 0 from by decide) 1001 1000
      panel_fresh (by omega) (by omega)
    rw [hs]; rfl
  · obtain ⟨s, pre, hs, h1, h2, _, h4⟩ :=
      framebuffer_init_exhausted pll_never_locks
      (fun _ => show (0 : Nat) % 256 &&& (1 <<< 7) = 0 from by decide) panel_fresh
    exact ⟨s, pre, hs, h1, h2, h4⟩

end Rfbi
